import Mathlib

/-!
# Raft visualisation: the consensus state machine and its simulated transport

A shallow embedding of `raftNode.js`, `raftNetwork.js`, `message.js` and
`logEntry.js`.

Conventions of the embedding.

* A JavaScript object reference to a node (`this`, `sender`) is the node's id;
  every method of `RaftNode` takes the whole network state and the id of the
  node it runs on, reads the node with `getNode` and writes it with
  `modifyNode`.  A method run on an id that is not registered leaves the
  network unchanged.
* `millis()` is read once per top-level call and passed as `E.now`;
  `random()` is the oracle `E.rand`, indexed by the number of draws made so
  far (`draws`, a ghost counter kept in the network state).
* JavaScript numbers that hold real quantities (times, probabilities, message
  progress) are rationals; counters, terms and indices are integers.
* Rendering state (positions, colours, trails, connection strengths) is left
  out: no protocol decision reads it.
* `sendCalls` is a ghost trace of every call of `sendMessage`, successful or
  not; it exists only so that "what was sent" can be stated.
-/

namespace Raft

/-- The four roles of `RaftNode.STATES`. -/
inductive NodeState where
  | follower
  | candidate
  | leader
  | dead
  deriving DecidableEq, Repr

/-- The plain object carried in the `entries` array of an `AppendEntries`. -/
structure EntryData where
  term : Nat
  index : Nat
  command : String
  deriving DecidableEq, Repr

/-- Class `LogEntry` of `logEntry.js` (protocol fields). -/
structure LogEntry where
  term : Nat
  index : Nat
  command : String
  timestamp : ℚ
  committed : Bool
  applied : Bool
  deriving DecidableEq, Repr

/-- The constructor `new LogEntry(term, index, command)`. -/
def LogEntry.new (now : ℚ) (term index : Nat) (command : String) : LogEntry :=
  { term := term, index := index, command := command, timestamp := now,
    committed := false, applied := false }

/-- The four message contents exchanged by the nodes. -/
inductive Content where
  | requestVote (term : Nat) (candidateId : Nat) (lastLogIndex : Int) (lastLogTerm : Nat)
  | requestVoteResponse (term : Nat) (voteGranted : Bool)
  | appendEntries (term : Nat) (leaderId : Nat) (prevLogIndex : Int) (prevLogTerm : Int)
      (entries : List EntryData) (leaderCommit : Nat)
  | appendEntriesResponse (term : Nat) (success : Bool)
  deriving DecidableEq, Repr

/-- The field `term` that `handleMessage` destructures from a content. -/
def Content.term : Content → Nat
  | .requestVote t _ _ _ => t
  | .requestVoteResponse t _ => t
  | .appendEntries t _ _ _ _ _ => t
  | .appendEntriesResponse t _ => t

/-- Class `Message` of `message.js` (protocol and transit fields). -/
structure Message where
  id : ℚ
  senderId : Nat
  receiverId : Nat
  content : Content
  timestamp : ℚ
  delivered : Bool
  dropped : Bool
  progress : ℚ
  speed : ℚ
  deriving DecidableEq, Repr

/-- Class `RaftNode` of `raftNode.js` (protocol, timing and statistics fields). -/
structure RaftNode where
  id : Nat
  state : NodeState
  currentTerm : Nat
  votedFor : Option Nat
  log : List LogEntry
  commitIndex : Nat
  lastApplied : Nat
  nextIndex : List (Nat × Nat)
  matchIndex : List (Nat × Int)
  electionTimeout : ℚ
  lastHeartbeat : ℚ
  heartbeatInterval : ℚ
  messageQueue : List Content
  isPartitioned : Bool
  isAlive : Bool
  stateChangeTime : ℚ
  votesReceived : Nat
  messagesReceived : Nat
  messagesSent : Nat
  deriving DecidableEq, Repr

/-- Class `RaftNetwork` of `raftNetwork.js`, with the ghost fields `draws` and
`sendCalls`. -/
structure RaftNetwork where
  nodes : List RaftNode
  messages : List Message
  partitions : List String
  latency : ℚ
  dropRate : ℚ
  speedMultiplier : ℚ
  totalMessages : Nat
  droppedMessages : Nat
  elections : Nat
  terms : Nat
  draws : Nat
  sendCalls : List (Nat × Nat × Content)
  deriving DecidableEq, Repr

/-- The two globals of the p5 runtime that the protocol reads: the clock and
the random generator. -/
structure Env where
  now : ℚ
  rand : Nat → ℚ

/-- Assignment `obj[k] = v` on a JavaScript object used as a map. -/
def setKey {α : Type} : List (Nat × α) → Nat → α → List (Nat × α)
  | [], k, v => [(k, v)]
  | (k0, v0) :: rest, k, v => if k0 = k then (k, v) :: rest else (k0, v0) :: setKey rest k v

/-- Lookup `this.nodes.get(id)`. -/
def RaftNetwork.getNode (net : RaftNetwork) (id : Nat) : Option RaftNode :=
  net.nodes.find? (fun n => n.id == id)

/-- In-place mutation of the node object registered under `id`. -/
def RaftNetwork.modifyNode (net : RaftNetwork) (id : Nat) (f : RaftNode → RaftNode) :
    RaftNetwork :=
  { net with nodes := net.nodes.map (fun n => if n.id = id then f n else n) }

/-- One call of `random()`: the next value of the oracle. -/
def RaftNetwork.random (E : Env) (net : RaftNetwork) : ℚ × RaftNetwork :=
  (E.rand net.draws, { net with draws := net.draws + 1 })

/-- The key under which `partition` stores a blocked ordered pair. -/
def pairKey (id1 id2 : Nat) : String :=
  toString id1 ++ "-" ++ toString id2

/-- Method `RaftNetwork.isPartitioned`. -/
def RaftNetwork.isPartitioned (net : RaftNetwork) (nodeId1 nodeId2 : Nat) : Bool :=
  net.partitions.contains (pairKey nodeId1 nodeId2)

/-- Method `RaftNetwork.getAliveNodes`. -/
def RaftNetwork.getAliveNodes (net : RaftNetwork) : List RaftNode :=
  net.nodes.filter (fun n => n.isAlive)

/-- The constructor `new Message(senderId, receiverId, content)`; `idDraw` is
the value of the `random()` call behind `random(1000000)`. -/
def Message.new (now idDraw : ℚ) (senderId receiverId : Nat) (content : Content) : Message :=
  { id := 1000000 * idDraw, senderId := senderId, receiverId := receiverId,
    content := content, timestamp := now, delivered := false, dropped := false,
    progress := 0, speed := 8 / 1000 }

/-- Method `RaftNetwork.sendMessage`.  Three draws are made on the success path:
the drop test, the message id and the (unused) latency jitter. -/
def RaftNetwork.sendMessage (E : Env) (net : RaftNetwork) (senderId receiverId : Nat)
    (content : Content) : Bool × RaftNetwork :=
  let net0 := { net with sendCalls := net.sendCalls ++ [(senderId, receiverId, content)] }
  match net0.getNode senderId, net0.getNode receiverId with
  | some sender, some receiver =>
    if !sender.isAlive || !receiver.isAlive then (false, net0)
    else if net0.isPartitioned sender.id receiverId then (false, net0)
    else
      let r1 := net0.random E
      if r1.1 < r1.2.dropRate then
        (false, { r1.2 with droppedMessages := r1.2.droppedMessages + 1 })
      else
        let r2 := r1.2.random E
        let message := Message.new E.now r2.1 sender.id receiverId content
        let r3 := r2.2.random E
        let net4 := { r3.2 with messages := r3.2.messages ++ [message],
                                totalMessages := r3.2.totalMessages + 1 }
        (true, net4.modifyNode senderId (fun n => { n with messagesSent := n.messagesSent + 1 }))
  | _, _ => (false, net0)

/-- The loop of `broadcastMessage` over the entries of the node map. -/
def RaftNetwork.broadcastLoop (E : Env) (senderId : Nat) (content : Content) :
    List Nat → Nat → RaftNetwork → Nat × RaftNetwork
  | [], sentCount, net => (sentCount, net)
  | nodeId :: rest, sentCount, net =>
    match net.getNode nodeId with
    | some node =>
      if nodeId ≠ senderId ∧ node.isAlive = true then
        let r := net.sendMessage E senderId nodeId content
        RaftNetwork.broadcastLoop E senderId content rest
          (if r.1 then sentCount + 1 else sentCount) r.2
      else RaftNetwork.broadcastLoop E senderId content rest sentCount net
    | none => RaftNetwork.broadcastLoop E senderId content rest sentCount net

/-- Method `RaftNetwork.broadcastMessage`. -/
def RaftNetwork.broadcastMessage (E : Env) (net : RaftNetwork) (senderId : Nat)
    (content : Content) : Nat × RaftNetwork :=
  RaftNetwork.broadcastLoop E senderId content (net.nodes.map (fun n => n.id)) 0 net

/-- Method `RaftNode.randomElectionTimeout`: `random(3000, 6000)`. -/
def RaftNode.randomElectionTimeout (E : Env) (net : RaftNetwork) : ℚ × RaftNetwork :=
  let r := net.random E
  (3000 + r.1 * (6000 - 3000), r.2)

/-- The term of the last log entry, 0 for an empty log. -/
def RaftNode.lastLogTerm (self : RaftNode) : Nat :=
  match self.log.getLast? with
  | some e => e.term
  | none => 0

/-- The index of the last log entry, `log.length - 1` (so -1 for an empty log). -/
def RaftNode.lastLogIndex (self : RaftNode) : Int :=
  (self.log.length : Int) - 1

/-- Method `RaftNode.startElection`. -/
def RaftNode.startElection (E : Env) (net : RaftNetwork) (id : Nat) : RaftNetwork :=
  match net.getNode id with
  | none => net
  | some self =>
    if !self.isAlive || self.isPartitioned then net
    else
      let r := RaftNode.randomElectionTimeout E net
      let net1 := r.2.modifyNode id (fun n =>
        { n with state := NodeState.candidate, currentTerm := n.currentTerm + 1,
                 votedFor := some n.id, votesReceived := 1, lastHeartbeat := E.now,
                 electionTimeout := r.1, stateChangeTime := E.now })
      (net1.broadcastMessage E id
        (Content.requestVote (self.currentTerm + 1) self.id self.lastLogIndex
          self.lastLogTerm)).2

/-- Method `RaftNode.sendHeartbeats`. -/
def RaftNode.sendHeartbeats (E : Env) (net : RaftNetwork) (id : Nat) : RaftNetwork :=
  match net.getNode id with
  | none => net
  | some self =>
    if !self.isAlive || self.state ≠ NodeState.leader then net
    else
      (net.broadcastMessage E id
        (Content.appendEntries self.currentTerm self.id (-1) (-1) [] self.commitIndex)).2

/-- The `forEach` of `becomeLeader` over the alive nodes. -/
def RaftNode.initLeaderMaps (self : RaftNode) : List RaftNode → RaftNode
  | [] => self
  | node :: rest =>
    if node.id ≠ self.id then
      RaftNode.initLeaderMaps
        { self with nextIndex := setKey self.nextIndex node.id self.log.length,
                    matchIndex := setKey self.matchIndex node.id (-1) } rest
    else RaftNode.initLeaderMaps self rest

/-- Method `RaftNode.becomeLeader`. -/
def RaftNode.becomeLeader (E : Env) (net : RaftNetwork) (id : Nat) : RaftNetwork :=
  let net1 := net.modifyNode id (fun n =>
    { n with state := NodeState.leader, stateChangeTime := E.now, lastHeartbeat := E.now })
  let aliveNodes := net1.getAliveNodes
  let net2 := net1.modifyNode id (fun n => RaftNode.initLeaderMaps n aliveNodes)
  RaftNode.sendHeartbeats E net2 id

/-- The block `if (this.state !== FOLLOWER) { this.state = FOLLOWER;
this.stateChangeTime = millis(); }` shared by `handleMessage` and
`handleAppendEntries`. -/
def RaftNode.stepDown (now : ℚ) (n : RaftNode) : RaftNode :=
  if n.state ≠ NodeState.follower then
    { n with state := NodeState.follower, stateChangeTime := now }
  else n

/-- The `entries.forEach(entry => this.log.push(new LogEntry(...)))` of
`handleAppendEntries`. -/
def RaftNode.pushEntries (now : ℚ) : List LogEntry → List EntryData → List LogEntry
  | log, [] => log
  | log, entry :: rest =>
    RaftNode.pushEntries now (log ++ [LogEntry.new now entry.term entry.index entry.command]) rest

/-- Method `RaftNode.handleRequestVote`. -/
def RaftNode.handleRequestVote (E : Env) (net : RaftNetwork) (id : Nat)
    (term candidateId : Nat) (lastLogIndex : Int) (lastLogTerm : Nat) : RaftNetwork :=
  match net.getNode id with
  | none => net
  | some self =>
    let voteGranted : Bool :=
      if term ≥ self.currentTerm ∧ (self.votedFor = none ∨ self.votedFor = some candidateId) then
        let ourLastLogTerm := self.lastLogTerm
        let ourLastLogIndex := self.lastLogIndex
        if lastLogTerm > ourLastLogTerm ∨
            (lastLogTerm = ourLastLogTerm ∧ lastLogIndex ≥ ourLastLogIndex) then true
        else false
      else false
    let net1 :=
      if voteGranted then
        net.modifyNode id (fun n => { n with votedFor := some candidateId, lastHeartbeat := E.now })
      else net
    (net1.sendMessage E id candidateId
      (Content.requestVoteResponse self.currentTerm voteGranted)).2

/-- Method `RaftNode.handleRequestVoteResponse`. -/
def RaftNode.handleRequestVoteResponse (E : Env) (net : RaftNetwork) (id : Nat)
    (term : Nat) (voteGranted : Bool) : RaftNetwork :=
  match net.getNode id with
  | none => net
  | some self =>
    if self.state ≠ NodeState.candidate ∨ term ≠ self.currentTerm then net
    else if voteGranted then
      let net1 := net.modifyNode id (fun n => { n with votesReceived := n.votesReceived + 1 })
      let totalNodes := net1.getAliveNodes.length
      if ((self.votesReceived + 1 : Nat) : ℚ) > (totalNodes : ℚ) / 2 then
        RaftNode.becomeLeader E net1 id
      else net1
    else net

/-- Method `RaftNode.handleAppendEntries`. -/
def RaftNode.handleAppendEntries (E : Env) (net : RaftNetwork) (id : Nat)
    (term leaderId : Nat) (entries : List EntryData) : RaftNetwork :=
  match net.getNode id with
  | none => net
  | some self =>
    let net1 :=
      if term ≥ self.currentTerm then
        net.modifyNode id (fun n =>
          let n1 := RaftNode.stepDown E.now { n with lastHeartbeat := E.now }
          { n1 with log := RaftNode.pushEntries E.now n1.log entries })
      else net
    (net1.sendMessage E id leaderId
      (Content.appendEntriesResponse self.currentTerm (decide (term ≥ self.currentTerm)))).2

/-- Method `RaftNode.handleAppendEntriesResponse`: both branches do nothing. -/
def RaftNode.handleAppendEntriesResponse (_E : Env) (net : RaftNetwork) (id : Nat)
    (_term : Nat) (_success : Bool) : RaftNetwork :=
  match net.getNode id with
  | none => net
  | some self => if self.state ≠ NodeState.leader then net else net

/-- Method `RaftNode.handleMessage`. -/
def RaftNode.handleMessage (E : Env) (net : RaftNetwork) (id : Nat) (message : Content) :
    RaftNetwork :=
  match net.getNode id with
  | none => net
  | some self =>
    let net1 :=
      if message.term > self.currentTerm then
        net.modifyNode id (fun n =>
          RaftNode.stepDown E.now { n with currentTerm := message.term, votedFor := none })
      else net
    match message with
    | .requestVote term candidateId lastLogIndex lastLogTerm =>
      RaftNode.handleRequestVote E net1 id term candidateId lastLogIndex lastLogTerm
    | .requestVoteResponse term voteGranted =>
      RaftNode.handleRequestVoteResponse E net1 id term voteGranted
    | .appendEntries term leaderId _ _ entries _ =>
      RaftNode.handleAppendEntries E net1 id term leaderId entries
    | .appendEntriesResponse term success =>
      RaftNode.handleAppendEntriesResponse E net1 id term success

/-- The `while` loop of `processMessages`, with a bound on its iterations. -/
def RaftNode.processLoop (E : Env) (id : Nat) : Nat → RaftNetwork → RaftNetwork
  | 0, net => net
  | fuel + 1, net =>
    match net.getNode id with
    | none => net
    | some self =>
      match self.messageQueue with
      | [] => net
      | message :: rest =>
        if self.isAlive then
          let net1 := net.modifyNode id (fun n => { n with messageQueue := rest })
          let net2 := RaftNode.handleMessage E net1 id message
          RaftNode.processLoop E id fuel
            (net2.modifyNode id (fun n => { n with messagesReceived := n.messagesReceived + 1 }))
        else net

/-- Method `RaftNode.processMessages`: no handler adds to the node's own queue,
so the length of the queue bounds the number of iterations. -/
def RaftNode.processMessages (E : Env) (net : RaftNetwork) (id : Nat) : RaftNetwork :=
  match net.getNode id with
  | none => net
  | some self => RaftNode.processLoop E id self.messageQueue.length net

/-- Method `RaftNode.update` (the rendering updates are left out). -/
def RaftNode.update (E : Env) (net : RaftNetwork) (id : Nat) : RaftNetwork :=
  match net.getNode id with
  | none => net
  | some self =>
    if !self.isAlive then net
    else
      let net1 :=
        if self.state = NodeState.follower ∨ self.state = NodeState.candidate then
          if E.now - self.lastHeartbeat > self.electionTimeout then
            RaftNode.startElection E net id
          else net
        else net
      let net2 :=
        match net1.getNode id with
        | none => net1
        | some self1 =>
          if self1.state = NodeState.leader then
            if E.now - self1.lastHeartbeat > self1.heartbeatInterval then
              (RaftNode.sendHeartbeats E net1 id).modifyNode id
                (fun n => { n with lastHeartbeat := E.now })
            else net1
          else net1
      RaftNode.processMessages E net2 id

/-- Method `RaftNode.addLogEntry`. -/
def RaftNode.addLogEntry (E : Env) (net : RaftNetwork) (id : Nat) (command : String) :
    Option LogEntry × RaftNetwork :=
  match net.getNode id with
  | none => (none, net)
  | some self =>
    if self.state = NodeState.leader then
      let entry := LogEntry.new E.now self.currentTerm self.log.length command
      (some entry, net.modifyNode id (fun n => { n with log := n.log ++ [entry] }))
    else (none, net)

/-- Method `RaftNode.receiveMessage`. -/
def RaftNode.receiveMessage (net : RaftNetwork) (id : Nat) (message : Content) : RaftNetwork :=
  net.modifyNode id (fun n => { n with messageQueue := n.messageQueue ++ [message] })

/-- Method `RaftNode.kill`. -/
def RaftNode.kill (E : Env) (net : RaftNetwork) (id : Nat) : RaftNetwork :=
  net.modifyNode id (fun n =>
    { n with isAlive := false, state := NodeState.dead, stateChangeTime := E.now })

/-- Method `RaftNode.revive`. -/
def RaftNode.revive (E : Env) (net : RaftNetwork) (id : Nat) : RaftNetwork :=
  match net.getNode id with
  | none => net
  | some _ =>
    let r := RaftNode.randomElectionTimeout E net
    r.2.modifyNode id (fun n =>
      { n with isAlive := true, state := NodeState.follower, stateChangeTime := E.now,
               lastHeartbeat := E.now, electionTimeout := r.1 })

/-- Method `RaftNode.partition`. -/
def RaftNode.partition (net : RaftNetwork) (id : Nat) (partitioned : Bool) : RaftNetwork :=
  net.modifyNode id (fun n => { n with isPartitioned := partitioned })

/-- Method `Message.update` (the trail and the position on the curve are
rendering state). -/
def Message.update (E : Env) (m : Message) (speedMultiplier latencyMs : ℚ) : Bool × Message :=
  if m.delivered || m.dropped then (false, m)
  else if E.now - m.timestamp < latencyMs then (true, m)
  else
    let m1 := { m with progress := m.progress + m.speed * speedMultiplier }
    if m1.progress ≥ 1 then (false, { m1 with progress := 1, delivered := true })
    else (true, m1)

/-- The callback of `this.messages.filter(...)` in `RaftNetwork.update`, run
over the in-flight list in order: the result is the list that is kept and the
network after the deliveries. -/
def RaftNetwork.deliverLoop (E : Env) :
    List Message → RaftNetwork → List Message × RaftNetwork
  | [], net => ([], net)
  | message :: rest, net =>
    let r := message.update E net.speedMultiplier net.latency
    if r.2.delivered then
      let net1 :=
        match net.getNode r.2.receiverId with
        | some receiver =>
          if receiver.isAlive then RaftNode.receiveMessage net r.2.receiverId r.2.content
          else net
        | none => net
      RaftNetwork.deliverLoop E rest net1
    else
      let k := RaftNetwork.deliverLoop E rest net
      (if r.1 then r.2 :: k.1 else k.1, k.2)

/-- The `this.nodes.forEach(node => node.update(deltaTime, this))` of
`RaftNetwork.update`. -/
def RaftNetwork.updateNodes (E : Env) : List Nat → RaftNetwork → RaftNetwork
  | [], net => net
  | id :: rest, net => RaftNetwork.updateNodes E rest (RaftNode.update E net id)

/-- Method `RaftNetwork.update` (connection strengths and pulses are rendering
state). -/
def RaftNetwork.update (E : Env) (net : RaftNetwork) : RaftNetwork :=
  let k := RaftNetwork.deliverLoop E net.messages net
  let net1 := { k.2 with messages := k.1 }
  RaftNetwork.updateNodes E (net1.nodes.map (fun n => n.id)) net1

/-- Insertion `set.add(key)` into a JavaScript `Set` of strings. -/
def setAdd (set : List String) (key : String) : List String :=
  if set.contains key then set else set ++ [key]

/-- The inner loop of `RaftNetwork.partition`. -/
def RaftNetwork.partitionInner (id1 : Nat) : List Nat → RaftNetwork → RaftNetwork
  | [], net => net
  | id2 :: rest, net =>
    let net1 := { net with
      partitions := setAdd (setAdd net.partitions (pairKey id1 id2)) (pairKey id2 id1) }
    let net2 := RaftNode.partition net1 id1 true
    let net3 := RaftNode.partition net2 id2 true
    RaftNetwork.partitionInner id1 rest net3

/-- The outer loop of `RaftNetwork.partition`. -/
def RaftNetwork.partitionOuter (nodeIds2 : List Nat) : List Nat → RaftNetwork → RaftNetwork
  | [], net => net
  | id1 :: rest, net =>
    RaftNetwork.partitionOuter nodeIds2 rest (RaftNetwork.partitionInner id1 nodeIds2 net)

/-- Method `RaftNetwork.partition`. -/
def RaftNetwork.partition (net : RaftNetwork) (nodeIds1 nodeIds2 : List Nat) : RaftNetwork :=
  RaftNetwork.partitionOuter nodeIds2 nodeIds1 net

/-- Method `RaftNetwork.healPartition`. -/
def RaftNetwork.healPartition (net : RaftNetwork) : RaftNetwork :=
  { net with partitions := [],
             nodes := net.nodes.map (fun n => { n with isPartitioned := false }) }

/-- Method `RaftNetwork.getLeader`. -/
def RaftNetwork.getLeader (net : RaftNetwork) : Option RaftNode :=
  net.getAliveNodes.find? (fun n => n.state = NodeState.leader)

/-- Method `RaftNetwork.addClientRequest`. -/
def RaftNetwork.addClientRequest (E : Env) (net : RaftNetwork) (command : String) :
    Option LogEntry × RaftNetwork :=
  match net.getLeader with
  | some leader => RaftNode.addLogEntry E net leader.id command
  | none => (none, net)

/-- The constructor `new RaftNode(id, x, y)`, given the drawn election timeout. -/
def RaftNode.new (now electionTimeout : ℚ) (id : Nat) : RaftNode :=
  { id := id, state := NodeState.follower, currentTerm := 0, votedFor := none, log := [],
    commitIndex := 0, lastApplied := 0, nextIndex := [], matchIndex := [],
    electionTimeout := electionTimeout, lastHeartbeat := now, heartbeatInterval := 1000,
    messageQueue := [], isPartitioned := false, isAlive := true, stateChangeTime := 0,
    votesReceived := 0, messagesReceived := 0, messagesSent := 0 }

/-- The constructor `new RaftNetwork()`. -/
def RaftNetwork.new : RaftNetwork :=
  { nodes := [], messages := [], partitions := [], latency := 0, dropRate := 0,
    speedMultiplier := 1, totalMessages := 0, droppedMessages := 0, elections := 0,
    terms := 0, draws := 0, sendCalls := [] }

/-- Assignment `map.set(node.id, node)` on the node map. -/
def setNode : List RaftNode → RaftNode → List RaftNode
  | [], node => [node]
  | n :: rest, node => if n.id = node.id then node :: rest else n :: setNode rest node

/-- Method `RaftNetwork.addNode`. -/
def RaftNetwork.addNode (net : RaftNetwork) (node : RaftNode) : RaftNetwork :=
  { net with nodes := setNode net.nodes node }

/-- The loop of `createInitialCluster` in `main.js`: build node `i`, add it. -/
def createLoop (E : Env) : List Nat → RaftNetwork → RaftNetwork
  | [], net => net
  | i :: rest, net =>
    let r := RaftNode.randomElectionTimeout E net
    createLoop E rest (r.2.addNode (RaftNode.new E.now r.1 i))

/-- Function `createInitialCluster` of `main.js` on a new network: five nodes
with ids 0 to 4. -/
def createInitialCluster (E : Env) : RaftNetwork :=
  createLoop E (List.range 5) RaftNetwork.new

/-- The test `hay.includes(needle)` of JavaScript strings, on character lists. -/
def includesChars : List Char → List Char → Bool
  | [], needle => needle.isEmpty
  | c :: rest, needle => needle.isPrefixOf (c :: rest) || includesChars rest needle

/-- The call `partition.includes(nodeId)` of `removeNode`: the number is
converted to its decimal text and searched as a substring. -/
def jsIncludes (partition : String) (nodeId : Nat) : Bool :=
  includesChars partition.data (toString nodeId).data

/-- Method `RaftNetwork.removeNode`. -/
def RaftNetwork.removeNode (net : RaftNetwork) (nodeId : Nat) : RaftNetwork :=
  { net with nodes := net.nodes.filter (fun n => n.id ≠ nodeId),
             partitions := net.partitions.filter (fun partition => !jsIncludes partition nodeId) }

/-- Method `RaftNetwork.getCurrentTerm`. -/
def RaftNetwork.getCurrentTerm (net : RaftNetwork) : Nat :=
  net.nodes.foldl (fun maxTerm node =>
    if node.isAlive = true ∧ node.currentTerm > maxTerm then node.currentTerm else maxTerm) 0

/-- The call `random(aliveNodes)` of p5 on an array: the element at index
`floor(random() * length)`. -/
def randomElement (u : ℚ) (nodes : List RaftNode) : Option RaftNode :=
  nodes.get? (Int.toNat ⌊u * (nodes.length : ℚ)⌋)

/-- Method `RaftNetwork.killRandomNode`.  The node returned is the object after
`randomNode.kill()` has run on it.  A draw outside `[0, 1)` can select no
element; the model then returns `none` and changes only the draw counter. -/
def RaftNetwork.killRandomNode (E : Env) (net : RaftNetwork) : Option RaftNode × RaftNetwork :=
  let aliveNodes := net.getAliveNodes
  if aliveNodes.length > 1 then
    let r := net.random E
    match randomElement r.1 aliveNodes with
    | some randomNode =>
      (some { randomNode with isAlive := false, state := NodeState.dead,
                              stateChangeTime := E.now },
        RaftNode.kill E r.2 randomNode.id)
    | none => (none, r.2)
  else (none, net)

/-- The loop of `reviveAllNodes` over the node map. -/
def RaftNetwork.reviveLoop (E : Env) : List Nat → RaftNetwork → RaftNetwork
  | [], net => net
  | id :: rest, net =>
    match net.getNode id with
    | some node =>
      if !node.isAlive then RaftNetwork.reviveLoop E rest (RaftNode.revive E net id)
      else RaftNetwork.reviveLoop E rest net
    | none => RaftNetwork.reviveLoop E rest net

/-- Method `RaftNetwork.reviveAllNodes`. -/
def RaftNetwork.reviveAllNodes (E : Env) (net : RaftNetwork) : RaftNetwork :=
  RaftNetwork.reviveLoop E (net.nodes.map (fun n => n.id)) net

/-- The record returned by `getStatistics`; `leader` is `none` where the
source reports the string `None`. -/
structure Statistics where
  totalNodes : Nat
  aliveNodes : Nat
  currentTerm : Nat
  leader : Option Nat
  totalMessages : Nat
  droppedMessages : Nat
  activeMessages : Nat
  latency : ℚ
  dropRate : ℚ
  speedMultiplier : ℚ
  partitionsActive : Bool

/-- Method `RaftNetwork.getStatistics`. -/
def RaftNetwork.getStatistics (net : RaftNetwork) : Statistics :=
  { totalNodes := net.nodes.length,
    aliveNodes := net.getAliveNodes.length,
    currentTerm := net.getCurrentTerm,
    leader := net.getLeader.map (fun n => n.id),
    totalMessages := net.totalMessages,
    droppedMessages := net.droppedMessages,
    activeMessages := net.messages.length,
    latency := net.latency,
    dropRate := net.dropRate,
    speedMultiplier := net.speedMultiplier,
    partitionsActive := decide (net.partitions.length > 0) }

/-- The body of the `forEach` of `reset`, given the drawn election timeout. -/
def RaftNode.resetFields (now electionTimeout : ℚ) (node : RaftNode) : RaftNode :=
  { node with currentTerm := 0, votedFor := none, log := [], state := NodeState.follower,
              lastHeartbeat := now, electionTimeout := electionTimeout, isAlive := true,
              isPartitioned := false, votesReceived := 0, messagesReceived := 0,
              messagesSent := 0, stateChangeTime := now }

/-- The `forEach` of `reset` over the node map: one draw per node. -/
def RaftNetwork.resetLoop (E : Env) : List RaftNode → Nat → List RaftNode × Nat
  | [], draws => ([], draws)
  | node :: rest, draws =>
    let k := RaftNetwork.resetLoop E rest (draws + 1)
    (RaftNode.resetFields E.now (3000 + E.rand draws * (6000 - 3000)) node :: k.1, k.2)

/-- Method `RaftNetwork.reset`. -/
def RaftNetwork.reset (E : Env) (net : RaftNetwork) : RaftNetwork :=
  let k := RaftNetwork.resetLoop E net.nodes net.draws
  { net with messages := [], partitions := [], latency := 0, dropRate := 0,
             totalMessages := 0, droppedMessages := 0, nodes := k.1, draws := k.2 }

/-! ## Basic facts about the node map -/

/-- The node `n` with `k` more messages counted as sent. -/
def RaftNode.addSent (k : Nat) (n : RaftNode) : RaftNode :=
  { n with messagesSent := n.messagesSent + k }

/-- The node list with `G` applied to the node registered under `id`. -/
def updNodes (id : Nat) (G : RaftNode → RaftNode) (nodes : List RaftNode) : List RaftNode :=
  nodes.map (fun n => if n.id = id then G n else n)

/-- Only the node `id` is written between `net` and `net1`, it keeps its id
and its `isAlive` flag, and it goes from `self` to `self1`. -/
def Touches (net net1 : RaftNetwork) (id : Nat) (self self1 : RaftNode) : Prop :=
  ∃ G : RaftNode → RaftNode,
    (∀ n, (G n).id = n.id) ∧ (∀ n, (G n).isAlive = n.isAlive) ∧
    net1.nodes = updNodes id G net.nodes ∧ G self = self1

/-- The ids of the alive nodes, in map order. -/
def RaftNetwork.aliveIds (net : RaftNetwork) : List Nat :=
  net.getAliveNodes.map (fun n => n.id)

/-- The loop of `becomeLeader`, reading only the ids of the alive nodes. -/
def RaftNode.initLeaderIds (self : RaftNode) : List Nat → RaftNode
  | [] => self
  | j :: rest =>
    if j ≠ self.id then
      RaftNode.initLeaderIds
        { self with nextIndex := setKey self.nextIndex j self.log.length,
                    matchIndex := setKey self.matchIndex j (-1) } rest
    else RaftNode.initLeaderIds self rest

/-- The nodes a broadcast by `a` over the ids `ids` is attempted to: every id
other than `a` that is registered and alive. -/
def broadcastTargets (net : RaftNetwork) (a : Nat) (ids : List Nat) : List Nat :=
  ids.filter (fun j => decide (j ≠ a) &&
    (match net.getNode j with
     | some n => n.isAlive
     | none => false))

/-- The decision taken by `handleRequestVote`. -/
def RaftNode.grants (self : RaftNode) (term candidateId : Nat) (lastLogIndex : Int)
    (lastLogTerm : Nat) : Bool :=
  decide (term ≥ self.currentTerm ∧
    (self.votedFor = none ∨ self.votedFor = some candidateId) ∧
    (lastLogTerm > self.lastLogTerm ∨
      (lastLogTerm = self.lastLogTerm ∧ lastLogIndex ≥ self.lastLogIndex)))

/-- The node after `handleRequestVote`, up to `messagesSent`. -/
def RaftNode.afterRequestVote (now : ℚ) (self : RaftNode) (term candidateId : Nat)
    (lastLogIndex : Int) (lastLogTerm : Nat) : RaftNode :=
  if self.grants term candidateId lastLogIndex lastLogTerm then
    { self with votedFor := some candidateId, lastHeartbeat := now }
  else self

/-- The node after the term check at the head of `handleMessage`. -/
def RaftNode.afterTerm (now : ℚ) (self : RaftNode) (term : Nat) : RaftNode :=
  if term > self.currentTerm then
    RaftNode.stepDown now { self with currentTerm := term, votedFor := none }
  else self

/-- The node after `handleAppendEntries`, up to `messagesSent`. -/
def RaftNode.afterAppendEntries (now : ℚ) (self : RaftNode) (term : Nat)
    (entries : List EntryData) : RaftNode :=
  if term ≥ self.currentTerm then
    { RaftNode.stepDown now { self with lastHeartbeat := now } with
      log := RaftNode.pushEntries now
        (RaftNode.stepDown now { self with lastHeartbeat := now }).log entries }
  else self

/-- The test that makes `handleRequestVoteResponse` call `becomeLeader`. -/
def RaftNode.wins (alive : List Nat) (self : RaftNode) (term : Nat) (voteGranted : Bool) :
    Prop :=
  self.state = NodeState.candidate ∧ term = self.currentTerm ∧ voteGranted = true ∧
    ((self.votesReceived + 1 : Nat) : ℚ) > (alive.length : ℚ) / 2

instance (alive : List Nat) (self : RaftNode) (term : Nat) (voteGranted : Bool) :
    Decidable (RaftNode.wins alive self term voteGranted) := by
  unfold RaftNode.wins; infer_instance

/-- The node after `handleRequestVoteResponse`, up to `messagesSent`, given the
ids of the alive nodes. -/
def RaftNode.afterVoteResponse (now : ℚ) (alive : List Nat) (self : RaftNode)
    (term : Nat) (voteGranted : Bool) : RaftNode :=
  if self.state ≠ NodeState.candidate ∨ term ≠ self.currentTerm then self
  else if voteGranted then
    if ((self.votesReceived + 1 : Nat) : ℚ) > (alive.length : ℚ) / 2 then
      RaftNode.initLeaderIds
        { self with votesReceived := self.votesReceived + 1, state := NodeState.leader,
                    stateChangeTime := now, lastHeartbeat := now } alive
    else { self with votesReceived := self.votesReceived + 1 }
  else self

/-- The heartbeat a leader broadcasts. -/
def RaftNode.heartbeat (self : RaftNode) : Content :=
  Content.appendEntries self.currentTerm self.id (-1) (-1) [] self.commitIndex

/-- The node after `handleMessage`, up to `messagesSent`. -/
def RaftNode.afterMessage (now : ℚ) (alive : List Nat) (self : RaftNode) :
    Content → RaftNode
  | .requestVote term candidateId lastLogIndex lastLogTerm =>
    (self.afterTerm now term).afterRequestVote now term candidateId lastLogIndex lastLogTerm
  | .requestVoteResponse term voteGranted =>
    (self.afterTerm now term).afterVoteResponse now alive term voteGranted
  | .appendEntries term _ _ _ entries _ =>
    (self.afterTerm now term).afterAppendEntries now term entries
  | .appendEntriesResponse term _ => self.afterTerm now term

/-- The calls of `sendMessage` made by a heartbeat round of `self`. -/
def heartbeatCalls (net : RaftNetwork) (self : RaftNode) : List (Nat × Nat × Content) :=
  (broadcastTargets net self.id (net.nodes.map (fun n => n.id))).map
    (fun j => (self.id, j, self.heartbeat))

/-- The calls of `sendMessage` made while `handleMessage` handles `m`, where
`self1` is the node after the term check. -/
def RaftNode.replies (net : RaftNetwork) (id : Nat) (self1 : RaftNode) :
    Content → List (Nat × Nat × Content)
  | .requestVote term candidateId lastLogIndex lastLogTerm =>
    [(id, candidateId, Content.requestVoteResponse self1.currentTerm
        (self1.grants term candidateId lastLogIndex lastLogTerm))]
  | .requestVoteResponse term voteGranted =>
    if self1.wins net.aliveIds term voteGranted ∧ self1.isAlive = true then
      heartbeatCalls net self1
    else []
  | .appendEntries term leaderId _ _ _ _ =>
    [(id, leaderId, Content.appendEntriesResponse self1.currentTerm
        (decide (term ≥ self1.currentTerm)))]
  | .appendEntriesResponse _ _ => []

/-! ## Data for the witnesses -/

/-- A small environment: time 0, every draw 0. -/
def demoEnv : Env := { now := 0, rand := fun _ => 0 }

/-- A node as built by the constructor at time 0 with timeout 3000. -/
def demoNode (id : Nat) : RaftNode := RaftNode.new 0 3000 id

/-- A network of three fresh nodes 0, 1, 2. -/
def demoNet : RaftNetwork :=
  ((RaftNetwork.new.addNode (demoNode 0)).addNode (demoNode 1)).addNode (demoNode 2)

/-- The node after a `startElection` that passes its guard, up to `messagesSent`. -/
def RaftNode.afterElection (now electionTimeout : ℚ) (self : RaftNode) : RaftNode :=
  { self with state := NodeState.candidate, currentTerm := self.currentTerm + 1,
              votedFor := some self.id, votesReceived := 1, lastHeartbeat := now,
              electionTimeout := electionTimeout, stateChangeTime := now }

/-- The `RequestVote` a node broadcasts when it starts an election. -/
def RaftNode.voteRequest (self : RaftNode) : Content :=
  Content.requestVote (self.currentTerm + 1) self.id self.lastLogIndex self.lastLogTerm

/-- The calls of `sendMessage` made by the broadcast of `startElection`. -/
def electionCalls (net : RaftNetwork) (self : RaftNode) : List (Nat × Nat × Content) :=
  (broadcastTargets net self.id (net.nodes.map (fun n => n.id))).map
    (fun j => (self.id, j, self.voteRequest))

/-- One iteration of the loop of `processMessages` on the node: shift the
queue, handle the message, count it. -/
def RaftNode.handleNext (now : ℚ) (alive : List Nat) (n : RaftNode) (m : Content)
    (rest : List Content) : RaftNode :=
  { ({ n with messageQueue := rest }).afterMessage now alive m with
    messagesReceived := (({ n with messageQueue := rest }).afterMessage now alive m).messagesReceived + 1 }

/-- The node after `processMessages` has drained the queue `queue`, up to
`messagesSent`. -/
def RaftNode.drain (now : ℚ) (alive : List Nat) : List Content → RaftNode → RaftNode
  | [], n => n
  | m :: rest, n => RaftNode.drain now alive rest (n.handleNext now alive m rest)

/-- The node after the election-timeout step of `RaftNode.update`. -/
def RaftNode.afterTimeout (now electionTimeout : ℚ) (self : RaftNode) : RaftNode :=
  if (self.state = NodeState.follower ∨ self.state = NodeState.candidate) ∧
      now - self.lastHeartbeat > self.electionTimeout ∧
      self.isAlive = true ∧ self.isPartitioned = false then
    self.afterElection now electionTimeout
  else self

/-- The node after the heartbeat step of `RaftNode.update`. -/
def RaftNode.afterHeartbeat (now : ℚ) (self : RaftNode) : RaftNode :=
  if self.state = NodeState.leader ∧ now - self.lastHeartbeat > self.heartbeatInterval then
    { self with lastHeartbeat := now }
  else self

/-- The node after `RaftNode.update`, up to `messagesSent`. -/
def RaftNode.afterUpdate (now electionTimeout : ℚ) (alive : List Nat) (self : RaftNode) :
    RaftNode :=
  if self.isAlive = true then
    RaftNode.drain now alive self.messageQueue
      ((self.afterTimeout now electionTimeout).afterHeartbeat now)
  else self

/-- A node that is Leader at term 2, for the witnesses. -/
def demoLeader : RaftNode :=
  { demoNode 0 with state := NodeState.leader, currentTerm := 2, votedFor := some 0,
                    votesReceived := 2 }

/-- A node that is Candidate at term 1, for the witnesses. -/
def demoCandidate : RaftNode :=
  { demoNode 0 with state := NodeState.candidate, currentTerm := 1, votedFor := some 0,
                    votesReceived := 1 }

/-- The network `demoNet` with node 0 a Leader. -/
def demoLeaderNet : RaftNetwork :=
  ((RaftNetwork.new.addNode demoLeader).addNode (demoNode 1)).addNode (demoNode 2)

/-- The network `demoNet` with node 0 a Candidate. -/
def demoCandidateNet : RaftNetwork :=
  ((RaftNetwork.new.addNode demoCandidate).addNode (demoNode 1)).addNode (demoNode 2)

/-- An environment late enough for every fresh timer to have expired. -/
def lateEnv : Env := { now := 10000, rand := fun _ => 0 }

/-- The network `demoNet` with node 0 flagged as partitioned. -/
def demoPartitionedNet : RaftNetwork := RaftNode.partition demoNet 0 true

/-- The test made by `sendMessage` before the random drop: both endpoints are
registered and alive and the ordered pair is not blocked. -/
def RaftNetwork.canReach (net : RaftNetwork) (a b : Nat) : Prop :=
  ∃ sender receiver, net.getNode a = some sender ∧ net.getNode b = some receiver ∧
    sender.isAlive = true ∧ receiver.isAlive = true ∧ net.isPartitioned a b = false

/-- What sends by `sender` may do between `net` and `net1`: the transport
settings are kept, the in-flight list and the trace of calls only grow at the
end, every new message is fresh and matches a call in order, and nothing is
added when every draw is below the drop rate. -/
def Appends (E : Env) (net net1 : RaftNetwork) (sender : Nat) : Prop :=
  net1.partitions = net.partitions ∧ net1.dropRate = net.dropRate ∧
  net1.latency = net.latency ∧ net1.speedMultiplier = net.speedMultiplier ∧
  ∃ ms cs, net1.messages = net.messages ++ ms ∧ net1.sendCalls = net.sendCalls ++ cs ∧
    net1.totalMessages = net.totalMessages + ms.length ∧
    (∀ m ∈ ms, m.senderId = sender ∧ m.delivered = false ∧ m.dropped = false ∧
      m.progress = 0 ∧ m.speed = 8 / 1000 ∧ m.timestamp = E.now) ∧
    (∀ c ∈ cs, c.1 = sender) ∧
    (ms.map (fun m => (m.senderId, m.receiverId, m.content))).Sublist cs ∧
    ((∀ i, E.rand i < net.dropRate) → ms = [])

/-- The network `demoCandidateNet` after node 0 has handled a granted vote
response at its term: node 0 is Leader. -/
def demoElectedNet : RaftNetwork :=
  RaftNode.handleMessage demoEnv demoCandidateNet 0 (Content.requestVoteResponse 1 true)

/-- The fields written by `kill`. -/
def RaftNode.killFields (now : ℚ) (n : RaftNode) : RaftNode :=
  { n with isAlive := false, state := NodeState.dead, stateChangeTime := now }

/-- A network with nodes 1, 3 and 12 in which the groups `[12]` and `[3]` have
been partitioned from each other. -/
def demoSplitNet : RaftNetwork :=
  (((RaftNetwork.new.addNode (demoNode 1)).addNode (demoNode 3)).addNode
    (demoNode 12)).partition [12] [3]

/-- The message as `Message.update` leaves it when called by `RaftNetwork.update`. -/
def RaftNetwork.aged (E : Env) (net : RaftNetwork) (m : Message) : Message :=
  (m.update E net.speedMultiplier net.latency).2

/-- The contents that the delivery phase of `RaftNetwork.update` hands to the
node `id`: those of the messages addressed to it that are delivered, in order. -/
def RaftNetwork.arrivals (E : Env) (net : RaftNetwork) (id : Nat) (messages : List Message) :
    List Content :=
  ((messages.map (net.aged E)).filter (fun m => m.delivered && m.receiverId == id)).map
    (fun m => m.content)

/-- A node after the delivery phase of `RaftNetwork.update`. -/
def RaftNetwork.afterDelivery (E : Env) (net : RaftNetwork) (messages : List Message)
    (n : RaftNode) : RaftNode :=
  if n.isAlive = true then
    { n with messageQueue := n.messageQueue ++ net.arrivals E n.id messages }
  else n

/-- The network between the two phases of `RaftNetwork.update`: messages
delivered, no node run yet. -/
def RaftNetwork.delivered (E : Env) (net : RaftNetwork) : RaftNetwork :=
  { (RaftNetwork.deliverLoop E net.messages net).2 with
    messages := (RaftNetwork.deliverLoop E net.messages net).1 }

/-- What the node pass of `RaftNetwork.update` over the ids `ids` does to the
transport between `net` and `net1`: the settings are kept, the in-flight list
and the trace of `sendMessage` calls only grow, and every new message and call
has as sender a node of `ids` that is registered and alive. -/
def Emits (E : Env) (net net1 : RaftNetwork) (ids : List Nat) : Prop :=
  net1.partitions = net.partitions ∧ net1.dropRate = net.dropRate ∧
  net1.latency = net.latency ∧ net1.speedMultiplier = net.speedMultiplier ∧
  ∃ ms cs, net1.messages = net.messages ++ ms ∧ net1.sendCalls = net.sendCalls ++ cs ∧
    (∀ m ∈ ms, m.senderId ∈ ids ∧ (∃ s, net.getNode m.senderId = some s ∧ s.isAlive = true) ∧
      m.delivered = false ∧ m.dropped = false ∧ m.progress = 0 ∧ m.timestamp = E.now) ∧
    (∀ c ∈ cs, c.1 ∈ ids ∧ ∃ s, net.getNode c.1 = some s ∧ s.isAlive = true) ∧
    ((∀ i, E.rand i < net.dropRate) → ms = [])

/-- A `RequestVote` of node 0 in flight to `receiver`, at the given progress. -/
def demoMessage (receiver : Nat) (progress : ℚ) : Message :=
  { id := 0, senderId := 0, receiverId := receiver,
    content := Content.requestVote 1 0 (-1) 0, timestamp := 0,
    delivered := false, dropped := false, progress := progress, speed := 8 / 1000 }

/-- The network `demoNet` with node 2 killed and three messages in flight: one
about to arrive at node 1, one about to arrive at the dead node 2, one just
sent to node 1. -/
def demoFlightNet : RaftNetwork :=
  { RaftNode.kill demoEnv demoNet 2 with
    messages := [demoMessage 1 (999 / 1000), demoMessage 2 (999 / 1000), demoMessage 1 0] }

/-- A run of `network.update` calls, one per frame, each with the clock and
the random generator of its frame. -/
def RaftNetwork.runUpdates : List Env → RaftNetwork → RaftNetwork
  | [], net => net
  | E :: rest, net => RaftNetwork.runUpdates rest (net.update E)

/-- The network `demoNet` with `dropRate = 1`. -/
def demoLossyNet : RaftNetwork := { demoNet with dropRate := 1 }

/-! ## Counting votes: the quantities of the election invariant -/

/-- Whether a content is a granted vote of term `T`. -/
def Content.isGrant (T : Nat) : Content → Bool
  | .requestVoteResponse t g => g && (t == T)
  | _ => false

/-- Whether a content is a `RequestVote` of candidate `c` for term `T`. -/
def Content.isRequest (T c : Nat) : Content → Bool
  | .requestVote t cand _ _ => (t == T) && (cand == c)
  | _ => false

/-- The votes a node has counted for term `T`: its tally if it is Candidate or
Leader at that term, nothing otherwise. -/
def RaftNode.voteWeight (T : Nat) (n : RaftNode) : Nat :=
  if n.currentTerm = T ∧ (n.state = NodeState.candidate ∨ n.state = NodeState.leader) then
    n.votesReceived
  else 0

/-- Whether the node has spent its vote of term `T`: it has voted at `T` or is
past `T`. -/
def RaftNode.usedVote (T : Nat) (n : RaftNode) : Nat :=
  if n.currentTerm > T ∨ (n.currentTerm = T ∧ n.votedFor ≠ none) then 1 else 0

/-- The granted votes of term `T` waiting in the inbox of the node. -/
def RaftNode.inboxGrants (T : Nat) (n : RaftNode) : Nat :=
  n.messageQueue.countP (Content.isGrant T)

/-- The requests of candidate `c` for term `T` waiting in the inbox of the node. -/
def RaftNode.inboxRequests (T c : Nat) (n : RaftNode) : Nat :=
  n.messageQueue.countP (Content.isRequest T c)

/-- Whether the node holds a vote for `c` at term `T`. -/
def RaftNode.votedAt (T c : Nat) (n : RaftNode) : Nat :=
  if n.currentTerm = T ∧ n.votedFor = some c then 1 else 0

/-- Whether the node has reached term `T`. -/
def RaftNode.reached (T : Nat) (n : RaftNode) : Nat :=
  if T ≤ n.currentTerm then 1 else 0

/-- Whether the node registered under `c` has reached term `T`. -/
def RaftNetwork.reach (net : RaftNetwork) (c T : Nat) : Nat :=
  match net.getNode c with
  | some n => n.reached T
  | none => 0

/-- The granted votes of term `T` in flight. -/
def flightGrants (T : Nat) (messages : List Message) : Nat :=
  messages.countP (fun m => m.content.isGrant T)

/-- The requests of candidate `c` for term `T` in flight to `v`. -/
def flightRequests (v T c : Nat) (messages : List Message) : Nat :=
  messages.countP (fun m => (m.receiverId == v) && m.content.isRequest T c)

/-- The election invariant of a cluster in which no node has been killed.
For every term the votes counted by candidates and leaders plus the granted
votes still on their way are covered by the nodes that have spent their vote
of that term; a request of `c` for term `T` is on its way to `v` at most once,
only if `c` has reached `T`, and only while `v` holds no vote for `c` at `T`;
no request is on its way to its own candidate; a Leader holds a majority of
the votes of all nodes. -/
structure ElectionInv (net : RaftNetwork) : Prop where
  nodup : (net.nodes.map (fun n => n.id)).Nodup
  alive : ∀ n ∈ net.nodes, n.isAlive = true
  tally : ∀ T, (net.nodes.map (fun n => n.voteWeight T + n.inboxGrants T)).sum
      + flightGrants T net.messages ≤ (net.nodes.map (fun n => n.usedVote T)).sum
  request : ∀ v ∈ net.nodes, ∀ c, c ≠ v.id → ∀ T,
      flightRequests v.id T c net.messages + v.inboxRequests T c + v.votedAt T c
        ≤ net.reach c T
  own : ∀ v ∈ net.nodes, ∀ T,
      flightRequests v.id T v.id net.messages + v.inboxRequests T v.id = 0
  leader : ∀ n ∈ net.nodes, n.state = NodeState.leader →
      2 * n.votesReceived > net.nodes.length
/-- The fields of a node that the election invariant reads. -/
def RaftNode.sameCore (a b : RaftNode) : Prop :=
  a.id = b.id ∧ a.currentTerm = b.currentTerm ∧ a.state = b.state ∧
  a.votedFor = b.votedFor ∧ a.votesReceived = b.votesReceived ∧
  a.messageQueue = b.messageQueue ∧ a.isAlive = b.isAlive
/-- A freshly built cluster, of any size: the ids are distinct, every node is
an alive Follower at term 0 that has not voted, with an empty inbox, and nothing
is in flight. -/
def RaftNetwork.Fresh (net : RaftNetwork) : Prop :=
  (net.nodes.map (fun n => n.id)).Nodup ∧ net.messages = [] ∧
  ∀ n ∈ net.nodes, n.isAlive = true ∧ n.state = NodeState.follower ∧ n.currentTerm = 0 ∧
    n.votedFor = none ∧ n.messageQueue = []

/-- The states a cluster can reach from any freshly built one by
`network.update`, `revive`, `partition`, `healPartition` and client requests,
and, when `kills` is true, also by `kill`. -/
inductive Reachable (kills : Bool) : RaftNetwork → Prop where
  | init {net : RaftNetwork} : net.Fresh → Reachable kills net
  | update (E : Env) {net : RaftNetwork} :
      Reachable kills net → Reachable kills (net.update E)
  | revive (E : Env) (id : Nat) {net : RaftNetwork} :
      Reachable kills net → Reachable kills (RaftNode.revive E net id)
  | partition (nodeIds1 nodeIds2 : List Nat) {net : RaftNetwork} :
      Reachable kills net → Reachable kills (net.partition nodeIds1 nodeIds2)
  | healPartition {net : RaftNetwork} :
      Reachable kills net → Reachable kills net.healPartition
  | addClientRequest (E : Env) (command : String) {net : RaftNetwork} :
      Reachable kills net → Reachable kills (net.addClientRequest E command).2
  | kill (E : Env) (id : Nat) {net : RaftNetwork} :
      kills = true → Reachable kills net → Reachable kills (RaftNode.kill E net id)

/-- The environment in which the cluster of the split-vote run is built: the
draws give node 0 the election timeout 3000, node 1 the timeout 3300 and the
other nodes 5700. -/
def clusterEnv : Env :=
  { now := 0, rand := fun i => if i = 0 then 0 else if i = 1 then 1 / 10 else 9 / 10 }

/-- A frame at time `t` in which every draw is 9/10. -/
def frameEnv (t : ℚ) : Env := { now := t, rand := fun _ => 9 / 10 }

/-- The environments of `n` consecutive frames, 16 ms apart, after time `t`. -/
def frames (t : ℚ) (n : Nat) : List Env :=
  (List.range n).map (fun k => frameEnv (t + 16 * ((k : ℚ) + 1)))

/-- The split-vote run, step 1: the cluster of five nodes is built and nodes 3
and 4 are killed. -/
def splitVote1 : RaftNetwork :=
  RaftNode.kill clusterEnv (RaftNode.kill clusterEnv (createInitialCluster clusterEnv) 4) 3

/-- Step 2: at time 3100 node 0 times out and asks nodes 1 and 2 for their vote
at term 1; then node 2 is killed and node 3 is revived. -/
def splitVote2 : RaftNetwork :=
  RaftNode.revive (frameEnv 3100)
    (RaftNode.kill (frameEnv 3100) (splitVote1.update (frameEnv 3100)) 2) 3

/-- Step 3: at time 3400 node 1 times out and asks nodes 0 and 3 for their vote
at term 1; then node 2 is revived. -/
def splitVote3 : RaftNetwork :=
  RaftNode.revive (frameEnv 3400) (splitVote2.update (frameEnv 3400)) 2

/-- Step 4: 125 frames later the four requests have arrived; node 2 has granted
its vote to node 0 and node 3 to node 1. Node 2 is killed. -/
def splitVote4 : RaftNetwork :=
  RaftNode.kill (frameEnv 5400) (splitVote3.runUpdates (frames 3400 125)) 2

/-- Step 5: 125 frames later the answers have arrived. -/
def splitVote5 : RaftNetwork :=
  splitVote4.runUpdates (frames 5400 125)

/-- The id, liveness, role and term of every node. -/
def RaftNetwork.roles (net : RaftNetwork) : List (Nat × Bool × NodeState × Nat) :=
  net.nodes.map (fun n => (n.id, n.isAlive, n.state, n.currentTerm))

/-- The id of every node with the index and term of each entry of its log. -/
def RaftNetwork.logs (net : RaftNetwork) : List (Nat × List (Nat × Nat)) :=
  net.nodes.map (fun n => (n.id, n.log.map (fun e => (e.index, e.term))))

/-- The sender, receiver and content of every message in flight. -/
def RaftNetwork.flight (net : RaftNetwork) : List (Nat × Nat × Content) :=
  net.messages.map (fun m => (m.senderId, m.receiverId, m.content))

/-- An election without kills: the cluster of five nodes is built, at time 3100
node 0 times out and asks for votes at term 1, and 250 frames follow, 16 ms
apart. Node 1 times out at time 3308; the requests of node 0 arrive after 125
frames and nodes 2, 3 and 4 grant; their answers arrive after 125 more. -/
def electedCluster : RaftNetwork :=
  ((createInitialCluster clusterEnv).update (frameEnv 3100)).runUpdates (frames 3100 250)

/-- The cluster `electedCluster` after one client request. -/
def loggedCluster : RaftNetwork :=
  (electedCluster.addClientRequest (frameEnv 7200) "set x").2

/-! ## Node invariants of the reachable states -/

/-- A content that carries no log entries: every content other than an
`AppendEntries`, and an `AppendEntries` whose `entries` list is empty. -/
def Content.plain : Content → Prop
  | .appendEntries _ _ _ _ entries _ => entries = []
  | _ => True

/-- The log of the node is well formed: the entry at position `i` has index `i`
and a term that is at most the term of the node. -/
def RaftNode.logOk (n : RaftNode) : Prop :=
  ∀ (i : Nat) (e : LogEntry), n.log[i]? = some e → e.index = i ∧ e.term ≤ n.currentTerm

/-- The three node invariants: a well-formed log, `isAlive` false exactly in
state Dead, and a vote for itself while Candidate or Leader. -/
def RaftNode.sound (n : RaftNode) : Prop :=
  n.logOk ∧ (n.isAlive = false ↔ n.state = NodeState.dead) ∧
  (n.state = NodeState.candidate ∨ n.state = NodeState.leader → n.votedFor = some n.id)

/-- Every node is sound, with distinct ids, and no content in an inbox or in
flight carries log entries. -/
structure SoundNet (net : RaftNetwork) : Prop where
  nodup : (net.nodes.map (fun n => n.id)).Nodup
  node : ∀ n ∈ net.nodes, n.sound ∧ ∀ c ∈ n.messageQueue, c.plain
  flight : ∀ m ∈ net.messages, m.content.plain

/-- The states the cluster can reach from a freshly built one through the
operations of the network: `update`, `addClientRequest`, `kill`, `revive`,
`killRandomNode`, `reviveAllNodes`, `partition`, `healPartition` and `reset`. -/
inductive Operated : RaftNetwork → Prop where
  | init (E : Env) : Operated (createInitialCluster E)
  | update (E : Env) {net : RaftNetwork} : Operated net → Operated (net.update E)
  | addClientRequest (E : Env) (command : String) {net : RaftNetwork} :
      Operated net → Operated (net.addClientRequest E command).2
  | kill (E : Env) (id : Nat) {net : RaftNetwork} :
      Operated net → Operated (RaftNode.kill E net id)
  | revive (E : Env) (id : Nat) {net : RaftNetwork} :
      Operated net → Operated (RaftNode.revive E net id)
  | killRandomNode (E : Env) {net : RaftNetwork} :
      Operated net → Operated (net.killRandomNode E).2
  | reviveAllNodes (E : Env) {net : RaftNetwork} :
      Operated net → Operated (net.reviveAllNodes E)
  | partition (nodeIds1 nodeIds2 : List Nat) {net : RaftNetwork} :
      Operated net → Operated (net.partition nodeIds1 nodeIds2)
  | healPartition {net : RaftNetwork} : Operated net → Operated net.healPartition
  | reset (E : Env) {net : RaftNetwork} : Operated net → Operated (net.reset E)

/-- A network in which at most the node `a` is alive, that node is not Leader
and has an empty inbox, and nothing is in flight. -/
def RaftNetwork.Lone (net : RaftNetwork) (a : Nat) : Prop :=
  (net.nodes.map (fun n => n.id)).Nodup ∧ net.messages = [] ∧
  ∀ n ∈ net.nodes, n.isAlive = true →
    n.id = a ∧ n.state ≠ NodeState.leader ∧ n.messageQueue = []

/-- The network `demoNet` with nodes 1 and 2 killed. -/
def demoLoneNet : RaftNetwork :=
  RaftNode.kill demoEnv (RaftNode.kill demoEnv demoNet 1) 2

/-! # Proofs -/

@[simp] theorem modifyNode_sendCalls (net : RaftNetwork) (id : Nat) (f : RaftNode → RaftNode) :
    (net.modifyNode id f).sendCalls = net.sendCalls := rfl

@[simp] theorem modifyNode_messages (net : RaftNetwork) (id : Nat) (f : RaftNode → RaftNode) :
    (net.modifyNode id f).messages = net.messages := rfl

@[simp] theorem modifyNode_partitions (net : RaftNetwork) (id : Nat) (f : RaftNode → RaftNode) :
    (net.modifyNode id f).partitions = net.partitions := rfl

@[simp] theorem modifyNode_dropRate (net : RaftNetwork) (id : Nat) (f : RaftNode → RaftNode) :
    (net.modifyNode id f).dropRate = net.dropRate := rfl

@[simp] theorem modifyNode_latency (net : RaftNetwork) (id : Nat) (f : RaftNode → RaftNode) :
    (net.modifyNode id f).latency = net.latency := rfl

@[simp] theorem modifyNode_speedMultiplier (net : RaftNetwork) (id : Nat)
    (f : RaftNode → RaftNode) :
    (net.modifyNode id f).speedMultiplier = net.speedMultiplier := rfl

@[simp] theorem modifyNode_draws (net : RaftNetwork) (id : Nat) (f : RaftNode → RaftNode) :
    (net.modifyNode id f).draws = net.draws := rfl

theorem find?_map_of_id (f : RaftNode → RaftNode) (hf : ∀ n, (f n).id = n.id)
    (nodes : List RaftNode) (j : Nat) :
    (nodes.map f).find? (fun n => n.id == j) = (nodes.find? (fun n => n.id == j)).map f := by
  induction nodes with
  | nil => rfl
  | cons a rest ih =>
    simp only [List.map_cons, List.find?_cons, hf]
    cases h : (a.id == j) <;> simp [ih]

theorem getNode_id {net : RaftNetwork} {id : Nat} {n : RaftNode}
    (h : net.getNode id = some n) : n.id = id := by
  have := List.find?_some h
  simpa using this

theorem find?_updNodes (id : Nat) (G : RaftNode → RaftNode) (hG : ∀ n, (G n).id = n.id)
    (nodes : List RaftNode) (j : Nat) :
    (updNodes id G nodes).find? (fun n => n.id == j)
      = (nodes.find? (fun n => n.id == j)).map (fun n => if n.id = id then G n else n) := by
  unfold updNodes
  exact find?_map_of_id _ (by intro n; by_cases h : n.id = id <;> simp [h, hG]) _ _

theorem updNodes_updNodes (id : Nat) (G1 G2 : RaftNode → RaftNode)
    (hG1 : ∀ n, (G1 n).id = n.id) (nodes : List RaftNode) :
    updNodes id G2 (updNodes id G1 nodes) = updNodes id (fun n => G2 (G1 n)) nodes := by
  unfold updNodes
  simp only [List.map_map]
  apply List.map_congr_left
  intro n _
  by_cases h : n.id = id <;> simp [h, hG1]

theorem updNodes_id (id : Nat) (nodes : List RaftNode) :
    updNodes id (fun n => n) nodes = nodes := by
  unfold updNodes
  induction nodes with
  | nil => rfl
  | cons n rest ih => simp

theorem updNodes_map_id (id : Nat) (G : RaftNode → RaftNode) (hG : ∀ n, (G n).id = n.id)
    (nodes : List RaftNode) :
    (updNodes id G nodes).map (fun n => n.id) = nodes.map (fun n => n.id) := by
  unfold updNodes
  simp only [List.map_map]
  apply List.map_congr_left
  intro n _
  by_cases h : n.id = id <;> simp [h, hG]

theorem Touches.refl (net : RaftNetwork) (id : Nat) (self : RaftNode) :
    Touches net net id self self :=
  ⟨fun n => n, fun _ => rfl, fun _ => rfl, (updNodes_id id net.nodes).symm, rfl⟩

theorem Touches.trans {net net1 net2 : RaftNetwork} {id : Nat} {self self1 self2 : RaftNode}
    (h1 : Touches net net1 id self self1) (h2 : Touches net1 net2 id self1 self2) :
    Touches net net2 id self self2 := by
  obtain ⟨G1, hG1, hA1, e1, s1⟩ := h1
  obtain ⟨G2, hG2, hA2, e2, s2⟩ := h2
  refine ⟨fun n => G2 (G1 n), fun n => by rw [hG2, hG1], fun n => by rw [hA2, hA1], ?_, ?_⟩
  · rw [e2, e1, updNodes_updNodes id G1 G2 hG1]
  · show G2 (G1 self) = self2
    rw [s1, s2]

theorem Touches.getNode_self {net net1 : RaftNetwork} {id : Nat} {self self1 : RaftNode}
    (t : Touches net net1 id self self1) (h : net.getNode id = some self) :
    net1.getNode id = some self1 := by
  obtain ⟨G, hG, _, e, s⟩ := t
  unfold RaftNetwork.getNode at h ⊢
  rw [e, find?_updNodes id G hG, h]
  have := getNode_id h
  simp [this, s]

theorem Touches.getNode_ne {net net1 : RaftNetwork} {id : Nat} {self self1 : RaftNode}
    (t : Touches net net1 id self self1) {j : Nat} (hj : j ≠ id) :
    net1.getNode j = net.getNode j := by
  obtain ⟨G, hG, _, e, _⟩ := t
  unfold RaftNetwork.getNode
  rw [e, find?_updNodes id G hG]
  cases h : net.nodes.find? (fun n => n.id == j) with
  | none => rfl
  | some n =>
    have : n.id = j := by simpa using List.find?_some h
    have hne : n.id ≠ id := by rw [this]; exact hj
    simp [hne]

theorem Touches.ids {net net1 : RaftNetwork} {id : Nat} {self self1 : RaftNode}
    (t : Touches net net1 id self self1) :
    net1.nodes.map (fun n => n.id) = net.nodes.map (fun n => n.id) := by
  obtain ⟨G, hG, _, e, _⟩ := t
  rw [e, updNodes_map_id id G hG]

theorem Touches.modifyNode (net : RaftNetwork) (id : Nat) (f : RaftNode → RaftNode)
    (self : RaftNode) (hf : ∀ n, (f n).id = n.id) (ha : ∀ n, (f n).isAlive = n.isAlive) :
    Touches net (net.modifyNode id f) id self (f self) :=
  ⟨f, hf, ha, rfl, rfl⟩

theorem getNode_modifyNode_self (net : RaftNetwork) (id : Nat) (f : RaftNode → RaftNode)
    (hf : ∀ n, (f n).id = n.id) :
    (net.modifyNode id f).getNode id = (net.getNode id).map f := by
  have e := find?_updNodes id f hf net.nodes id
  unfold updNodes at e
  unfold RaftNetwork.modifyNode RaftNetwork.getNode
  rw [e]
  cases h : net.nodes.find? (fun n => n.id == id) with
  | none => rfl
  | some n =>
    have : n.id = id := by simpa using List.find?_some h
    simp [this]

theorem getNode_modifyNode_ne (net : RaftNetwork) (id j : Nat) (f : RaftNode → RaftNode)
    (hf : ∀ n, (f n).id = n.id) (hj : j ≠ id) :
    (net.modifyNode id f).getNode j = net.getNode j := by
  have e := find?_updNodes id f hf net.nodes j
  unfold updNodes at e
  unfold RaftNetwork.modifyNode RaftNetwork.getNode
  rw [e]
  cases h : net.nodes.find? (fun n => n.id == j) with
  | none => rfl
  | some n =>
    have : n.id = j := by simpa using List.find?_some h
    have hne : n.id ≠ id := by rw [this]; exact hj
    simp [hne]

/-- What a call of `sendMessage` does to the node map and to the trace of calls:
only the sender's `messagesSent` can change, and the call is recorded. -/
theorem sendMessage_frame (E : Env) (net : RaftNetwork) (a b : Nat) (c : Content) :
    ∃ k, (net.sendMessage E a b c).2.nodes = updNodes a (RaftNode.addSent k) net.nodes ∧
      (net.sendMessage E a b c).2.sendCalls = net.sendCalls ++ [(a, b, c)] := by
  have z : updNodes a (RaftNode.addSent 0) net.nodes = net.nodes := updNodes_id a net.nodes
  unfold RaftNetwork.sendMessage
  simp only []
  split
  · split
    · exact ⟨0, by simp [z], rfl⟩
    · split
      · exact ⟨0, by simp [z], rfl⟩
      · split
        · exact ⟨0, by simp [z, RaftNetwork.random], rfl⟩
        · exact ⟨1, by simp [updNodes, RaftNetwork.modifyNode, RaftNetwork.random,
            RaftNode.addSent], rfl⟩
  · exact ⟨0, by simp [z], rfl⟩

theorem addSent_addSent (k1 k2 : Nat) (n : RaftNode) :
    (n.addSent k1).addSent k2 = n.addSent (k1 + k2) := by
  simp [RaftNode.addSent, Nat.add_assoc]

theorem getNode_of_nodes_eq {net net1 : RaftNetwork} {a : Nat} {G : RaftNode → RaftNode}
    (h : net1.nodes = updNodes a G net.nodes) (hG : ∀ n, (G n).id = n.id) (j : Nat) :
    net1.getNode j = (net.getNode j).map (fun n => if n.id = a then G n else n) := by
  unfold RaftNetwork.getNode
  rw [h, find?_updNodes a G hG]

theorem broadcastTargets_congr {net net1 : RaftNetwork} {a k : Nat}
    (h : net1.nodes = updNodes a (RaftNode.addSent k) net.nodes) (b : Nat) (ids : List Nat) :
    broadcastTargets net1 b ids = broadcastTargets net b ids := by
  unfold broadcastTargets
  apply List.filter_congr
  intro j _
  rw [getNode_of_nodes_eq h (fun _ => rfl) j]
  cases hj : net.getNode j with
  | none => rfl
  | some n => by_cases hn : n.id = a <;> simp [hn, RaftNode.addSent]

/-- What `broadcastLoop` does to the node map and to the trace of calls. -/
theorem broadcastLoop_frame (E : Env) (a : Nat) (c : Content) (ids : List Nat) :
    ∀ (cnt : Nat) (net : RaftNetwork),
      ∃ k, (RaftNetwork.broadcastLoop E a c ids cnt net).2.nodes
          = updNodes a (RaftNode.addSent k) net.nodes ∧
        (RaftNetwork.broadcastLoop E a c ids cnt net).2.sendCalls
          = net.sendCalls ++ (broadcastTargets net a ids).map (fun j => (a, j, c)) := by
  induction ids with
  | nil =>
    intro cnt net
    exact ⟨0, by simpa [RaftNetwork.broadcastLoop] using (updNodes_id a net.nodes).symm,
      by simp [RaftNetwork.broadcastLoop, broadcastTargets]⟩
  | cons j rest ih =>
    intro cnt net
    unfold RaftNetwork.broadcastLoop
    cases hj : net.getNode j with
    | none =>
      obtain ⟨k, h1, h2⟩ := ih cnt net
      exact ⟨k, by simpa using h1, by simp [h2, broadcastTargets, hj]⟩
    | some node =>
      by_cases hc : j ≠ a ∧ node.isAlive = true
      · obtain ⟨k1, f1, f2⟩ := sendMessage_frame E net a j c
        obtain ⟨k2, h1, h2⟩ := ih (if (net.sendMessage E a j c).1 then cnt + 1 else cnt)
          (net.sendMessage E a j c).2
        refine ⟨k1 + k2, ?_, ?_⟩
        · simp only [hc, and_self, if_true, ne_eq, not_false_eq_true]
          rw [h1, f1, updNodes_updNodes a (RaftNode.addSent k1) (RaftNode.addSent k2)
            (fun _ => rfl)]
          simp only [addSent_addSent]
        · simp only [hc, and_self, if_true, ne_eq, not_false_eq_true]
          rw [h2, f2, broadcastTargets_congr f1]
          have : broadcastTargets net a (j :: rest) = j :: broadcastTargets net a rest := by
            simp [broadcastTargets, hj, hc.1, hc.2]
          simp [this]
      · obtain ⟨k, h1, h2⟩ := ih cnt net
        refine ⟨k, ?_, ?_⟩
        · simp only [hc, if_false]; exact h1
        · simp only [hc, if_false]
          rw [h2]
          have : broadcastTargets net a (j :: rest) = broadcastTargets net a rest := by
            have : ¬ (j ≠ a ∧ node.isAlive = true) := hc
            simp only [broadcastTargets, List.filter_cons, hj]
            by_cases hja : j = a
            · simp [hja]
            · have hd : node.isAlive = false := by
                cases hh : node.isAlive
                · rfl
                · exact absurd ⟨hja, hh⟩ this
              simp [hja, hd]
          rw [this]

/-- What `broadcastMessage` does to the node map and to the trace of calls. -/
theorem broadcastMessage_frame (E : Env) (net : RaftNetwork) (a : Nat) (c : Content) :
    ∃ k, (net.broadcastMessage E a c).2.nodes = updNodes a (RaftNode.addSent k) net.nodes ∧
      (net.broadcastMessage E a c).2.sendCalls
        = net.sendCalls
          ++ (broadcastTargets net a (net.nodes.map (fun n => n.id))).map (fun j => (a, j, c)) :=
  broadcastLoop_frame E a c _ 0 net

theorem Touches.of_addSent {net net1 : RaftNetwork} {a k : Nat}
    (h : net1.nodes = updNodes a (RaftNode.addSent k) net.nodes) (self : RaftNode) :
    Touches net net1 a self (self.addSent k) :=
  ⟨RaftNode.addSent k, fun _ => rfl, fun _ => rfl, h, rfl⟩

theorem Touches.getNode_alive {net net1 : RaftNetwork} {id : Nat} {self self1 : RaftNode}
    (t : Touches net net1 id self self1) (j : Nat) :
    (net1.getNode j).map (fun n => n.isAlive) = (net.getNode j).map (fun n => n.isAlive) := by
  obtain ⟨G, hG, hA, e, _⟩ := t
  rw [getNode_of_nodes_eq e hG j]
  cases net.getNode j with
  | none => rfl
  | some n => by_cases hn : n.id = id <;> simp [hn, hA]

theorem Touches.targets {net net1 : RaftNetwork} {id : Nat} {self self1 : RaftNode}
    (t : Touches net net1 id self self1) (b : Nat) (ids : List Nat) :
    broadcastTargets net1 b ids = broadcastTargets net b ids := by
  unfold broadcastTargets
  apply List.filter_congr
  intro j _
  have := t.getNode_alive j
  cases h1 : net1.getNode j <;> cases h2 : net.getNode j <;> simp_all

theorem Touches.aliveIds {net net1 : RaftNetwork} {id : Nat} {self self1 : RaftNode}
    (t : Touches net net1 id self self1) : net1.aliveIds = net.aliveIds := by
  obtain ⟨G, hG, hA, e, _⟩ := t
  unfold RaftNetwork.aliveIds RaftNetwork.getAliveNodes
  rw [e]
  unfold updNodes
  induction net.nodes with
  | nil => rfl
  | cons n rest ih =>
    by_cases hn : n.id = id
    · cases ha : n.isAlive <;> simp [List.filter_cons, hn, hA, hG, ha, ih]
    · cases ha : n.isAlive <;> simp [List.filter_cons, hn, ha, ih]

theorem initLeaderMaps_eq (alive : List RaftNode) :
    ∀ self : RaftNode,
      RaftNode.initLeaderMaps self alive = RaftNode.initLeaderIds self (alive.map (fun n => n.id)) := by
  induction alive with
  | nil => intro self; rfl
  | cons n rest ih =>
    intro self
    simp only [RaftNode.initLeaderMaps, RaftNode.initLeaderIds, List.map_cons]
    by_cases h : n.id = self.id
    · simp only [h, ne_eq, not_true_eq_false, if_false]; exact ih self
    · simp only [h, ne_eq, not_false_eq_true, if_true]; exact ih _

theorem initLeaderIds_frame (alive : List Nat) :
    ∀ self : RaftNode,
      { RaftNode.initLeaderIds self alive with
          nextIndex := self.nextIndex, matchIndex := self.matchIndex } = self := by
  induction alive with
  | nil => intro self; rfl
  | cons j rest ih =>
    intro self
    simp only [RaftNode.initLeaderIds]
    by_cases h : j = self.id
    · simp only [h, ne_eq, not_true_eq_false, if_false]; exact ih self
    · simp only [h, ne_eq, not_false_eq_true, if_true]
      have := ih { self with nextIndex := setKey self.nextIndex j self.log.length,
                             matchIndex := setKey self.matchIndex j (-1) }
      simpa using congrArg
        (fun n : RaftNode => { n with nextIndex := self.nextIndex, matchIndex := self.matchIndex })
        this

theorem lastLogTerm_eq (self : RaftNode) :
    self.lastLogTerm = (self.log.getLast?.map (fun e => e.term)).getD 0 := by
  unfold RaftNode.lastLogTerm
  cases self.log.getLast? <;> rfl

/-! ## The handlers, node by node -/

/-- The effect of `handleRequestVote` on the network. -/
theorem handleRequestVote_effect (E : Env) (net : RaftNetwork) (id : Nat) (self : RaftNode)
    (term candidateId : Nat) (lastLogIndex : Int) (lastLogTerm : Nat)
    (h : net.getNode id = some self) :
    ∃ k, Touches net
        (RaftNode.handleRequestVote E net id term candidateId lastLogIndex lastLogTerm) id self
        ((self.afterRequestVote E.now term candidateId lastLogIndex lastLogTerm).addSent k) ∧
      (RaftNode.handleRequestVote E net id term candidateId lastLogIndex lastLogTerm).sendCalls
        = net.sendCalls ++ [(id, candidateId, Content.requestVoteResponse self.currentTerm
            (self.grants term candidateId lastLogIndex lastLogTerm))] := by
  unfold RaftNode.handleRequestVote
  simp only [h]
  have hv : (if term ≥ self.currentTerm ∧
      (self.votedFor = none ∨ self.votedFor = some candidateId) then
        (if lastLogTerm > self.lastLogTerm ∨
          (lastLogTerm = self.lastLogTerm ∧ lastLogIndex ≥ self.lastLogIndex) then true
         else false) else false) = self.grants term candidateId lastLogIndex lastLogTerm := by
    unfold RaftNode.grants
    by_cases h1 : term ≥ self.currentTerm ∧
        (self.votedFor = none ∨ self.votedFor = some candidateId)
    · by_cases h2 : lastLogTerm > self.lastLogTerm ∨
          (lastLogTerm = self.lastLogTerm ∧ lastLogIndex ≥ self.lastLogIndex)
      · simp [h1, h2]
      · simp [h1, h2]
    · have : ¬ (term ≥ self.currentTerm ∧
          (self.votedFor = none ∨ self.votedFor = some candidateId) ∧
          (lastLogTerm > self.lastLogTerm ∨
            (lastLogTerm = self.lastLogTerm ∧ lastLogIndex ≥ self.lastLogIndex))) :=
        fun hh => h1 ⟨hh.1, hh.2.1⟩
      simp [h1, this]
  rw [hv]
  unfold RaftNode.afterRequestVote
  cases hg : self.grants term candidateId lastLogIndex lastLogTerm
  · simp only [Bool.false_eq_true, if_false]
    obtain ⟨k, f1, f2⟩ := sendMessage_frame E net id candidateId
      (Content.requestVoteResponse self.currentTerm false)
    exact ⟨k, Touches.of_addSent f1 self, f2⟩
  · simp only [if_true]
    obtain ⟨k, f1, f2⟩ := sendMessage_frame E
      (net.modifyNode id (fun n => { n with votedFor := some candidateId, lastHeartbeat := E.now }))
      id candidateId (Content.requestVoteResponse self.currentTerm true)
    exact ⟨k, (Touches.modifyNode net id _ self (by intro n; rfl) (by intro n; rfl)).trans
      (Touches.of_addSent f1 _), f2⟩

theorem initLeaderIds_id (alive : List Nat) (self : RaftNode) :
    (RaftNode.initLeaderIds self alive).id = self.id := by
  simpa using congrArg RaftNode.id (initLeaderIds_frame alive self)

theorem initLeaderIds_isAlive (alive : List Nat) (self : RaftNode) :
    (RaftNode.initLeaderIds self alive).isAlive = self.isAlive := by
  simpa using congrArg RaftNode.isAlive (initLeaderIds_frame alive self)

theorem initLeaderIds_state (alive : List Nat) (self : RaftNode) :
    (RaftNode.initLeaderIds self alive).state = self.state := by
  simpa using congrArg RaftNode.state (initLeaderIds_frame alive self)

theorem initLeaderIds_currentTerm (alive : List Nat) (self : RaftNode) :
    (RaftNode.initLeaderIds self alive).currentTerm = self.currentTerm := by
  simpa using congrArg RaftNode.currentTerm (initLeaderIds_frame alive self)

theorem initLeaderIds_commitIndex (alive : List Nat) (self : RaftNode) :
    (RaftNode.initLeaderIds self alive).commitIndex = self.commitIndex := by
  simpa using congrArg RaftNode.commitIndex (initLeaderIds_frame alive self)

theorem initLeaderIds_votedFor (alive : List Nat) (self : RaftNode) :
    (RaftNode.initLeaderIds self alive).votedFor = self.votedFor := by
  simpa using congrArg RaftNode.votedFor (initLeaderIds_frame alive self)

theorem initLeaderIds_votesReceived (alive : List Nat) (self : RaftNode) :
    (RaftNode.initLeaderIds self alive).votesReceived = self.votesReceived := by
  simpa using congrArg RaftNode.votesReceived (initLeaderIds_frame alive self)

theorem initLeaderIds_log (alive : List Nat) (self : RaftNode) :
    (RaftNode.initLeaderIds self alive).log = self.log := by
  simpa using congrArg RaftNode.log (initLeaderIds_frame alive self)

/-- The effect of `sendHeartbeats` on the network. -/
theorem sendHeartbeats_effect (E : Env) (net : RaftNetwork) (id : Nat) (self : RaftNode)
    (h : net.getNode id = some self) :
    ∃ k, Touches net (RaftNode.sendHeartbeats E net id) id self (self.addSent k) ∧
      (RaftNode.sendHeartbeats E net id).sendCalls
        = net.sendCalls ++
          (if self.isAlive = true ∧ self.state = NodeState.leader then heartbeatCalls net self
           else []) := by
  have hid := getNode_id h
  unfold RaftNode.sendHeartbeats
  simp only [h]
  by_cases hc : self.isAlive = true ∧ self.state = NodeState.leader
  · obtain ⟨k, f1, f2⟩ := broadcastMessage_frame E net id
      (Content.appendEntries self.currentTerm self.id (-1) (-1) [] self.commitIndex)
    refine ⟨k, ?_, ?_⟩
    · simp only [hc.1, hc.2, Bool.not_true, ne_eq, not_true_eq_false, decide_False,
        Bool.or_self, Bool.false_eq_true, if_false]
      exact Touches.of_addSent f1 self
    · simp only [hc.1, hc.2, Bool.not_true, ne_eq, not_true_eq_false, decide_False,
        Bool.or_self, Bool.false_eq_true, if_false, and_self, if_true]
      rw [f2]
      simp only [heartbeatCalls, RaftNode.heartbeat, hid]
  · refine ⟨0, ?_, ?_⟩
    · have : (!self.isAlive || decide (self.state ≠ NodeState.leader)) = true := by
        cases ha : self.isAlive
        · simp
        · have : self.state ≠ NodeState.leader := fun hs => hc ⟨ha, hs⟩
          simp [this]
      simp only [this, if_true]
      exact Touches.of_addSent (by simpa using (updNodes_id id net.nodes).symm) self
    · have : (!self.isAlive || decide (self.state ≠ NodeState.leader)) = true := by
        cases ha : self.isAlive
        · simp
        · have : self.state ≠ NodeState.leader := fun hs => hc ⟨ha, hs⟩
          simp [this]
      simp only [this, if_true, hc, if_false, List.append_nil]

/-- The effect of `becomeLeader` on the network. -/
theorem becomeLeader_effect (E : Env) (net : RaftNetwork) (id : Nat) (self : RaftNode)
    (h : net.getNode id = some self) :
    ∃ k, Touches net (RaftNode.becomeLeader E net id) id self
        ((RaftNode.initLeaderIds
          { self with state := NodeState.leader, stateChangeTime := E.now,
                      lastHeartbeat := E.now } net.aliveIds).addSent k) ∧
      (RaftNode.becomeLeader E net id).sendCalls
        = net.sendCalls ++ (if self.isAlive = true then heartbeatCalls net self else []) := by
  unfold RaftNode.becomeLeader
  simp only []
  have t1 := Touches.modifyNode net id (fun n =>
    { n with state := NodeState.leader, stateChangeTime := E.now, lastHeartbeat := E.now }) self
    (by intro n; rfl) (by intro n; rfl)
  have t2 := Touches.modifyNode
    (net.modifyNode id (fun n =>
      { n with state := NodeState.leader, stateChangeTime := E.now, lastHeartbeat := E.now }))
    id (fun n => RaftNode.initLeaderMaps n
      (net.modifyNode id (fun n =>
        { n with state := NodeState.leader, stateChangeTime := E.now,
                 lastHeartbeat := E.now })).getAliveNodes)
    { self with state := NodeState.leader, stateChangeTime := E.now, lastHeartbeat := E.now }
    (by intro n; simp only [initLeaderMaps_eq, initLeaderIds_id])
    (by intro n; simp only [initLeaderMaps_eq, initLeaderIds_isAlive])
  have t12 := t1.trans t2
  have ea : (net.modifyNode id (fun n =>
      { n with state := NodeState.leader, stateChangeTime := E.now,
               lastHeartbeat := E.now })).getAliveNodes.map (fun n => n.id) = net.aliveIds :=
    t1.aliveIds
  simp only [initLeaderMaps_eq, ea] at t12 ⊢
  obtain ⟨k, t3, f3⟩ := sendHeartbeats_effect E _ id _ (t12.getNode_self h)
  refine ⟨k, t12.trans t3, ?_⟩
  rw [f3]
  have e1 : heartbeatCalls
      ((net.modifyNode id (fun n =>
          { n with state := NodeState.leader, stateChangeTime := E.now,
                   lastHeartbeat := E.now })).modifyNode id
        (fun n => RaftNode.initLeaderIds n net.aliveIds))
      (RaftNode.initLeaderIds
        { self with state := NodeState.leader, stateChangeTime := E.now,
                    lastHeartbeat := E.now } net.aliveIds)
      = heartbeatCalls net self := by
    unfold heartbeatCalls RaftNode.heartbeat
    rw [t12.targets, t12.ids, initLeaderIds_id, initLeaderIds_currentTerm,
      initLeaderIds_commitIndex]
  rw [e1]
  simp [initLeaderIds_isAlive, initLeaderIds_state]

/-- The effect of `handleRequestVoteResponse` on the network. -/
theorem handleRequestVoteResponse_effect (E : Env) (net : RaftNetwork) (id : Nat)
    (self : RaftNode) (term : Nat) (voteGranted : Bool) (h : net.getNode id = some self) :
    ∃ k, Touches net (RaftNode.handleRequestVoteResponse E net id term voteGranted) id self
        ((self.afterVoteResponse E.now net.aliveIds term voteGranted).addSent k) ∧
      (RaftNode.handleRequestVoteResponse E net id term voteGranted).sendCalls
        = net.sendCalls ++
          (if self.wins net.aliveIds term voteGranted ∧ self.isAlive = true then
            heartbeatCalls net self else []) := by
  have z : Touches net net id self (self.addSent 0) := Touches.refl net id self
  unfold RaftNode.handleRequestVoteResponse RaftNode.afterVoteResponse RaftNode.wins
  simp only [h]
  by_cases hc : self.state ≠ NodeState.candidate ∨ term ≠ self.currentTerm
  · refine ⟨0, by simpa only [hc, if_true] using z, ?_⟩
    have : ¬ (self.state = NodeState.candidate ∧ term = self.currentTerm ∧ voteGranted = true ∧
        ((self.votesReceived + 1 : Nat) : ℚ) > (net.aliveIds.length : ℚ) / 2) := by
      rintro ⟨a, b, _⟩
      rcases hc with hc | hc
      · exact hc a
      · exact hc b
    have e : (self.state = NodeState.candidate ∧ term = self.currentTerm ∧ voteGranted = true ∧
        ((self.votesReceived + 1 : Nat) : ℚ) > (net.aliveIds.length : ℚ) / 2) ∧
          self.isAlive = true ↔ False := by
      constructor
      · intro hh; exact this hh.1
      · intro hh; exact hh.elim
    simp only [hc, if_true, e, if_false, List.append_nil]
  · have hs : self.state = NodeState.candidate := by
      by_contra hh; exact hc (Or.inl hh)
    have ht : term = self.currentTerm := by
      by_contra hh; exact hc (Or.inr hh)
    simp only [hc, if_false]
    cases voteGranted
    · refine ⟨0, by simpa using z, by simp⟩
    · simp only [if_true]
      have t1 := Touches.modifyNode net id
        (fun n => { n with votesReceived := n.votesReceived + 1 }) self
        (by intro n; rfl) (by intro n; rfl)
      have el : (net.modifyNode id
          (fun n => { n with votesReceived := n.votesReceived + 1 })).getAliveNodes.length
            = net.aliveIds.length := by
        have := congrArg List.length t1.aliveIds
        simpa [RaftNetwork.aliveIds] using this
      rw [el]
      by_cases hw : ((self.votesReceived + 1 : Nat) : ℚ) > (net.aliveIds.length : ℚ) / 2
      · simp only [hw, if_true]
        obtain ⟨k, t2, f2⟩ := becomeLeader_effect E _ id _ (t1.getNode_self h)
        refine ⟨k, ?_, ?_⟩
        · have := t1.trans t2
          rw [t1.aliveIds] at this
          exact this
        · rw [f2]
          have e1 : heartbeatCalls (net.modifyNode id
              (fun n => { n with votesReceived := n.votesReceived + 1 }))
              { self with votesReceived := self.votesReceived + 1 } = heartbeatCalls net self := by
            unfold heartbeatCalls RaftNode.heartbeat
            rw [t1.targets, t1.ids]
          simp only [e1, modifyNode_sendCalls]
          simp [hs, ht, hw]
      · simp only [hw, if_false]
        refine ⟨0, by simpa using t1, ?_⟩
        simp [hw]

theorem stepDown_id (now : ℚ) (n : RaftNode) : (RaftNode.stepDown now n).id = n.id := by
  unfold RaftNode.stepDown; split <;> rfl

theorem stepDown_isAlive (now : ℚ) (n : RaftNode) :
    (RaftNode.stepDown now n).isAlive = n.isAlive := by
  unfold RaftNode.stepDown; split <;> rfl

theorem stepDown_state (now : ℚ) (n : RaftNode) :
    (RaftNode.stepDown now n).state = NodeState.follower := by
  unfold RaftNode.stepDown
  split
  · rfl
  · rename_i h; simpa using h

theorem stepDown_frame (now : ℚ) (n : RaftNode) :
    { RaftNode.stepDown now n with state := n.state, stateChangeTime := n.stateChangeTime } = n := by
  unfold RaftNode.stepDown; split <;> rfl

theorem pushEntries_eq (now : ℚ) (entries : List EntryData) :
    ∀ log : List LogEntry,
      RaftNode.pushEntries now log entries
        = log ++ entries.map (fun e => LogEntry.new now e.term e.index e.command) := by
  induction entries with
  | nil => intro log; simp [RaftNode.pushEntries]
  | cons e rest ih => intro log; simp [RaftNode.pushEntries, ih]

/-- The effect of `handleAppendEntries` on the network. -/
theorem handleAppendEntries_effect (E : Env) (net : RaftNetwork) (id : Nat) (self : RaftNode)
    (term leaderId : Nat) (entries : List EntryData) (h : net.getNode id = some self) :
    ∃ k, Touches net (RaftNode.handleAppendEntries E net id term leaderId entries) id self
        ((self.afterAppendEntries E.now term entries).addSent k) ∧
      (RaftNode.handleAppendEntries E net id term leaderId entries).sendCalls
        = net.sendCalls ++ [(id, leaderId,
            Content.appendEntriesResponse self.currentTerm (decide (term ≥ self.currentTerm)))] := by
  unfold RaftNode.handleAppendEntries RaftNode.afterAppendEntries
  simp only [h]
  by_cases hc : term ≥ self.currentTerm
  · simp only [hc, if_true]
    have t1 := Touches.modifyNode net id (fun n =>
      { RaftNode.stepDown E.now { n with lastHeartbeat := E.now } with
        log := RaftNode.pushEntries E.now
          (RaftNode.stepDown E.now { n with lastHeartbeat := E.now }).log entries }) self
      (by intro n; simp only [stepDown_id]) (by intro n; simp only [stepDown_isAlive])
    obtain ⟨k, f1, f2⟩ := sendMessage_frame E
      (net.modifyNode id (fun n =>
        { RaftNode.stepDown E.now { n with lastHeartbeat := E.now } with
          log := RaftNode.pushEntries E.now
            (RaftNode.stepDown E.now { n with lastHeartbeat := E.now }).log entries }))
      id leaderId (Content.appendEntriesResponse self.currentTerm (decide True))
    exact ⟨k, t1.trans (Touches.of_addSent f1 _), f2⟩
  · simp only [hc, if_false]
    obtain ⟨k, f1, f2⟩ := sendMessage_frame E net id leaderId
      (Content.appendEntriesResponse self.currentTerm (decide False))
    exact ⟨k, Touches.of_addSent f1 _, f2⟩

theorem Touches.heartbeatCalls_eq {net net1 : RaftNetwork} {id : Nat} {self self1 : RaftNode}
    (t : Touches net net1 id self self1) (x : RaftNode) :
    heartbeatCalls net1 x = heartbeatCalls net x := by
  unfold heartbeatCalls
  rw [t.targets, t.ids]

/-- The effect of the term check of `handleMessage`. -/
theorem termCheck_touches (E : Env) (net : RaftNetwork) (id : Nat) (self : RaftNode)
    (term : Nat) :
    Touches net
      (if term > self.currentTerm then
        net.modifyNode id (fun n =>
          RaftNode.stepDown E.now { n with currentTerm := term, votedFor := none })
       else net) id self (self.afterTerm E.now term) := by
  unfold RaftNode.afterTerm
  by_cases hc : term > self.currentTerm
  · simp only [hc, if_true]
    exact Touches.modifyNode net id _ self (by intro n; simp only [stepDown_id])
      (by intro n; simp only [stepDown_isAlive])
  · simp only [hc, if_false]
    exact Touches.refl net id self

theorem termCheck_sendCalls (E : Env) (net : RaftNetwork) (id : Nat) (self : RaftNode)
    (term : Nat) :
    (if term > self.currentTerm then
        net.modifyNode id (fun n =>
          RaftNode.stepDown E.now { n with currentTerm := term, votedFor := none })
       else net).sendCalls = net.sendCalls := by
  split <;> rfl

/-- The effect of `handleMessage` on the network: only the handling node is
written, it becomes `afterMessage` (up to `messagesSent`), and the calls of
`sendMessage` are exactly `replies`. -/
theorem handleMessage_effect (E : Env) (net : RaftNetwork) (id : Nat) (self : RaftNode)
    (m : Content) (h : net.getNode id = some self) :
    ∃ k, Touches net (RaftNode.handleMessage E net id m) id self
        ((self.afterMessage E.now net.aliveIds m).addSent k) ∧
      (RaftNode.handleMessage E net id m).sendCalls
        = net.sendCalls ++ RaftNode.replies net id (self.afterTerm E.now m.term) m := by
  have t0 := termCheck_touches E net id self m.term
  have s0 := termCheck_sendCalls E net id self m.term
  have h1 := t0.getNode_self h
  have e : ∀ (n0 : RaftNetwork) (t : Nat) (b : Bool),
      RaftNode.handleAppendEntriesResponse E n0 id t b = n0 := by
    intro n0 t b
    unfold RaftNode.handleAppendEntriesResponse
    cases n0.getNode id <;> simp
  cases m with
  | requestVote term candidateId lastLogIndex lastLogTerm =>
    simp only [RaftNode.handleMessage, h]
    obtain ⟨k, t1, f1⟩ := handleRequestVote_effect E _ id _ term candidateId lastLogIndex
      lastLogTerm h1
    exact ⟨k, t0.trans t1, by rw [f1, s0]; rfl⟩
  | requestVoteResponse term voteGranted =>
    simp only [RaftNode.handleMessage, h]
    obtain ⟨k, t1, f1⟩ := handleRequestVoteResponse_effect E _ id _ term voteGranted h1
    refine ⟨k, ?_, ?_⟩
    · have := t0.trans t1
      rw [t0.aliveIds] at this
      exact this
    · rw [f1, s0, t0.aliveIds, t0.heartbeatCalls_eq]; rfl
  | appendEntries term leaderId prevLogIndex prevLogTerm entries leaderCommit =>
    simp only [RaftNode.handleMessage, h]
    obtain ⟨k, t1, f1⟩ := handleAppendEntries_effect E _ id _ term leaderId entries h1
    exact ⟨k, t0.trans t1, by rw [f1, s0]; rfl⟩
  | appendEntriesResponse term success =>
    simp only [RaftNode.handleMessage, h, e]
    exact ⟨0, t0, by rw [s0]; simp [RaftNode.replies]⟩

/-! ## Node-level claims -/

theorem addSent_currentTerm (k : Nat) (n : RaftNode) : (n.addSent k).currentTerm = n.currentTerm := rfl
theorem addSent_votedFor (k : Nat) (n : RaftNode) : (n.addSent k).votedFor = n.votedFor := rfl
theorem addSent_state (k : Nat) (n : RaftNode) : (n.addSent k).state = n.state := rfl
theorem addSent_log (k : Nat) (n : RaftNode) : (n.addSent k).log = n.log := rfl
theorem addSent_votesReceived (k : Nat) (n : RaftNode) :
    (n.addSent k).votesReceived = n.votesReceived := rfl
theorem addSent_lastHeartbeat (k : Nat) (n : RaftNode) :
    (n.addSent k).lastHeartbeat = n.lastHeartbeat := rfl
theorem addSent_electionTimeout (k : Nat) (n : RaftNode) :
    (n.addSent k).electionTimeout = n.electionTimeout := rfl
theorem addSent_nextIndex (k : Nat) (n : RaftNode) : (n.addSent k).nextIndex = n.nextIndex := rfl
theorem addSent_matchIndex (k : Nat) (n : RaftNode) :
    (n.addSent k).matchIndex = n.matchIndex := rfl
theorem addSent_isAlive (k : Nat) (n : RaftNode) : (n.addSent k).isAlive = n.isAlive := rfl
theorem addSent_messageQueue (k : Nat) (n : RaftNode) :
    (n.addSent k).messageQueue = n.messageQueue := rfl
theorem addSent_id (k : Nat) (n : RaftNode) : (n.addSent k).id = n.id := rfl
theorem addSent_commitIndex (k : Nat) (n : RaftNode) :
    (n.addSent k).commitIndex = n.commitIndex := rfl
theorem addSent_isPartitioned (k : Nat) (n : RaftNode) :
    (n.addSent k).isPartitioned = n.isPartitioned := rfl
theorem addSent_messagesReceived (k : Nat) (n : RaftNode) :
    (n.addSent k).messagesReceived = n.messagesReceived := rfl

theorem afterTerm_of_gt (now : ℚ) (self : RaftNode) (term : Nat) (h : term > self.currentTerm) :
    self.afterTerm now term
      = RaftNode.stepDown now { self with currentTerm := term, votedFor := none } := by
  unfold RaftNode.afterTerm; simp [h]

theorem afterTerm_of_le (now : ℚ) (self : RaftNode) (term : Nat) (h : term ≤ self.currentTerm) :
    self.afterTerm now term = self := by
  unfold RaftNode.afterTerm; simp [Nat.not_lt.mpr h]

theorem stepDown_currentTerm (now : ℚ) (n : RaftNode) :
    (RaftNode.stepDown now n).currentTerm = n.currentTerm := by
  unfold RaftNode.stepDown; split <;> rfl

theorem stepDown_votedFor (now : ℚ) (n : RaftNode) :
    (RaftNode.stepDown now n).votedFor = n.votedFor := by
  unfold RaftNode.stepDown; split <;> rfl

theorem stepDown_log (now : ℚ) (n : RaftNode) : (RaftNode.stepDown now n).log = n.log := by
  unfold RaftNode.stepDown; split <;> rfl

theorem stepDown_lastHeartbeat (now : ℚ) (n : RaftNode) :
    (RaftNode.stepDown now n).lastHeartbeat = n.lastHeartbeat := by
  unfold RaftNode.stepDown; split <;> rfl

theorem stepDown_electionTimeout (now : ℚ) (n : RaftNode) :
    (RaftNode.stepDown now n).electionTimeout = n.electionTimeout := by
  unfold RaftNode.stepDown; split <;> rfl

theorem stepDown_votesReceived (now : ℚ) (n : RaftNode) :
    (RaftNode.stepDown now n).votesReceived = n.votesReceived := by
  unfold RaftNode.stepDown; split <;> rfl

theorem stepDown_nextIndex (now : ℚ) (n : RaftNode) :
    (RaftNode.stepDown now n).nextIndex = n.nextIndex := by
  unfold RaftNode.stepDown; split <;> rfl

theorem stepDown_matchIndex (now : ℚ) (n : RaftNode) :
    (RaftNode.stepDown now n).matchIndex = n.matchIndex := by
  unfold RaftNode.stepDown; split <;> rfl

theorem stepDown_messageQueue (now : ℚ) (n : RaftNode) :
    (RaftNode.stepDown now n).messageQueue = n.messageQueue := by
  unfold RaftNode.stepDown; split <;> rfl

theorem stepDown_commitIndex (now : ℚ) (n : RaftNode) :
    (RaftNode.stepDown now n).commitIndex = n.commitIndex := by
  unfold RaftNode.stepDown; split <;> rfl

theorem stepDown_isPartitioned (now : ℚ) (n : RaftNode) :
    (RaftNode.stepDown now n).isPartitioned = n.isPartitioned := by
  unfold RaftNode.stepDown; split <;> rfl

theorem stepDown_messagesReceived (now : ℚ) (n : RaftNode) :
    (RaftNode.stepDown now n).messagesReceived = n.messagesReceived := by
  unfold RaftNode.stepDown; split <;> rfl

theorem afterTerm_currentTerm (now : ℚ) (self : RaftNode) (term : Nat) :
    (self.afterTerm now term).currentTerm = max self.currentTerm term := by
  by_cases h : term > self.currentTerm
  · rw [afterTerm_of_gt now self term h, stepDown_currentTerm]
    simp [Nat.max_eq_right (Nat.le_of_lt h)]
  · rw [afterTerm_of_le now self term (Nat.not_lt.mp h)]
    simp [Nat.max_eq_left (Nat.not_lt.mp h)]

theorem afterTerm_term_le (now : ℚ) (self : RaftNode) (term : Nat) :
    term ≤ (self.afterTerm now term).currentTerm := by
  rw [afterTerm_currentTerm]; exact Nat.le_max_right _ _

theorem afterTerm_log (now : ℚ) (self : RaftNode) (term : Nat) :
    (self.afterTerm now term).log = self.log := by
  unfold RaftNode.afterTerm; split
  · rw [stepDown_log]
  · rfl

theorem afterTerm_isAlive (now : ℚ) (self : RaftNode) (term : Nat) :
    (self.afterTerm now term).isAlive = self.isAlive := by
  unfold RaftNode.afterTerm; split
  · rw [stepDown_isAlive]
  · rfl

theorem afterTerm_id (now : ℚ) (self : RaftNode) (term : Nat) :
    (self.afterTerm now term).id = self.id := by
  unfold RaftNode.afterTerm; split
  · rw [stepDown_id]
  · rfl

theorem afterTerm_nextIndex (now : ℚ) (self : RaftNode) (term : Nat) :
    (self.afterTerm now term).nextIndex = self.nextIndex := by
  unfold RaftNode.afterTerm; split
  · rw [stepDown_nextIndex]
  · rfl

theorem afterTerm_matchIndex (now : ℚ) (self : RaftNode) (term : Nat) :
    (self.afterTerm now term).matchIndex = self.matchIndex := by
  unfold RaftNode.afterTerm; split
  · rw [stepDown_matchIndex]
  · rfl

theorem afterTerm_messageQueue (now : ℚ) (self : RaftNode) (term : Nat) :
    (self.afterTerm now term).messageQueue = self.messageQueue := by
  unfold RaftNode.afterTerm; split
  · rw [stepDown_messageQueue]
  · rfl

theorem afterTerm_votesReceived (now : ℚ) (self : RaftNode) (term : Nat) :
    (self.afterTerm now term).votesReceived = self.votesReceived := by
  unfold RaftNode.afterTerm; split
  · rw [stepDown_votesReceived]
  · rfl

theorem afterTerm_lastHeartbeat (now : ℚ) (self : RaftNode) (term : Nat) :
    (self.afterTerm now term).lastHeartbeat = self.lastHeartbeat := by
  unfold RaftNode.afterTerm; split
  · rw [stepDown_lastHeartbeat]
  · rfl

theorem afterTerm_electionTimeout (now : ℚ) (self : RaftNode) (term : Nat) :
    (self.afterTerm now term).electionTimeout = self.electionTimeout := by
  unfold RaftNode.afterTerm; split
  · rw [stepDown_electionTimeout]
  · rfl

theorem afterTerm_commitIndex (now : ℚ) (self : RaftNode) (term : Nat) :
    (self.afterTerm now term).commitIndex = self.commitIndex := by
  unfold RaftNode.afterTerm; split
  · rw [stepDown_commitIndex]
  · rfl

theorem afterTerm_isPartitioned (now : ℚ) (self : RaftNode) (term : Nat) :
    (self.afterTerm now term).isPartitioned = self.isPartitioned := by
  unfold RaftNode.afterTerm; split
  · rw [stepDown_isPartitioned]
  · rfl

theorem afterTerm_messagesReceived (now : ℚ) (self : RaftNode) (term : Nat) :
    (self.afterTerm now term).messagesReceived = self.messagesReceived := by
  unfold RaftNode.afterTerm; split
  · rw [stepDown_messagesReceived]
  · rfl

theorem afterTerm_gt_state (now : ℚ) (self : RaftNode) (term : Nat)
    (h : term > self.currentTerm) :
    (self.afterTerm now term).state = NodeState.follower ∧
    (self.afterTerm now term).votedFor = none ∧
    (self.afterTerm now term).currentTerm = term := by
  rw [afterTerm_of_gt now self term h]
  exact ⟨stepDown_state _ _, by rw [stepDown_votedFor], by rw [stepDown_currentTerm]⟩

theorem afterRequestVote_frame (now : ℚ) (self : RaftNode) (term c : Nat) (li : Int) (lt : Nat) :
    { self.afterRequestVote now term c li lt with
        votedFor := self.votedFor, lastHeartbeat := self.lastHeartbeat } = self := by
  unfold RaftNode.afterRequestVote; split <;> rfl

theorem afterRequestVote_currentTerm (now : ℚ) (self : RaftNode) (term c : Nat) (li : Int)
    (lt : Nat) : (self.afterRequestVote now term c li lt).currentTerm = self.currentTerm := by
  simpa using congrArg RaftNode.currentTerm (afterRequestVote_frame now self term c li lt)

theorem afterRequestVote_state (now : ℚ) (self : RaftNode) (term c : Nat) (li : Int)
    (lt : Nat) : (self.afterRequestVote now term c li lt).state = self.state := by
  simpa using congrArg RaftNode.state (afterRequestVote_frame now self term c li lt)

theorem afterRequestVote_log (now : ℚ) (self : RaftNode) (term c : Nat) (li : Int)
    (lt : Nat) : (self.afterRequestVote now term c li lt).log = self.log := by
  simpa using congrArg RaftNode.log (afterRequestVote_frame now self term c li lt)

theorem afterRequestVote_votesReceived (now : ℚ) (self : RaftNode) (term c : Nat) (li : Int)
    (lt : Nat) : (self.afterRequestVote now term c li lt).votesReceived = self.votesReceived := by
  simpa using congrArg RaftNode.votesReceived (afterRequestVote_frame now self term c li lt)

theorem afterRequestVote_nextIndex (now : ℚ) (self : RaftNode) (term c : Nat) (li : Int)
    (lt : Nat) : (self.afterRequestVote now term c li lt).nextIndex = self.nextIndex := by
  simpa using congrArg RaftNode.nextIndex (afterRequestVote_frame now self term c li lt)

theorem afterRequestVote_matchIndex (now : ℚ) (self : RaftNode) (term c : Nat) (li : Int)
    (lt : Nat) : (self.afterRequestVote now term c li lt).matchIndex = self.matchIndex := by
  simpa using congrArg RaftNode.matchIndex (afterRequestVote_frame now self term c li lt)

theorem afterRequestVote_messageQueue (now : ℚ) (self : RaftNode) (term c : Nat) (li : Int)
    (lt : Nat) : (self.afterRequestVote now term c li lt).messageQueue = self.messageQueue := by
  simpa using congrArg RaftNode.messageQueue (afterRequestVote_frame now self term c li lt)

theorem afterRequestVote_isAlive (now : ℚ) (self : RaftNode) (term c : Nat) (li : Int)
    (lt : Nat) : (self.afterRequestVote now term c li lt).isAlive = self.isAlive := by
  simpa using congrArg RaftNode.isAlive (afterRequestVote_frame now self term c li lt)

theorem afterRequestVote_messagesReceived (now : ℚ) (self : RaftNode) (term c : Nat) (li : Int)
    (lt : Nat) :
    (self.afterRequestVote now term c li lt).messagesReceived = self.messagesReceived := by
  simpa using congrArg RaftNode.messagesReceived (afterRequestVote_frame now self term c li lt)

theorem afterRequestVote_votedFor (now : ℚ) (self : RaftNode) (term c : Nat) (li : Int)
    (lt : Nat) :
    (self.afterRequestVote now term c li lt).votedFor
      = if self.grants term c li lt then some c else self.votedFor := by
  unfold RaftNode.afterRequestVote; split <;> rfl

theorem afterRequestVote_lastHeartbeat (now : ℚ) (self : RaftNode) (term c : Nat) (li : Int)
    (lt : Nat) :
    (self.afterRequestVote now term c li lt).lastHeartbeat
      = if self.grants term c li lt then now else self.lastHeartbeat := by
  unfold RaftNode.afterRequestVote; split <;> rfl

theorem afterRequestVote_electionTimeout (now : ℚ) (self : RaftNode) (term c : Nat) (li : Int)
    (lt : Nat) :
    (self.afterRequestVote now term c li lt).electionTimeout = self.electionTimeout := by
  simpa using congrArg RaftNode.electionTimeout (afterRequestVote_frame now self term c li lt)

theorem afterVoteResponse_of_not (now : ℚ) (alive : List Nat) (self : RaftNode) (term : Nat)
    (g : Bool) (h : self.state ≠ NodeState.candidate ∨ term ≠ self.currentTerm ∨ g = false) :
    self.afterVoteResponse now alive term g = self := by
  unfold RaftNode.afterVoteResponse
  rcases h with h | h | h
  · simp [h]
  · simp [h]
  · subst h; simp

theorem afterVoteResponse_frame (now : ℚ) (alive : List Nat) (self : RaftNode) (term : Nat)
    (g : Bool) :
    { self.afterVoteResponse now alive term g with
        state := self.state, votesReceived := self.votesReceived,
        stateChangeTime := self.stateChangeTime, lastHeartbeat := self.lastHeartbeat,
        nextIndex := self.nextIndex, matchIndex := self.matchIndex } = self := by
  unfold RaftNode.afterVoteResponse
  split
  · rfl
  · split
    · split
      · have := initLeaderIds_frame alive
          { self with votesReceived := self.votesReceived + 1, state := NodeState.leader,
                      stateChangeTime := now, lastHeartbeat := now }
        simpa using congrArg (fun n : RaftNode =>
          { n with state := self.state, votesReceived := self.votesReceived,
                   stateChangeTime := self.stateChangeTime,
                   lastHeartbeat := self.lastHeartbeat }) this
      · rfl
    · rfl

theorem afterVoteResponse_currentTerm (now : ℚ) (alive : List Nat) (self : RaftNode)
    (term : Nat) (g : Bool) :
    (self.afterVoteResponse now alive term g).currentTerm = self.currentTerm := by
  simpa using congrArg RaftNode.currentTerm (afterVoteResponse_frame now alive self term g)

theorem afterVoteResponse_votedFor (now : ℚ) (alive : List Nat) (self : RaftNode)
    (term : Nat) (g : Bool) :
    (self.afterVoteResponse now alive term g).votedFor = self.votedFor := by
  simpa using congrArg RaftNode.votedFor (afterVoteResponse_frame now alive self term g)

theorem afterVoteResponse_log (now : ℚ) (alive : List Nat) (self : RaftNode)
    (term : Nat) (g : Bool) :
    (self.afterVoteResponse now alive term g).log = self.log := by
  simpa using congrArg RaftNode.log (afterVoteResponse_frame now alive self term g)

theorem afterVoteResponse_messageQueue (now : ℚ) (alive : List Nat) (self : RaftNode)
    (term : Nat) (g : Bool) :
    (self.afterVoteResponse now alive term g).messageQueue = self.messageQueue := by
  simpa using congrArg RaftNode.messageQueue (afterVoteResponse_frame now alive self term g)

theorem afterVoteResponse_isAlive (now : ℚ) (alive : List Nat) (self : RaftNode)
    (term : Nat) (g : Bool) :
    (self.afterVoteResponse now alive term g).isAlive = self.isAlive := by
  simpa using congrArg RaftNode.isAlive (afterVoteResponse_frame now alive self term g)

theorem afterVoteResponse_messagesReceived (now : ℚ) (alive : List Nat) (self : RaftNode)
    (term : Nat) (g : Bool) :
    (self.afterVoteResponse now alive term g).messagesReceived = self.messagesReceived := by
  simpa using congrArg RaftNode.messagesReceived (afterVoteResponse_frame now alive self term g)

theorem afterVoteResponse_state (now : ℚ) (alive : List Nat) (self : RaftNode)
    (term : Nat) (g : Bool) :
    (self.afterVoteResponse now alive term g).state
      = if self.wins alive term g then NodeState.leader else self.state := by
  unfold RaftNode.afterVoteResponse RaftNode.wins
  by_cases h1 : self.state ≠ NodeState.candidate ∨ term ≠ self.currentTerm
  · have : ¬ (self.state = NodeState.candidate ∧ term = self.currentTerm ∧ g = true ∧
        ((self.votesReceived + 1 : Nat) : ℚ) > (alive.length : ℚ) / 2) := by
      rintro ⟨a, b, _⟩
      rcases h1 with h1 | h1
      · exact h1 a
      · exact h1 b
    simp only [h1, if_true, this, if_false]
  · have hs : self.state = NodeState.candidate := by
      by_contra hh; exact h1 (Or.inl hh)
    have ht : term = self.currentTerm := by
      by_contra hh; exact h1 (Or.inr hh)
    simp only [h1, if_false]
    cases g
    · simp
    · by_cases hw : ((self.votesReceived + 1 : Nat) : ℚ) > (alive.length : ℚ) / 2
      · simp only [if_true, hw, hs, ht, and_self, initLeaderIds_state]
      · simp only [if_true, hw, if_false, and_false]

theorem afterVoteResponse_votesReceived (now : ℚ) (alive : List Nat) (self : RaftNode)
    (term : Nat) (g : Bool) :
    (self.afterVoteResponse now alive term g).votesReceived
      = if self.state = NodeState.candidate ∧ term = self.currentTerm ∧ g = true then
          self.votesReceived + 1 else self.votesReceived := by
  unfold RaftNode.afterVoteResponse
  by_cases h1 : self.state ≠ NodeState.candidate ∨ term ≠ self.currentTerm
  · have : ¬ (self.state = NodeState.candidate ∧ term = self.currentTerm ∧ g = true) := by
      rintro ⟨a, b, _⟩
      rcases h1 with h1 | h1
      · exact h1 a
      · exact h1 b
    simp only [h1, if_true, this, if_false]
  · have hs : self.state = NodeState.candidate := by
      by_contra hh; exact h1 (Or.inl hh)
    have ht : term = self.currentTerm := by
      by_contra hh; exact h1 (Or.inr hh)
    simp only [h1, if_false]
    cases g
    · simp
    · by_cases hw : ((self.votesReceived + 1 : Nat) : ℚ) > (alive.length : ℚ) / 2
      · simp only [if_true, hw, hs, ht, and_self, initLeaderIds_votesReceived]
      · simp only [if_true, hw, if_false, hs, ht, and_self]

theorem afterAppendEntries_of_ge (now : ℚ) (self : RaftNode) (term : Nat)
    (entries : List EntryData) (h : term ≥ self.currentTerm) :
    self.afterAppendEntries now term entries
      = { RaftNode.stepDown now { self with lastHeartbeat := now } with
          log := self.log ++ entries.map (fun e => LogEntry.new now e.term e.index e.command) } := by
  unfold RaftNode.afterAppendEntries
  simp only [h, if_true, pushEntries_eq, stepDown_log]

theorem afterAppendEntries_of_lt (now : ℚ) (self : RaftNode) (term : Nat)
    (entries : List EntryData) (h : term < self.currentTerm) :
    self.afterAppendEntries now term entries = self := by
  unfold RaftNode.afterAppendEntries
  simp [Nat.not_le.mpr h]

theorem afterAppendEntries_frame (now : ℚ) (self : RaftNode) (term : Nat)
    (entries : List EntryData) :
    { self.afterAppendEntries now term entries with
        state := self.state, stateChangeTime := self.stateChangeTime,
        lastHeartbeat := self.lastHeartbeat, log := self.log } = self := by
  by_cases h : term ≥ self.currentTerm
  · rw [afterAppendEntries_of_ge now self term entries h]
    have := stepDown_frame now { self with lastHeartbeat := now }
    simpa using congrArg (fun n : RaftNode =>
      { n with lastHeartbeat := self.lastHeartbeat, log := self.log }) this
  · rw [afterAppendEntries_of_lt now self term entries (Nat.not_le.mp h)]

theorem afterAppendEntries_currentTerm (now : ℚ) (self : RaftNode) (term : Nat)
    (entries : List EntryData) :
    (self.afterAppendEntries now term entries).currentTerm = self.currentTerm := by
  simpa using congrArg RaftNode.currentTerm (afterAppendEntries_frame now self term entries)

theorem afterAppendEntries_votedFor (now : ℚ) (self : RaftNode) (term : Nat)
    (entries : List EntryData) :
    (self.afterAppendEntries now term entries).votedFor = self.votedFor := by
  simpa using congrArg RaftNode.votedFor (afterAppendEntries_frame now self term entries)

theorem afterAppendEntries_votesReceived (now : ℚ) (self : RaftNode) (term : Nat)
    (entries : List EntryData) :
    (self.afterAppendEntries now term entries).votesReceived = self.votesReceived := by
  simpa using congrArg RaftNode.votesReceived (afterAppendEntries_frame now self term entries)

theorem afterAppendEntries_nextIndex (now : ℚ) (self : RaftNode) (term : Nat)
    (entries : List EntryData) :
    (self.afterAppendEntries now term entries).nextIndex = self.nextIndex := by
  simpa using congrArg RaftNode.nextIndex (afterAppendEntries_frame now self term entries)

theorem afterAppendEntries_matchIndex (now : ℚ) (self : RaftNode) (term : Nat)
    (entries : List EntryData) :
    (self.afterAppendEntries now term entries).matchIndex = self.matchIndex := by
  simpa using congrArg RaftNode.matchIndex (afterAppendEntries_frame now self term entries)

theorem afterAppendEntries_messageQueue (now : ℚ) (self : RaftNode) (term : Nat)
    (entries : List EntryData) :
    (self.afterAppendEntries now term entries).messageQueue = self.messageQueue := by
  simpa using congrArg RaftNode.messageQueue (afterAppendEntries_frame now self term entries)

theorem afterAppendEntries_isAlive (now : ℚ) (self : RaftNode) (term : Nat)
    (entries : List EntryData) :
    (self.afterAppendEntries now term entries).isAlive = self.isAlive := by
  simpa using congrArg RaftNode.isAlive (afterAppendEntries_frame now self term entries)

theorem afterAppendEntries_electionTimeout (now : ℚ) (self : RaftNode) (term : Nat)
    (entries : List EntryData) :
    (self.afterAppendEntries now term entries).electionTimeout = self.electionTimeout := by
  simpa using congrArg RaftNode.electionTimeout (afterAppendEntries_frame now self term entries)

theorem afterAppendEntries_messagesReceived (now : ℚ) (self : RaftNode) (term : Nat)
    (entries : List EntryData) :
    (self.afterAppendEntries now term entries).messagesReceived = self.messagesReceived := by
  simpa using congrArg RaftNode.messagesReceived (afterAppendEntries_frame now self term entries)

theorem afterMessage_currentTerm (now : ℚ) (alive : List Nat) (self : RaftNode) (m : Content) :
    (self.afterMessage now alive m).currentTerm = max self.currentTerm m.term := by
  cases m <;>
    simp only [RaftNode.afterMessage, afterRequestVote_currentTerm, afterVoteResponse_currentTerm,
      afterAppendEntries_currentTerm, afterTerm_currentTerm, Content.term]

theorem afterMessage_isAlive (now : ℚ) (alive : List Nat) (self : RaftNode) (m : Content) :
    (self.afterMessage now alive m).isAlive = self.isAlive := by
  cases m <;>
    simp only [RaftNode.afterMessage, afterRequestVote_isAlive, afterVoteResponse_isAlive,
      afterAppendEntries_isAlive, afterTerm_isAlive]

theorem afterMessage_messageQueue (now : ℚ) (alive : List Nat) (self : RaftNode)
    (m : Content) : (self.afterMessage now alive m).messageQueue = self.messageQueue := by
  cases m <;>
    simp only [RaftNode.afterMessage, afterRequestVote_messageQueue,
      afterVoteResponse_messageQueue, afterAppendEntries_messageQueue, afterTerm_messageQueue]

theorem afterMessage_messagesReceived (now : ℚ) (alive : List Nat) (self : RaftNode)
    (m : Content) : (self.afterMessage now alive m).messagesReceived = self.messagesReceived := by
  cases m <;>
    simp only [RaftNode.afterMessage, afterRequestVote_messagesReceived,
      afterVoteResponse_messagesReceived, afterAppendEntries_messagesReceived,
      afterTerm_messagesReceived]

/-- C4: `handleRequestVote` grants the vote (the flag `granted` it sends back)
exactly when the message term is at least the current term, the node has not
voted or has voted for this candidate, and the candidate's log is at least as
up to date, an empty log counting as last term 0 and last index -1.  On a grant
`votedFor` becomes the candidate and the election timer is reset; on a denial
`votedFor` and the timer are unchanged. -/
theorem handleRequestVote_grants_iff (E : Env) (net : RaftNetwork) (id : Nat)
    (self : RaftNode) (term candidateId : Nat) (lastLogIndex : Int) (lastLogTerm : Nat)
    (h : net.getNode id = some self) :
    ∃ self1 granted,
      (RaftNode.handleRequestVote E net id term candidateId lastLogIndex lastLogTerm).getNode id
        = some self1 ∧
      (RaftNode.handleRequestVote E net id term candidateId lastLogIndex lastLogTerm).sendCalls
        = net.sendCalls
          ++ [(id, candidateId, Content.requestVoteResponse self.currentTerm granted)] ∧
      (granted = true ↔
        (term ≥ self.currentTerm ∧
         (self.votedFor = none ∨ self.votedFor = some candidateId) ∧
         (lastLogTerm > (self.log.getLast?.map (fun e => e.term)).getD 0 ∨
          (lastLogTerm = (self.log.getLast?.map (fun e => e.term)).getD 0 ∧
           lastLogIndex ≥ (self.log.length : Int) - 1)))) ∧
      (granted = true →
        self1.votedFor = some candidateId ∧ self1.lastHeartbeat = E.now ∧
        self1.electionTimeout = self.electionTimeout) ∧
      (granted = false →
        self1.votedFor = self.votedFor ∧ self1.lastHeartbeat = self.lastHeartbeat ∧
        self1.electionTimeout = self.electionTimeout) := by
  obtain ⟨k, t, f⟩ := handleRequestVote_effect E net id self term candidateId lastLogIndex
    lastLogTerm h
  refine ⟨_, self.grants term candidateId lastLogIndex lastLogTerm, t.getNode_self h, f,
    ?_, ?_, ?_⟩
  · rw [← lastLogTerm_eq]
    simp [RaftNode.grants, RaftNode.lastLogIndex]
  · intro hg
    simp [addSent_votedFor, addSent_lastHeartbeat, addSent_electionTimeout,
      afterRequestVote_votedFor, afterRequestVote_lastHeartbeat,
      afterRequestVote_electionTimeout, hg]
  · intro hg
    simp [addSent_votedFor, addSent_lastHeartbeat, addSent_electionTimeout,
      afterRequestVote_votedFor, afterRequestVote_lastHeartbeat,
      afterRequestVote_electionTimeout, hg]

theorem handleRequestVote_grants_iff_witness :
    demoNet.getNode 0 = some (demoNode 0) ∧
    ∃ self1 granted,
      (RaftNode.handleRequestVote demoEnv demoNet 0 1 1 (-1) 0).getNode 0 = some self1 ∧
      (RaftNode.handleRequestVote demoEnv demoNet 0 1 1 (-1) 0).sendCalls
        = demoNet.sendCalls
          ++ [(0, 1, Content.requestVoteResponse (demoNode 0).currentTerm granted)] ∧
      (granted = true ↔
        (1 ≥ (demoNode 0).currentTerm ∧
         ((demoNode 0).votedFor = none ∨ (demoNode 0).votedFor = some 1) ∧
         (0 > ((demoNode 0).log.getLast?.map (fun e => e.term)).getD 0 ∨
          (0 = ((demoNode 0).log.getLast?.map (fun e => e.term)).getD 0 ∧
           (-1 : Int) ≥ ((demoNode 0).log.length : Int) - 1)))) ∧
      (granted = true →
        self1.votedFor = some 1 ∧ self1.lastHeartbeat = demoEnv.now ∧
        self1.electionTimeout = (demoNode 0).electionTimeout) ∧
      (granted = false →
        self1.votedFor = (demoNode 0).votedFor ∧
        self1.lastHeartbeat = (demoNode 0).lastHeartbeat ∧
        self1.electionTimeout = (demoNode 0).electionTimeout) :=
  ⟨rfl, handleRequestVote_grants_iff demoEnv demoNet 0 (demoNode 0) 1 1 (-1) 0 rfl⟩

/-- C10: `handleAppendEntries` with a message term at least the current term
resets the election timer, makes the node a Follower, leaves `votedFor` alone
and appends the carried entries in order (with their term, index and command,
no check of `prevLogIndex` or `prevLogTerm`); with a smaller message term the
node's state, timer and log are unchanged. -/
theorem handleAppendEntries_accepts (E : Env) (net : RaftNetwork) (id : Nat) (self : RaftNode)
    (term leaderId : Nat) (entries : List EntryData) (h : net.getNode id = some self) :
    ∃ self1,
      (RaftNode.handleAppendEntries E net id term leaderId entries).getNode id = some self1 ∧
      (term ≥ self.currentTerm →
        self1.lastHeartbeat = E.now ∧ self1.electionTimeout = self.electionTimeout ∧
        self1.state = NodeState.follower ∧ self1.votedFor = self.votedFor ∧
        self1.log = self.log
          ++ entries.map (fun e => LogEntry.new E.now e.term e.index e.command) ∧
        self1.log.map (fun e => (e.term, e.index, e.command))
          = self.log.map (fun e => (e.term, e.index, e.command))
            ++ entries.map (fun e => (e.term, e.index, e.command))) ∧
      (term < self.currentTerm →
        self1.state = self.state ∧ self1.lastHeartbeat = self.lastHeartbeat ∧
        self1.electionTimeout = self.electionTimeout ∧ self1.log = self.log) := by
  obtain ⟨k, t, _⟩ := handleAppendEntries_effect E net id self term leaderId entries h
  refine ⟨_, t.getNode_self h, ?_, ?_⟩
  · intro hge
    rw [afterAppendEntries_of_ge E.now self term entries hge]
    refine ⟨?_, ?_, ?_, ?_, ?_, ?_⟩
    · simp [RaftNode.addSent, stepDown_lastHeartbeat]
    · simp [RaftNode.addSent, stepDown_electionTimeout]
    · simp [RaftNode.addSent, stepDown_state]
    · simp [RaftNode.addSent, stepDown_votedFor]
    · simp [RaftNode.addSent]
    · simp [RaftNode.addSent, LogEntry.new, Function.comp_def]
  · intro hlt
    rw [afterAppendEntries_of_lt E.now self term entries hlt]
    exact ⟨rfl, rfl, rfl, rfl⟩

theorem handleAppendEntries_accepts_witness :
    demoNet.getNode 0 = some (demoNode 0) ∧
    ∃ self1,
      (RaftNode.handleAppendEntries demoEnv demoNet 0 1 1 [⟨1, 0, "x"⟩]).getNode 0
        = some self1 ∧
      (1 ≥ (demoNode 0).currentTerm →
        self1.lastHeartbeat = demoEnv.now ∧
        self1.electionTimeout = (demoNode 0).electionTimeout ∧
        self1.state = NodeState.follower ∧ self1.votedFor = (demoNode 0).votedFor ∧
        self1.log = (demoNode 0).log
          ++ [(⟨1, 0, "x"⟩ : EntryData)].map
              (fun e => LogEntry.new demoEnv.now e.term e.index e.command) ∧
        self1.log.map (fun e => (e.term, e.index, e.command))
          = (demoNode 0).log.map (fun e => (e.term, e.index, e.command))
            ++ [(⟨1, 0, "x"⟩ : EntryData)].map (fun e => (e.term, e.index, e.command))) ∧
      (1 < (demoNode 0).currentTerm →
        self1.state = (demoNode 0).state ∧ self1.lastHeartbeat = (demoNode 0).lastHeartbeat ∧
        self1.electionTimeout = (demoNode 0).electionTimeout ∧
        self1.log = (demoNode 0).log) :=
  ⟨rfl, handleAppendEntries_accepts demoEnv demoNet 0 (demoNode 0) 1 1 [⟨1, 0, "x"⟩] rfl⟩

/-- The effect of `startElection` on the network. -/
theorem startElection_effect (E : Env) (net : RaftNetwork) (id : Nat) (self : RaftNode)
    (h : net.getNode id = some self) :
    ∃ k, Touches net (RaftNode.startElection E net id) id self
        ((if self.isAlive = true ∧ self.isPartitioned = false then
            self.afterElection E.now (3000 + E.rand net.draws * (6000 - 3000))
          else self).addSent k) ∧
      (RaftNode.startElection E net id).sendCalls
        = net.sendCalls ++
          (if self.isAlive = true ∧ self.isPartitioned = false then electionCalls net self
           else []) := by
  have hid := getNode_id h
  unfold RaftNode.startElection
  simp only [h]
  by_cases hc : self.isAlive = true ∧ self.isPartitioned = false
  · have hg : (!self.isAlive || self.isPartitioned) = false := by simp [hc.1, hc.2]
    simp only [hg, Bool.false_eq_true, if_false]
    rw [if_pos hc, if_pos hc]
    have t1 : Touches net
        ((RaftNode.randomElectionTimeout E net).2.modifyNode id (fun n =>
          { n with state := NodeState.candidate, currentTerm := n.currentTerm + 1,
                   votedFor := some n.id, votesReceived := 1, lastHeartbeat := E.now,
                   electionTimeout := (RaftNode.randomElectionTimeout E net).1,
                   stateChangeTime := E.now })) id self
        (self.afterElection E.now (3000 + E.rand net.draws * (6000 - 3000))) :=
      ⟨fun n =>
          { n with state := NodeState.candidate, currentTerm := n.currentTerm + 1,
                   votedFor := some n.id, votesReceived := 1, lastHeartbeat := E.now,
                   electionTimeout := (RaftNode.randomElectionTimeout E net).1,
                   stateChangeTime := E.now }, fun _ => rfl, fun _ => rfl, rfl, rfl⟩
    obtain ⟨k, f1, f2⟩ := broadcastMessage_frame E
      ((RaftNode.randomElectionTimeout E net).2.modifyNode id (fun n =>
          { n with state := NodeState.candidate, currentTerm := n.currentTerm + 1,
                   votedFor := some n.id, votesReceived := 1, lastHeartbeat := E.now,
                   electionTimeout := (RaftNode.randomElectionTimeout E net).1,
                   stateChangeTime := E.now })) id
      (Content.requestVote (self.currentTerm + 1) self.id self.lastLogIndex self.lastLogTerm)
    refine ⟨k, t1.trans (Touches.of_addSent f1 _), ?_⟩
    rw [f2, t1.targets, t1.ids]
    simp only [electionCalls, RaftNode.voteRequest, hid, modifyNode_sendCalls]
    rfl
  · have hg : (!self.isAlive || self.isPartitioned) = true := by
      cases ha : self.isAlive
      · simp
      · cases hp : self.isPartitioned
        · exact absurd ⟨ha, hp⟩ hc
        · simp
    simp only [hg, if_true]
    rw [if_neg hc, if_neg hc]
    exact ⟨0, Touches.refl net id self, by simp⟩

/-! ## `messagesSent` is read by no handler -/

theorem stepDown_addSent (now : ℚ) (k : Nat) (n : RaftNode) :
    RaftNode.stepDown now (n.addSent k) = (RaftNode.stepDown now n).addSent k := by
  simp only [RaftNode.stepDown, RaftNode.addSent]
  split <;> rfl

theorem afterTerm_addSent (now : ℚ) (k : Nat) (n : RaftNode) (term : Nat) :
    (n.addSent k).afterTerm now term = (n.afterTerm now term).addSent k := by
  unfold RaftNode.afterTerm
  by_cases h : term > n.currentTerm
  · rw [if_pos (show term > (n.addSent k).currentTerm from h), if_pos h]
    exact stepDown_addSent now k { n with currentTerm := term, votedFor := none }
  · rw [if_neg (show ¬ term > (n.addSent k).currentTerm from h), if_neg h]

theorem afterRequestVote_addSent (now : ℚ) (k : Nat) (n : RaftNode) (term c : Nat) (li : Int)
    (lt : Nat) :
    (n.addSent k).afterRequestVote now term c li lt
      = (n.afterRequestVote now term c li lt).addSent k := by
  unfold RaftNode.afterRequestVote
  have : (n.addSent k).grants term c li lt = n.grants term c li lt := rfl
  rw [this]
  split <;> rfl

theorem initLeaderIds_addSent (k : Nat) (alive : List Nat) :
    ∀ n : RaftNode,
      RaftNode.initLeaderIds (n.addSent k) alive = (RaftNode.initLeaderIds n alive).addSent k := by
  induction alive with
  | nil => intro n; rfl
  | cons j rest ih =>
    intro n
    simp only [RaftNode.initLeaderIds]
    by_cases h : j ≠ n.id
    · rw [if_pos (show j ≠ (n.addSent k).id from h), if_pos h]
      exact ih { n with nextIndex := setKey n.nextIndex j n.log.length,
                        matchIndex := setKey n.matchIndex j (-1) }
    · rw [if_neg (show ¬ j ≠ (n.addSent k).id from h), if_neg h]
      exact ih n

theorem afterVoteResponse_addSent (now : ℚ) (alive : List Nat) (k : Nat) (n : RaftNode)
    (term : Nat) (g : Bool) :
    (n.addSent k).afterVoteResponse now alive term g
      = (n.afterVoteResponse now alive term g).addSent k := by
  unfold RaftNode.afterVoteResponse
  by_cases h1 : n.state ≠ NodeState.candidate ∨ term ≠ n.currentTerm
  · rw [if_pos (show (n.addSent k).state ≠ NodeState.candidate ∨
      term ≠ (n.addSent k).currentTerm from h1), if_pos h1]
  · rw [if_neg (show ¬ ((n.addSent k).state ≠ NodeState.candidate ∨
      term ≠ (n.addSent k).currentTerm) from h1), if_neg h1]
    cases g
    · rfl
    · simp only [if_true]
      by_cases h2 : ((n.votesReceived + 1 : Nat) : ℚ) > (alive.length : ℚ) / 2
      · rw [if_pos (show (((n.addSent k).votesReceived + 1 : Nat) : ℚ)
          > (alive.length : ℚ) / 2 from h2), if_pos h2]
        exact initLeaderIds_addSent k alive
          { n with votesReceived := n.votesReceived + 1, state := NodeState.leader,
                   stateChangeTime := now, lastHeartbeat := now }
      · rw [if_neg (show ¬ (((n.addSent k).votesReceived + 1 : Nat) : ℚ)
          > (alive.length : ℚ) / 2 from h2), if_neg h2]
        rfl

theorem afterAppendEntries_addSent (now : ℚ) (k : Nat) (n : RaftNode) (term : Nat)
    (entries : List EntryData) :
    (n.addSent k).afterAppendEntries now term entries
      = (n.afterAppendEntries now term entries).addSent k := by
  unfold RaftNode.afterAppendEntries
  by_cases h : term ≥ n.currentTerm
  · rw [if_pos (show term ≥ (n.addSent k).currentTerm from h), if_pos h]
    have e := stepDown_addSent now k { n with lastHeartbeat := now }
    have e2 : RaftNode.stepDown now
        { id := (n.addSent k).id, state := (n.addSent k).state,
          currentTerm := (n.addSent k).currentTerm, votedFor := (n.addSent k).votedFor,
          log := (n.addSent k).log, commitIndex := (n.addSent k).commitIndex,
          lastApplied := (n.addSent k).lastApplied, nextIndex := (n.addSent k).nextIndex,
          matchIndex := (n.addSent k).matchIndex,
          electionTimeout := (n.addSent k).electionTimeout, lastHeartbeat := now,
          heartbeatInterval := (n.addSent k).heartbeatInterval,
          messageQueue := (n.addSent k).messageQueue,
          isPartitioned := (n.addSent k).isPartitioned, isAlive := (n.addSent k).isAlive,
          stateChangeTime := (n.addSent k).stateChangeTime,
          votesReceived := (n.addSent k).votesReceived,
          messagesReceived := (n.addSent k).messagesReceived,
          messagesSent := (n.addSent k).messagesSent }
        = (RaftNode.stepDown now { n with lastHeartbeat := now }).addSent k := e
    rw [e2]
    rfl
  · rw [if_neg (show ¬ term ≥ (n.addSent k).currentTerm from h), if_neg h]

theorem afterMessage_addSent (now : ℚ) (alive : List Nat) (k : Nat) (n : RaftNode)
    (m : Content) :
    (n.addSent k).afterMessage now alive m = (n.afterMessage now alive m).addSent k := by
  cases m <;>
    simp only [RaftNode.afterMessage, afterTerm_addSent, afterRequestVote_addSent,
      afterVoteResponse_addSent, afterAppendEntries_addSent]

theorem handleNext_addSent (now : ℚ) (alive : List Nat) (k : Nat) (n : RaftNode)
    (m : Content) (rest : List Content) :
    (n.addSent k).handleNext now alive m rest = (n.handleNext now alive m rest).addSent k := by
  unfold RaftNode.handleNext
  have e : ({ n.addSent k with messageQueue := rest } : RaftNode)
      = ({ n with messageQueue := rest } : RaftNode).addSent k := rfl
  rw [e, afterMessage_addSent]
  rfl

theorem drain_addSent (now : ℚ) (alive : List Nat) (k : Nat) (queue : List Content) :
    ∀ n : RaftNode,
      RaftNode.drain now alive queue (n.addSent k)
        = (RaftNode.drain now alive queue n).addSent k := by
  induction queue with
  | nil => intro n; rfl
  | cons m rest ih =>
    intro n
    simp only [RaftNode.drain, handleNext_addSent, ih]

theorem handleNext_isAlive (now : ℚ) (alive : List Nat) (n : RaftNode) (m : Content)
    (rest : List Content) : (n.handleNext now alive m rest).isAlive = n.isAlive := by
  unfold RaftNode.handleNext
  simp only [afterMessage_isAlive]

theorem handleNext_messageQueue (now : ℚ) (alive : List Nat) (n : RaftNode) (m : Content)
    (rest : List Content) : (n.handleNext now alive m rest).messageQueue = rest := by
  unfold RaftNode.handleNext
  simp only [afterMessage_messageQueue]

/-- The effect of the loop of `processMessages` on an alive node: with fuel at
least the length of the queue the whole queue is drained. -/
theorem processLoop_effect (E : Env) (id : Nat) :
    ∀ (fuel : Nat) (net : RaftNetwork) (self : RaftNode),
      net.getNode id = some self → self.isAlive = true → self.messageQueue.length ≤ fuel →
      ∃ k, Touches net (RaftNode.processLoop E id fuel net) id self
        ((RaftNode.drain E.now net.aliveIds self.messageQueue self).addSent k) := by
  intro fuel
  induction fuel with
  | zero =>
    intro net self h _ hq
    have : self.messageQueue = [] := List.length_eq_zero.mp (Nat.le_zero.mp hq)
    refine ⟨0, ?_⟩
    rw [this]
    exact Touches.refl net id self
  | succ fuel ih =>
    intro net self h ha hq
    unfold RaftNode.processLoop
    simp only [h]
    cases hm : self.messageQueue with
    | nil => exact ⟨0, Touches.refl net id self⟩
    | cons m rest =>
      simp only [ha, if_true]
      have t1 := Touches.modifyNode net id (fun n => { n with messageQueue := rest }) self
        (by intro n; rfl) (by intro n; rfl)
      obtain ⟨k1, t2, _⟩ := handleMessage_effect E _ id _ m (t1.getNode_self h)
      have t3 := Touches.modifyNode
        (RaftNode.handleMessage E (net.modifyNode id (fun n => { n with messageQueue := rest }))
          id m) id
        (fun n => { n with messagesReceived := n.messagesReceived + 1 })
        ((({ self with messageQueue := rest } : RaftNode).afterMessage E.now
          (net.modifyNode id (fun n => { n with messageQueue := rest })).aliveIds m).addSent k1)
        (by intro n; rfl) (by intro n; rfl)
      have t123 := (t1.trans t2).trans t3
      rw [t1.aliveIds] at t123
      have e3 : (fun n : RaftNode => { n with messagesReceived := n.messagesReceived + 1 })
          ((({ self with messageQueue := rest } : RaftNode).afterMessage E.now
            net.aliveIds m).addSent k1)
          = (self.handleNext E.now net.aliveIds m rest).addSent k1 := rfl
      rw [e3] at t123
      have hq3 : ((self.handleNext E.now net.aliveIds m rest).addSent k1).messageQueue.length
          ≤ fuel := by
        rw [addSent_messageQueue, handleNext_messageQueue]
        rw [hm] at hq
        simpa using hq
      have ha3 : ((self.handleNext E.now net.aliveIds m rest).addSent k1).isAlive = true := by
        rw [addSent_isAlive, handleNext_isAlive]; exact ha
      obtain ⟨k2, t4⟩ := ih _ _ (t123.getNode_self h) ha3 hq3
      refine ⟨k1 + k2, ?_⟩
      have := t123.trans t4
      rw [t123.aliveIds, addSent_messageQueue, handleNext_messageQueue, drain_addSent,
        addSent_addSent] at this
      exact this

/-- The loop of `processMessages` does nothing on a node that is not alive. -/
theorem processLoop_dead (E : Env) (id : Nat) (fuel : Nat) (net : RaftNetwork)
    (self : RaftNode) (h : net.getNode id = some self) (ha : self.isAlive = false) :
    RaftNode.processLoop E id fuel net = net := by
  cases fuel with
  | zero => rfl
  | succ fuel =>
    unfold RaftNode.processLoop
    simp only [h]
    cases self.messageQueue <;> simp [ha]

/-- The effect of `processMessages` on an alive node. -/
theorem processMessages_effect (E : Env) (net : RaftNetwork) (id : Nat) (self : RaftNode)
    (h : net.getNode id = some self) (ha : self.isAlive = true) :
    ∃ k, Touches net (RaftNode.processMessages E net id) id self
      ((RaftNode.drain E.now net.aliveIds self.messageQueue self).addSent k) := by
  unfold RaftNode.processMessages
  simp only [h]
  exact processLoop_effect E id _ net self h ha (Nat.le_refl _)

theorem afterHeartbeat_addSent (now : ℚ) (k : Nat) (n : RaftNode) :
    (n.addSent k).afterHeartbeat now = (n.afterHeartbeat now).addSent k := by
  unfold RaftNode.afterHeartbeat
  by_cases h : n.state = NodeState.leader ∧ now - n.lastHeartbeat > n.heartbeatInterval
  · rw [if_pos (show (n.addSent k).state = NodeState.leader ∧
      now - (n.addSent k).lastHeartbeat > (n.addSent k).heartbeatInterval from h), if_pos h]
    rfl
  · rw [if_neg (show ¬ ((n.addSent k).state = NodeState.leader ∧
      now - (n.addSent k).lastHeartbeat > (n.addSent k).heartbeatInterval) from h), if_neg h]

theorem afterTimeout_messageQueue (now t : ℚ) (n : RaftNode) :
    (n.afterTimeout now t).messageQueue = n.messageQueue := by
  unfold RaftNode.afterTimeout; split <;> rfl

theorem afterTimeout_isAlive (now t : ℚ) (n : RaftNode) :
    (n.afterTimeout now t).isAlive = n.isAlive := by
  unfold RaftNode.afterTimeout; split <;> rfl

theorem afterHeartbeat_messageQueue (now : ℚ) (n : RaftNode) :
    (n.afterHeartbeat now).messageQueue = n.messageQueue := by
  unfold RaftNode.afterHeartbeat; split <;> rfl

theorem afterHeartbeat_isAlive (now : ℚ) (n : RaftNode) :
    (n.afterHeartbeat now).isAlive = n.isAlive := by
  unfold RaftNode.afterHeartbeat; split <;> rfl

/-- The effect of the election-timeout step of `RaftNode.update`. -/
theorem timeoutStep_effect (E : Env) (net : RaftNetwork) (id : Nat) (self : RaftNode)
    (h : net.getNode id = some self) :
    ∃ k, Touches net
      (if self.state = NodeState.follower ∨ self.state = NodeState.candidate then
          if E.now - self.lastHeartbeat > self.electionTimeout then
            RaftNode.startElection E net id
          else net
        else net) id self
      ((self.afterTimeout E.now (3000 + E.rand net.draws * (6000 - 3000))).addSent k) := by
  unfold RaftNode.afterTimeout
  by_cases h1 : self.state = NodeState.follower ∨ self.state = NodeState.candidate
  · by_cases h2 : E.now - self.lastHeartbeat > self.electionTimeout
    · rw [if_pos h1, if_pos h2]
      obtain ⟨k, t, _⟩ := startElection_effect E net id self h
      refine ⟨k, ?_⟩
      by_cases h3 : self.isAlive = true ∧ self.isPartitioned = false
      · rw [if_pos h3] at t
        rw [if_pos ⟨h1, h2, h3⟩]
        exact t
      · rw [if_neg h3] at t
        rw [if_neg (fun hh => h3 hh.2.2)]
        exact t
    · rw [if_pos h1, if_neg h2, if_neg (fun hh => h2 hh.2.1)]
      exact ⟨0, Touches.refl net id self⟩
  · rw [if_neg h1, if_neg (fun hh => h1 hh.1)]
    exact ⟨0, Touches.refl net id self⟩

/-- The effect of the heartbeat step of `RaftNode.update`. -/
theorem heartbeatStep_effect (E : Env) (net : RaftNetwork) (id : Nat) (self : RaftNode)
    (h : net.getNode id = some self) :
    ∃ k, Touches net
      (match net.getNode id with
        | none => net
        | some self1 =>
          if self1.state = NodeState.leader then
            if E.now - self1.lastHeartbeat > self1.heartbeatInterval then
              (RaftNode.sendHeartbeats E net id).modifyNode id
                (fun n => { n with lastHeartbeat := E.now })
            else net
          else net) id self ((self.afterHeartbeat E.now).addSent k) := by
  simp only [h]
  unfold RaftNode.afterHeartbeat
  by_cases h1 : self.state = NodeState.leader
  · by_cases h2 : E.now - self.lastHeartbeat > self.heartbeatInterval
    · rw [if_pos h1, if_pos h2, if_pos ⟨h1, h2⟩]
      obtain ⟨k, t, _⟩ := sendHeartbeats_effect E net id self h
      have t2 := Touches.modifyNode (RaftNode.sendHeartbeats E net id) id
        (fun n => { n with lastHeartbeat := E.now }) (self.addSent k)
        (by intro n; rfl) (by intro n; rfl)
      exact ⟨k, t.trans t2⟩
    · rw [if_pos h1, if_neg h2, if_neg (fun hh => h2 hh.2)]
      exact ⟨0, Touches.refl net id self⟩
  · rw [if_neg h1, if_neg (fun hh => h1 hh.1)]
    exact ⟨0, Touches.refl net id self⟩

/-- The effect of `RaftNode.update` on the network: only the node itself is
written, and it becomes `afterUpdate` up to `messagesSent`. -/
theorem update_effect (E : Env) (net : RaftNetwork) (id : Nat) (self : RaftNode)
    (h : net.getNode id = some self) :
    ∃ k, Touches net (RaftNode.update E net id) id self
      ((self.afterUpdate E.now (3000 + E.rand net.draws * (6000 - 3000))
        net.aliveIds).addSent k) := by
  unfold RaftNode.update RaftNode.afterUpdate
  simp only [h]
  cases ha : self.isAlive
  · simp only [Bool.not_false, if_true, Bool.false_eq_true, if_false]
    exact ⟨0, Touches.refl net id self⟩
  · simp only [Bool.not_true, Bool.false_eq_true, if_false, if_true]
    obtain ⟨k0, t0⟩ := timeoutStep_effect E net id self h
    obtain ⟨k1, t1⟩ := heartbeatStep_effect E _ id _ (t0.getNode_self h)
    have t01 := t0.trans t1
    rw [afterHeartbeat_addSent, addSent_addSent] at t01
    have ha2 : (((self.afterTimeout E.now (3000 + E.rand net.draws * (6000 - 3000))).afterHeartbeat
        E.now).addSent (k0 + k1)).isAlive = true := by
      rw [addSent_isAlive, afterHeartbeat_isAlive, afterTimeout_isAlive]; exact ha
    obtain ⟨k2, t2⟩ := processMessages_effect E _ id _ (t01.getNode_self h) ha2
    have := t01.trans t2
    rw [t01.aliveIds, addSent_messageQueue, afterHeartbeat_messageQueue,
      afterTimeout_messageQueue, drain_addSent, addSent_addSent] at this
    exact ⟨k0 + k1 + k2, this⟩

theorem handleNext_currentTerm (now : ℚ) (alive : List Nat) (n : RaftNode) (m : Content)
    (rest : List Content) :
    (n.handleNext now alive m rest).currentTerm = max n.currentTerm m.term := by
  unfold RaftNode.handleNext
  simp only [afterMessage_currentTerm]

theorem drain_currentTerm_ge (now : ℚ) (alive : List Nat) (queue : List Content) :
    ∀ n : RaftNode, n.currentTerm ≤ (RaftNode.drain now alive queue n).currentTerm := by
  induction queue with
  | nil => intro n; exact Nat.le_refl _
  | cons m rest ih =>
    intro n
    simp only [RaftNode.drain]
    refine Nat.le_trans ?_ (ih _)
    rw [handleNext_currentTerm]
    exact Nat.le_max_left _ _

theorem afterTimeout_currentTerm_ge (now t : ℚ) (n : RaftNode) :
    n.currentTerm ≤ (n.afterTimeout now t).currentTerm := by
  unfold RaftNode.afterTimeout RaftNode.afterElection
  split
  · exact Nat.le_succ _
  · exact Nat.le_refl _

theorem afterHeartbeat_currentTerm (now : ℚ) (n : RaftNode) :
    (n.afterHeartbeat now).currentTerm = n.currentTerm := by
  unfold RaftNode.afterHeartbeat; split <;> rfl

theorem afterUpdate_currentTerm_ge (now t : ℚ) (alive : List Nat) (n : RaftNode) :
    n.currentTerm ≤ (n.afterUpdate now t alive).currentTerm := by
  unfold RaftNode.afterUpdate
  split
  · refine Nat.le_trans ?_ (drain_currentTerm_ge now alive _ _)
    rw [afterHeartbeat_currentTerm]
    exact afterTimeout_currentTerm_ge now t n
  · exact Nat.le_refl _

theorem getNode_revive (E : Env) (net : RaftNetwork) (id : Nat) (self : RaftNode)
    (h : net.getNode id = some self) :
    (RaftNode.revive E net id).getNode id
      = some { self with isAlive := true, state := NodeState.follower,
                         stateChangeTime := E.now, lastHeartbeat := E.now,
                         electionTimeout := 3000 + E.rand net.draws * (6000 - 3000) } := by
  unfold RaftNode.revive
  simp only [h]
  rw [getNode_modifyNode_self _ id _ (by intro n; rfl)]
  have : (RaftNode.randomElectionTimeout E net).2.getNode id = some self := h
  rw [this]
  rfl

theorem getNode_kill (E : Env) (net : RaftNetwork) (id : Nat) (self : RaftNode)
    (h : net.getNode id = some self) :
    (RaftNode.kill E net id).getNode id
      = some { self with isAlive := false, state := NodeState.dead,
                         stateChangeTime := E.now } := by
  unfold RaftNode.kill
  rw [getNode_modifyNode_self _ id _ (by intro n; rfl), h]
  rfl

theorem getNode_partition (net : RaftNetwork) (id : Nat) (self : RaftNode) (p : Bool)
    (h : net.getNode id = some self) :
    (RaftNode.partition net id p).getNode id = some { self with isPartitioned := p } := by
  unfold RaftNode.partition
  rw [getNode_modifyNode_self _ id _ (by intro n; rfl), h]
  rfl

theorem getNode_addLogEntry (E : Env) (net : RaftNetwork) (id : Nat) (self : RaftNode)
    (command : String) (h : net.getNode id = some self) :
    (RaftNode.addLogEntry E net id command).2.getNode id
      = some (if self.state = NodeState.leader then
          { self with log := self.log
              ++ [LogEntry.new E.now self.currentTerm self.log.length command] }
        else self) := by
  unfold RaftNode.addLogEntry
  simp only [h]
  by_cases hs : self.state = NodeState.leader
  · rw [if_pos hs, if_pos hs]
    show (net.modifyNode id _).getNode id = _
    rw [getNode_modifyNode_self _ id _ (by intro n; rfl), h]
    rfl
  · rw [if_neg hs, if_neg hs]
    exact h

theorem processMessages_dead (E : Env) (net : RaftNetwork) (id : Nat) (self : RaftNode)
    (h : net.getNode id = some self) (ha : self.isAlive = false) :
    RaftNode.processMessages E net id = net := by
  unfold RaftNode.processMessages
  simp only [h]
  exact processLoop_dead E id _ net self h ha

/-- C3: no node-level operation other than the reset lowers `currentTerm`:
`startElection`, `handleMessage` (for every message), `update`,
`processMessages`, `addLogEntry`, `kill`, `revive` and `partition` all leave the
node with a term at least the one it had. -/
theorem currentTerm_monotone (E : Env) (net : RaftNetwork) (id : Nat) (self : RaftNode)
    (m : Content) (command : String) (partitioned : Bool) (h : net.getNode id = some self) :
    (∃ n1, (RaftNode.startElection E net id).getNode id = some n1 ∧
      self.currentTerm ≤ n1.currentTerm) ∧
    (∃ n1, (RaftNode.handleMessage E net id m).getNode id = some n1 ∧
      self.currentTerm ≤ n1.currentTerm) ∧
    (∃ n1, (RaftNode.update E net id).getNode id = some n1 ∧
      self.currentTerm ≤ n1.currentTerm) ∧
    (∃ n1, (RaftNode.processMessages E net id).getNode id = some n1 ∧
      self.currentTerm ≤ n1.currentTerm) ∧
    (∃ n1, (RaftNode.addLogEntry E net id command).2.getNode id = some n1 ∧
      self.currentTerm ≤ n1.currentTerm) ∧
    (∃ n1, (RaftNode.kill E net id).getNode id = some n1 ∧
      self.currentTerm ≤ n1.currentTerm) ∧
    (∃ n1, (RaftNode.revive E net id).getNode id = some n1 ∧
      self.currentTerm ≤ n1.currentTerm) ∧
    (∃ n1, (RaftNode.partition net id partitioned).getNode id = some n1 ∧
      self.currentTerm ≤ n1.currentTerm) := by
  refine ⟨?_, ?_, ?_, ?_, ?_, ?_, ?_, ?_⟩
  · obtain ⟨k, t, _⟩ := startElection_effect E net id self h
    refine ⟨_, t.getNode_self h, ?_⟩
    rw [addSent_currentTerm]
    split
    · exact Nat.le_succ _
    · exact Nat.le_refl _
  · obtain ⟨k, t, _⟩ := handleMessage_effect E net id self m h
    refine ⟨_, t.getNode_self h, ?_⟩
    rw [addSent_currentTerm, afterMessage_currentTerm]
    exact Nat.le_max_left _ _
  · obtain ⟨k, t⟩ := update_effect E net id self h
    refine ⟨_, t.getNode_self h, ?_⟩
    rw [addSent_currentTerm]
    exact afterUpdate_currentTerm_ge _ _ _ _
  · cases ha : self.isAlive
    · rw [processMessages_dead E net id self h ha]
      exact ⟨self, h, Nat.le_refl _⟩
    · obtain ⟨k, t⟩ := processMessages_effect E net id self h ha
      refine ⟨_, t.getNode_self h, ?_⟩
      rw [addSent_currentTerm]
      exact drain_currentTerm_ge _ _ _ _
  · refine ⟨_, getNode_addLogEntry E net id self command h, ?_⟩
    split
    · exact Nat.le_refl _
    · exact Nat.le_refl _
  · exact ⟨_, getNode_kill E net id self h, Nat.le_refl _⟩
  · exact ⟨_, getNode_revive E net id self h, Nat.le_refl _⟩
  · exact ⟨_, getNode_partition net id self partitioned h, Nat.le_refl _⟩

theorem currentTerm_monotone_witness :
    demoNet.getNode 0 = some (demoNode 0) ∧
    ((∃ n1, (RaftNode.startElection demoEnv demoNet 0).getNode 0 = some n1 ∧
      (demoNode 0).currentTerm ≤ n1.currentTerm) ∧
    (∃ n1, (RaftNode.handleMessage demoEnv demoNet 0
        (Content.requestVoteResponse 3 true)).getNode 0 = some n1 ∧
      (demoNode 0).currentTerm ≤ n1.currentTerm) ∧
    (∃ n1, (RaftNode.update demoEnv demoNet 0).getNode 0 = some n1 ∧
      (demoNode 0).currentTerm ≤ n1.currentTerm) ∧
    (∃ n1, (RaftNode.processMessages demoEnv demoNet 0).getNode 0 = some n1 ∧
      (demoNode 0).currentTerm ≤ n1.currentTerm) ∧
    (∃ n1, (RaftNode.addLogEntry demoEnv demoNet 0 "x").2.getNode 0 = some n1 ∧
      (demoNode 0).currentTerm ≤ n1.currentTerm) ∧
    (∃ n1, (RaftNode.kill demoEnv demoNet 0).getNode 0 = some n1 ∧
      (demoNode 0).currentTerm ≤ n1.currentTerm) ∧
    (∃ n1, (RaftNode.revive demoEnv demoNet 0).getNode 0 = some n1 ∧
      (demoNode 0).currentTerm ≤ n1.currentTerm) ∧
    (∃ n1, (RaftNode.partition demoNet 0 true).getNode 0 = some n1 ∧
      (demoNode 0).currentTerm ≤ n1.currentTerm)) :=
  ⟨rfl, currentTerm_monotone demoEnv demoNet 0 (demoNode 0)
    (Content.requestVoteResponse 3 true) "x" true rfl⟩

/-- C5: a message with a term above the node's own makes the node a Follower at
the message term, whatever the kind of message and the previous state;
`votedFor` is then none, unless the message is a `RequestVote` that is granted
(the flag sent back), in which case it is the candidate.  A message whose term
is not greater never resets a vote to none. -/
theorem handleMessage_higher_term (E : Env) (net : RaftNetwork) (id : Nat) (self : RaftNode)
    (m : Content) (h : net.getNode id = some self) :
    ∃ n1, (RaftNode.handleMessage E net id m).getNode id = some n1 ∧
      (m.term > self.currentTerm →
        n1.currentTerm = m.term ∧ n1.state = NodeState.follower) ∧
      (m.term > self.currentTerm →
        ∀ t c li lt, m = Content.requestVote t c li lt →
          ∃ granted,
            (RaftNode.handleMessage E net id m).sendCalls
              = net.sendCalls ++ [(id, c, Content.requestVoteResponse t granted)] ∧
            (granted = true ↔
              (lt > (self.log.getLast?.map (fun e => e.term)).getD 0 ∨
                (lt = (self.log.getLast?.map (fun e => e.term)).getD 0 ∧
                  li ≥ (self.log.length : Int) - 1))) ∧
            n1.votedFor = if granted = true then some c else none) ∧
      (m.term > self.currentTerm →
        (∀ t c li lt, m ≠ Content.requestVote t c li lt) → n1.votedFor = none) ∧
      (m.term ≤ self.currentTerm → self.votedFor ≠ none → n1.votedFor ≠ none) := by
  obtain ⟨k, t, f⟩ := handleMessage_effect E net id self m h
  refine ⟨_, t.getNode_self h, ?_, ?_, ?_, ?_⟩
  · intro hgt
    obtain ⟨hs, hv, hc⟩ := afterTerm_gt_state E.now self m.term hgt
    refine ⟨?_, ?_⟩
    · rw [addSent_currentTerm, afterMessage_currentTerm]
      exact Nat.max_eq_right (Nat.le_of_lt hgt)
    · rw [addSent_state]
      cases m with
      | requestVote t c li lt =>
        simp only [RaftNode.afterMessage, afterRequestVote_state]; exact hs
      | requestVoteResponse t g =>
        simp only [RaftNode.afterMessage]
        rw [afterVoteResponse_of_not _ _ _ _ _ (Or.inl (by
          simp only [Content.term] at hs; rw [hs]; decide))]
        exact hs
      | appendEntries t l pi pt es lc =>
        simp only [RaftNode.afterMessage]
        rw [afterAppendEntries_of_ge _ _ _ _ (by
          simp only [Content.term] at hc; rw [hc])]
        exact stepDown_state _ _
      | appendEntriesResponse t s => exact hs
  · intro hgt t0 c li lt hm
    subst hm
    obtain ⟨hs, hv, hc⟩ := afterTerm_gt_state E.now self t0 hgt
    refine ⟨(self.afterTerm E.now t0).grants t0 c li lt, ?_, ?_, ?_⟩
    · rw [f]
      simp only [RaftNode.replies, Content.term, hc]
    · rw [← lastLogTerm_eq]
      simp [RaftNode.grants, RaftNode.lastLogIndex, RaftNode.lastLogTerm, hv, hc,
        afterTerm_log]
    · rw [addSent_votedFor]
      simp only [RaftNode.afterMessage, afterRequestVote_votedFor, hv]
  · intro hgt hne
    obtain ⟨hs, hv, hc⟩ := afterTerm_gt_state E.now self m.term hgt
    rw [addSent_votedFor]
    cases m with
    | requestVote tm c li lt => exact absurd rfl (hne tm c li lt)
    | requestVoteResponse tm g =>
      simp only [RaftNode.afterMessage, afterVoteResponse_votedFor]; exact hv
    | appendEntries tm l pi pt es lc =>
      simp only [RaftNode.afterMessage, afterAppendEntries_votedFor]; exact hv
    | appendEntriesResponse tm s => exact hv
  · intro hle hv
    rw [addSent_votedFor]
    cases m with
    | requestVote tm c li lt =>
      have hle1 : tm ≤ self.currentTerm := hle
      simp only [RaftNode.afterMessage, afterRequestVote_votedFor,
        afterTerm_of_le E.now self tm hle1]
      split
      · simp
      · exact hv
    | requestVoteResponse tm g =>
      have hle1 : tm ≤ self.currentTerm := hle
      simp only [RaftNode.afterMessage, afterVoteResponse_votedFor,
        afterTerm_of_le E.now self tm hle1]
      exact hv
    | appendEntries tm l pi pt es lc =>
      have hle1 : tm ≤ self.currentTerm := hle
      simp only [RaftNode.afterMessage, afterAppendEntries_votedFor,
        afterTerm_of_le E.now self tm hle1]
      exact hv
    | appendEntriesResponse tm s =>
      have hle1 : tm ≤ self.currentTerm := hle
      simp only [RaftNode.afterMessage, afterTerm_of_le E.now self tm hle1]
      exact hv

theorem handleMessage_higher_term_witness :
    demoNet.getNode 0 = some (demoNode 0) ∧
    ∃ n1, (RaftNode.handleMessage demoEnv demoNet 0 (Content.requestVote 3 1 (-1) 0)).getNode 0
        = some n1 ∧
      ((Content.requestVote 3 1 (-1) 0).term > (demoNode 0).currentTerm →
        n1.currentTerm = (Content.requestVote 3 1 (-1) 0).term ∧
        n1.state = NodeState.follower) ∧
      ((Content.requestVote 3 1 (-1) 0).term > (demoNode 0).currentTerm →
        ∀ t c li lt, Content.requestVote 3 1 (-1) 0 = Content.requestVote t c li lt →
          ∃ granted,
            (RaftNode.handleMessage demoEnv demoNet 0 (Content.requestVote 3 1 (-1) 0)).sendCalls
              = demoNet.sendCalls ++ [(0, c, Content.requestVoteResponse t granted)] ∧
            (granted = true ↔
              (lt > ((demoNode 0).log.getLast?.map (fun e => e.term)).getD 0 ∨
                (lt = ((demoNode 0).log.getLast?.map (fun e => e.term)).getD 0 ∧
                  li ≥ ((demoNode 0).log.length : Int) - 1))) ∧
            n1.votedFor = if granted = true then some c else none) ∧
      ((Content.requestVote 3 1 (-1) 0).term > (demoNode 0).currentTerm →
        (∀ t c li lt, Content.requestVote 3 1 (-1) 0 ≠ Content.requestVote t c li lt) →
        n1.votedFor = none) ∧
      ((Content.requestVote 3 1 (-1) 0).term ≤ (demoNode 0).currentTerm →
        (demoNode 0).votedFor ≠ none → n1.votedFor ≠ none) :=
  ⟨rfl, handleMessage_higher_term demoEnv demoNet 0 (demoNode 0)
    (Content.requestVote 3 1 (-1) 0) rfl⟩

theorem afterTerm_state_of_ne (now : ℚ) (self : RaftNode) (term : Nat) (s : NodeState)
    (hs : s ≠ NodeState.follower) (h : (self.afterTerm now term).state = s) :
    self.state = s ∧ term ≤ self.currentTerm := by
  by_cases hgt : term > self.currentTerm
  · have := (afterTerm_gt_state now self term hgt).1
    rw [this] at h
    exact absurd h.symm hs
  · rw [afterTerm_of_le now self term (Nat.not_lt.mp hgt)] at h
    exact ⟨h, Nat.not_lt.mp hgt⟩

/-- C2: a node does not vote for two candidates in one term.  If `votedFor` is
some `c` and `handleMessage` leaves `currentTerm` as it was, `votedFor` is still
`c`; `startElection` either changes nothing of term and vote or moves to the
next term (voting for itself); `addLogEntry`, `kill`, `revive` and `partition`
do not write `votedFor`. -/
theorem votedFor_once_per_term (E : Env) (net : RaftNetwork) (id : Nat) (self : RaftNode)
    (m : Content) (c : Nat) (command : String) (partitioned : Bool)
    (h : net.getNode id = some self) (hv : self.votedFor = some c) :
    (∃ n1, (RaftNode.handleMessage E net id m).getNode id = some n1 ∧
      (n1.currentTerm = self.currentTerm → n1.votedFor = some c)) ∧
    (∃ n1, (RaftNode.startElection E net id).getNode id = some n1 ∧
      ((n1.currentTerm = self.currentTerm ∧ n1.votedFor = self.votedFor) ∨
       (n1.currentTerm = self.currentTerm + 1 ∧ n1.votedFor = some id)) ∧
      (self.isAlive = true → self.isPartitioned = false →
        n1.currentTerm > self.currentTerm)) ∧
    (∃ n1, (RaftNode.addLogEntry E net id command).2.getNode id = some n1 ∧
      n1.votedFor = self.votedFor ∧ n1.currentTerm = self.currentTerm) ∧
    (∃ n1, (RaftNode.kill E net id).getNode id = some n1 ∧
      n1.votedFor = self.votedFor ∧ n1.currentTerm = self.currentTerm) ∧
    (∃ n1, (RaftNode.revive E net id).getNode id = some n1 ∧
      n1.votedFor = self.votedFor ∧ n1.currentTerm = self.currentTerm) ∧
    (∃ n1, (RaftNode.partition net id partitioned).getNode id = some n1 ∧
      n1.votedFor = self.votedFor ∧ n1.currentTerm = self.currentTerm) := by
  have hid := getNode_id h
  refine ⟨?_, ?_, ?_, ?_, ?_, ?_⟩
  · obtain ⟨k, t, _⟩ := handleMessage_effect E net id self m h
    refine ⟨_, t.getNode_self h, ?_⟩
    rw [addSent_currentTerm, addSent_votedFor, afterMessage_currentTerm]
    intro heq
    have hle : m.term ≤ self.currentTerm := by
      have := Nat.le_max_right self.currentTerm m.term
      rw [heq] at this
      exact this
    cases m with
    | requestVote tm cand li lt =>
      have hle1 : tm ≤ self.currentTerm := hle
      simp only [RaftNode.afterMessage, afterRequestVote_votedFor,
        afterTerm_of_le E.now self tm hle1]
      split
      · rename_i hg
        have : self.votedFor = none ∨ self.votedFor = some cand := by
          simp only [RaftNode.grants, decide_eq_true_eq] at hg
          exact hg.2.1
        rcases this with hn | hs
        · rw [hv] at hn; cases hn
        · rw [← hs, hv]
      · exact hv
    | requestVoteResponse tm g =>
      have hle1 : tm ≤ self.currentTerm := hle
      simp only [RaftNode.afterMessage, afterVoteResponse_votedFor,
        afterTerm_of_le E.now self tm hle1]
      exact hv
    | appendEntries tm l pi pt es lc =>
      have hle1 : tm ≤ self.currentTerm := hle
      simp only [RaftNode.afterMessage, afterAppendEntries_votedFor,
        afterTerm_of_le E.now self tm hle1]
      exact hv
    | appendEntriesResponse tm s =>
      have hle1 : tm ≤ self.currentTerm := hle
      simp only [RaftNode.afterMessage, afterTerm_of_le E.now self tm hle1]
      exact hv
  · obtain ⟨k, t, _⟩ := startElection_effect E net id self h
    refine ⟨_, t.getNode_self h, ?_, ?_⟩
    · rw [addSent_currentTerm, addSent_votedFor]
      split
      · right; exact ⟨rfl, by simp [RaftNode.afterElection, hid]⟩
      · left; exact ⟨rfl, rfl⟩
    · intro ha hp
      rw [addSent_currentTerm, if_pos ⟨ha, hp⟩]
      exact Nat.lt_succ_self _
  · refine ⟨_, getNode_addLogEntry E net id self command h, ?_⟩
    split <;> exact ⟨rfl, rfl⟩
  · exact ⟨_, getNode_kill E net id self h, rfl, rfl⟩
  · exact ⟨_, getNode_revive E net id self h, rfl, rfl⟩
  · exact ⟨_, getNode_partition net id self partitioned h, rfl, rfl⟩

theorem votedFor_once_per_term_witness :
    (demoLeaderNet.getNode 0 = some demoLeader ∧ demoLeader.votedFor = some 0) ∧
    ((∃ n1, (RaftNode.handleMessage demoEnv demoLeaderNet 0
        (Content.requestVote 2 1 (-1) 0)).getNode 0 = some n1 ∧
      (n1.currentTerm = demoLeader.currentTerm → n1.votedFor = some 0)) ∧
    (∃ n1, (RaftNode.startElection demoEnv demoLeaderNet 0).getNode 0 = some n1 ∧
      ((n1.currentTerm = demoLeader.currentTerm ∧ n1.votedFor = demoLeader.votedFor) ∨
       (n1.currentTerm = demoLeader.currentTerm + 1 ∧ n1.votedFor = some 0)) ∧
      (demoLeader.isAlive = true → demoLeader.isPartitioned = false →
        n1.currentTerm > demoLeader.currentTerm)) ∧
    (∃ n1, (RaftNode.addLogEntry demoEnv demoLeaderNet 0 "x").2.getNode 0 = some n1 ∧
      n1.votedFor = demoLeader.votedFor ∧ n1.currentTerm = demoLeader.currentTerm) ∧
    (∃ n1, (RaftNode.kill demoEnv demoLeaderNet 0).getNode 0 = some n1 ∧
      n1.votedFor = demoLeader.votedFor ∧ n1.currentTerm = demoLeader.currentTerm) ∧
    (∃ n1, (RaftNode.revive demoEnv demoLeaderNet 0).getNode 0 = some n1 ∧
      n1.votedFor = demoLeader.votedFor ∧ n1.currentTerm = demoLeader.currentTerm) ∧
    (∃ n1, (RaftNode.partition demoLeaderNet 0 true).getNode 0 = some n1 ∧
      n1.votedFor = demoLeader.votedFor ∧ n1.currentTerm = demoLeader.currentTerm)) :=
  ⟨⟨rfl, rfl⟩, votedFor_once_per_term demoEnv demoLeaderNet 0 demoLeader
    (Content.requestVote 2 1 (-1) 0) 0 "x" true rfl rfl⟩

/-- C6: `handleRequestVoteResponse` changes nothing at all (no field of the
network, nothing sent) when the node is not a Candidate or the message term
differs from the current term.  Through `handleMessage`, a vote response then
never makes a node that was not a Candidate a Leader, never changes its tally
or its `nextIndex` and `matchIndex`, and sends nothing; a response from an
earlier term leaves the whole network as it was. -/
theorem handleRequestVoteResponse_stale (E : Env) (net : RaftNetwork) (id : Nat)
    (self : RaftNode) (term : Nat) (voteGranted : Bool) (h : net.getNode id = some self) :
    ((self.state ≠ NodeState.candidate ∨ term ≠ self.currentTerm) →
      RaftNode.handleRequestVoteResponse E net id term voteGranted = net) ∧
    (self.state ≠ NodeState.candidate →
      ∃ n1, (RaftNode.handleMessage E net id
          (Content.requestVoteResponse term voteGranted)).getNode id = some n1 ∧
        (n1.state = NodeState.leader → self.state = NodeState.leader) ∧
        n1.votesReceived = self.votesReceived ∧ n1.nextIndex = self.nextIndex ∧
        n1.matchIndex = self.matchIndex ∧
        (RaftNode.handleMessage E net id
          (Content.requestVoteResponse term voteGranted)).sendCalls = net.sendCalls) ∧
    (term < self.currentTerm →
      RaftNode.handleMessage E net id (Content.requestVoteResponse term voteGranted) = net) := by
  refine ⟨?_, ?_, ?_⟩
  · intro hc
    unfold RaftNode.handleRequestVoteResponse
    simp only [h, hc, if_true]
  · intro hs
    obtain ⟨k, t, f⟩ := handleMessage_effect E net id self
      (Content.requestVoteResponse term voteGranted) h
    have hs1 : (self.afterTerm E.now term).state ≠ NodeState.candidate := by
      intro hh
      exact hs (afterTerm_state_of_ne E.now self term _ (by decide) hh).1
    have e1 : (self.afterTerm E.now term).afterVoteResponse E.now net.aliveIds term voteGranted
        = self.afterTerm E.now term :=
      afterVoteResponse_of_not _ _ _ _ _ (Or.inl hs1)
    refine ⟨_, t.getNode_self h, ?_, ?_, ?_, ?_, ?_⟩
    · intro hl
      rw [addSent_state] at hl
      simp only [RaftNode.afterMessage, e1] at hl
      exact (afterTerm_state_of_ne E.now self term _ (by decide) hl).1
    · rw [addSent_votesReceived]
      simp only [RaftNode.afterMessage, e1, afterTerm_votesReceived]
    · rw [addSent_nextIndex]
      simp only [RaftNode.afterMessage, e1, afterTerm_nextIndex]
    · rw [addSent_matchIndex]
      simp only [RaftNode.afterMessage, e1, afterTerm_matchIndex]
    · rw [f]
      have : ¬ ((self.afterTerm E.now term).wins net.aliveIds term voteGranted ∧
          (self.afterTerm E.now term).isAlive = true) := fun hh => hs1 hh.1.1
      simp only [RaftNode.replies, Content.term, this, if_false, List.append_nil]
  · intro hlt
    have h1 : ¬ term > self.currentTerm := Nat.not_lt.mpr (Nat.le_of_lt hlt)
    have h2 : term ≠ self.currentTerm := Nat.ne_of_lt hlt
    simp only [RaftNode.handleMessage, h, Content.term, h1, if_false,
      RaftNode.handleRequestVoteResponse, h2, ne_eq, not_false_eq_true, or_true, if_true]

theorem handleRequestVoteResponse_stale_witness :
    demoLeaderNet.getNode 0 = some demoLeader ∧
    (((demoLeader.state ≠ NodeState.candidate ∨ 1 ≠ demoLeader.currentTerm) →
      RaftNode.handleRequestVoteResponse demoEnv demoLeaderNet 0 1 true = demoLeaderNet) ∧
    (demoLeader.state ≠ NodeState.candidate →
      ∃ n1, (RaftNode.handleMessage demoEnv demoLeaderNet 0
          (Content.requestVoteResponse 1 true)).getNode 0 = some n1 ∧
        (n1.state = NodeState.leader → demoLeader.state = NodeState.leader) ∧
        n1.votesReceived = demoLeader.votesReceived ∧ n1.nextIndex = demoLeader.nextIndex ∧
        n1.matchIndex = demoLeader.matchIndex ∧
        (RaftNode.handleMessage demoEnv demoLeaderNet 0
          (Content.requestVoteResponse 1 true)).sendCalls = demoLeaderNet.sendCalls) ∧
    (1 < demoLeader.currentTerm →
      RaftNode.handleMessage demoEnv demoLeaderNet 0 (Content.requestVoteResponse 1 true)
        = demoLeaderNet)) :=
  ⟨rfl, handleRequestVoteResponse_stale demoEnv demoLeaderNet 0 demoLeader 1 true rfl⟩

/-! ## Becoming Leader -/

theorem lookup_setKey_self {α : Type} (m : List (Nat × α)) (k : Nat) (v : α) :
    (setKey m k v).lookup k = some v := by
  induction m with
  | nil => simp [setKey, List.lookup]
  | cons p rest ih =>
    obtain ⟨k0, v0⟩ := p
    by_cases h : k0 = k
    · simp [setKey, h, List.lookup]
    · have h2 : (k == k0) = false := by
        simp only [beq_eq_false_iff_ne, ne_eq]
        exact fun hh => h hh.symm
      simp [setKey, h, List.lookup, h2, ih]

theorem lookup_setKey_ne {α : Type} (m : List (Nat × α)) (k j : Nat) (v : α) (hj : j ≠ k) :
    (setKey m k v).lookup j = m.lookup j := by
  induction m with
  | nil =>
    have : (j == k) = false := by simpa using hj
    simp [setKey, List.lookup, this]
  | cons p rest ih =>
    obtain ⟨k0, v0⟩ := p
    by_cases h : k0 = k
    · subst h
      have : (j == k0) = false := by simpa using hj
      simp [setKey, List.lookup, this]
    · by_cases h3 : j = k0
      · subst h3
        simp [setKey, h, List.lookup]
      · have : (j == k0) = false := by simpa using h3
        simp [setKey, h, List.lookup, this, ih]

theorem initLeaderIds_lookup (alive : List Nat) (j : Nat) :
    ∀ self : RaftNode, j ∈ alive → j ≠ self.id →
      (RaftNode.initLeaderIds self alive).nextIndex.lookup j = some self.log.length ∧
      (RaftNode.initLeaderIds self alive).matchIndex.lookup j = some (-1) := by
  induction alive with
  | nil => intro self hj; cases hj
  | cons a rest ih =>
    intro self hj hne
    simp only [RaftNode.initLeaderIds]
    by_cases ha : a = self.id
    · have hj2 : j ∈ rest := by
        rcases List.mem_cons.mp hj with hh | hh
        · exact absurd (hh.trans ha) hne
        · exact hh
      simp only [ha, ne_eq, not_true_eq_false, if_false]
      exact ih self hj2 hne
    · simp only [ha, ne_eq, not_false_eq_true, if_true]
      by_cases hjr : j ∈ rest
      · exact ih _ hjr hne
      · have hja : j = a := by
          rcases List.mem_cons.mp hj with hh | hh
          · exact hh
          · exact absurd hh hjr
        subst hja
        have key : ∀ (l : List Nat) (n : RaftNode), j ∉ l →
            (RaftNode.initLeaderIds n l).nextIndex.lookup j = n.nextIndex.lookup j ∧
            (RaftNode.initLeaderIds n l).matchIndex.lookup j = n.matchIndex.lookup j := by
          intro l
          induction l with
          | nil => intro n _; exact ⟨rfl, rfl⟩
          | cons b l2 ih2 =>
            intro n hnot
            have hb : j ≠ b := fun hh => hnot (hh ▸ List.mem_cons_self _ _)
            have hl2 : j ∉ l2 := fun hh => hnot (List.mem_cons_of_mem _ hh)
            simp only [RaftNode.initLeaderIds]
            split
            · have := ih2 { n with nextIndex := setKey n.nextIndex b n.log.length,
                                   matchIndex := setKey n.matchIndex b (-1) } hl2
              rw [this.1, this.2]
              exact ⟨lookup_setKey_ne _ _ _ _ hb, lookup_setKey_ne _ _ _ _ hb⟩
            · exact ih2 n hl2
        have := key rest { self with nextIndex := setKey self.nextIndex j self.log.length,
                                     matchIndex := setKey self.matchIndex j (-1) } hjr
        rw [this.1, this.2]
        exact ⟨lookup_setKey_self _ _ _, lookup_setKey_self _ _ _⟩

theorem majority_iff (votes total : Nat) :
    ((votes : ℚ) > (total : ℚ) / 2) ↔ 2 * votes > total := by
  rw [gt_iff_lt, div_lt_iff₀ (by norm_num : (0 : ℚ) < 2)]
  constructor
  · intro h
    have : (total : ℚ) < ((votes * 2 : Nat) : ℚ) := by push_cast; exact h
    have := Nat.cast_lt.mp this
    omega
  · intro h
    have : total < votes * 2 := by omega
    have := (Nat.cast_lt (α := ℚ)).mpr this
    push_cast at this
    exact this

theorem find?_of_mem_nodup (nodes : List RaftNode) (hn : (nodes.map (fun n => n.id)).Nodup)
    (p : RaftNode) (hp : p ∈ nodes) : nodes.find? (fun n => n.id == p.id) = some p := by
  induction nodes with
  | nil => cases hp
  | cons a rest ih =>
    simp only [List.map_cons, List.nodup_cons] at hn
    rcases List.mem_cons.mp hp with hh | hh
    · subst hh; simp [List.find?_cons]
    · have hne : a.id ≠ p.id := by
        intro he
        exact hn.1 (he ▸ List.mem_map_of_mem (fun n => n.id) hh)
      have : (a.id == p.id) = false := by simpa using hne
      simp only [List.find?_cons, this]
      exact ih hn.2 hh

theorem getNode_of_mem {net : RaftNetwork} (hn : (net.nodes.map (fun n => n.id)).Nodup)
    {p : RaftNode} (hp : p ∈ net.nodes) : net.getNode p.id = some p :=
  find?_of_mem_nodup net.nodes hn p hp

theorem broadcastTargets_eq_filter (net : RaftNetwork)
    (hn : (net.nodes.map (fun n => n.id)).Nodup) (a : Nat) :
    broadcastTargets net a (net.nodes.map (fun n => n.id))
      = (net.nodes.filter (fun p => decide (p.id ≠ a) && p.isAlive)).map (fun n => n.id) := by
  unfold broadcastTargets
  rw [List.filter_map]
  congr 1
  apply List.filter_congr
  intro p hp
  simp only [Function.comp, getNode_of_mem hn hp]

/-- C7: a Candidate that handles a granted `RequestVoteResponse` at its current
term counts exactly one more vote and becomes Leader exactly when twice the new
tally exceeds the number of alive nodes; as Leader it has `nextIndex[p]` equal
to its log length and `matchIndex[p] = -1` for every other alive node `p`, and
one heartbeat is sent to every other alive node.  A response that is not
granted changes nothing. -/
theorem candidate_counts_grant (E : Env) (net : RaftNetwork) (id : Nat) (self : RaftNode)
    (term : Nat) (h : net.getNode id = some self)
    (hn : (net.nodes.map (fun n => n.id)).Nodup)
    (hs : self.state = NodeState.candidate) (ht : term = self.currentTerm)
    (ha : self.isAlive = true) :
    (∃ n1, (RaftNode.handleMessage E net id (Content.requestVoteResponse term true)).getNode id
        = some n1 ∧
      n1.votesReceived = self.votesReceived + 1 ∧
      (n1.state = NodeState.leader ↔
        2 * (self.votesReceived + 1) > net.getAliveNodes.length) ∧
      (n1.state ≠ NodeState.leader →
        n1.state = NodeState.candidate ∧
        (RaftNode.handleMessage E net id (Content.requestVoteResponse term true)).sendCalls
          = net.sendCalls) ∧
      (n1.state = NodeState.leader →
        (∀ p ∈ net.nodes, p.isAlive = true → p.id ≠ id →
          n1.nextIndex.lookup p.id = some self.log.length ∧
          n1.matchIndex.lookup p.id = some (-1)) ∧
        (RaftNode.handleMessage E net id (Content.requestVoteResponse term true)).sendCalls
          = net.sendCalls
            ++ (net.nodes.filter (fun p => decide (p.id ≠ id) && p.isAlive)).map
                (fun p => (id, p.id,
                  Content.appendEntries self.currentTerm id (-1) (-1) [] self.commitIndex)))) ∧
    RaftNode.handleMessage E net id (Content.requestVoteResponse term false) = net := by
  have hid := getNode_id h
  have hle : term ≤ self.currentTerm := Nat.le_of_eq ht
  have hat : self.afterTerm E.now term = self := afterTerm_of_le E.now self term hle
  constructor
  · obtain ⟨k, t, f⟩ := handleMessage_effect E net id self
      (Content.requestVoteResponse term true) h
    have hlen : net.aliveIds.length = net.getAliveNodes.length := by
      simp [RaftNetwork.aliveIds]
    have hw : self.wins net.aliveIds term true ↔
        2 * (self.votesReceived + 1) > net.getAliveNodes.length := by
      unfold RaftNode.wins
      rw [majority_iff, hlen]
      simp [hs, ht]
    have hstate : ((self.afterMessage E.now net.aliveIds
        (Content.requestVoteResponse term true)).addSent k).state
        = if self.wins net.aliveIds term true then NodeState.leader else self.state := by
      rw [addSent_state]
      simp only [RaftNode.afterMessage, hat, afterVoteResponse_state]
    refine ⟨_, t.getNode_self h, ?_, ?_, ?_, ?_⟩
    · rw [addSent_votesReceived]
      simp only [RaftNode.afterMessage, hat, afterVoteResponse_votesReceived]
      simp [hs, ht]
    · rw [hstate, ← hw]
      by_cases hww : self.wins net.aliveIds term true
      · simp [hww]
      · simp [hww, hs]
    · intro hnl
      rw [hstate] at hnl ⊢
      by_cases hww : self.wins net.aliveIds term true
      · simp [hww] at hnl
      · refine ⟨by simp [hww, hs], ?_⟩
        rw [f]
        simp only [RaftNode.replies, Content.term, hat]
        rw [if_neg (fun hh => hww hh.1)]
        simp
    · intro hl
      rw [hstate] at hl
      have hww : self.wins net.aliveIds term true := by
        by_contra hc
        rw [if_neg hc, hs] at hl
        cases hl
      refine ⟨?_, ?_⟩
      · intro p hp hpa hpi
        have hmem : p.id ∈ net.aliveIds := by
          unfold RaftNetwork.aliveIds RaftNetwork.getAliveNodes
          exact List.mem_map_of_mem (fun n => n.id) (List.mem_filter.mpr ⟨hp, hpa⟩)
        rw [addSent_nextIndex, addSent_matchIndex]
        simp only [RaftNode.afterMessage, hat]
        unfold RaftNode.afterVoteResponse
        have hc1 : ¬ (self.state ≠ NodeState.candidate ∨ term ≠ self.currentTerm) := by
          simp [hs, ht]
        rw [if_neg hc1]
        simp only [if_true]
        rw [if_pos hww.2.2.2]
        exact initLeaderIds_lookup net.aliveIds p.id _ hmem (by
          show p.id ≠ self.id
          rw [hid]; exact hpi)
      · rw [f]
        simp only [RaftNode.replies, Content.term, hat]
        rw [if_pos ⟨hww, ha⟩]
        unfold heartbeatCalls RaftNode.heartbeat
        rw [hid, broadcastTargets_eq_filter net hn id, List.map_map]
        rfl
  · have h1 : ¬ term > self.currentTerm := Nat.not_lt.mpr hle
    have e : RaftNode.handleRequestVoteResponse E net id term false = net := by
      unfold RaftNode.handleRequestVoteResponse
      simp [h]
    simp only [RaftNode.handleMessage, h, Content.term, h1, if_false]
    exact e

theorem candidate_counts_grant_witness :
    (demoCandidateNet.getNode 0 = some demoCandidate ∧
      (demoCandidateNet.nodes.map (fun n => n.id)).Nodup ∧
      demoCandidate.state = NodeState.candidate ∧ 1 = demoCandidate.currentTerm ∧
      demoCandidate.isAlive = true) ∧
    ((∃ n1, (RaftNode.handleMessage demoEnv demoCandidateNet 0
          (Content.requestVoteResponse 1 true)).getNode 0 = some n1 ∧
      n1.votesReceived = demoCandidate.votesReceived + 1 ∧
      (n1.state = NodeState.leader ↔
        2 * (demoCandidate.votesReceived + 1) > demoCandidateNet.getAliveNodes.length) ∧
      (n1.state ≠ NodeState.leader →
        n1.state = NodeState.candidate ∧
        (RaftNode.handleMessage demoEnv demoCandidateNet 0
          (Content.requestVoteResponse 1 true)).sendCalls = demoCandidateNet.sendCalls) ∧
      (n1.state = NodeState.leader →
        (∀ p ∈ demoCandidateNet.nodes, p.isAlive = true → p.id ≠ 0 →
          n1.nextIndex.lookup p.id = some demoCandidate.log.length ∧
          n1.matchIndex.lookup p.id = some (-1)) ∧
        (RaftNode.handleMessage demoEnv demoCandidateNet 0
          (Content.requestVoteResponse 1 true)).sendCalls
          = demoCandidateNet.sendCalls
            ++ (demoCandidateNet.nodes.filter (fun p => decide (p.id ≠ 0) && p.isAlive)).map
                (fun p => (0, p.id,
                  Content.appendEntries demoCandidate.currentTerm 0 (-1) (-1) []
                    demoCandidate.commitIndex)))) ∧
    RaftNode.handleMessage demoEnv demoCandidateNet 0 (Content.requestVoteResponse 1 false)
      = demoCandidateNet) :=
  ⟨⟨rfl, by decide, rfl, rfl, rfl⟩,
    candidate_counts_grant demoEnv demoCandidateNet 0 demoCandidate 1 rfl (by decide) rfl rfl rfl⟩

/-- C8: on an alive node that is not partitioned `startElection` makes the node
a Candidate one term later, voting for itself with a tally of one, resets the
election timer (new start, newly drawn timeout), leaves the log alone and sends
to every other alive node a `RequestVote` with the new term, its own id, the
index of its last log entry (`length - 1`) and the term of that entry (0 for an
empty log). -/
theorem startElection_candidate (E : Env) (net : RaftNetwork) (id : Nat) (self : RaftNode)
    (h : net.getNode id = some self) (hn : (net.nodes.map (fun n => n.id)).Nodup)
    (ha : self.isAlive = true) (hp : self.isPartitioned = false) :
    ∃ n1, (RaftNode.startElection E net id).getNode id = some n1 ∧
      n1.state = NodeState.candidate ∧ n1.currentTerm = self.currentTerm + 1 ∧
      n1.votedFor = some id ∧ n1.votesReceived = 1 ∧ n1.lastHeartbeat = E.now ∧
      n1.electionTimeout = 3000 + E.rand net.draws * (6000 - 3000) ∧ n1.log = self.log ∧
      (RaftNode.startElection E net id).sendCalls
        = net.sendCalls
          ++ (net.nodes.filter (fun p => decide (p.id ≠ id) && p.isAlive)).map
              (fun p => (id, p.id,
                Content.requestVote (self.currentTerm + 1) id ((self.log.length : Int) - 1)
                  ((self.log.getLast?.map (fun e => e.term)).getD 0))) := by
  have hid := getNode_id h
  obtain ⟨k, t, f⟩ := startElection_effect E net id self h
  rw [if_pos ⟨ha, hp⟩] at t f
  refine ⟨_, t.getNode_self h, rfl, rfl, ?_, rfl, rfl, rfl, rfl, ?_⟩
  · simp [RaftNode.addSent, RaftNode.afterElection, hid]
  · rw [f]
    unfold electionCalls RaftNode.voteRequest
    rw [hid, broadcastTargets_eq_filter net hn id, List.map_map, lastLogTerm_eq]
    rfl

theorem startElection_candidate_witness :
    (demoNet.getNode 0 = some (demoNode 0) ∧ (demoNet.nodes.map (fun n => n.id)).Nodup ∧
      (demoNode 0).isAlive = true ∧ (demoNode 0).isPartitioned = false) ∧
    ∃ n1, (RaftNode.startElection demoEnv demoNet 0).getNode 0 = some n1 ∧
      n1.state = NodeState.candidate ∧ n1.currentTerm = (demoNode 0).currentTerm + 1 ∧
      n1.votedFor = some 0 ∧ n1.votesReceived = 1 ∧ n1.lastHeartbeat = demoEnv.now ∧
      n1.electionTimeout = 3000 + demoEnv.rand demoNet.draws * (6000 - 3000) ∧
      n1.log = (demoNode 0).log ∧
      (RaftNode.startElection demoEnv demoNet 0).sendCalls
        = demoNet.sendCalls
          ++ (demoNet.nodes.filter (fun p => decide (p.id ≠ 0) && p.isAlive)).map
              (fun p => (0, p.id,
                Content.requestVote ((demoNode 0).currentTerm + 1) 0
                  (((demoNode 0).log.length : Int) - 1)
                  (((demoNode 0).log.getLast?.map (fun e => e.term)).getD 0))) :=
  ⟨⟨rfl, by decide, rfl, rfl⟩,
    startElection_candidate demoEnv demoNet 0 (demoNode 0) rfl (by decide) rfl rfl⟩

/-- C9, as the code has it: an alive node that is not flagged as partitioned, in
state Follower or Candidate, with an expired election timeout and an empty
inbox, is made a Candidate one term later with a vote for itself by
`RaftNode.update`. -/
theorem update_starts_election (E : Env) (net : RaftNetwork) (id : Nat) (self : RaftNode)
    (h : net.getNode id = some self) (ha : self.isAlive = true)
    (hp : self.isPartitioned = false)
    (hs : self.state = NodeState.follower ∨ self.state = NodeState.candidate)
    (hx : E.now - self.lastHeartbeat > self.electionTimeout)
    (hq : self.messageQueue = []) :
    ∃ n1, (RaftNode.update E net id).getNode id = some n1 ∧
      n1.state = NodeState.candidate ∧ n1.currentTerm = self.currentTerm + 1 ∧
      n1.votedFor = some id := by
  have hid := getNode_id h
  obtain ⟨k, t⟩ := update_effect E net id self h
  refine ⟨_, t.getNode_self h, ?_⟩
  have e : self.afterUpdate E.now (3000 + E.rand net.draws * (6000 - 3000)) net.aliveIds
      = self.afterElection E.now (3000 + E.rand net.draws * (6000 - 3000)) := by
    unfold RaftNode.afterUpdate RaftNode.afterTimeout
    rw [if_pos ha, if_pos ⟨hs, hx, ha, hp⟩, hq]
    unfold RaftNode.afterHeartbeat
    rw [if_neg (by simp [RaftNode.afterElection])]
    rfl
  rw [e]
  exact ⟨rfl, rfl, by simp [RaftNode.addSent, RaftNode.afterElection, hid]⟩

theorem update_starts_election_witness :
    (demoNet.getNode 0 = some (demoNode 0) ∧ (demoNode 0).isAlive = true ∧
      (demoNode 0).isPartitioned = false ∧
      ((demoNode 0).state = NodeState.follower ∨ (demoNode 0).state = NodeState.candidate) ∧
      lateEnv.now - (demoNode 0).lastHeartbeat > (demoNode 0).electionTimeout ∧
      (demoNode 0).messageQueue = []) ∧
    ∃ n1, (RaftNode.update lateEnv demoNet 0).getNode 0 = some n1 ∧
      n1.state = NodeState.candidate ∧ n1.currentTerm = (demoNode 0).currentTerm + 1 ∧
      n1.votedFor = some 0 :=
  ⟨⟨rfl, rfl, rfl, Or.inl rfl, by norm_num [lateEnv, demoNode, RaftNode.new], rfl⟩,
    update_starts_election lateEnv demoNet 0 (demoNode 0) rfl rfl rfl (Or.inl rfl)
      (by norm_num [lateEnv, demoNode, RaftNode.new]) rfl⟩

/-- C9 fails as stated: node 0 of `demoPartitionedNet` is alive, a Follower,
its election timeout has expired and its inbox is empty, yet `RaftNode.update`
leaves it a Follower at the same term, because it is flagged as partitioned. -/
theorem update_partitioned_no_election :
    ∃ self n1, demoPartitionedNet.getNode 0 = some self ∧ self.isAlive = true ∧
      self.state = NodeState.follower ∧
      lateEnv.now - self.lastHeartbeat > self.electionTimeout ∧ self.messageQueue = [] ∧
      (RaftNode.update lateEnv demoPartitionedNet 0).getNode 0 = some n1 ∧
      n1.state = NodeState.follower ∧ n1.currentTerm = self.currentTerm := by
  have h : demoPartitionedNet.getNode 0 = some { demoNode 0 with isPartitioned := true } := rfl
  obtain ⟨k, t⟩ := update_effect lateEnv demoPartitionedNet 0 _ h
  refine ⟨_, _, h, rfl, rfl, by norm_num [lateEnv, demoNode, RaftNode.new], rfl,
    t.getNode_self h, ?_, ?_⟩
  · simp [RaftNode.afterUpdate, RaftNode.afterTimeout, RaftNode.afterHeartbeat, RaftNode.addSent,
      RaftNode.drain, demoNode, RaftNode.new]
  · simp [RaftNode.afterUpdate, RaftNode.afterTimeout, RaftNode.afterHeartbeat, RaftNode.addSent,
      RaftNode.drain, demoNode, RaftNode.new]

/-- C11: handling a `RequestVote` or an `AppendEntries` makes exactly one call of
`sendMessage`, granted or not, accepted or not.  The vote reply goes to the
candidate with the receiver's term and the grant decision; the append reply
goes to the leader with the receiver's term and `success` equal to
`message.term >= currentTerm`. -/
theorem handlers_reply_once (E : Env) (net : RaftNetwork) (id : Nat) (self : RaftNode)
    (term candidateId leaderId : Nat) (lastLogIndex : Int) (lastLogTerm : Nat)
    (entries : List EntryData) (h : net.getNode id = some self) :
    (∃ n1,
      (RaftNode.handleRequestVote E net id term candidateId lastLogIndex lastLogTerm).getNode id
        = some n1 ∧ n1.currentTerm = self.currentTerm ∧
      (RaftNode.handleRequestVote E net id term candidateId lastLogIndex lastLogTerm).sendCalls
        = net.sendCalls ++ [(id, candidateId, Content.requestVoteResponse n1.currentTerm
            (decide (term ≥ self.currentTerm ∧
              (self.votedFor = none ∨ self.votedFor = some candidateId) ∧
              (lastLogTerm > self.lastLogTerm ∨
                (lastLogTerm = self.lastLogTerm ∧ lastLogIndex ≥ self.lastLogIndex)))))]) ∧
    (∃ n1,
      (RaftNode.handleAppendEntries E net id term leaderId entries).getNode id = some n1 ∧
      n1.currentTerm = self.currentTerm ∧
      (RaftNode.handleAppendEntries E net id term leaderId entries).sendCalls
        = net.sendCalls ++ [(id, leaderId, Content.appendEntriesResponse n1.currentTerm
            (decide (term ≥ self.currentTerm)))]) := by
  constructor
  · obtain ⟨k, t, f⟩ := handleRequestVote_effect E net id self term candidateId lastLogIndex
      lastLogTerm h
    refine ⟨_, t.getNode_self h, ?_, ?_⟩
    · rw [addSent_currentTerm, afterRequestVote_currentTerm]
    · rw [f, addSent_currentTerm, afterRequestVote_currentTerm]
      rfl
  · obtain ⟨k, t, f⟩ := handleAppendEntries_effect E net id self term leaderId entries h
    refine ⟨_, t.getNode_self h, ?_, ?_⟩
    · rw [addSent_currentTerm, afterAppendEntries_currentTerm]
    · rw [f, addSent_currentTerm, afterAppendEntries_currentTerm]

theorem handlers_reply_once_witness :
    demoNet.getNode 0 = some (demoNode 0) ∧
    ((∃ n1,
      (RaftNode.handleRequestVote demoEnv demoNet 0 1 1 (-1) 0).getNode 0 = some n1 ∧
      n1.currentTerm = (demoNode 0).currentTerm ∧
      (RaftNode.handleRequestVote demoEnv demoNet 0 1 1 (-1) 0).sendCalls
        = demoNet.sendCalls ++ [(0, 1, Content.requestVoteResponse n1.currentTerm
            (decide (1 ≥ (demoNode 0).currentTerm ∧
              ((demoNode 0).votedFor = none ∨ (demoNode 0).votedFor = some 1) ∧
              (0 > (demoNode 0).lastLogTerm ∨
                (0 = (demoNode 0).lastLogTerm ∧ (-1 : Int) ≥ (demoNode 0).lastLogIndex)))))]) ∧
    (∃ n1,
      (RaftNode.handleAppendEntries demoEnv demoNet 0 1 2 []).getNode 0 = some n1 ∧
      n1.currentTerm = (demoNode 0).currentTerm ∧
      (RaftNode.handleAppendEntries demoEnv demoNet 0 1 2 []).sendCalls
        = demoNet.sendCalls ++ [(0, 2, Content.appendEntriesResponse n1.currentTerm
            (decide (1 ≥ (demoNode 0).currentTerm)))])) :=
  ⟨rfl, handlers_reply_once demoEnv demoNet 0 (demoNode 0) 1 1 2 (-1) 0 [] rfl⟩

/-- C12, as the code has it: a Leader is still Leader after `handleMessage` of
any message whose term is at most its own, except an `AppendEntries` at exactly
its own term (which it accepts, stepping down); and `RaftNode.update` with an
empty inbox leaves it Leader. -/
theorem leader_stays_leader (E : Env) (net : RaftNetwork) (id : Nat) (self : RaftNode)
    (m : Content) (h : net.getNode id = some self) (hl : self.state = NodeState.leader)
    (hm : m.term ≤ self.currentTerm)
    (hae : ∀ t l pi pt es lc, m = Content.appendEntries t l pi pt es lc → t < self.currentTerm) :
    (∃ n1, (RaftNode.handleMessage E net id m).getNode id = some n1 ∧
      n1.state = NodeState.leader) ∧
    (self.messageQueue = [] →
      ∃ n1, (RaftNode.update E net id).getNode id = some n1 ∧ n1.state = NodeState.leader) := by
  constructor
  · obtain ⟨k, t, _⟩ := handleMessage_effect E net id self m h
    refine ⟨_, t.getNode_self h, ?_⟩
    rw [addSent_state]
    cases m with
    | requestVote tm c li lt =>
      have hle1 : tm ≤ self.currentTerm := hm
      simp only [RaftNode.afterMessage, afterRequestVote_state,
        afterTerm_of_le E.now self tm hle1]
      exact hl
    | requestVoteResponse tm g =>
      have hle1 : tm ≤ self.currentTerm := hm
      simp only [RaftNode.afterMessage, afterTerm_of_le E.now self tm hle1]
      rw [afterVoteResponse_of_not _ _ _ _ _ (Or.inl (by rw [hl]; decide))]
      exact hl
    | appendEntries tm l pi pt es lc =>
      have hle1 : tm ≤ self.currentTerm := hm
      have hlt : tm < self.currentTerm := hae tm l pi pt es lc rfl
      simp only [RaftNode.afterMessage, afterTerm_of_le E.now self tm hle1,
        afterAppendEntries_of_lt E.now self tm es hlt]
      exact hl
    | appendEntriesResponse tm s =>
      have hle1 : tm ≤ self.currentTerm := hm
      simp only [RaftNode.afterMessage, afterTerm_of_le E.now self tm hle1]
      exact hl
  · intro hq
    obtain ⟨k, t⟩ := update_effect E net id self h
    refine ⟨_, t.getNode_self h, ?_⟩
    rw [addSent_state]
    unfold RaftNode.afterUpdate
    split
    · have e1 : self.afterTimeout E.now (3000 + E.rand net.draws * (6000 - 3000)) = self := by
        unfold RaftNode.afterTimeout
        rw [if_neg]
        rw [hl]
        intro hh
        rcases hh.1 with h1 | h1 <;> cases h1
      rw [e1, hq]
      unfold RaftNode.afterHeartbeat
      split
      · exact hl
      · exact hl
    · exact hl

theorem leader_stays_leader_witness :
    (demoLeaderNet.getNode 0 = some demoLeader ∧ demoLeader.state = NodeState.leader ∧
      (Content.requestVote 2 1 (-1) 0).term ≤ demoLeader.currentTerm ∧
      (∀ t l pi pt es lc, Content.requestVote 2 1 (-1) 0 = Content.appendEntries t l pi pt es lc →
        t < demoLeader.currentTerm)) ∧
    ((∃ n1, (RaftNode.handleMessage demoEnv demoLeaderNet 0
        (Content.requestVote 2 1 (-1) 0)).getNode 0 = some n1 ∧
      n1.state = NodeState.leader) ∧
    (demoLeader.messageQueue = [] →
      ∃ n1, (RaftNode.update demoEnv demoLeaderNet 0).getNode 0 = some n1 ∧
        n1.state = NodeState.leader)) :=
  ⟨⟨rfl, rfl, by decide, by intro t l pi pt es lc hh; cases hh⟩,
    leader_stays_leader demoEnv demoLeaderNet 0 demoLeader (Content.requestVote 2 1 (-1) 0)
      rfl rfl (by decide) (by intro t l pi pt es lc hh; cases hh)⟩

/-- C12 fails as stated: node 0 of `demoLeaderNet` is an alive Leader at term 2;
after `handleMessage` of an `AppendEntries` carrying term 2, which is not
greater than its own, it is a Follower. -/
theorem leader_steps_down_on_equal_term :
    ∃ n1, demoLeaderNet.getNode 0 = some demoLeader ∧ demoLeader.isAlive = true ∧
      demoLeader.state = NodeState.leader ∧
      (Content.appendEntries 2 1 (-1) (-1) [] 0).term ≤ demoLeader.currentTerm ∧
      (RaftNode.handleMessage demoEnv demoLeaderNet 0
        (Content.appendEntries 2 1 (-1) (-1) [] 0)).getNode 0 = some n1 ∧
      n1.state = NodeState.follower := by
  have h : demoLeaderNet.getNode 0 = some demoLeader := rfl
  obtain ⟨k, t, _⟩ := handleMessage_effect demoEnv demoLeaderNet 0 demoLeader
    (Content.appendEntries 2 1 (-1) (-1) [] 0) h
  refine ⟨_, h, rfl, rfl, by decide, t.getNode_self h, ?_⟩
  rw [addSent_state]
  have hle : (2 : Nat) ≤ demoLeader.currentTerm := by decide
  simp only [RaftNode.afterMessage, afterTerm_of_le demoEnv.now demoLeader 2 hle]
  rw [afterAppendEntries_of_ge _ _ _ _ (by decide)]
  exact stepDown_state _ _

/-! ## The transport -/

theorem canReach_iff (net : RaftNetwork) (a b : Nat) (sender receiver : RaftNode)
    (ha : net.getNode a = some sender) (hb : net.getNode b = some receiver) :
    net.canReach a b ↔
      (sender.isAlive = true ∧ receiver.isAlive = true ∧ net.isPartitioned a b = false) := by
  unfold RaftNetwork.canReach
  constructor
  · rintro ⟨s, r, hs, hr, h1, h2, h3⟩
    rw [ha] at hs; rw [hb] at hr
    cases hs; cases hr
    exact ⟨h1, h2, h3⟩
  · rintro ⟨h1, h2, h3⟩
    exact ⟨sender, receiver, ha, hb, h1, h2, h3⟩

/-- The three outcomes of `sendMessage`: blocked before the draw, dropped by the
draw, or sent. -/
theorem sendMessage_cases (E : Env) (net : RaftNetwork) (a b : Nat) (c : Content) :
    (¬ net.canReach a b ∧
      net.sendMessage E a b c
        = (false, { net with sendCalls := net.sendCalls ++ [(a, b, c)] })) ∨
    (net.canReach a b ∧ E.rand net.draws < net.dropRate ∧
      net.sendMessage E a b c
        = (false, { net with sendCalls := net.sendCalls ++ [(a, b, c)],
                             draws := net.draws + 1,
                             droppedMessages := net.droppedMessages + 1 })) ∨
    (net.canReach a b ∧ ¬ E.rand net.draws < net.dropRate ∧
      net.sendMessage E a b c
        = (true, { net with sendCalls := net.sendCalls ++ [(a, b, c)],
                            draws := net.draws + 1 + 1 + 1,
                            messages := net.messages
                              ++ [Message.new E.now (E.rand (net.draws + 1)) a b c],
                            totalMessages := net.totalMessages + 1,
                            nodes := updNodes a (RaftNode.addSent 1) net.nodes })) := by
  unfold RaftNetwork.sendMessage
  simp only []
  have g1 : ∀ j, ({ net with sendCalls := net.sendCalls ++ [(a, b, c)] } : RaftNetwork).getNode j
      = net.getNode j := fun _ => rfl
  rw [g1 a, g1 b]
  cases ha : net.getNode a with
  | none =>
    left
    refine ⟨?_, rfl⟩
    rintro ⟨s, r, hs, _⟩
    rw [ha] at hs; cases hs
  | some sender =>
    cases hb : net.getNode b with
    | none =>
      left
      refine ⟨?_, rfl⟩
      rintro ⟨s, r, _, hr, _⟩
      rw [hb] at hr; cases hr
    | some receiver =>
      have hid := getNode_id ha
      simp only []
      rw [canReach_iff net a b sender receiver ha hb]
      by_cases h1 : (!sender.isAlive || !receiver.isAlive) = true
      · left
        rw [if_pos h1]
        refine ⟨?_, rfl⟩
        rintro ⟨x, y, _⟩
        rw [x, y] at h1
        simp at h1
      · rw [if_neg h1]
        have hal : sender.isAlive = true ∧ receiver.isAlive = true := by
          cases hx : sender.isAlive <;> cases hy : receiver.isAlive <;> simp [hx, hy] at h1 ⊢
        have hp : ({ net with sendCalls := net.sendCalls ++ [(a, b, c)] } :
            RaftNetwork).isPartitioned sender.id b = net.isPartitioned a b := by
          rw [hid]; rfl
        rw [hp]
        by_cases hpp : net.isPartitioned a b = true
        · left
          rw [if_pos hpp]
          refine ⟨?_, rfl⟩
          rintro ⟨_, _, x⟩
          rw [x] at hpp
          cases hpp
        · rw [if_neg hpp]
          have hpf : net.isPartitioned a b = false := by
            cases hh : net.isPartitioned a b
            · rfl
            · exact absurd hh hpp
          right
          by_cases hd : E.rand net.draws < net.dropRate
          · left
            refine ⟨⟨hal.1, hal.2, hpf⟩, hd, ?_⟩
            simp only [RaftNetwork.random]
            rw [if_pos hd]
          · right
            refine ⟨⟨hal.1, hal.2, hpf⟩, hd, ?_⟩
            simp only [RaftNetwork.random]
            rw [if_neg hd, hid]
            rfl

theorem Appends.same (E : Env) (net : RaftNetwork) (a : Nat) : Appends E net net a :=
  ⟨rfl, rfl, rfl, rfl, [], [], by simp, by simp, by simp, by simp, by simp, by simp,
    fun _ => rfl⟩

theorem Appends.of_fields (E : Env) {net net1 : RaftNetwork} (a : Nat)
    (h1 : net1.partitions = net.partitions) (h2 : net1.dropRate = net.dropRate)
    (h3 : net1.latency = net.latency) (h4 : net1.speedMultiplier = net.speedMultiplier)
    (h5 : net1.messages = net.messages) (h6 : net1.sendCalls = net.sendCalls)
    (h7 : net1.totalMessages = net.totalMessages) : Appends E net net1 a :=
  ⟨h1, h2, h3, h4, [], [], by simp [h5], by simp [h6], by simp [h7], by simp, by simp,
    by simp, fun _ => rfl⟩

theorem Appends.ofModify (E : Env) (net : RaftNetwork) (id : Nat) (f : RaftNode → RaftNode)
    (a : Nat) : Appends E net (net.modifyNode id f) a :=
  Appends.of_fields E a rfl rfl rfl rfl rfl rfl rfl

theorem Appends.andThen {E : Env} {net net1 net2 : RaftNetwork} {a : Nat}
    (h1 : Appends E net net1 a) (h2 : Appends E net1 net2 a) : Appends E net net2 a := by
  obtain ⟨p1, d1, l1, s1, ms1, cs1, m1, c1, t1, f1, g1, sub1, q1⟩ := h1
  obtain ⟨p2, d2, l2, s2, ms2, cs2, m2, c2, t2, f2, g2, sub2, q2⟩ := h2
  refine ⟨p2.trans p1, d2.trans d1, l2.trans l1, s2.trans s1, ms1 ++ ms2, cs1 ++ cs2,
    ?_, ?_, ?_, ?_, ?_, ?_, ?_⟩
  · rw [m2, m1, List.append_assoc]
  · rw [c2, c1, List.append_assoc]
  · rw [t2, t1, List.length_append, Nat.add_assoc]
  · intro m hm
    rcases List.mem_append.mp hm with hh | hh
    · exact f1 m hh
    · exact f2 m hh
  · intro c hc
    rcases List.mem_append.mp hc with hh | hh
    · exact g1 c hh
    · exact g2 c hh
  · rw [List.map_append]
    exact List.Sublist.append sub1 sub2
  · intro hq
    rw [q1 hq, q2 (by rw [d1]; exact hq)]
    rfl

theorem Appends.ite (E : Env) {net n1 n2 : RaftNetwork} (a : Nat) (c : Prop) [Decidable c]
    (h1 : Appends E net n1 a) (h2 : Appends E net n2 a) :
    Appends E net (if c then n1 else n2) a := by
  split
  · exact h1
  · exact h2

/-- What a call of `sendMessage` does to the transport. -/
theorem sendMessage_appends (E : Env) (net : RaftNetwork) (a b : Nat) (c : Content) :
    Appends E net (net.sendMessage E a b c).2 a := by
  rcases sendMessage_cases E net a b c with ⟨_, e⟩ | ⟨_, _, e⟩ | ⟨_, hd, e⟩
  · rw [e]
    exact ⟨rfl, rfl, rfl, rfl, [], [(a, b, c)], by simp, rfl, by simp, by simp, by simp,
      by simp, fun _ => rfl⟩
  · rw [e]
    exact ⟨rfl, rfl, rfl, rfl, [], [(a, b, c)], by simp, rfl, by simp, by simp, by simp,
      by simp, fun _ => rfl⟩
  · rw [e]
    refine ⟨rfl, rfl, rfl, rfl, [Message.new E.now (E.rand (net.draws + 1)) a b c],
      [(a, b, c)], rfl, rfl, rfl, ?_, by simp, ?_, ?_⟩
    · intro m hm
      rw [List.mem_singleton.mp hm]
      exact ⟨rfl, rfl, rfl, rfl, rfl, rfl⟩
    · simp [Message.new]
    · intro hq
      exact absurd (hq net.draws) hd

/-- What `broadcastLoop` does to the transport. -/
theorem broadcastLoop_appends (E : Env) (a : Nat) (c : Content) (ids : List Nat) :
    ∀ (cnt : Nat) (net : RaftNetwork),
      Appends E net (RaftNetwork.broadcastLoop E a c ids cnt net).2 a := by
  induction ids with
  | nil => intro cnt net; exact Appends.same E net a
  | cons j rest ih =>
    intro cnt net
    unfold RaftNetwork.broadcastLoop
    cases net.getNode j with
    | none => exact ih cnt net
    | some node =>
      simp only []
      split
      · exact (sendMessage_appends E net a j c).andThen (ih _ _)
      · exact ih cnt net

theorem broadcastMessage_appends (E : Env) (net : RaftNetwork) (a : Nat) (c : Content) :
    Appends E net (net.broadcastMessage E a c).2 a :=
  broadcastLoop_appends E a c _ 0 net

theorem startElection_appends (E : Env) (net : RaftNetwork) (id : Nat) :
    Appends E net (RaftNode.startElection E net id) id := by
  unfold RaftNode.startElection
  cases net.getNode id with
  | none => exact Appends.same E net id
  | some self =>
    simp only []
    split
    · exact Appends.same E net id
    · have a1 : Appends E net
          ((RaftNode.randomElectionTimeout E net).2.modifyNode id (fun n =>
            { n with state := NodeState.candidate, currentTerm := n.currentTerm + 1,
                     votedFor := some n.id, votesReceived := 1, lastHeartbeat := E.now,
                     electionTimeout := (RaftNode.randomElectionTimeout E net).1,
                     stateChangeTime := E.now })) id :=
        Appends.of_fields E id rfl rfl rfl rfl rfl rfl rfl
      exact a1.andThen (broadcastMessage_appends E _ id _)

theorem sendHeartbeats_appends (E : Env) (net : RaftNetwork) (id : Nat) :
    Appends E net (RaftNode.sendHeartbeats E net id) id := by
  unfold RaftNode.sendHeartbeats
  cases net.getNode id with
  | none => exact Appends.same E net id
  | some self =>
    simp only []
    split
    · exact Appends.same E net id
    · exact broadcastMessage_appends E _ id _

theorem becomeLeader_appends (E : Env) (net : RaftNetwork) (id : Nat) :
    Appends E net (RaftNode.becomeLeader E net id) id := by
  unfold RaftNode.becomeLeader
  simp only []
  exact ((Appends.ofModify E net id _ id).andThen (Appends.ofModify E _ id _ id)).andThen
    (sendHeartbeats_appends E _ id)

theorem handleRequestVote_appends (E : Env) (net : RaftNetwork) (id : Nat)
    (term c : Nat) (li : Int) (lt : Nat) :
    Appends E net (RaftNode.handleRequestVote E net id term c li lt) id := by
  unfold RaftNode.handleRequestVote
  cases net.getNode id with
  | none => exact Appends.same E net id
  | some self =>
    simp only []
    exact (Appends.ite E id _ (Appends.ofModify E net id _ id) (Appends.same E net id)).andThen
      (sendMessage_appends E _ id c _)

theorem handleRequestVoteResponse_appends (E : Env) (net : RaftNetwork) (id : Nat)
    (term : Nat) (g : Bool) :
    Appends E net (RaftNode.handleRequestVoteResponse E net id term g) id := by
  unfold RaftNode.handleRequestVoteResponse
  cases net.getNode id with
  | none => exact Appends.same E net id
  | some self =>
    simp only []
    split
    · exact Appends.same E net id
    · split
      · split
        · exact (Appends.ofModify E net id _ id).andThen (becomeLeader_appends E _ id)
        · exact Appends.ofModify E net id _ id
      · exact Appends.same E net id

theorem handleAppendEntries_appends (E : Env) (net : RaftNetwork) (id : Nat)
    (term l : Nat) (es : List EntryData) :
    Appends E net (RaftNode.handleAppendEntries E net id term l es) id := by
  unfold RaftNode.handleAppendEntries
  cases net.getNode id with
  | none => exact Appends.same E net id
  | some self =>
    simp only []
    exact (Appends.ite E id _ (Appends.ofModify E net id _ id) (Appends.same E net id)).andThen
      (sendMessage_appends E _ id l _)

theorem handleAppendEntriesResponse_eq (E : Env) (net : RaftNetwork) (id : Nat)
    (t : Nat) (b : Bool) : RaftNode.handleAppendEntriesResponse E net id t b = net := by
  unfold RaftNode.handleAppendEntriesResponse
  cases net.getNode id <;> simp

theorem handleMessage_appends (E : Env) (net : RaftNetwork) (id : Nat) (m : Content) :
    Appends E net (RaftNode.handleMessage E net id m) id := by
  unfold RaftNode.handleMessage
  cases net.getNode id with
  | none => exact Appends.same E net id
  | some self =>
    simp only []
    have a0 : Appends E net
        (if m.term > self.currentTerm then
          net.modifyNode id (fun n =>
            RaftNode.stepDown E.now { n with currentTerm := m.term, votedFor := none })
         else net) id := by
      split
      · exact Appends.ofModify E net id _ id
      · exact Appends.same E net id
    cases m with
    | requestVote tm c li lt => exact a0.andThen (handleRequestVote_appends E _ id tm c li lt)
    | requestVoteResponse tm g => exact a0.andThen (handleRequestVoteResponse_appends E _ id tm g)
    | appendEntries tm l pi pt es lc => exact a0.andThen (handleAppendEntries_appends E _ id tm l es)
    | appendEntriesResponse tm s =>
      simp only [handleAppendEntriesResponse_eq]
      exact a0

theorem processLoop_appends (E : Env) (id : Nat) :
    ∀ (fuel : Nat) (net : RaftNetwork), Appends E net (RaftNode.processLoop E id fuel net) id := by
  intro fuel
  induction fuel with
  | zero => intro net; exact Appends.same E net id
  | succ fuel ih =>
    intro net
    unfold RaftNode.processLoop
    cases net.getNode id with
    | none => exact Appends.same E net id
    | some self =>
      simp only []
      cases self.messageQueue with
      | nil => exact Appends.same E net id
      | cons m rest =>
        simp only []
        split
        · exact (((Appends.ofModify E net id _ id).andThen
            (handleMessage_appends E _ id m)).andThen (Appends.ofModify E _ id _ id)).andThen
            (ih _)
        · exact Appends.same E net id

theorem processMessages_appends (E : Env) (net : RaftNetwork) (id : Nat) :
    Appends E net (RaftNode.processMessages E net id) id := by
  unfold RaftNode.processMessages
  cases net.getNode id with
  | none => exact Appends.same E net id
  | some self => exact processLoop_appends E id _ net

theorem update_appends (E : Env) (net : RaftNetwork) (id : Nat) :
    Appends E net (RaftNode.update E net id) id := by
  unfold RaftNode.update
  cases net.getNode id with
  | none => exact Appends.same E net id
  | some self =>
    simp only []
    split
    · exact Appends.same E net id
    · have a1 : Appends E net
          (if self.state = NodeState.follower ∨ self.state = NodeState.candidate then
            if E.now - self.lastHeartbeat > self.electionTimeout then
              RaftNode.startElection E net id
            else net
          else net) id := by
        split
        · split
          · exact startElection_appends E net id
          · exact Appends.same E net id
        · exact Appends.same E net id
      have a2 : ∀ n0 : RaftNetwork, Appends E n0
          (match n0.getNode id with
            | none => n0
            | some self1 =>
              if self1.state = NodeState.leader then
                if E.now - self1.lastHeartbeat > self1.heartbeatInterval then
                  (RaftNode.sendHeartbeats E n0 id).modifyNode id
                    (fun n => { n with lastHeartbeat := E.now })
                else n0
              else n0) id := by
        intro n0
        cases n0.getNode id with
        | none => exact Appends.same E n0 id
        | some self1 =>
          simp only []
          split
          · split
            · exact (sendHeartbeats_appends E n0 id).andThen (Appends.ofModify E _ id _ id)
            · exact Appends.same E n0 id
          · exact Appends.same E n0 id
      exact (a1.andThen (a2 _)).andThen (processMessages_appends E _ id)

/-- C14: with `u = E.rand net.draws` the draw of the drop test, `sendMessage`
returns true exactly when the receiver is registered, sender and receiver are
alive, the pair is not blocked and `u >= dropRate`.  On false the in-flight
list, `totalMessages` and the sender are unchanged, and `droppedMessages` grows
(by one) only when the pair could be reached, that is when the failure is the
random drop.  On true exactly one message with that sender, receiver and
content is appended, and `totalMessages` and the sender's `messagesSent` grow by
one. -/
theorem sendMessage_contract (E : Env) (net : RaftNetwork) (a b : Nat) (c : Content)
    (sender : RaftNode) (ha : net.getNode a = some sender) :
    ((net.sendMessage E a b c).1 = true ↔
      ∃ receiver, net.getNode b = some receiver ∧ sender.isAlive = true ∧
        receiver.isAlive = true ∧ net.isPartitioned a b = false ∧
        E.rand net.draws ≥ net.dropRate) ∧
    ((net.sendMessage E a b c).1 = false →
      (net.sendMessage E a b c).2.messages = net.messages ∧
      (net.sendMessage E a b c).2.totalMessages = net.totalMessages ∧
      (net.sendMessage E a b c).2.getNode a = some sender ∧
      (net.canReach a b →
        (net.sendMessage E a b c).2.droppedMessages = net.droppedMessages + 1) ∧
      (¬ net.canReach a b →
        (net.sendMessage E a b c).2.droppedMessages = net.droppedMessages)) ∧
    ((net.sendMessage E a b c).1 = true →
      (∃ m, (net.sendMessage E a b c).2.messages = net.messages ++ [m] ∧
        m.senderId = a ∧ m.receiverId = b ∧ m.content = c ∧ m.delivered = false) ∧
      (net.sendMessage E a b c).2.totalMessages = net.totalMessages + 1 ∧
      (net.sendMessage E a b c).2.droppedMessages = net.droppedMessages ∧
      ∃ s1, (net.sendMessage E a b c).2.getNode a = some s1 ∧
        s1.messagesSent = sender.messagesSent + 1) := by
  have hid := getNode_id ha
  have hreach : net.canReach a b ↔ ∃ receiver, net.getNode b = some receiver ∧
      sender.isAlive = true ∧ receiver.isAlive = true ∧ net.isPartitioned a b = false := by
    unfold RaftNetwork.canReach
    constructor
    · rintro ⟨s, r, hs, hr, h1, h2, h3⟩
      rw [ha] at hs; cases hs
      exact ⟨r, hr, h1, h2, h3⟩
    · rintro ⟨r, hr, h1, h2, h3⟩
      exact ⟨sender, r, ha, hr, h1, h2, h3⟩
  rcases sendMessage_cases E net a b c with ⟨hr, e⟩ | ⟨hr, hd, e⟩ | ⟨hr, hd, e⟩
  · rw [e]
    refine ⟨?_, ?_, ?_⟩
    · constructor
      · intro hh; cases hh
      · rintro ⟨r, h1, h2, h3, h4, _⟩
        exact absurd (hreach.mpr ⟨r, h1, h2, h3, h4⟩) hr
    · intro _
      exact ⟨rfl, rfl, ha, fun hh => absurd hh hr, fun _ => rfl⟩
    · intro hh; cases hh
  · rw [e]
    refine ⟨?_, ?_, ?_⟩
    · constructor
      · intro hh; cases hh
      · rintro ⟨r, _, _, _, _, h5⟩
        exact absurd hd (not_lt.mpr h5)
    · intro _
      exact ⟨rfl, rfl, ha, fun _ => rfl, fun hh => absurd hr hh⟩
    · intro hh; cases hh
  · rw [e]
    refine ⟨?_, ?_, ?_⟩
    · constructor
      · intro _
        obtain ⟨r, h1, h2, h3, h4⟩ := hreach.mp hr
        exact ⟨r, h1, h2, h3, h4, not_lt.mp hd⟩
      · intro _; rfl
    · intro hh; cases hh
    · intro _
      refine ⟨⟨_, rfl, rfl, rfl, rfl, rfl⟩, rfl, rfl, sender.addSent 1, ?_, rfl⟩
      have t : Touches net
          { net with sendCalls := net.sendCalls ++ [(a, b, c)],
                     draws := net.draws + 1 + 1 + 1,
                     messages := net.messages
                       ++ [Message.new E.now (E.rand (net.draws + 1)) a b c],
                     totalMessages := net.totalMessages + 1,
                     nodes := updNodes a (RaftNode.addSent 1) net.nodes } a sender
          (sender.addSent 1) :=
        ⟨RaftNode.addSent 1, fun _ => rfl, fun _ => rfl, rfl, rfl⟩
      exact t.getNode_self ha

theorem sendMessage_contract_witness :
    demoNet.getNode 0 = some (demoNode 0) ∧
    (((demoNet.sendMessage demoEnv 0 1 (Content.requestVoteResponse 0 true)).1 = true ↔
      ∃ receiver, demoNet.getNode 1 = some receiver ∧ (demoNode 0).isAlive = true ∧
        receiver.isAlive = true ∧ demoNet.isPartitioned 0 1 = false ∧
        demoEnv.rand demoNet.draws ≥ demoNet.dropRate) ∧
    ((demoNet.sendMessage demoEnv 0 1 (Content.requestVoteResponse 0 true)).1 = false →
      (demoNet.sendMessage demoEnv 0 1 (Content.requestVoteResponse 0 true)).2.messages
        = demoNet.messages ∧
      (demoNet.sendMessage demoEnv 0 1 (Content.requestVoteResponse 0 true)).2.totalMessages
        = demoNet.totalMessages ∧
      (demoNet.sendMessage demoEnv 0 1 (Content.requestVoteResponse 0 true)).2.getNode 0
        = some (demoNode 0) ∧
      (demoNet.canReach 0 1 →
        (demoNet.sendMessage demoEnv 0 1 (Content.requestVoteResponse 0 true)).2.droppedMessages
          = demoNet.droppedMessages + 1) ∧
      (¬ demoNet.canReach 0 1 →
        (demoNet.sendMessage demoEnv 0 1 (Content.requestVoteResponse 0 true)).2.droppedMessages
          = demoNet.droppedMessages)) ∧
    ((demoNet.sendMessage demoEnv 0 1 (Content.requestVoteResponse 0 true)).1 = true →
      (∃ m, (demoNet.sendMessage demoEnv 0 1 (Content.requestVoteResponse 0 true)).2.messages
          = demoNet.messages ++ [m] ∧
        m.senderId = 0 ∧ m.receiverId = 1 ∧ m.content = Content.requestVoteResponse 0 true ∧
        m.delivered = false) ∧
      (demoNet.sendMessage demoEnv 0 1 (Content.requestVoteResponse 0 true)).2.totalMessages
        = demoNet.totalMessages + 1 ∧
      (demoNet.sendMessage demoEnv 0 1 (Content.requestVoteResponse 0 true)).2.droppedMessages
        = demoNet.droppedMessages ∧
      ∃ s1, (demoNet.sendMessage demoEnv 0 1 (Content.requestVoteResponse 0 true)).2.getNode 0
          = some s1 ∧
        s1.messagesSent = (demoNode 0).messagesSent + 1)) :=
  ⟨rfl, sendMessage_contract demoEnv demoNet 0 1 (Content.requestVoteResponse 0 true)
    (demoNode 0) rfl⟩

theorem broadcastLoop_count (E : Env) (a : Nat) (c : Content) (ids : List Nat) :
    ∀ (cnt : Nat) (net : RaftNetwork),
      (RaftNetwork.broadcastLoop E a c ids cnt net).1 + net.messages.length
        = cnt + (RaftNetwork.broadcastLoop E a c ids cnt net).2.messages.length := by
  induction ids with
  | nil => intro cnt net; simp [RaftNetwork.broadcastLoop, Nat.add_comm]
  | cons j rest ih =>
    intro cnt net
    unfold RaftNetwork.broadcastLoop
    cases net.getNode j with
    | none => exact ih cnt net
    | some node =>
      simp only []
      split
      · have := ih (if (net.sendMessage E a j c).1 = true then cnt + 1 else cnt)
          (net.sendMessage E a j c).2
        rcases sendMessage_cases E net a j c with ⟨_, e⟩ | ⟨_, _, e⟩ | ⟨_, _, e⟩
        · rw [e] at this ⊢
          simpa using this
        · rw [e] at this ⊢
          simpa using this
        · rw [e] at this ⊢
          simp only [if_true, List.length_append, List.length_singleton] at this ⊢
          omega
      · exact ih cnt net

theorem broadcastLoop_all (E : Env) (a : Nat) (c : Content) (hr : ∀ i, 0 ≤ E.rand i)
    (ids : List Nat) :
    ∀ (cnt : Nat) (net : RaftNetwork) (sender : RaftNode),
      net.getNode a = some sender → sender.isAlive = true → net.dropRate = 0 →
      net.partitions = [] →
      (RaftNetwork.broadcastLoop E a c ids cnt net).1
        = cnt + (broadcastTargets net a ids).length := by
  induction ids with
  | nil => intro cnt net sender _ _ _ _; simp [RaftNetwork.broadcastLoop, broadcastTargets]
  | cons j rest ih =>
    intro cnt net sender hs ha hd hp
    unfold RaftNetwork.broadcastLoop
    cases hj : net.getNode j with
    | none =>
      simp only []
      rw [ih cnt net sender hs ha hd hp]
      simp [broadcastTargets, hj]
    | some node =>
      simp only []
      by_cases hc : j ≠ a ∧ node.isAlive = true
      · rw [if_pos hc]
        have hreach : net.canReach a j :=
          ⟨sender, node, hs, hj, ha, hc.2, by simp [RaftNetwork.isPartitioned, hp]⟩
        have hnd : ¬ E.rand net.draws < net.dropRate := by
          rw [hd]; exact not_lt.mpr (hr _)
        rcases sendMessage_cases E net a j c with ⟨h1, _⟩ | ⟨_, h2, _⟩ | ⟨_, _, e⟩
        · exact absurd hreach h1
        · exact absurd h2 hnd
        · obtain ⟨k, f1, _⟩ := sendMessage_frame E net a j c
          have t := Touches.of_addSent f1 sender
          rw [ih _ _ _ (t.getNode_self hs) ha (by rw [e]; exact hd) (by rw [e]; exact hp),
            t.targets]
          have : broadcastTargets net a (j :: rest) = j :: broadcastTargets net a rest := by
            simp [broadcastTargets, hj, hc.1, hc.2]
          rw [this, e]
          simp only [if_true, List.length_cons]
          omega
      · rw [if_neg hc, ih cnt net sender hs ha hd hp]
        have : broadcastTargets net a (j :: rest) = broadcastTargets net a rest := by
          simp only [broadcastTargets, List.filter_cons, hj]
          by_cases hja : j = a
          · simp [hja]
          · have hd : node.isAlive = false := by
              cases hh : node.isAlive
              · rfl
              · exact absurd ⟨hja, hh⟩ hc
            simp [hja, hd]
        rw [this]

/-- C15: `broadcastMessage` calls `sendMessage` once for every node other than
the sender that is alive, in map order, and for no other node; it returns the
number of messages it added to the in-flight list; every added message goes
from the sender to an alive node other than the sender; and with an alive
sender, `dropRate = 0`, no partitions and draws that are not negative the
result is the number of other alive nodes. -/
theorem broadcastMessage_contract (E : Env) (net : RaftNetwork) (a : Nat) (c : Content)
    (hn : (net.nodes.map (fun n => n.id)).Nodup) :
    (net.broadcastMessage E a c).2.sendCalls
      = net.sendCalls
        ++ (net.nodes.filter (fun p => decide (p.id ≠ a) && p.isAlive)).map
            (fun p => (a, p.id, c)) ∧
    (∃ ms, (net.broadcastMessage E a c).2.messages = net.messages ++ ms ∧
      (net.broadcastMessage E a c).1 = ms.length ∧
      ∀ m ∈ ms, m.senderId = a ∧ m.content = c ∧ m.receiverId ≠ a ∧
        ∃ p ∈ net.nodes, p.id = m.receiverId ∧ p.isAlive = true) ∧
    (∀ sender, net.getNode a = some sender → sender.isAlive = true → net.dropRate = 0 →
      net.partitions = [] → (∀ i, 0 ≤ E.rand i) →
      (net.broadcastMessage E a c).1
        = (net.nodes.filter (fun p => decide (p.id ≠ a) && p.isAlive)).length) := by
  obtain ⟨k, _, f2⟩ := broadcastMessage_frame E net a c
  rw [broadcastTargets_eq_filter net hn a, List.map_map] at f2
  obtain ⟨_, _, _, _, ms, cs, hm, hcs, _, hf, _, hsub, _⟩ := broadcastMessage_appends E net a c
  have hcs2 : cs = (net.nodes.filter (fun p => decide (p.id ≠ a) && p.isAlive)).map
      (fun p => (a, p.id, c)) := by
    rw [hcs] at f2
    exact List.append_cancel_left f2
  refine ⟨f2, ⟨ms, hm, ?_, ?_⟩, ?_⟩
  · have := broadcastLoop_count E a c (net.nodes.map (fun n => n.id)) 0 net
    unfold RaftNetwork.broadcastMessage
    rw [show (RaftNetwork.broadcastLoop E a c (net.nodes.map (fun n => n.id)) 0 net).2.messages
      = net.messages ++ ms from hm, List.length_append] at this
    omega
  · intro m hm1
    have hmem : (m.senderId, m.receiverId, m.content) ∈ cs :=
      hsub.subset (List.mem_map_of_mem (fun m => (m.senderId, m.receiverId, m.content)) hm1)
    rw [hcs2] at hmem
    obtain ⟨p, hp, hpe⟩ := List.mem_map.mp hmem
    have hp2 := List.mem_filter.mp hp
    simp only [Prod.mk.injEq] at hpe
    simp only [Bool.and_eq_true, decide_eq_true_eq] at hp2
    refine ⟨(hf m hm1).1, hpe.2.2.symm, ?_, p, hp2.1, hpe.2.1, hp2.2.2⟩
    rw [← hpe.2.1]; exact hp2.2.1
  · intro sender hs ha hd hp hr
    have := broadcastLoop_all E a c hr (net.nodes.map (fun n => n.id)) 0 net sender hs ha hd hp
    unfold RaftNetwork.broadcastMessage
    rw [this, broadcastTargets_eq_filter net hn a]
    simp

theorem broadcastMessage_contract_witness :
    (demoNet.nodes.map (fun n => n.id)).Nodup ∧
    ((demoNet.broadcastMessage demoEnv 0 (Content.requestVoteResponse 0 true)).2.sendCalls
      = demoNet.sendCalls
        ++ (demoNet.nodes.filter (fun p => decide (p.id ≠ 0) && p.isAlive)).map
            (fun p => (0, p.id, Content.requestVoteResponse 0 true)) ∧
    (∃ ms, (demoNet.broadcastMessage demoEnv 0 (Content.requestVoteResponse 0 true)).2.messages
        = demoNet.messages ++ ms ∧
      (demoNet.broadcastMessage demoEnv 0 (Content.requestVoteResponse 0 true)).1 = ms.length ∧
      ∀ m ∈ ms, m.senderId = 0 ∧ m.content = Content.requestVoteResponse 0 true ∧
        m.receiverId ≠ 0 ∧ ∃ p ∈ demoNet.nodes, p.id = m.receiverId ∧ p.isAlive = true) ∧
    (∀ sender, demoNet.getNode 0 = some sender → sender.isAlive = true →
      demoNet.dropRate = 0 → demoNet.partitions = [] → (∀ i, 0 ≤ demoEnv.rand i) →
      (demoNet.broadcastMessage demoEnv 0 (Content.requestVoteResponse 0 true)).1
        = (demoNet.nodes.filter (fun p => decide (p.id ≠ 0) && p.isAlive)).length)) :=
  ⟨by decide, broadcastMessage_contract demoEnv demoNet 0 (Content.requestVoteResponse 0 true)
    (by decide)⟩

/-! ## Cluster queries and client requests -/

theorem getLeader_eq (net : RaftNetwork) :
    net.getLeader
      = net.nodes.find? (fun n => n.isAlive && decide (n.state = NodeState.leader)) := by
  unfold RaftNetwork.getLeader RaftNetwork.getAliveNodes
  rw [List.find?_filter]
  congr 1
  funext a
  cases a.isAlive <;> simp

/-- C23: `getLeader` is null exactly when no alive node is a Leader; otherwise
it is the first node in map order that is alive and a Leader (so it is alive,
a Leader, and nothing before it in the map is both); and `getStatistics`
reports no leader exactly when `getLeader` is null, the leader's id otherwise. -/
theorem getLeader_contract (net : RaftNetwork) :
    (net.getLeader = none ↔
      ∀ p ∈ net.nodes, ¬ (p.isAlive = true ∧ p.state = NodeState.leader)) ∧
    (∀ l, net.getLeader = some l →
      l.isAlive = true ∧ l.state = NodeState.leader ∧
      ∃ before after, net.nodes = before ++ l :: after ∧
        ∀ p ∈ before, ¬ (p.isAlive = true ∧ p.state = NodeState.leader)) ∧
    (net.getStatistics.leader = none ↔ net.getLeader = none) ∧
    (∀ l, net.getLeader = some l → net.getStatistics.leader = some l.id) := by
  refine ⟨?_, ?_, ?_, ?_⟩
  · rw [getLeader_eq, List.find?_eq_none]
    constructor
    · intro h p hp hh
      have := h p hp
      simp [hh.1, hh.2] at this
    · intro h p hp
      have := h p hp
      simp only [Bool.and_eq_true, decide_eq_true_eq]
      exact this
  · intro l hl
    rw [getLeader_eq, List.find?_eq_some] at hl
    obtain ⟨h1, before, after, h2, h3⟩ := hl
    simp only [Bool.and_eq_true, decide_eq_true_eq] at h1
    refine ⟨h1.1, h1.2, before, after, h2, ?_⟩
    intro p hp hh
    have := h3 p hp
    simp [hh.1, hh.2] at this
  · simp [RaftNetwork.getStatistics]
  · intro l hl
    simp [RaftNetwork.getStatistics, hl]

theorem getLeader_mem {net : RaftNetwork} {l : RaftNode} (h : net.getLeader = some l) :
    l ∈ net.nodes := by
  obtain ⟨_, _, before, after, e, _⟩ := (getLeader_contract net).2.1 l h
  rw [e]
  simp

/-- C13: `addClientRequest` returns null and the network unchanged when no alive
node is a Leader; when `getLeader` finds a leader it returns one new entry with
the leader's term, the command, `committed = applied = false` and index equal to
the old log length, which is also the new length minus one; the entry is
appended to that leader's log and every other node is unchanged. -/
theorem addClientRequest_contract (E : Env) (net : RaftNetwork) (command : String)
    (hn : (net.nodes.map (fun n => n.id)).Nodup) :
    ((∀ p ∈ net.nodes, ¬ (p.isAlive = true ∧ p.state = NodeState.leader)) →
      net.addClientRequest E command = (none, net)) ∧
    (∀ leader, net.getLeader = some leader →
      ∃ entry n1, (net.addClientRequest E command).1 = some entry ∧
        entry.term = leader.currentTerm ∧ entry.command = command ∧
        entry.committed = false ∧ entry.applied = false ∧
        entry.index = leader.log.length ∧
        (net.addClientRequest E command).2.getNode leader.id = some n1 ∧
        n1.log = leader.log ++ [entry] ∧ entry.index = n1.log.length - 1 ∧
        ∀ j, j ≠ leader.id →
          (net.addClientRequest E command).2.getNode j = net.getNode j) := by
  constructor
  · intro h
    have := (getLeader_contract net).1.mpr h
    unfold RaftNetwork.addClientRequest
    rw [this]
  · intro leader hl
    obtain ⟨_, hs, _⟩ := (getLeader_contract net).2.1 leader hl
    have hg : net.getNode leader.id = some leader := getNode_of_mem hn (getLeader_mem hl)
    unfold RaftNetwork.addClientRequest
    rw [hl]
    simp only []
    have e : RaftNode.addLogEntry E net leader.id command
        = (some (LogEntry.new E.now leader.currentTerm leader.log.length command),
           net.modifyNode leader.id (fun n => { n with log := n.log
             ++ [LogEntry.new E.now leader.currentTerm leader.log.length command] })) := by
      unfold RaftNode.addLogEntry
      rw [hg]
      simp only [hs, if_true]
    rw [e]
    refine ⟨LogEntry.new E.now leader.currentTerm leader.log.length command,
      { leader with log := leader.log
          ++ [LogEntry.new E.now leader.currentTerm leader.log.length command] },
      rfl, rfl, rfl, rfl, rfl, rfl, ?_, rfl, ?_, ?_⟩
    · rw [getNode_modifyNode_self _ _ _ (by intro n; rfl), hg]
      rfl
    · simp [LogEntry.new]
    · intro j hj
      exact getNode_modifyNode_ne _ _ _ _ (by intro n; rfl) hj

theorem addClientRequest_contract_witness :
    (demoLeaderNet.nodes.map (fun n => n.id)).Nodup ∧
    (((∀ p ∈ demoLeaderNet.nodes, ¬ (p.isAlive = true ∧ p.state = NodeState.leader)) →
      demoLeaderNet.addClientRequest demoEnv "x" = (none, demoLeaderNet)) ∧
    (∀ leader, demoLeaderNet.getLeader = some leader →
      ∃ entry n1, (demoLeaderNet.addClientRequest demoEnv "x").1 = some entry ∧
        entry.term = leader.currentTerm ∧ entry.command = "x" ∧
        entry.committed = false ∧ entry.applied = false ∧
        entry.index = leader.log.length ∧
        (demoLeaderNet.addClientRequest demoEnv "x").2.getNode leader.id = some n1 ∧
        n1.log = leader.log ++ [entry] ∧ entry.index = n1.log.length - 1 ∧
        ∀ j, j ≠ leader.id →
          (demoLeaderNet.addClientRequest demoEnv "x").2.getNode j
            = demoLeaderNet.getNode j)) :=
  ⟨by decide, addClientRequest_contract demoEnv demoLeaderNet "x" (by decide)⟩

theorem foldl_maxTerm (nodes : List RaftNode) :
    ∀ acc : Nat,
      acc ≤ nodes.foldl (fun maxTerm node =>
        if node.isAlive = true ∧ node.currentTerm > maxTerm then node.currentTerm
        else maxTerm) acc ∧
      (∀ p ∈ nodes, p.isAlive = true →
        p.currentTerm ≤ nodes.foldl (fun maxTerm node =>
          if node.isAlive = true ∧ node.currentTerm > maxTerm then node.currentTerm
          else maxTerm) acc) ∧
      (nodes.foldl (fun maxTerm node =>
          if node.isAlive = true ∧ node.currentTerm > maxTerm then node.currentTerm
          else maxTerm) acc = acc ∨
        ∃ p ∈ nodes, p.isAlive = true ∧
          p.currentTerm = nodes.foldl (fun maxTerm node =>
            if node.isAlive = true ∧ node.currentTerm > maxTerm then node.currentTerm
            else maxTerm) acc) := by
  induction nodes with
  | nil => intro acc; simp
  | cons n rest ih =>
    intro acc
    simp only [List.foldl_cons]
    by_cases hc : n.isAlive = true ∧ n.currentTerm > acc
    · rw [if_pos hc]
      obtain ⟨h1, h2, h3⟩ := ih n.currentTerm
      refine ⟨Nat.le_trans (Nat.le_of_lt hc.2) h1, ?_, ?_⟩
      · intro p hp ha
        rcases List.mem_cons.mp hp with hh | hh
        · rw [hh]; exact h1
        · exact h2 p hh ha
      · right
        rcases h3 with h3 | ⟨p, hp, ha, he⟩
        · exact ⟨n, List.mem_cons_self _ _, hc.1, h3.symm⟩
        · exact ⟨p, List.mem_cons_of_mem _ hp, ha, he⟩
    · rw [if_neg hc]
      obtain ⟨h1, h2, h3⟩ := ih acc
      refine ⟨h1, ?_, ?_⟩
      · intro p hp ha
        rcases List.mem_cons.mp hp with hh | hh
        · rw [hh]
          have : ¬ n.currentTerm > acc := fun hgt => hc ⟨hh ▸ ha, hgt⟩
          exact Nat.le_trans (Nat.not_lt.mp this) h1
        · exact h2 p hh ha
      · rcases h3 with h3 | ⟨p, hp, ha, he⟩
        · left; exact h3
        · right; exact ⟨p, List.mem_cons_of_mem _ hp, ha, he⟩

theorem foldl_maxTerm_alive (nodes : List RaftNode) :
    ∀ acc : Nat,
      nodes.foldl (fun maxTerm node =>
        if node.isAlive = true ∧ node.currentTerm > maxTerm then node.currentTerm
        else maxTerm) acc
      = (nodes.filter (fun n => n.isAlive)).foldl (fun maxTerm node =>
        if node.isAlive = true ∧ node.currentTerm > maxTerm then node.currentTerm
        else maxTerm) acc := by
  induction nodes with
  | nil => intro acc; rfl
  | cons n rest ih =>
    intro acc
    cases ha : n.isAlive
    · simp only [List.foldl_cons, List.filter_cons, ha, Bool.false_eq_true, false_and, if_false]
      exact ih acc
    · simp only [List.foldl_cons, List.filter_cons, ha, if_true, true_and]
      exact ih _

/-- C24: `getCurrentTerm` is the maximum of `currentTerm` over the alive nodes:
it bounds the term of every alive node, it is the term of some alive node when
one exists, it is 0 when none is alive, and it is the same number when the dead
nodes are left out of the map, whatever their terms. -/
theorem getCurrentTerm_contract (net : RaftNetwork) :
    (∀ p ∈ net.nodes, p.isAlive = true → p.currentTerm ≤ net.getCurrentTerm) ∧
    ((∃ p ∈ net.nodes, p.isAlive = true) →
      ∃ p ∈ net.nodes, p.isAlive = true ∧ p.currentTerm = net.getCurrentTerm) ∧
    ((∀ p ∈ net.nodes, p.isAlive = false) → net.getCurrentTerm = 0) ∧
    net.getCurrentTerm = ({ net with nodes := net.getAliveNodes } : RaftNetwork).getCurrentTerm := by
  obtain ⟨_, h2, h3⟩ := foldl_maxTerm net.nodes 0
  refine ⟨h2, ?_, ?_, ?_⟩
  · rintro ⟨p, hp, ha⟩
    rcases h3 with h3 | h3
    · refine ⟨p, hp, ha, ?_⟩
      have := h2 p hp ha
      unfold RaftNetwork.getCurrentTerm
      rw [h3] at this ⊢
      exact Nat.le_zero.mp this
    · exact h3
  · intro hd
    rcases h3 with h3 | ⟨p, hp, ha, _⟩
    · exact h3
    · rw [hd p hp] at ha; cases ha
  · unfold RaftNetwork.getCurrentTerm RaftNetwork.getAliveNodes
    simp only []
    rw [foldl_maxTerm_alive net.nodes 0, foldl_maxTerm_alive (net.nodes.filter _) 0,
      List.filter_filter]

/-- C20: `kill` makes the node not alive and Dead from any state and leaves its
term, vote, log and `commitIndex`; `revive` makes it alive and a Follower with
a newly drawn election timeout and a reset timer and leaves its log, term and
vote; so the log after `kill` then `revive` is the log before. -/
theorem kill_revive_frame (E E1 : Env) (net : RaftNetwork) (id : Nat) (self : RaftNode)
    (h : net.getNode id = some self) :
    (∃ n1, (RaftNode.kill E net id).getNode id = some n1 ∧
      n1.isAlive = false ∧ n1.state = NodeState.dead ∧
      n1.currentTerm = self.currentTerm ∧ n1.votedFor = self.votedFor ∧
      n1.log = self.log ∧ n1.commitIndex = self.commitIndex) ∧
    (∃ n1, (RaftNode.revive E net id).getNode id = some n1 ∧
      n1.isAlive = true ∧ n1.state = NodeState.follower ∧
      n1.electionTimeout = 3000 + E.rand net.draws * (6000 - 3000) ∧
      n1.lastHeartbeat = E.now ∧
      n1.log = self.log ∧ n1.currentTerm = self.currentTerm ∧
      n1.votedFor = self.votedFor) ∧
    (∃ n1, (RaftNode.revive E1 (RaftNode.kill E net id) id).getNode id = some n1 ∧
      n1.log = self.log ∧ n1.isAlive = true ∧ n1.state = NodeState.follower) := by
  refine ⟨⟨_, getNode_kill E net id self h, rfl, rfl, rfl, rfl, rfl, rfl⟩,
    ⟨_, getNode_revive E net id self h, rfl, rfl, rfl, rfl, rfl, rfl, rfl⟩,
    ⟨_, getNode_revive E1 _ id _ (getNode_kill E net id self h), rfl, rfl, rfl⟩⟩

theorem kill_revive_frame_witness :
    demoLeaderNet.getNode 0 = some demoLeader ∧
    ((∃ n1, (RaftNode.kill demoEnv demoLeaderNet 0).getNode 0 = some n1 ∧
      n1.isAlive = false ∧ n1.state = NodeState.dead ∧
      n1.currentTerm = demoLeader.currentTerm ∧ n1.votedFor = demoLeader.votedFor ∧
      n1.log = demoLeader.log ∧ n1.commitIndex = demoLeader.commitIndex) ∧
    (∃ n1, (RaftNode.revive demoEnv demoLeaderNet 0).getNode 0 = some n1 ∧
      n1.isAlive = true ∧ n1.state = NodeState.follower ∧
      n1.electionTimeout = 3000 + demoEnv.rand demoLeaderNet.draws * (6000 - 3000) ∧
      n1.lastHeartbeat = demoEnv.now ∧
      n1.log = demoLeader.log ∧ n1.currentTerm = demoLeader.currentTerm ∧
      n1.votedFor = demoLeader.votedFor) ∧
    (∃ n1, (RaftNode.revive lateEnv (RaftNode.kill demoEnv demoLeaderNet 0) 0).getNode 0
        = some n1 ∧
      n1.log = demoLeader.log ∧ n1.isAlive = true ∧ n1.state = NodeState.follower)) :=
  ⟨rfl, kill_revive_frame demoEnv lateEnv demoLeaderNet 0 demoLeader rfl⟩

theorem getNode_healPartition (net : RaftNetwork) (j : Nat) :
    net.healPartition.getNode j
      = (net.getNode j).map (fun n => { n with isPartitioned := false }) := by
  unfold RaftNetwork.healPartition RaftNetwork.getNode
  exact find?_map_of_id (fun n => { n with isPartitioned := false }) (by intro n; rfl) _ _

/-- C17: after `healPartition` no ordered pair is blocked and no node is flagged
as partitioned, whatever was blocked before, so a `sendMessage` between two
registered alive nodes returns true whenever the draw of the drop test is not
below `dropRate`. -/
theorem healPartition_contract (E : Env) (net : RaftNetwork) (c : Content) :
    (∀ a b, net.healPartition.isPartitioned a b = false) ∧
    (∀ p ∈ net.healPartition.nodes, p.isPartitioned = false) ∧
    (∀ a b sender receiver, net.getNode a = some sender → net.getNode b = some receiver →
      sender.isAlive = true → receiver.isAlive = true →
      ¬ (E.rand net.draws < net.dropRate) →
      (net.healPartition.sendMessage E a b c).1 = true) := by
  refine ⟨fun a b => rfl, ?_, ?_⟩
  · intro p hp
    unfold RaftNetwork.healPartition at hp
    obtain ⟨q, _, hq⟩ := List.mem_map.mp hp
    rw [← hq]
  · intro a b sender receiver ha hb h1 h2 hd
    have hreach : net.healPartition.canReach a b :=
      ⟨{ sender with isPartitioned := false }, { receiver with isPartitioned := false },
        by rw [getNode_healPartition, ha]; rfl, by rw [getNode_healPartition, hb]; rfl,
        h1, h2, rfl⟩
    rcases sendMessage_cases E net.healPartition a b c with ⟨hr, _⟩ | ⟨_, hd2, _⟩ | ⟨_, _, e⟩
    · exact absurd hreach hr
    · exact absurd hd2 hd
    · rw [e]

theorem getNode_removeNode_ne (net : RaftNetwork) (id j : Nat) (hj : j ≠ id) :
    (net.removeNode id).getNode j = net.getNode j := by
  unfold RaftNetwork.removeNode RaftNetwork.getNode
  simp only []
  induction net.nodes with
  | nil => rfl
  | cons n rest ih =>
    by_cases hn : n.id = id
    · have h2 : (n.id == j) = false := by
        simp only [beq_eq_false_iff_ne, ne_eq]
        rw [hn]; exact fun hh => hj hh.symm
      rw [List.filter_cons, if_neg (by simp [hn]), List.find?_cons, h2]
      exact ih
    · rw [List.filter_cons, if_pos (by simp [hn]), List.find?_cons, List.find?_cons]
      cases (n.id == j)
      · exact ih
      · rfl

theorem getNode_kill_ne (E : Env) (net : RaftNetwork) (id j : Nat) (hj : j ≠ id) :
    (RaftNode.kill E net id).getNode j = net.getNode j := by
  unfold RaftNode.kill
  exact getNode_modifyNode_ne _ _ _ _ (by intro n; rfl) hj

/-- C19, as the code has it: `kill`, `killRandomNode` and `removeNode` write no
node other than the one killed or removed; every other node reads back exactly
as before, so its `nextIndex` and `matchIndex` keep whatever entry they had for
the killed or removed id. -/
theorem kill_leaves_other_nodes (E : Env) (net : RaftNetwork) (id : Nat) :
    (∀ j, j ≠ id → (RaftNode.kill E net id).getNode j = net.getNode j) ∧
    (∀ j, j ≠ id → (net.removeNode id).getNode j = net.getNode j) ∧
    (∀ r, (net.killRandomNode E).1 = some r →
      ∀ j, j ≠ r.id → (net.killRandomNode E).2.getNode j = net.getNode j) := by
  refine ⟨fun j hj => getNode_kill_ne E net id j hj,
    fun j hj => getNode_removeNode_ne net id j hj, ?_⟩
  intro r hr j hj
  unfold RaftNetwork.killRandomNode at hr ⊢
  simp only [] at hr ⊢
  split at hr
  · rename_i hlen
    rw [if_pos hlen]
    cases hre : randomElement (net.random E).1 net.getAliveNodes with
    | none => rw [hre] at hr; cases hr
    | some x =>
      rw [hre] at hr
      simp only [Option.some.injEq] at hr
      subst hr
      simp only []
      rw [getNode_kill_ne E _ _ j hj]
      rfl
  · cases hr

/-- Node 0 of `demoElectedNet` is Leader and has entries for node 1 in both
leader maps. -/
theorem demoElectedNet_leader :
    ∃ n0, demoElectedNet.getNode 0 = some n0 ∧ n0.state = NodeState.leader ∧
      n0.nextIndex.lookup 1 = some 0 ∧ n0.matchIndex.lookup 1 = some (-1) := by
  have h : demoCandidateNet.getNode 0 = some demoCandidate := rfl
  obtain ⟨k, t, _⟩ := handleMessage_effect demoEnv demoCandidateNet 0 demoCandidate
    (Content.requestVoteResponse 1 true) h
  have hg := t.getNode_self h
  have ha : demoCandidateNet.aliveIds = [0, 1, 2] := by decide
  have hle : (1 : Nat) ≤ demoCandidate.currentTerm := by decide
  have e : demoCandidate.afterMessage demoEnv.now demoCandidateNet.aliveIds
      (Content.requestVoteResponse 1 true)
      = RaftNode.initLeaderIds
          { demoCandidate with votesReceived := demoCandidate.votesReceived + 1,
                               state := NodeState.leader, stateChangeTime := demoEnv.now,
                               lastHeartbeat := demoEnv.now } [0, 1, 2] := by
    simp only [RaftNode.afterMessage, afterTerm_of_le demoEnv.now demoCandidate 1 hle, ha]
    unfold RaftNode.afterVoteResponse
    rw [if_neg (by decide), if_pos rfl, if_pos (by
      show (((1 + 1 : Nat) : ℚ)) > ((3 : Nat) : ℚ) / 2
      norm_num)]
  rw [e] at hg
  have hl := initLeaderIds_lookup [0, 1, 2] 1
    { demoCandidate with votesReceived := demoCandidate.votesReceived + 1,
                         state := NodeState.leader, stateChangeTime := demoEnv.now,
                         lastHeartbeat := demoEnv.now } (by decide) (by decide)
  refine ⟨_, hg, ?_, hl.1, hl.2⟩
  rw [addSent_state, initLeaderIds_state]

/-- C19 fails as stated: in `demoElectedNet` node 0 is Leader with entries for
node 1 in `nextIndex` and `matchIndex`; after node 1 is killed, and also after
it is removed, node 0 still has both entries. -/
theorem kill_keeps_leader_maps :
    ∃ n0, demoElectedNet.getNode 0 = some n0 ∧ n0.state = NodeState.leader ∧
      n0.nextIndex.lookup 1 = some 0 ∧ n0.matchIndex.lookup 1 = some (-1) ∧
      (RaftNode.kill demoEnv demoElectedNet 1).getNode 0 = some n0 ∧
      (demoElectedNet.removeNode 1).getNode 0 = some n0 := by
  obtain ⟨n0, hg, hs, h1, h2⟩ := demoElectedNet_leader
  refine ⟨n0, hg, hs, h1, h2, ?_, ?_⟩
  · rw [getNode_kill_ne demoEnv _ 1 0 (by decide)]
    exact hg
  · rw [getNode_removeNode_ne _ 1 0 (by decide)]
    exact hg

theorem updNodes_of_not_mem (id : Nat) (G : RaftNode → RaftNode) (nodes : List RaftNode)
    (h : id ∉ nodes.map (fun n => n.id)) : updNodes id G nodes = nodes := by
  unfold updNodes
  induction nodes with
  | nil => rfl
  | cons a rest ih =>
    have h1 : a.id ≠ id := fun hh => h (by simp [hh])
    have h2 : id ∉ rest.map (fun n => n.id) := fun hh => h (by simp at hh ⊢; right; exact hh)
    simp only [List.map_cons, h1, if_false]
    rw [ih h2]

theorem alive_count_kill (now : ℚ) (nodes : List RaftNode)
    (hn : (nodes.map (fun n => n.id)).Nodup) (r : RaftNode) (hr : r ∈ nodes)
    (ha : r.isAlive = true) :
    ((updNodes r.id (RaftNode.killFields now) nodes).filter (fun n => n.isAlive)).length + 1
      = (nodes.filter (fun n => n.isAlive)).length := by
  induction nodes with
  | nil => cases hr
  | cons a rest ih =>
    simp only [List.map_cons, List.nodup_cons] at hn
    by_cases hid : a.id = r.id
    · have har : a = r := by
        rcases List.mem_cons.mp hr with hh | hh
        · exact hh.symm
        · exact absurd (hid ▸ List.mem_map_of_mem (fun n => n.id) hh) hn.1
      subst har
      have hnot : a.id ∉ rest.map (fun n => n.id) := hn.1
      have e : updNodes a.id (RaftNode.killFields now) (a :: rest)
          = RaftNode.killFields now a :: rest := by
        have := updNodes_of_not_mem a.id (RaftNode.killFields now) rest hnot
        unfold updNodes at this ⊢
        simp only [List.map_cons, if_true, this]
      rw [e]
      simp [List.filter_cons, ha, RaftNode.killFields]
    · have hr2 : r ∈ rest := by
        rcases List.mem_cons.mp hr with hh | hh
        · exact absurd (congrArg RaftNode.id hh).symm hid
        · exact hh
      have e : updNodes r.id (RaftNode.killFields now) (a :: rest)
          = a :: updNodes r.id (RaftNode.killFields now) rest := by
        unfold updNodes
        simp only [List.map_cons, hid, if_false]
      rw [e]
      have := ih hn.2 hr2
      cases haa : a.isAlive
      · simp only [List.filter_cons, haa, Bool.false_eq_true, if_false]
        exact this
      · simp only [List.filter_cons, haa, if_true, List.length_cons]
        omega

theorem randomElement_some (u : ℚ) (nodes : List RaftNode) (h0 : 0 ≤ u) (h1 : u < 1)
    (hl : 0 < nodes.length) : ∃ r, randomElement u nodes = some r ∧ r ∈ nodes := by
  unfold randomElement
  have hpos : (0 : ℚ) < (nodes.length : ℚ) := by exact_mod_cast hl
  have hnn : 0 ≤ ⌊u * (nodes.length : ℚ)⌋ := Int.floor_nonneg.mpr (mul_nonneg h0 hpos.le)
  have hlt : ⌊u * (nodes.length : ℚ)⌋ < (nodes.length : Int) := by
    rw [Int.floor_lt]
    have : u * (nodes.length : ℚ) < 1 * (nodes.length : ℚ) := mul_lt_mul_of_pos_right h1 hpos
    simpa using this
  have hidx : Int.toNat ⌊u * (nodes.length : ℚ)⌋ < nodes.length := by
    omega
  refine ⟨nodes[Int.toNat ⌊u * (nodes.length : ℚ)⌋], ?_, List.getElem_mem _⟩
  rw [List.get?_eq_getElem?, List.getElem?_eq_getElem hidx]

/-- C22: with a draw `u` in `[0, 1)`, `killRandomNode` returns null and the
network unchanged when at most one node is alive; otherwise it picks a node `r`
that was alive and returns it as `kill` leaves it, not alive and in state Dead,
which is also what the map then holds under its id; every other node reads back
unchanged, the number of alive nodes has dropped by exactly one and is still at
least one. -/
theorem killRandomNode_contract (E : Env) (net : RaftNetwork)
    (hn : (net.nodes.map (fun n => n.id)).Nodup)
    (hu0 : 0 ≤ E.rand net.draws) (hu1 : E.rand net.draws < 1) :
    (net.getAliveNodes.length ≤ 1 → net.killRandomNode E = (none, net)) ∧
    (net.getAliveNodes.length > 1 →
      ∃ r, r ∈ net.nodes ∧ r.isAlive = true ∧
        (net.killRandomNode E).1
          = some { r with isAlive := false, state := NodeState.dead,
                          stateChangeTime := E.now } ∧
        (net.killRandomNode E).2.getNode r.id = (net.killRandomNode E).1 ∧
        (∀ j, j ≠ r.id → (net.killRandomNode E).2.getNode j = net.getNode j) ∧
        (net.killRandomNode E).2.getAliveNodes.length + 1 = net.getAliveNodes.length ∧
        (net.killRandomNode E).2.getAliveNodes.length ≥ 1) := by
  constructor
  · intro hle
    unfold RaftNetwork.killRandomNode
    simp only []
    rw [if_neg (Nat.not_lt.mpr hle)]
  · intro hgt
    obtain ⟨r, hr, hmem⟩ := randomElement_some (E.rand net.draws) net.getAliveNodes hu0 hu1
      (Nat.lt_trans Nat.zero_lt_one hgt)
    have hrm := List.mem_filter.mp hmem
    have e : net.killRandomNode E
        = (some { r with isAlive := false, state := NodeState.dead,
                         stateChangeTime := E.now },
            RaftNode.kill E (net.random E).2 r.id) := by
      unfold RaftNetwork.killRandomNode
      simp only []
      rw [if_pos hgt]
      have : randomElement (net.random E).1 net.getAliveNodes = some r := hr
      rw [this]
    have hg : (net.random E).2.getNode r.id = some r := getNode_of_mem hn hrm.1
    have hcount := alive_count_kill E.now net.nodes hn r hrm.1 hrm.2
    rw [e]
    refine ⟨r, hrm.1, hrm.2, rfl, getNode_kill E _ r.id r hg, ?_, hcount, ?_⟩
    · intro j hj
      exact getNode_kill_ne E _ r.id j hj
    · have h1 : (RaftNode.kill E (net.random E).2 r.id).getAliveNodes.length + 1
          = net.getAliveNodes.length := hcount
      have h2 : net.getAliveNodes.length > 1 := hgt
      generalize (RaftNode.kill E (net.random E).2 r.id).getAliveNodes.length = x at h1 ⊢
      generalize net.getAliveNodes.length = y at h1 h2
      omega

theorem killRandomNode_contract_witness :
    ((demoNet.nodes.map (fun n => n.id)).Nodup ∧ 0 ≤ demoEnv.rand demoNet.draws ∧
      demoEnv.rand demoNet.draws < 1) ∧
    ((demoNet.getAliveNodes.length ≤ 1 → demoNet.killRandomNode demoEnv = (none, demoNet)) ∧
    (demoNet.getAliveNodes.length > 1 →
      ∃ r, r ∈ demoNet.nodes ∧ r.isAlive = true ∧
        (demoNet.killRandomNode demoEnv).1
          = some { r with isAlive := false, state := NodeState.dead,
                          stateChangeTime := demoEnv.now } ∧
        (demoNet.killRandomNode demoEnv).2.getNode r.id = (demoNet.killRandomNode demoEnv).1 ∧
        (∀ j, j ≠ r.id → (demoNet.killRandomNode demoEnv).2.getNode j = demoNet.getNode j) ∧
        (demoNet.killRandomNode demoEnv).2.getAliveNodes.length + 1
          = demoNet.getAliveNodes.length ∧
        (demoNet.killRandomNode demoEnv).2.getAliveNodes.length ≥ 1)) :=
  ⟨⟨by decide, by norm_num [demoEnv], by norm_num [demoEnv]⟩,
    killRandomNode_contract demoEnv demoNet (by decide) (by norm_num [demoEnv])
      (by norm_num [demoEnv])⟩

/-! ## `removeNode` and `reset` -/

/-- C18 fails on the code: in `demoSplitNet` the pair (12, 3) is blocked in both
directions and node 1 is in no blocked pair; `removeNode(1)` nevertheless
unblocks 12 and 3, because `partition.includes(1)` finds the digit 1 inside the
key text `12-3`. -/
theorem removeNode_unblocks_other_pair :
    demoSplitNet.isPartitioned 12 3 = true ∧ demoSplitNet.isPartitioned 3 12 = true ∧
    (∀ x, x ∈ [1, 3, 12] → demoSplitNet.isPartitioned 1 x = false ∧
      demoSplitNet.isPartitioned x 1 = false) ∧
    (demoSplitNet.removeNode 1).isPartitioned 12 3 = false ∧
    (demoSplitNet.removeNode 1).isPartitioned 3 12 = false ∧
    (demoSplitNet.removeNode 1).nodes.map (fun n => n.id) = [3, 12] := by
  decide

theorem resetLoop_find (E : Env) (j : Nat) (nodes : List RaftNode) :
    ∀ (draws : Nat) (n : RaftNode), nodes.find? (fun x => x.id == j) = some n →
      ∃ t, (RaftNetwork.resetLoop E nodes draws).1.find? (fun x => x.id == j)
        = some (RaftNode.resetFields E.now t n) := by
  induction nodes with
  | nil => intro draws n h; cases h
  | cons a rest ih =>
    intro draws n h
    simp only [RaftNetwork.resetLoop, List.find?_cons] at h ⊢
    have hid : (RaftNode.resetFields E.now (3000 + E.rand draws * (6000 - 3000)) a).id = a.id :=
      rfl
    rw [hid]
    cases ha : (a.id == j)
    · rw [ha] at h
      exact ih (draws + 1) n h
    · rw [ha] at h
      simp only [Option.some.injEq] at h
      subst h
      exact ⟨_, rfl⟩

theorem getNode_reset (E : Env) (net : RaftNetwork) (j : Nat) (n : RaftNode)
    (h : net.getNode j = some n) :
    ∃ t, (net.reset E).getNode j = some (RaftNode.resetFields E.now t n) :=
  resetLoop_find E j net.nodes net.draws n h

/-- C27 fails on the code: node 0 of `demoElectedNet` has won an election and
holds entries for node 1 in `nextIndex` and `matchIndex`; after `reset` it is a
Follower at term 0 with no vote and an empty log, but both entries are still
there, so it is not in the state of a newly constructed node. -/
theorem reset_keeps_leader_maps :
    ∃ n0, (demoElectedNet.reset demoEnv).getNode 0 = some n0 ∧
      n0.state = NodeState.follower ∧ n0.currentTerm = 0 ∧ n0.votedFor = none ∧
      n0.log = [] ∧ n0.isAlive = true ∧
      n0.nextIndex.lookup 1 = some 0 ∧ n0.matchIndex.lookup 1 = some (-1) ∧
      n0.nextIndex ≠ (RaftNode.new demoEnv.now n0.electionTimeout 0).nextIndex := by
  obtain ⟨n, hg, _, h1, h2⟩ := demoElectedNet_leader
  obtain ⟨t, ht⟩ := getNode_reset demoEnv demoElectedNet 0 n hg
  refine ⟨_, ht, rfl, rfl, rfl, rfl, rfl, h1, h2, ?_⟩
  intro hh
  have e : (RaftNode.resetFields demoEnv.now t n).nextIndex = n.nextIndex := rfl
  rw [e] at hh
  rw [hh] at h1
  cases h1

/-! ## `RaftNetwork.update` -/

theorem Message.update_cases (E : Env) (m : Message) (sp lat : ℚ) :
    ((m.update E sp lat).2.delivered = false ∧ (m.update E sp lat).2.dropped = false →
      (m.update E sp lat).1 = true) ∧
    ((m.update E sp lat).2.delivered = false ∧ (m.update E sp lat).2.dropped = true →
      (m.update E sp lat).1 = false) ∧
    (m.update E sp lat).2.dropped = m.dropped ∧
    (m.update E sp lat).2.receiverId = m.receiverId ∧
    (m.update E sp lat).2.content = m.content ∧
    (m.update E sp lat).2.senderId = m.senderId := by
  unfold Message.update
  by_cases h1 : (m.delivered || m.dropped) = true
  · rw [if_pos h1]
    cases hd : m.delivered <;> cases hp : m.dropped <;> simp_all
  · rw [if_neg h1]
    have hd : m.delivered = false := by cases hd : m.delivered <;> simp_all
    have hp : m.dropped = false := by cases hp : m.dropped <;> simp_all
    by_cases h2 : E.now - m.timestamp < lat
    · rw [if_pos h2]
      simp [hd, hp]
    · rw [if_neg h2]
      simp only []
      by_cases h3 : m.progress + m.speed * sp ≥ 1
      · rw [if_pos h3]
        simp [hp]
      · rw [if_neg h3]
        simp [hd, hp]

theorem deliverLoop_kept (E : Env) (messages : List Message) :
    ∀ net : RaftNetwork,
      (RaftNetwork.deliverLoop E messages net).1
        = (messages.map (net.aged E)).filter (fun m => !m.delivered && !m.dropped) ∧
      (RaftNetwork.deliverLoop E messages net).2.speedMultiplier = net.speedMultiplier ∧
      (RaftNetwork.deliverLoop E messages net).2.latency = net.latency ∧
      (RaftNetwork.deliverLoop E messages net).2.messages = net.messages ∧
      (RaftNetwork.deliverLoop E messages net).2.sendCalls = net.sendCalls ∧
      (RaftNetwork.deliverLoop E messages net).2.partitions = net.partitions ∧
      (RaftNetwork.deliverLoop E messages net).2.dropRate = net.dropRate ∧
      (RaftNetwork.deliverLoop E messages net).2.draws = net.draws ∧
      (RaftNetwork.deliverLoop E messages net).2.totalMessages = net.totalMessages ∧
      (RaftNetwork.deliverLoop E messages net).2.droppedMessages = net.droppedMessages := by
  induction messages with
  | nil => intro net; simp [RaftNetwork.deliverLoop]
  | cons m rest ih =>
    intro net
    obtain ⟨c1, c2, _⟩ := Message.update_cases E m net.speedMultiplier net.latency
    unfold RaftNetwork.deliverLoop
    simp only []
    by_cases hd : (m.update E net.speedMultiplier net.latency).2.delivered = true
    · rw [if_pos hd]
      have key : ∀ n1 : RaftNetwork, n1.speedMultiplier = net.speedMultiplier →
          n1.latency = net.latency → n1.messages = net.messages →
          n1.sendCalls = net.sendCalls → n1.partitions = net.partitions →
          n1.dropRate = net.dropRate → n1.draws = net.draws →
          n1.totalMessages = net.totalMessages → n1.droppedMessages = net.droppedMessages →
          (RaftNetwork.deliverLoop E rest n1).1
            = ((m :: rest).map (net.aged E)).filter (fun m => !m.delivered && !m.dropped) ∧
          (RaftNetwork.deliverLoop E rest n1).2.speedMultiplier = net.speedMultiplier ∧
          (RaftNetwork.deliverLoop E rest n1).2.latency = net.latency ∧
          (RaftNetwork.deliverLoop E rest n1).2.messages = net.messages ∧
          (RaftNetwork.deliverLoop E rest n1).2.sendCalls = net.sendCalls ∧
          (RaftNetwork.deliverLoop E rest n1).2.partitions = net.partitions ∧
          (RaftNetwork.deliverLoop E rest n1).2.dropRate = net.dropRate ∧
          (RaftNetwork.deliverLoop E rest n1).2.draws = net.draws ∧
          (RaftNetwork.deliverLoop E rest n1).2.totalMessages = net.totalMessages ∧
          (RaftNetwork.deliverLoop E rest n1).2.droppedMessages = net.droppedMessages := by
        intro n1 e1 e2 e3 e4 e5 e6 e7 e8 e9
        obtain ⟨i1, i2, i3, i4, i5, i6, i7, i8, i9, i10⟩ := ih n1
        refine ⟨?_, i2.trans e1, i3.trans e2, i4.trans e3, i5.trans e4, i6.trans e5,
          i7.trans e6, i8.trans e7, i9.trans e8, i10.trans e9⟩
        rw [i1]
        have ea : n1.aged E = net.aged E := by
          funext x; unfold RaftNetwork.aged; rw [e1, e2]
        rw [ea]
        simp only [List.map_cons, List.filter_cons]
        have : (net.aged E m).delivered = true := hd
        simp [this]
      cases hg : net.getNode (m.update E net.speedMultiplier net.latency).2.receiverId with
      | none => exact key net rfl rfl rfl rfl rfl rfl rfl rfl rfl
      | some receiver =>
        simp only []
        split
        · exact key _ rfl rfl rfl rfl rfl rfl rfl rfl rfl
        · exact key net rfl rfl rfl rfl rfl rfl rfl rfl rfl
    · rw [if_neg hd]
      have hdf : (m.update E net.speedMultiplier net.latency).2.delivered = false := by
        cases hh : (m.update E net.speedMultiplier net.latency).2.delivered
        · rfl
        · exact absurd hh hd
      obtain ⟨i1, i2, i3, i4, i5, i6, i7, i8, i9, i10⟩ := ih net
      refine ⟨?_, i2, i3, i4, i5, i6, i7, i8, i9, i10⟩
      simp only [i1, List.map_cons, List.filter_cons]
      have ea : net.aged E m = (m.update E net.speedMultiplier net.latency).2 := rfl
      rw [ea, hdf]
      cases hp : (m.update E net.speedMultiplier net.latency).2.dropped
      · rw [c1 ⟨hdf, hp⟩]
        simp
      · rw [c2 ⟨hdf, hp⟩]
        simp


theorem aged_congr (E : Env) (net net1 : RaftNetwork)
    (e1 : net1.speedMultiplier = net.speedMultiplier) (e2 : net1.latency = net.latency) :
    net1.aged E = net.aged E := by
  funext x; unfold RaftNetwork.aged; rw [e1, e2]

theorem afterDelivery_congr (E : Env) (net net1 : RaftNetwork)
    (e1 : net1.speedMultiplier = net.speedMultiplier) (e2 : net1.latency = net.latency)
    (messages : List Message) : net1.afterDelivery E messages = net.afterDelivery E messages := by
  funext n
  unfold RaftNetwork.afterDelivery RaftNetwork.arrivals
  rw [aged_congr E net net1 e1 e2]

theorem arrivals_cons (E : Env) (net : RaftNetwork) (id : Nat) (m : Message)
    (rest : List Message) :
    net.arrivals E id (m :: rest)
      = if (net.aged E m).delivered = true ∧ (net.aged E m).receiverId = id then
          (net.aged E m).content :: net.arrivals E id rest
        else net.arrivals E id rest := by
  unfold RaftNetwork.arrivals
  simp only [List.map_cons, List.filter_cons]
  by_cases h : (net.aged E m).delivered = true ∧ (net.aged E m).receiverId = id
  · rw [if_pos h, if_pos (by simp [h.1, h.2])]
    rfl
  · rw [if_neg h, if_neg]
    intro hh
    apply h
    simpa using hh

theorem afterDelivery_skip (E : Env) (net : RaftNetwork) (m : Message) (rest : List Message)
    (n : RaftNode)
    (h : n.isAlive = true → ¬ ((net.aged E m).delivered = true ∧
      (net.aged E m).receiverId = n.id)) :
    net.afterDelivery E (m :: rest) n = net.afterDelivery E rest n := by
  unfold RaftNetwork.afterDelivery
  by_cases ha : n.isAlive = true
  · rw [if_pos ha, if_pos ha, arrivals_cons, if_neg (h ha)]
  · rw [if_neg ha, if_neg ha]

theorem deliverLoop_nodes (E : Env) (messages : List Message) :
    ∀ net : RaftNetwork, (net.nodes.map (fun n => n.id)).Nodup →
      (RaftNetwork.deliverLoop E messages net).2.nodes
        = net.nodes.map (net.afterDelivery E messages) := by
  induction messages with
  | nil =>
    intro net _
    unfold RaftNetwork.deliverLoop
    have : net.afterDelivery E [] = fun n => n := by
      funext n
      unfold RaftNetwork.afterDelivery RaftNetwork.arrivals
      split
      · simp
      · rfl
    rw [this]; simp
  | cons m rest ih =>
    intro net hn
    have skip : (∀ n ∈ net.nodes, n.isAlive = true → ¬ ((net.aged E m).delivered = true ∧
        (net.aged E m).receiverId = n.id)) →
        net.nodes.map (net.afterDelivery E rest)
          = net.nodes.map (net.afterDelivery E (m :: rest)) := by
      intro h
      apply List.map_congr_left
      intro n hmem
      exact (afterDelivery_skip E net m rest n (h n hmem)).symm
    unfold RaftNetwork.deliverLoop
    simp only []
    by_cases hd : (m.update E net.speedMultiplier net.latency).2.delivered = true
    · rw [if_pos hd]
      cases hg : net.getNode (m.update E net.speedMultiplier net.latency).2.receiverId with
      | none =>
        simp only []
        rw [ih net hn]
        apply skip
        intro n hmem _ hh
        have := getNode_of_mem hn hmem
        rw [← hh.2] at this
        have e : (net.aged E m).receiverId
            = (m.update E net.speedMultiplier net.latency).2.receiverId := rfl
        rw [e, hg] at this
        cases this
      | some receiver =>
        simp only []
        by_cases hra : receiver.isAlive = true
        · rw [if_pos hra]
          have hid := getNode_id hg
          have hmemr : receiver ∈ net.nodes := List.mem_of_find?_eq_some hg
          have hn1 : ((RaftNode.receiveMessage net
              (m.update E net.speedMultiplier net.latency).2.receiverId
              (m.update E net.speedMultiplier net.latency).2.content).nodes.map
                (fun n => n.id)).Nodup := by
            have : (RaftNode.receiveMessage net
              (m.update E net.speedMultiplier net.latency).2.receiverId
              (m.update E net.speedMultiplier net.latency).2.content).nodes.map (fun n => n.id)
                = net.nodes.map (fun n => n.id) := by
              unfold RaftNode.receiveMessage RaftNetwork.modifyNode
              simp only [List.map_map]
              apply List.map_congr_left
              intro n _
              simp only [Function.comp]
              split <;> rfl
            rw [this]; exact hn
          rw [ih _ hn1, afterDelivery_congr E net _ rfl rfl]
          unfold RaftNode.receiveMessage RaftNetwork.modifyNode
          simp only [List.map_map]
          apply List.map_congr_left
          intro n hmem
          simp only [Function.comp]
          by_cases hnid : n.id = (m.update E net.speedMultiplier net.latency).2.receiverId
          · rw [if_pos hnid]
            have hnr : n = receiver := by
              have := getNode_of_mem hn hmem
              rw [hnid, hg] at this
              exact (Option.some.inj this).symm
            subst hnr
            unfold RaftNetwork.afterDelivery
            rw [if_pos hra, if_pos hra, arrivals_cons, if_pos ⟨hd, hnid.symm⟩]
            simp only [List.append_assoc, List.singleton_append]
            rfl
          · rw [if_neg hnid]
            refine (afterDelivery_skip E net m rest n ?_).symm
            intro _ hh
            exact hnid hh.2.symm
        · rw [if_neg hra, ih net hn]
          apply skip
          intro n hmem ha hh
          have := getNode_of_mem hn hmem
          rw [← hh.2] at this
          have e : (net.aged E m).receiverId
              = (m.update E net.speedMultiplier net.latency).2.receiverId := rfl
          rw [e, hg] at this
          have := Option.some.inj this
          subst this
          exact hra ha
    · rw [if_neg hd]
      simp only []
      rw [ih net hn]
      apply skip
      intro n _ _ hh
      exact hd hh.1


theorem drain_messageQueue (now : ℚ) (alive : List Nat) (queue : List Content) :
    ∀ n : RaftNode, n.messageQueue = queue →
      (RaftNode.drain now alive queue n).messageQueue = [] := by
  induction queue with
  | nil => intro n h; exact h
  | cons m rest ih =>
    intro n _
    simp only [RaftNode.drain]
    exact ih _ (handleNext_messageQueue now alive n m rest)

theorem handleNext_messagesReceived (now : ℚ) (alive : List Nat) (n : RaftNode) (m : Content)
    (rest : List Content) :
    (n.handleNext now alive m rest).messagesReceived = n.messagesReceived + 1 := by
  unfold RaftNode.handleNext
  simp only [afterMessage_messagesReceived]

theorem drain_messagesReceived (now : ℚ) (alive : List Nat) (queue : List Content) :
    ∀ n : RaftNode,
      (RaftNode.drain now alive queue n).messagesReceived = n.messagesReceived + queue.length := by
  induction queue with
  | nil => intro n; rfl
  | cons m rest ih =>
    intro n
    simp only [RaftNode.drain, ih, handleNext_messagesReceived, List.length_cons]
    omega

theorem drain_isAlive (now : ℚ) (alive : List Nat) (queue : List Content) :
    ∀ n : RaftNode, (RaftNode.drain now alive queue n).isAlive = n.isAlive := by
  induction queue with
  | nil => intro n; rfl
  | cons m rest ih =>
    intro n
    simp only [RaftNode.drain, ih, handleNext_isAlive]

theorem update_not_alive (E : Env) (net : RaftNetwork) (id : Nat)
    (h : ∀ s, net.getNode id = some s → s.isAlive = false) : RaftNode.update E net id = net := by
  unfold RaftNode.update
  cases hg : net.getNode id with
  | none => rfl
  | some s =>
    simp only []
    rw [h s hg]
    rfl

theorem update_getNode_ne (E : Env) (net : RaftNetwork) (id j : Nat) (hj : j ≠ id) :
    (RaftNode.update E net id).getNode j = net.getNode j := by
  cases hg : net.getNode id with
  | none => rw [update_not_alive E net id (by intro s hs; rw [hg] at hs; cases hs)]
  | some s =>
    obtain ⟨_, t⟩ := update_effect E net id s hg
    exact t.getNode_ne hj

theorem update_aliveIds (E : Env) (net : RaftNetwork) (id : Nat) :
    (RaftNode.update E net id).aliveIds = net.aliveIds := by
  cases hg : net.getNode id with
  | none => rw [update_not_alive E net id (by intro s hs; rw [hg] at hs; cases hs)]
  | some s =>
    obtain ⟨_, t⟩ := update_effect E net id s hg
    exact t.aliveIds

theorem update_ids (E : Env) (net : RaftNetwork) (id : Nat) :
    (RaftNode.update E net id).nodes.map (fun n => n.id) = net.nodes.map (fun n => n.id) := by
  cases hg : net.getNode id with
  | none => rw [update_not_alive E net id (by intro s hs; rw [hg] at hs; cases hs)]
  | some s =>
    obtain ⟨_, t⟩ := update_effect E net id s hg
    exact t.ids

theorem update_getNode_alive (E : Env) (net : RaftNetwork) (id j : Nat) :
    ((RaftNode.update E net id).getNode j).map (fun n => n.isAlive)
      = (net.getNode j).map (fun n => n.isAlive) := by
  cases hg : net.getNode id with
  | none => rw [update_not_alive E net id (by intro s hs; rw [hg] at hs; cases hs)]
  | some s =>
    obtain ⟨_, t⟩ := update_effect E net id s hg
    exact t.getNode_alive j

/-- The effect of the node pass of `RaftNetwork.update` over the distinct ids
`ids`: every node on the list has run its own `update` on the state it had
before the pass, every other node is as before. -/
theorem updateNodes_effect (E : Env) :
    ∀ (ids : List Nat) (net : RaftNetwork), ids.Nodup →
      (RaftNetwork.updateNodes E ids net).aliveIds = net.aliveIds ∧
      (RaftNetwork.updateNodes E ids net).nodes.map (fun n => n.id)
        = net.nodes.map (fun n => n.id) ∧
      ∀ j n, net.getNode j = some n →
        (j ∈ ids → ∃ k i, (RaftNetwork.updateNodes E ids net).getNode j
          = some ((n.afterUpdate E.now (3000 + E.rand i * (6000 - 3000)) net.aliveIds).addSent k)) ∧
        (j ∉ ids → (RaftNetwork.updateNodes E ids net).getNode j = some n) := by
  intro ids
  induction ids with
  | nil =>
    intro net _
    refine ⟨rfl, rfl, ?_⟩
    intro j n h
    exact ⟨fun hj => absurd hj (List.not_mem_nil j), fun _ => h⟩
  | cons a rest ih =>
    intro net hnd
    obtain ⟨ha, hrest⟩ := List.nodup_cons.mp hnd
    obtain ⟨i1, i2, i3⟩ := ih (RaftNode.update E net a) hrest
    unfold RaftNetwork.updateNodes
    refine ⟨i1.trans (update_aliveIds E net a), i2.trans (update_ids E net a), ?_⟩
    intro j n h
    by_cases hja : j = a
    · subst hja
      obtain ⟨k, t⟩ := update_effect E net j n h
      have h1 := t.getNode_self h
      refine ⟨fun _ => ⟨k, net.draws, ?_⟩, fun hj => absurd (List.mem_cons_self j rest) hj⟩
      exact (i3 j _ h1).2 ha
    · have h1 : (RaftNode.update E net a).getNode j = some n := by
        rw [update_getNode_ne E net a j hja]; exact h
      obtain ⟨p1, p2⟩ := i3 j n h1
      rw [update_aliveIds] at p1
      constructor
      · intro hj
        rcases List.mem_cons.mp hj with hh | hh
        · exact absurd hh hja
        · exact p1 hh
      · intro hj
        exact p2 (fun hh => hj (List.mem_cons_of_mem a hh))


theorem update_emits (E : Env) (net : RaftNetwork) (id : Nat) :
    Emits E net (RaftNode.update E net id) [id] := by
  by_cases h : ∀ s, net.getNode id = some s → s.isAlive = false
  · rw [update_not_alive E net id h]
    exact ⟨rfl, rfl, rfl, rfl, [], [], by simp, by simp, by simp, by simp, fun _ => rfl⟩
  · have hal : ∃ s, net.getNode id = some s ∧ s.isAlive = true := by
      by_contra hc
      apply h
      intro s hs
      cases hh : s.isAlive
      · rfl
      · exact absurd ⟨s, hs, hh⟩ hc
    obtain ⟨e1, e2, e3, e4, ms, cs, a1, a2, _, a4, a5, _, a7⟩ := update_appends E net id
    refine ⟨e1, e2, e3, e4, ms, cs, a1, a2, ?_, ?_, a7⟩
    · intro m hm
      obtain ⟨b1, b2, b3, b4, _, b6⟩ := a4 m hm
      rw [b1]
      exact ⟨List.mem_singleton_self id, hal, b2, b3, b4, b6⟩
    · intro c hc
      rw [a5 c hc]
      exact ⟨List.mem_singleton_self id, hal⟩

theorem updateNodes_emits (E : Env) :
    ∀ (ids : List Nat) (net : RaftNetwork),
      Emits E net (RaftNetwork.updateNodes E ids net) ids := by
  intro ids
  induction ids with
  | nil =>
    intro net
    exact ⟨rfl, rfl, rfl, rfl, [], [], by simp [RaftNetwork.updateNodes],
      by simp [RaftNetwork.updateNodes], by simp, by simp, fun _ => rfl⟩
  | cons a rest ih =>
    intro net
    obtain ⟨e1, e2, e3, e4, ms, cs, a1, a2, a3, a4, a5⟩ := update_emits E net a
    obtain ⟨f1, f2, f3, f4, ms1, cs1, b1, b2, b3, b4, b5⟩ := ih (RaftNode.update E net a)
    have alive : ∀ j, (∃ s, (RaftNode.update E net a).getNode j = some s ∧ s.isAlive = true) →
        ∃ s, net.getNode j = some s ∧ s.isAlive = true := by
      intro j ⟨s, hs, hsa⟩
      have := update_getNode_alive E net a j
      rw [hs] at this
      cases hg : net.getNode j with
      | none => rw [hg] at this; cases this
      | some s0 =>
        rw [hg] at this
        simp only [Option.map_some', Option.some.injEq] at this
        exact ⟨s0, rfl, this ▸ hsa⟩
    unfold RaftNetwork.updateNodes
    refine ⟨f1.trans e1, f2.trans e2, f3.trans e3, f4.trans e4, ms ++ ms1, cs ++ cs1,
      by rw [b1, a1, List.append_assoc], by rw [b2, a2, List.append_assoc], ?_, ?_, ?_⟩
    · intro m hm
      rcases List.mem_append.mp hm with hh | hh
      · obtain ⟨c1, c2⟩ := a3 m hh
        exact ⟨List.mem_cons.mpr (Or.inl (List.mem_singleton.mp c1)), c2⟩
      · obtain ⟨c1, c2, c3⟩ := b3 m hh
        exact ⟨List.mem_cons_of_mem a c1, alive _ c2, c3⟩
    · intro c hc
      rcases List.mem_append.mp hc with hh | hh
      · obtain ⟨c1, c2⟩ := a4 c hh
        exact ⟨List.mem_cons.mpr (Or.inl (List.mem_singleton.mp c1)), c2⟩
      · obtain ⟨c1, c2⟩ := b4 c hh
        exact ⟨List.mem_cons_of_mem a c1, alive _ c2⟩
    · intro hr
      rw [a5 hr, b5 (by rw [e2]; exact hr)]
      rfl


theorem afterDelivery_id (E : Env) (net : RaftNetwork) (messages : List Message) (n : RaftNode) :
    (net.afterDelivery E messages n).id = n.id := by
  unfold RaftNetwork.afterDelivery; split <;> rfl

theorem afterDelivery_isAlive (E : Env) (net : RaftNetwork) (messages : List Message)
    (n : RaftNode) : (net.afterDelivery E messages n).isAlive = n.isAlive := by
  unfold RaftNetwork.afterDelivery; split <;> rfl

theorem delivered_nodes (E : Env) (net : RaftNetwork)
    (hn : (net.nodes.map (fun n => n.id)).Nodup) :
    (net.delivered E).nodes = net.nodes.map (net.afterDelivery E net.messages) :=
  deliverLoop_nodes E net.messages net hn

theorem delivered_ids (E : Env) (net : RaftNetwork)
    (hn : (net.nodes.map (fun n => n.id)).Nodup) :
    (net.delivered E).nodes.map (fun n => n.id) = net.nodes.map (fun n => n.id) := by
  rw [delivered_nodes E net hn, List.map_map]
  apply List.map_congr_left
  intro n _
  exact afterDelivery_id E net net.messages n

theorem delivered_getNode (E : Env) (net : RaftNetwork)
    (hn : (net.nodes.map (fun n => n.id)).Nodup) (j : Nat) :
    (net.delivered E).getNode j = (net.getNode j).map (net.afterDelivery E net.messages) := by
  unfold RaftNetwork.getNode
  rw [delivered_nodes E net hn]
  exact find?_map_of_id _ (afterDelivery_id E net net.messages) _ _

theorem delivered_aliveIds (E : Env) (net : RaftNetwork)
    (hn : (net.nodes.map (fun n => n.id)).Nodup) :
    (net.delivered E).aliveIds = net.aliveIds := by
  unfold RaftNetwork.aliveIds RaftNetwork.getAliveNodes
  rw [delivered_nodes E net hn, List.filter_map, List.map_map]
  have : ((fun n : RaftNode => n.isAlive) ∘ net.afterDelivery E net.messages)
      = fun n : RaftNode => n.isAlive := by
    funext n; exact afterDelivery_isAlive E net net.messages n
  rw [this]
  apply List.map_congr_left
  intro n _
  exact afterDelivery_id E net net.messages n

theorem update_eq (E : Env) (net : RaftNetwork) :
    net.update E
      = RaftNetwork.updateNodes E ((net.delivered E).nodes.map (fun n => n.id))
          (net.delivered E) := rfl

theorem delivered_fields (E : Env) (net : RaftNetwork) :
    (net.delivered E).messages
      = (net.messages.map (net.aged E)).filter (fun m => !m.delivered && !m.dropped) ∧
    (net.delivered E).sendCalls = net.sendCalls ∧
    (net.delivered E).partitions = net.partitions ∧
    (net.delivered E).dropRate = net.dropRate ∧
    (net.delivered E).latency = net.latency ∧
    (net.delivered E).speedMultiplier = net.speedMultiplier := by
  obtain ⟨i1, i2, i3, _, i5, i6, i7, _⟩ := deliverLoop_kept E net.messages net
  exact ⟨i1, i5, i6, i7, i3, i2⟩


/-- C29: the delivery phase of `network.update` keeps, in their previous order,
exactly the in-flight messages that after `Message.update` are neither
delivered nor dropped; the content of each delivered message is appended, in
order, to the inbox of the node registered under its receiver id if that node
is alive, and reaches no inbox otherwise: a dead node is left as it was and no
node is created. The node pass that follows only appends new messages. -/
theorem update_delivery_contract (E : Env) (net : RaftNetwork)
    (hn : (net.nodes.map (fun n => n.id)).Nodup) :
    (net.delivered E).messages
      = (net.messages.map (fun m => (m.update E net.speedMultiplier net.latency).2)).filter
          (fun m => !m.delivered && !m.dropped) ∧
    (∀ n ∈ net.nodes, (net.delivered E).getNode n.id
      = some (if n.isAlive = true then
          { n with messageQueue := n.messageQueue ++
              ((net.messages.map
                  (fun m => (m.update E net.speedMultiplier net.latency).2)).filter
                (fun m => m.delivered && m.receiverId == n.id)).map (fun m => m.content) }
        else n)) ∧
    (net.delivered E).nodes.map (fun n => n.id) = net.nodes.map (fun n => n.id) ∧
    ∃ new, (net.update E).messages = (net.delivered E).messages ++ new ∧
      ∀ m ∈ new, m.delivered = false ∧ m.dropped = false ∧ m.progress = 0 ∧
        m.timestamp = E.now := by
  refine ⟨(delivered_fields E net).1, ?_, delivered_ids E net hn, ?_⟩
  · intro n hmem
    rw [delivered_getNode E net hn, getNode_of_mem hn hmem]
    rfl
  · obtain ⟨_, _, _, _, ms, cs, a1, _, a3, _, _⟩ :=
      updateNodes_emits E ((net.delivered E).nodes.map (fun n => n.id)) (net.delivered E)
    refine ⟨ms, a1, ?_⟩
    intro m hm
    exact (a3 m hm).2.2

theorem update_delivery_contract_witness :
    (demoFlightNet.nodes.map (fun n => n.id)).Nodup ∧
    ((demoFlightNet.delivered demoEnv).messages
      = (demoFlightNet.messages.map
          (fun m => (m.update demoEnv demoFlightNet.speedMultiplier demoFlightNet.latency).2)).filter
          (fun m => !m.delivered && !m.dropped) ∧
    (∀ n ∈ demoFlightNet.nodes, (demoFlightNet.delivered demoEnv).getNode n.id
      = some (if n.isAlive = true then
          { n with messageQueue := n.messageQueue ++
              ((demoFlightNet.messages.map
                  (fun m => (m.update demoEnv demoFlightNet.speedMultiplier
                    demoFlightNet.latency).2)).filter
                (fun m => m.delivered && m.receiverId == n.id)).map (fun m => m.content) }
        else n)) ∧
    (demoFlightNet.delivered demoEnv).nodes.map (fun n => n.id)
      = demoFlightNet.nodes.map (fun n => n.id) ∧
    ∃ new, (demoFlightNet.update demoEnv).messages
        = (demoFlightNet.delivered demoEnv).messages ++ new ∧
      ∀ m ∈ new, m.delivered = false ∧ m.dropped = false ∧ m.progress = 0 ∧
        m.timestamp = demoEnv.now) :=
  ⟨by decide, update_delivery_contract demoEnv demoFlightNet (by decide)⟩

/-- C30: `network.update` is the delivery phase followed by one `update` of
every node, in map order. A node that is alive after the delivery phase handles
the contents of the inbox it has at that point once each, first in first out,
after its timer steps; its inbox is then empty and its `messagesReceived` has
grown by the length of that inbox. What the handlers send is appended to the
in-flight list, so no inbox receives anything during the node pass. -/
theorem update_drains_inboxes (E : Env) (net : RaftNetwork)
    (hn : (net.nodes.map (fun n => n.id)).Nodup) :
    net.update E
      = RaftNetwork.updateNodes E ((net.delivered E).nodes.map (fun n => n.id))
          (net.delivered E) ∧
    (∀ j n, (net.delivered E).getNode j = some n → n.isAlive = true →
      ∃ k i n1, (net.update E).getNode j = some n1 ∧
        n1 = (RaftNode.drain E.now net.aliveIds n.messageQueue
          ((n.afterTimeout E.now (3000 + E.rand i * (6000 - 3000))).afterHeartbeat
            E.now)).addSent k ∧
        n1.messageQueue = [] ∧
        n1.messagesReceived = n.messagesReceived + n.messageQueue.length) ∧
    ∃ new, (net.update E).messages = (net.delivered E).messages ++ new ∧
      ∀ m ∈ new, m.delivered = false ∧ m.progress = 0 := by
  have hn1 : ((net.delivered E).nodes.map (fun n => n.id)).Nodup := by
    rw [delivered_ids E net hn]; exact hn
  refine ⟨rfl, ?_, ?_⟩
  · intro j n h ha
    obtain ⟨_, _, eff⟩ := updateNodes_effect E _ (net.delivered E) hn1
    have hj : j ∈ (net.delivered E).nodes.map (fun n => n.id) := by
      have hmem : n ∈ (net.delivered E).nodes := List.mem_of_find?_eq_some h
      have := getNode_id h
      exact List.mem_map.mpr ⟨n, hmem, this⟩
    obtain ⟨k, i, e⟩ := (eff j n h).1 hj
    rw [← update_eq, delivered_aliveIds E net hn] at e
    have e2 : n.afterUpdate E.now (3000 + E.rand i * (6000 - 3000)) net.aliveIds
        = RaftNode.drain E.now net.aliveIds n.messageQueue
          ((n.afterTimeout E.now (3000 + E.rand i * (6000 - 3000))).afterHeartbeat E.now) := by
      unfold RaftNode.afterUpdate
      rw [if_pos ha]
    rw [e2] at e
    refine ⟨k, i, _, e, rfl, ?_, ?_⟩
    · rw [addSent_messageQueue]
      apply drain_messageQueue
      rw [afterHeartbeat_messageQueue, afterTimeout_messageQueue]
    · rw [addSent_messagesReceived, drain_messagesReceived]
      have : ((n.afterTimeout E.now (3000 + E.rand i * (6000 - 3000))).afterHeartbeat
          E.now).messagesReceived = n.messagesReceived := by
        unfold RaftNode.afterHeartbeat RaftNode.afterTimeout RaftNode.afterElection
        split <;> split <;> rfl
      rw [this]
  · obtain ⟨_, _, _, _, ms, cs, a1, _, a3, _, _⟩ :=
      updateNodes_emits E ((net.delivered E).nodes.map (fun n => n.id)) (net.delivered E)
    refine ⟨ms, a1, ?_⟩
    intro m hm
    obtain ⟨_, _, b3, _, b5, _⟩ := a3 m hm
    exact ⟨b3, b5⟩

theorem update_drains_inboxes_witness :
    (demoFlightNet.nodes.map (fun n => n.id)).Nodup ∧
    (demoFlightNet.update demoEnv
      = RaftNetwork.updateNodes demoEnv
          ((demoFlightNet.delivered demoEnv).nodes.map (fun n => n.id))
          (demoFlightNet.delivered demoEnv) ∧
    (∀ j n, (demoFlightNet.delivered demoEnv).getNode j = some n → n.isAlive = true →
      ∃ k i n1, (demoFlightNet.update demoEnv).getNode j = some n1 ∧
        n1 = (RaftNode.drain demoEnv.now demoFlightNet.aliveIds n.messageQueue
          ((n.afterTimeout demoEnv.now (3000 + demoEnv.rand i * (6000 - 3000))).afterHeartbeat
            demoEnv.now)).addSent k ∧
        n1.messageQueue = [] ∧
        n1.messagesReceived = n.messagesReceived + n.messageQueue.length) ∧
    ∃ new, (demoFlightNet.update demoEnv).messages
        = (demoFlightNet.delivered demoEnv).messages ++ new ∧
      ∀ m ∈ new, m.delivered = false ∧ m.progress = 0) :=
  ⟨by decide, update_drains_inboxes demoEnv demoFlightNet (by decide)⟩

theorem updateNodes_dead (E : Env) :
    ∀ (ids : List Nat) (net : RaftNetwork) (d : Nat) (n : RaftNode),
      net.getNode d = some n → n.isAlive = false →
      (RaftNetwork.updateNodes E ids net).getNode d = some n := by
  intro ids
  induction ids with
  | nil => intro net d n h _; exact h
  | cons a rest ih =>
    intro net d n h hd
    unfold RaftNetwork.updateNodes
    apply ih _ d n _ hd
    by_cases hda : d = a
    · subst hda
      rw [update_not_alive E net d (by intro s hs; rw [h] at hs; cases hs; exact hd)]
      exact h
    · rw [update_getNode_ne E net a d hda]; exact h

/-- C21: a registered node with `isAlive = false` is the same object after
`network.update` as before (state, term, vote, log and inbox included), every
message and every `sendMessage` call added by the step has another node as
sender, and `startElection` and `sendHeartbeats` called on it change
nothing. -/
theorem dead_node_inert (E : Env) (net : RaftNetwork) (d : Nat) (n : RaftNode)
    (hn : (net.nodes.map (fun n => n.id)).Nodup)
    (h : net.getNode d = some n) (hd : n.isAlive = false) :
    (net.update E).getNode d = some n ∧
    (∃ new calls, (net.update E).messages = (net.delivered E).messages ++ new ∧
      (net.update E).sendCalls = net.sendCalls ++ calls ∧
      (∀ m ∈ new, m.senderId ≠ d) ∧ ∀ c ∈ calls, c.1 ≠ d) ∧
    RaftNode.startElection E net d = net ∧ RaftNode.sendHeartbeats E net d = net := by
  have h1 : (net.delivered E).getNode d = some n := by
    rw [delivered_getNode E net hn, h]
    unfold RaftNetwork.afterDelivery
    simp [hd]
  refine ⟨?_, ?_, ?_, ?_⟩
  · exact updateNodes_dead E _ (net.delivered E) d n h1 hd
  · obtain ⟨_, _, _, _, ms, cs, a1, a2, a3, a4, _⟩ :=
      updateNodes_emits E ((net.delivered E).nodes.map (fun n => n.id)) (net.delivered E)
    refine ⟨ms, cs, a1, by rw [← update_eq] at a2; rw [a2, (delivered_fields E net).2.1], ?_, ?_⟩
    · intro m hm hmd
      obtain ⟨_, ⟨s, hs, hsa⟩, _⟩ := a3 m hm
      rw [hmd, h1] at hs
      cases hs
      rw [hd] at hsa
      cases hsa
    · intro c hc hcd
      obtain ⟨_, ⟨s, hs, hsa⟩⟩ := a4 c hc
      rw [hcd, h1] at hs
      cases hs
      rw [hd] at hsa
      cases hsa
  · unfold RaftNode.startElection
    rw [h]
    simp [hd]
  · unfold RaftNode.sendHeartbeats
    rw [h]
    simp [hd]


theorem dead_node_inert_witness :
    ((demoFlightNet.nodes.map (fun n => n.id)).Nodup ∧
      demoFlightNet.getNode 2 = some ((demoNode 2).killFields 0) ∧
      ((demoNode 2).killFields 0).isAlive = false) ∧
    ((demoFlightNet.update lateEnv).getNode 2 = some ((demoNode 2).killFields 0) ∧
    (∃ new calls, (demoFlightNet.update lateEnv).messages
        = (demoFlightNet.delivered lateEnv).messages ++ new ∧
      (demoFlightNet.update lateEnv).sendCalls = demoFlightNet.sendCalls ++ calls ∧
      (∀ m ∈ new, m.senderId ≠ 2) ∧ ∀ c ∈ calls, c.1 ≠ 2) ∧
    RaftNode.startElection lateEnv demoFlightNet 2 = demoFlightNet ∧
    RaftNode.sendHeartbeats lateEnv demoFlightNet 2 = demoFlightNet) :=
  ⟨⟨by decide, rfl, rfl⟩,
    dead_node_inert lateEnv demoFlightNet 2 ((demoNode 2).killFields 0) (by decide) rfl rfl⟩


/-! ## A network that drops everything -/

theorem getNode_some_of_mem_ids (net : RaftNetwork) (j : Nat)
    (hj : j ∈ net.nodes.map (fun n => n.id)) : ∃ n, net.getNode j = some n := by
  obtain ⟨p, hp, e⟩ := List.mem_map.mp hj
  cases h : net.getNode j with
  | some n => exact ⟨n, rfl⟩
  | none =>
    have := List.find?_eq_none.mp h p hp
    simp [e] at this

theorem mem_ids_of_getNode {net : RaftNetwork} {j : Nat} {n : RaftNode}
    (h : net.getNode j = some n) : j ∈ net.nodes.map (fun n => n.id) :=
  List.mem_map.mpr ⟨n, List.mem_of_find?_eq_some h, getNode_id h⟩

theorem afterDelivery_nil (E : Env) (net : RaftNetwork) (n : RaftNode) :
    net.afterDelivery E [] n = n := by
  unfold RaftNetwork.afterDelivery RaftNetwork.arrivals
  split
  · simp
  · rfl

theorem afterUpdate_quiet (now t : ℚ) (alive : List Nat) (n : RaftNode)
    (hs : n.state ≠ NodeState.leader) (hq : n.messageQueue = []) :
    (n.afterUpdate now t alive).state ≠ NodeState.leader ∧
    (n.afterUpdate now t alive).messageQueue = [] := by
  unfold RaftNode.afterUpdate
  split
  · rw [hq]
    simp only [RaftNode.drain]
    have h1 : (n.afterTimeout now t).state ≠ NodeState.leader := by
      unfold RaftNode.afterTimeout
      split
      · simp [RaftNode.afterElection]
      · exact hs
    have h2 : (n.afterTimeout now t).afterHeartbeat now = n.afterTimeout now t := by
      unfold RaftNode.afterHeartbeat
      rw [if_neg (fun hh => h1 hh.1)]
    rw [h2]
    exact ⟨h1, by rw [afterTimeout_messageQueue]; exact hq⟩
  · exact ⟨hs, hq⟩

theorem quiet_step (E : Env) (net : RaftNetwork)
    (hn : (net.nodes.map (fun n => n.id)).Nodup) (hdr : net.dropRate = 1)
    (hr : ∀ i, E.rand i < 1) (hm : net.messages = [])
    (hq : ∀ j n, net.getNode j = some n → n.state ≠ NodeState.leader ∧ n.messageQueue = []) :
    ((net.update E).nodes.map (fun n => n.id)).Nodup ∧ (net.update E).dropRate = 1 ∧
    (net.update E).messages = [] ∧
    (∀ j n, (net.update E).getNode j = some n →
      n.state ≠ NodeState.leader ∧ n.messageQueue = []) ∧
    (∀ j n n1, net.getNode j = some n → (net.update E).getNode j = some n1 →
      n.currentTerm ≤ n1.currentTerm) := by
  have hn1 : ((net.delivered E).nodes.map (fun n => n.id)).Nodup := by
    rw [delivered_ids E net hn]; exact hn
  have hg : ∀ j, (net.delivered E).getNode j = net.getNode j := by
    intro j
    rw [delivered_getNode E net hn, hm]
    cases net.getNode j with
    | none => rfl
    | some n => simp [afterDelivery_nil]
  obtain ⟨d1, _, d3, d4, _, _⟩ := delivered_fields E net
  obtain ⟨_, u2, eff⟩ := updateNodes_effect E _ (net.delivered E) hn1
  obtain ⟨_, e2, _, _, ms, cs, a1, _, _, _, a5⟩ :=
    updateNodes_emits E ((net.delivered E).nodes.map (fun n => n.id)) (net.delivered E)
  rw [← update_eq] at u2 eff e2 a1
  have key : ∀ j n n1, net.getNode j = some n → (net.update E).getNode j = some n1 →
      ∃ k i, n1 = (n.afterUpdate E.now (3000 + E.rand i * (6000 - 3000))
        (net.delivered E).aliveIds).addSent k := by
    intro j n n1 h h1
    have hd : (net.delivered E).getNode j = some n := by rw [hg]; exact h
    obtain ⟨k, i, e⟩ := (eff j n hd).1 (mem_ids_of_getNode hd)
    rw [h1] at e
    exact ⟨k, i, Option.some.inj e⟩
  refine ⟨by rw [u2]; exact hn1, by rw [e2, d4, hdr], ?_, ?_, ?_⟩
  · rw [a1, a5 (by rw [d4, hdr]; exact hr), d1, hm]
    rfl
  · intro j n1 h1
    have hj : j ∈ (net.delivered E).nodes.map (fun n => n.id) := by
      rw [← u2]; exact mem_ids_of_getNode h1
    obtain ⟨n, hd⟩ := getNode_some_of_mem_ids _ j hj
    rw [hg] at hd
    obtain ⟨k, i, e⟩ := key j n n1 hd h1
    obtain ⟨q1, q2⟩ := hq j n hd
    rw [e]
    exact afterUpdate_quiet _ _ _ n q1 q2
  · intro j n n1 h h1
    obtain ⟨k, i, e⟩ := key j n n1 h h1
    rw [e]
    exact afterUpdate_currentTerm_ge _ _ _ n


theorem update_getNode (E : Env) (net : RaftNetwork)
    (hn : (net.nodes.map (fun n => n.id)).Nodup) (j : Nat) (n : RaftNode)
    (h : (net.delivered E).getNode j = some n) :
    ∃ k i, (net.update E).getNode j
      = some ((n.afterUpdate E.now (3000 + E.rand i * (6000 - 3000)) net.aliveIds).addSent k) := by
  have hn1 : ((net.delivered E).nodes.map (fun n => n.id)).Nodup := by
    rw [delivered_ids E net hn]; exact hn
  obtain ⟨_, _, eff⟩ := updateNodes_effect E _ (net.delivered E) hn1
  obtain ⟨k, i, e⟩ := (eff j n h).1 (mem_ids_of_getNode h)
  rw [← update_eq, delivered_aliveIds E net hn] at e
  exact ⟨k, i, e⟩

theorem quiet_run (frames : List Env) :
    ∀ net : RaftNetwork, (net.nodes.map (fun n => n.id)).Nodup → net.dropRate = 1 →
      (∀ E ∈ frames, ∀ i, E.rand i < 1) → net.messages = [] →
      (∀ j n, net.getNode j = some n → n.state ≠ NodeState.leader ∧ n.messageQueue = []) →
      ((net.runUpdates frames).nodes.map (fun n => n.id)).Nodup ∧
      (net.runUpdates frames).messages = [] ∧
      (∀ j n, (net.runUpdates frames).getNode j = some n →
        n.state ≠ NodeState.leader ∧ n.messageQueue = []) ∧
      (∀ j n n1, net.getNode j = some n → (net.runUpdates frames).getNode j = some n1 →
        n.currentTerm ≤ n1.currentTerm) := by
  induction frames with
  | nil =>
    intro net hn _ _ hm hq
    refine ⟨hn, hm, hq, ?_⟩
    intro j n n1 h h1
    have : (net.runUpdates []).getNode j = net.getNode j := rfl
    rw [this, h] at h1
    cases h1
    exact Nat.le_refl _
  | cons E rest ih =>
    intro net hn hdr hr hm hq
    obtain ⟨s1, s2, s3, s4, s5⟩ :=
      quiet_step E net hn hdr (hr E (List.mem_cons_self E rest)) hm hq
    obtain ⟨i1, i2, i3, i4⟩ :=
      ih (net.update E) s1 s2 (fun E1 h1 => hr E1 (List.mem_cons_of_mem E h1)) s3 s4
    refine ⟨i1, i2, i3, ?_⟩
    intro j n n1 h h1
    obtain ⟨n0, h0⟩ : ∃ n0, (net.update E).getNode j = some n0 := by
      apply getNode_some_of_mem_ids
      have hd : (net.delivered E).getNode j = some (net.afterDelivery E net.messages n) := by
        rw [delivered_getNode E net hn, h]; rfl
      obtain ⟨k, i, e⟩ := update_getNode E net hn j _ hd
      exact mem_ids_of_getNode e
    exact Nat.le_trans (s5 j n n0 h h0) (i4 j n0 n1 h0 h1)

/-- C25: with `dropRate = 1` and draws below 1, every `sendMessage` returns
false and adds no message. From a network with no Leader, no message in flight
and empty inboxes, after any run of `network.update` calls the in-flight list
is empty, no node is Leader and every inbox is empty; no term has gone down,
and a Follower or Candidate that is alive, not partitioned and whose election
timeout has expired does go up one term in the next call. -/
theorem dropRate_one_no_leader (frames : List Env) (net : RaftNetwork)
    (hn : (net.nodes.map (fun n => n.id)).Nodup) (hdr : net.dropRate = 1)
    (hr : ∀ E ∈ frames, ∀ i, E.rand i < 1) (hm : net.messages = [])
    (hq : ∀ n ∈ net.nodes, n.state ≠ NodeState.leader ∧ n.messageQueue = []) :
    (∀ E a b c, E.rand net.draws < 1 →
      (net.sendMessage E a b c).1 = false ∧
      (net.sendMessage E a b c).2.messages = net.messages) ∧
    (net.runUpdates frames).messages = [] ∧
    (∀ n ∈ (net.runUpdates frames).nodes,
      n.state ≠ NodeState.leader ∧ n.messageQueue = []) ∧
    (∀ j n n1, net.getNode j = some n → (net.runUpdates frames).getNode j = some n1 →
      n.currentTerm ≤ n1.currentTerm) ∧
    (∀ E j n, net.getNode j = some n → n.isAlive = true → n.isPartitioned = false →
      (n.state = NodeState.follower ∨ n.state = NodeState.candidate) →
      E.now - n.lastHeartbeat > n.electionTimeout →
      ∃ n1, (net.update E).getNode j = some n1 ∧ n1.currentTerm = n.currentTerm + 1) := by
  have hq1 : ∀ j n, net.getNode j = some n →
      n.state ≠ NodeState.leader ∧ n.messageQueue = [] :=
    fun j n h => hq n (List.mem_of_find?_eq_some h)
  obtain ⟨r1, r2, r3, r4⟩ := quiet_run frames net hn hdr hr hm hq1
  refine ⟨?_, r2, ?_, r4, ?_⟩
  · intro E a b c hlt
    rcases sendMessage_cases E net a b c with ⟨_, e⟩ | ⟨_, _, e⟩ | ⟨_, hd, _⟩
    · rw [e]; exact ⟨rfl, rfl⟩
    · rw [e]; exact ⟨rfl, rfl⟩
    · rw [hdr] at hd; exact absurd hlt hd
  · intro n hmem
    exact r3 n.id n (getNode_of_mem r1 hmem)
  · intro E j n h ha hp hs hx
    have hd : (net.delivered E).getNode j = some n := by
      rw [delivered_getNode E net hn, h, hm]
      simp [afterDelivery_nil]
    obtain ⟨k, i, e⟩ := update_getNode E net hn j n hd
    refine ⟨_, e, ?_⟩
    rw [addSent_currentTerm]
    unfold RaftNode.afterUpdate RaftNode.afterTimeout
    rw [if_pos ha, if_pos ⟨hs, hx, ha, hp⟩, (hq1 j n h).2]
    unfold RaftNode.afterHeartbeat
    rw [if_neg (by simp [RaftNode.afterElection])]
    rfl

theorem dropRate_one_no_leader_witness :
    ((demoLossyNet.nodes.map (fun n => n.id)).Nodup ∧ demoLossyNet.dropRate = 1 ∧
      (∀ E ∈ [lateEnv, lateEnv], ∀ i, E.rand i < 1) ∧ demoLossyNet.messages = [] ∧
      (∀ n ∈ demoLossyNet.nodes, n.state ≠ NodeState.leader ∧ n.messageQueue = [])) ∧
    ((∀ E a b c, E.rand demoLossyNet.draws < 1 →
      (demoLossyNet.sendMessage E a b c).1 = false ∧
      (demoLossyNet.sendMessage E a b c).2.messages = demoLossyNet.messages) ∧
    (demoLossyNet.runUpdates [lateEnv, lateEnv]).messages = [] ∧
    (∀ n ∈ (demoLossyNet.runUpdates [lateEnv, lateEnv]).nodes,
      n.state ≠ NodeState.leader ∧ n.messageQueue = []) ∧
    (∀ j n n1, demoLossyNet.getNode j = some n →
      (demoLossyNet.runUpdates [lateEnv, lateEnv]).getNode j = some n1 →
      n.currentTerm ≤ n1.currentTerm) ∧
    (∀ E j n, demoLossyNet.getNode j = some n → n.isAlive = true → n.isPartitioned = false →
      (n.state = NodeState.follower ∨ n.state = NodeState.candidate) →
      E.now - n.lastHeartbeat > n.electionTimeout →
      ∃ n1, (demoLossyNet.update E).getNode j = some n1 ∧
        n1.currentTerm = n.currentTerm + 1)) :=
  ⟨⟨by decide, rfl, by simp [lateEnv], rfl, by decide⟩,
    dropRate_one_no_leader [lateEnv, lateEnv] demoLossyNet (by decide) rfl
      (by simp [lateEnv]) rfl (by decide)⟩


/-! ## The leader maps -/

theorem afterVoteResponse_maps (now : ℚ) (alive : List Nat) (self : RaftNode) (term : Nat)
    (g : Bool) (hs : (self.afterVoteResponse now alive term g).state ≠ NodeState.leader ∨
      self.state = NodeState.leader) :
    (self.afterVoteResponse now alive term g).nextIndex = self.nextIndex ∧
    (self.afterVoteResponse now alive term g).matchIndex = self.matchIndex := by
  unfold RaftNode.afterVoteResponse at hs ⊢
  by_cases h1 : self.state ≠ NodeState.candidate ∨ term ≠ self.currentTerm
  · rw [if_pos h1]; exact ⟨rfl, rfl⟩
  · rw [if_neg h1] at hs ⊢
    cases g with
    | false => exact ⟨rfl, rfl⟩
    | true =>
      simp only [if_true] at hs ⊢
      by_cases h2 : ((self.votesReceived + 1 : Nat) : ℚ) > (alive.length : ℚ) / 2
      · rw [if_pos h2] at hs
        rcases hs with hs | hs
        · rw [initLeaderIds_state] at hs
          exact absurd rfl hs
        · exact absurd (by rw [hs]; decide) (not_or.mp h1).1
      · rw [if_neg h2]; exact ⟨rfl, rfl⟩

theorem afterMessage_maps (now : ℚ) (alive : List Nat) (self : RaftNode) (m : Content)
    (hs : (self.afterMessage now alive m).state ≠ NodeState.leader ∨
      self.state = NodeState.leader) :
    (self.afterMessage now alive m).nextIndex = self.nextIndex ∧
    (self.afterMessage now alive m).matchIndex = self.matchIndex := by
  cases m with
  | requestVote tm c li lt =>
    simp only [RaftNode.afterMessage, afterRequestVote_nextIndex, afterRequestVote_matchIndex,
      afterTerm_nextIndex, afterTerm_matchIndex, and_self]
  | requestVoteResponse tm g =>
    simp only [RaftNode.afterMessage] at hs ⊢
    by_cases hgt : tm > self.currentTerm
    · have hf : (self.afterTerm now tm).state = NodeState.follower :=
        (afterTerm_gt_state now self tm hgt).1
      rw [afterVoteResponse_of_not now alive _ tm g (Or.inl (by rw [hf]; decide))]
      exact ⟨afterTerm_nextIndex now self tm, afterTerm_matchIndex now self tm⟩
    · have e : self.afterTerm now tm = self := afterTerm_of_le now self tm (Nat.le_of_not_gt hgt)
      rw [e] at hs ⊢
      exact afterVoteResponse_maps now alive self tm g hs
  | appendEntries tm l pi pt es lc =>
    simp only [RaftNode.afterMessage, afterAppendEntries_nextIndex,
      afterAppendEntries_matchIndex, afterTerm_nextIndex, afterTerm_matchIndex, and_self]
  | appendEntriesResponse tm s =>
    simp only [RaftNode.afterMessage, afterTerm_nextIndex, afterTerm_matchIndex, and_self]

theorem demoElectedNet_term (n0 : RaftNode) (hg : demoElectedNet.getNode 0 = some n0) :
    n0.currentTerm = 1 := by
  have h : demoCandidateNet.getNode 0 = some demoCandidate := rfl
  obtain ⟨k, t, _⟩ := handleMessage_effect demoEnv demoCandidateNet 0 demoCandidate
    (Content.requestVoteResponse 1 true) h
  have hg1 := t.getNode_self h
  have e : demoElectedNet.getNode 0
      = (RaftNode.handleMessage demoEnv demoCandidateNet 0
          (Content.requestVoteResponse 1 true)).getNode 0 := rfl
  rw [e, hg1] at hg
  rw [← Option.some.inj hg, addSent_currentTerm, afterMessage_currentTerm]
  rfl

/-- C26, counterexample: the Leader of `demoElectedNet` holds `nextIndex[1] = 0`
and `matchIndex[1] = -1`; after it is killed it is Dead, and after it has
instead handled a heartbeat of term 5 it is a Follower, and in both cases the
two entries are still there. -/
theorem former_leader_keeps_maps :
    ∃ n0 n1 n2, demoElectedNet.getNode 0 = some n0 ∧ n0.state = NodeState.leader ∧
      (RaftNode.kill demoEnv demoElectedNet 0).getNode 0 = some n1 ∧
      n1.state = NodeState.dead ∧
      n1.nextIndex.lookup 1 = some 0 ∧ n1.matchIndex.lookup 1 = some (-1) ∧
      (RaftNode.handleMessage demoEnv demoElectedNet 0
        (Content.appendEntries 5 1 (-1) (-1) [] 0)).getNode 0 = some n2 ∧
      n2.state = NodeState.follower ∧ n2.currentTerm = 5 ∧
      n2.nextIndex.lookup 1 = some 0 ∧ n2.matchIndex.lookup 1 = some (-1) := by
  obtain ⟨n0, hg, hs, h1, h2⟩ := demoElectedNet_leader
  obtain ⟨k, t, _⟩ := handleMessage_effect demoEnv demoElectedNet 0 n0
    (Content.appendEntries 5 1 (-1) (-1) [] 0) hg
  have hterm : n0.currentTerm = 1 := demoElectedNet_term n0 hg
  refine ⟨n0, _, _, hg, hs, getNode_kill demoEnv _ 0 n0 hg, rfl, h1, h2,
    t.getNode_self hg, ?_, ?_, ?_, ?_⟩
  · rw [addSent_state]
    simp only [RaftNode.afterMessage]
    rw [afterAppendEntries_of_ge _ _ _ _ (by rw [afterTerm_currentTerm, hterm]; decide)]
    exact stepDown_state _ _
  · rw [addSent_currentTerm, afterMessage_currentTerm, hterm]
    rfl
  · rw [addSent_nextIndex, (afterMessage_maps _ _ n0 _ (Or.inr hs)).1]; exact h1
  · rw [addSent_matchIndex, (afterMessage_maps _ _ n0 _ (Or.inr hs)).2]; exact h2


/-- C26, as the code has it: `nextIndex` and `matchIndex` are never discarded.
A node that handles a message and is not Leader afterwards, or was Leader
before (so every Leader that steps down on a higher term or on an accepted
`AppendEntries`), has both maps unchanged; `kill` makes the node Dead and
`revive` makes it Follower with both maps unchanged. -/
theorem leader_maps_never_discarded (E : Env) (net : RaftNetwork) (id : Nat) (self : RaftNode)
    (h : net.getNode id = some self) :
    (∀ m, ∃ n1, (RaftNode.handleMessage E net id m).getNode id = some n1 ∧
      (n1.state ≠ NodeState.leader ∨ self.state = NodeState.leader →
        n1.nextIndex = self.nextIndex ∧ n1.matchIndex = self.matchIndex)) ∧
    (∃ n1, (RaftNode.kill E net id).getNode id = some n1 ∧ n1.state = NodeState.dead ∧
      n1.nextIndex = self.nextIndex ∧ n1.matchIndex = self.matchIndex) ∧
    (∃ n1, (RaftNode.revive E net id).getNode id = some n1 ∧ n1.state = NodeState.follower ∧
      n1.nextIndex = self.nextIndex ∧ n1.matchIndex = self.matchIndex) := by
  refine ⟨?_, ⟨_, getNode_kill E net id self h, rfl, rfl, rfl⟩,
    ⟨_, getNode_revive E net id self h, rfl, rfl, rfl⟩⟩
  intro m
  obtain ⟨k, t, _⟩ := handleMessage_effect E net id self m h
  refine ⟨_, t.getNode_self h, ?_⟩
  intro hs
  rw [addSent_state] at hs
  rw [addSent_nextIndex, addSent_matchIndex]
  exact afterMessage_maps E.now net.aliveIds self m hs

theorem leader_maps_never_discarded_witness :
    demoLeaderNet.getNode 0 = some demoLeader ∧
    ((∀ m, ∃ n1, (RaftNode.handleMessage demoEnv demoLeaderNet 0 m).getNode 0 = some n1 ∧
      (n1.state ≠ NodeState.leader ∨ demoLeader.state = NodeState.leader →
        n1.nextIndex = demoLeader.nextIndex ∧ n1.matchIndex = demoLeader.matchIndex)) ∧
    (∃ n1, (RaftNode.kill demoEnv demoLeaderNet 0).getNode 0 = some n1 ∧
      n1.state = NodeState.dead ∧
      n1.nextIndex = demoLeader.nextIndex ∧ n1.matchIndex = demoLeader.matchIndex) ∧
    (∃ n1, (RaftNode.revive demoEnv demoLeaderNet 0).getNode 0 = some n1 ∧
      n1.state = NodeState.follower ∧
      n1.nextIndex = demoLeader.nextIndex ∧ n1.matchIndex = demoLeader.matchIndex)) :=
  ⟨rfl, leader_maps_never_discarded demoEnv demoLeaderNet 0 demoLeader rfl⟩


/-! ## Partitions -/

theorem digitChar_ne_dash (k : Nat) (h : k < 10) : Nat.digitChar k ≠ '-' := by
  interval_cases k <;> decide

theorem digitChar_val (k : Nat) (h : k < 10) : (Nat.digitChar k).toNat - 48 = k := by
  interval_cases k <;> rfl

theorem toDigitsCore_no_dash :
    ∀ (fuel n : Nat) (ds : List Char), (∀ c ∈ ds, c ≠ '-') →
      ∀ c ∈ Nat.toDigitsCore 10 fuel n ds, c ≠ '-' := by
  intro fuel
  induction fuel with
  | zero => intro n ds h; simpa [Nat.toDigitsCore] using h
  | succ f ih =>
    intro n ds h
    have hd : ∀ c ∈ Nat.digitChar (n % 10) :: ds, c ≠ '-' := by
      intro c hc
      rcases List.mem_cons.mp hc with e | e
      · rw [e]; exact digitChar_ne_dash _ (Nat.mod_lt _ (by decide))
      · exact h c e
    unfold Nat.toDigitsCore
    simp only []
    split
    · exact hd
    · exact ih _ _ hd

theorem toDigitsCore_value :
    ∀ (fuel n : Nat) (ds : List Char), n < fuel →
      (Nat.toDigitsCore 10 fuel n ds).foldl (fun a c => a * 10 + (c.toNat - 48)) 0
        = ds.foldl (fun a c => a * 10 + (c.toNat - 48)) n := by
  intro fuel
  induction fuel with
  | zero => intro n ds h; omega
  | succ f ih =>
    intro n ds h
    unfold Nat.toDigitsCore
    simp only []
    split
    · rename_i h0
      simp only [List.foldl_cons, digitChar_val (n % 10) (Nat.mod_lt _ (by decide))]
      congr 1
      omega
    · rename_i h0
      rw [ih (n / 10) _ (by omega)]
      simp only [List.foldl_cons, digitChar_val (n % 10) (Nat.mod_lt _ (by decide))]
      congr 1
      omega

theorem toDigits_injective (a b : Nat) (h : Nat.toDigits 10 a = Nat.toDigits 10 b) : a = b := by
  have ha := toDigitsCore_value (a + 1) a [] (Nat.lt_succ_self a)
  have hb := toDigitsCore_value (b + 1) b [] (Nat.lt_succ_self b)
  unfold Nat.toDigits at h
  rw [h, hb] at ha
  simpa using ha.symm

theorem split_at_mark (x : Char) :
    ∀ (l1 l2 r1 r2 : List Char), x ∉ l1 → x ∉ l2 → l1 ++ x :: r1 = l2 ++ x :: r2 →
      l1 = l2 ∧ r1 = r2 := by
  intro l1
  induction l1 with
  | nil =>
    intro l2 r1 r2 _ h2 e
    cases l2 with
    | nil => simpa using e
    | cons c l2 =>
      simp only [List.nil_append, List.cons_append, List.cons.injEq] at e
      exact absurd (e.1 ▸ List.mem_cons_self _ _) h2
  | cons c l1 ih =>
    intro l2 r1 r2 h1 h2 e
    cases l2 with
    | nil =>
      simp only [List.nil_append, List.cons_append, List.cons.injEq] at e
      exact absurd (e.1 ▸ List.mem_cons_self _ _) h1
    | cons d l2 =>
      simp only [List.cons_append, List.cons.injEq] at e
      obtain ⟨i1, i2⟩ := ih l2 r1 r2 (fun hh => h1 (List.mem_cons_of_mem _ hh))
        (fun hh => h2 (List.mem_cons_of_mem _ hh)) e.2
      exact ⟨by rw [e.1, i1], i2⟩

theorem pairKey_data (a b : Nat) :
    (pairKey a b).data = Nat.toDigits 10 a ++ '-' :: Nat.toDigits 10 b := by
  unfold pairKey
  simp [toString, Nat.repr, List.asString]

theorem pairKey_injective (a b c d : Nat) (h : pairKey a b = pairKey c d) : a = c ∧ b = d := by
  have e := congrArg String.data h
  rw [pairKey_data, pairKey_data] at e
  have n1 : ∀ n, '-' ∉ Nat.toDigits 10 n := by
    intro n hh
    exact toDigitsCore_no_dash _ _ [] (by simp) _ hh rfl
  obtain ⟨e1, e2⟩ := split_at_mark '-' _ _ _ _ (n1 a) (n1 c) e
  exact ⟨toDigits_injective a c e1, toDigits_injective b d e2⟩

theorem mem_setAdd (set : List String) (key k : String) :
    k ∈ setAdd set key ↔ k ∈ set ∨ k = key := by
  unfold setAdd
  split
  · rename_i h
    constructor
    · exact Or.inl
    · rintro (h1 | h1)
      · exact h1
      · rw [h1]; simpa using h
  · simp

theorem partitionInner_partitions (a : Nat) (k : String) :
    ∀ (ids : List Nat) (net : RaftNetwork),
      k ∈ (RaftNetwork.partitionInner a ids net).partitions ↔
        k ∈ net.partitions ∨ ∃ b ∈ ids, k = pairKey a b ∨ k = pairKey b a := by
  intro ids
  induction ids with
  | nil => intro net; simp [RaftNetwork.partitionInner]
  | cons b rest ih =>
    intro net
    unfold RaftNetwork.partitionInner
    simp only []
    rw [ih]
    have e : (RaftNode.partition (RaftNode.partition
        { net with partitions := setAdd (setAdd net.partitions (pairKey a b)) (pairKey b a) }
        a true) b true).partitions
        = setAdd (setAdd net.partitions (pairKey a b)) (pairKey b a) := rfl
    rw [e, mem_setAdd, mem_setAdd]
    constructor
    · rintro (((h | h) | h) | ⟨c, hc, h⟩)
      · exact Or.inl h
      · exact Or.inr ⟨b, List.mem_cons_self b rest, Or.inl h⟩
      · exact Or.inr ⟨b, List.mem_cons_self b rest, Or.inr h⟩
      · exact Or.inr ⟨c, List.mem_cons_of_mem b hc, h⟩
    · rintro (h | ⟨c, hc, h⟩)
      · exact Or.inl (Or.inl (Or.inl h))
      · rcases List.mem_cons.mp hc with hh | hh
        · subst hh
          rcases h with h | h
          · exact Or.inl (Or.inl (Or.inr h))
          · exact Or.inl (Or.inr h)
        · exact Or.inr ⟨c, hh, h⟩

theorem partitionOuter_partitions (ids2 : List Nat) (k : String) :
    ∀ (ids1 : List Nat) (net : RaftNetwork),
      k ∈ (RaftNetwork.partitionOuter ids2 ids1 net).partitions ↔
        k ∈ net.partitions ∨
          ∃ a ∈ ids1, ∃ b ∈ ids2, k = pairKey a b ∨ k = pairKey b a := by
  intro ids1
  induction ids1 with
  | nil => intro net; simp [RaftNetwork.partitionOuter]
  | cons a rest ih =>
    intro net
    unfold RaftNetwork.partitionOuter
    rw [ih, partitionInner_partitions]
    constructor
    · rintro ((h | ⟨b, hb, h⟩) | ⟨c, hc, b, hb, h⟩)
      · exact Or.inl h
      · exact Or.inr ⟨a, List.mem_cons_self a rest, b, hb, h⟩
      · exact Or.inr ⟨c, List.mem_cons_of_mem a hc, b, hb, h⟩
    · rintro (h | ⟨c, hc, b, hb, h⟩)
      · exact Or.inl (Or.inl h)
      · rcases List.mem_cons.mp hc with hh | hh
        · subst hh
          exact Or.inl (Or.inr ⟨b, hb, h⟩)
        · exact Or.inr ⟨c, hh, b, hb, h⟩

/-- C16: from an empty partition set, after `partition(A, B)` the ordered pair
`(x, y)` is blocked exactly when one of `x`, `y` is in `A` and the other in
`B`; for disjoint groups no pair inside one group is blocked, and no pair with
a node in neither group is blocked. -/
theorem partition_contract (net : RaftNetwork) (A B : List Nat)
    (h0 : net.partitions = []) (hd : ∀ z, z ∈ A → z ∉ B) :
    (∀ x y, (net.partition A B).isPartitioned x y = true ↔
      (x ∈ A ∧ y ∈ B) ∨ (x ∈ B ∧ y ∈ A)) ∧
    (∀ x y, (net.partition A B).isPartitioned x y = (net.partition A B).isPartitioned y x) ∧
    (∀ x y, x ∈ A → y ∈ A → (net.partition A B).isPartitioned x y = false) ∧
    (∀ x y, x ∈ B → y ∈ B → (net.partition A B).isPartitioned x y = false) ∧
    (∀ x y, x ∉ A → x ∉ B → (net.partition A B).isPartitioned x y = false ∧
      (net.partition A B).isPartitioned y x = false) := by
  have key : ∀ x y, (net.partition A B).isPartitioned x y = true ↔
      (x ∈ A ∧ y ∈ B) ∨ (x ∈ B ∧ y ∈ A) := by
    intro x y
    unfold RaftNetwork.isPartitioned RaftNetwork.partition
    have hc : ∀ (l : List String) (k : String), l.contains k = true ↔ k ∈ l := by
      intro l k; simp
    rw [hc, partitionOuter_partitions, h0]
    constructor
    · rintro (h | ⟨a, ha, b, hb, e | e⟩)
      · cases h
      · obtain ⟨e1, e2⟩ := pairKey_injective _ _ _ _ e
        exact Or.inl ⟨e1 ▸ ha, e2 ▸ hb⟩
      · obtain ⟨e1, e2⟩ := pairKey_injective _ _ _ _ e
        exact Or.inr ⟨e1 ▸ hb, e2 ▸ ha⟩
    · rintro (⟨ha, hb⟩ | ⟨hb, ha⟩)
      · exact Or.inr ⟨x, ha, y, hb, Or.inl rfl⟩
      · exact Or.inr ⟨y, ha, x, hb, Or.inr rfl⟩
  have no : ∀ x y, ¬ ((x ∈ A ∧ y ∈ B) ∨ (x ∈ B ∧ y ∈ A)) →
      (net.partition A B).isPartitioned x y = false := by
    intro x y h
    cases hh : (net.partition A B).isPartitioned x y
    · rfl
    · exact absurd ((key x y).mp hh) h
  refine ⟨key, ?_, ?_, ?_, ?_⟩
  · intro x y
    have := key x y
    have := key y x
    cases h1 : (net.partition A B).isPartitioned x y <;>
      cases h2 : (net.partition A B).isPartitioned y x <;> simp_all <;> tauto
  · intro x y hx hy
    exact no x y (by rintro (⟨_, h⟩ | ⟨h, _⟩); exact hd y hy h; exact hd x hx h)
  · intro x y hx hy
    exact no x y (by rintro (⟨h, _⟩ | ⟨_, h⟩); exact hd x h hx; exact hd y h hy)
  · intro x y hx hy
    exact ⟨no x y (by rintro (⟨h, _⟩ | ⟨h, _⟩); exact hx h; exact hy h),
      no y x (by rintro (⟨_, h⟩ | ⟨_, h⟩); exact hy h; exact hx h)⟩

theorem partition_contract_witness :
    (demoNet.partitions = [] ∧ ∀ z, z ∈ [0] → z ∉ [1, 2]) ∧
    ((∀ x y, (demoNet.partition [0] [1, 2]).isPartitioned x y = true ↔
      (x ∈ [0] ∧ y ∈ [1, 2]) ∨ (x ∈ [1, 2] ∧ y ∈ [0])) ∧
    (∀ x y, (demoNet.partition [0] [1, 2]).isPartitioned x y
      = (demoNet.partition [0] [1, 2]).isPartitioned y x) ∧
    (∀ x y, x ∈ [0] → y ∈ [0] → (demoNet.partition [0] [1, 2]).isPartitioned x y = false) ∧
    (∀ x y, x ∈ [1, 2] → y ∈ [1, 2] →
      (demoNet.partition [0] [1, 2]).isPartitioned x y = false) ∧
    (∀ x y, x ∉ [0] → x ∉ [1, 2] →
      (demoNet.partition [0] [1, 2]).isPartitioned x y = false ∧
      (demoNet.partition [0] [1, 2]).isPartitioned y x = false)) :=
  ⟨⟨rfl, by decide⟩, partition_contract demoNet [0] [1, 2] rfl (by decide)⟩

/-! ## Election safety without kills -/

theorem sum_updNodes (id : Nat) (G : RaftNode → RaftNode) (f : RaftNode → Nat)
    (self : RaftNode) (hid : self.id = id) :
    ∀ nodes : List RaftNode, (nodes.map (fun n => n.id)).Nodup → self ∈ nodes →
      ((updNodes id G nodes).map f).sum + f self = (nodes.map f).sum + f (G self) := by
  intro nodes
  induction nodes with
  | nil => intro _ h; cases h
  | cons a rest ih =>
    intro hn hmem
    simp only [List.map_cons, List.nodup_cons] at hn
    by_cases ha : a.id = id
    · have hnot : id ∉ rest.map (fun n => n.id) := by rw [← ha]; exact hn.1
      have hself : self = a := by
        rcases List.mem_cons.mp hmem with h | h
        · exact h
        · exact absurd (List.mem_map.mpr ⟨self, h, hid⟩) hnot
      subst hself
      have e : updNodes id G (self :: rest) = G self :: rest := by
        have := updNodes_of_not_mem id G rest hnot
        unfold updNodes at this ⊢
        simp only [List.map_cons, if_pos ha, this]
      rw [e]
      simp only [List.map_cons, List.sum_cons]
      omega
    · have hself : self ∈ rest := by
        rcases List.mem_cons.mp hmem with h | h
        · exact absurd (h ▸ hid) ha
        · exact h
      have e : updNodes id G (a :: rest) = a :: updNodes id G rest := by
        unfold updNodes
        simp only [List.map_cons, if_neg ha]
      rw [e]
      simp only [List.map_cons, List.sum_cons]
      have := ih hn.2 hself
      omega

theorem mem_updNodes (id : Nat) (G : RaftNode → RaftNode) (self : RaftNode)
    (nodes : List RaftNode) (hn : (nodes.map (fun n => n.id)).Nodup)
    (hself : self ∈ nodes) (hid : self.id = id) (x : RaftNode)
    (hx : x ∈ updNodes id G nodes) :
    x = G self ∨ (x ∈ nodes ∧ x.id ≠ id) := by
  unfold updNodes at hx
  obtain ⟨n, hmem, e⟩ := List.mem_map.mp hx
  by_cases h : n.id = id
  · rw [if_pos h] at e
    have : n = self := by
      have h1 := find?_of_mem_nodup nodes hn n hmem
      have h2 := find?_of_mem_nodup nodes hn self hself
      rw [h, ← hid] at h1
      rw [h1] at h2
      exact Option.some.inj h2
    rw [this] at e
    exact Or.inl e.symm
  · rw [if_neg h] at e
    rw [← e]
    exact Or.inr ⟨hmem, h⟩

theorem reach_of_getNode {net : RaftNetwork} {c : Nat} {n : RaftNode}
    (h : net.getNode c = some n) (T : Nat) : net.reach c T = n.reached T := by
  unfold RaftNetwork.reach; rw [h]

theorem flightGrants_append (T : Nat) (a b : List Message) :
    flightGrants T (a ++ b) = flightGrants T a + flightGrants T b := by
  unfold flightGrants; exact List.countP_append _ _ _

theorem flightRequests_append (v T c : Nat) (a b : List Message) :
    flightRequests v T c (a ++ b) = flightRequests v T c a + flightRequests v T c b := by
  unfold flightRequests; exact List.countP_append _ _ _

/-- The invariant is kept by a step that writes one node and appends messages,
under local conditions on the node before and after and on the new messages. -/
theorem inv_step {net net1 : RaftNetwork} {id : Nat} {self self1 : RaftNode}
    {G : RaftNode → RaftNode} {new : List Message}
    (inv : ElectionInv net) (h : net.getNode id = some self)
    (hnodes : net1.nodes = updNodes id G net.nodes) (hG : G self = self1)
    (hid : self1.id = id) (halive : self1.isAlive = true)
    (hm : net1.messages = net.messages ++ new)
    (a : ∀ T, self1.voteWeight T + self1.inboxGrants T + flightGrants T new + self.usedVote T
      ≤ self.voteWeight T + self.inboxGrants T + self1.usedVote T)
    (c : ∀ T c, c ≠ id → self1.inboxRequests T c + self1.votedAt T c
      ≤ self.inboxRequests T c + self.votedAt T c)
    (c1 : ∀ T, self1.inboxRequests T id ≤ self.inboxRequests T id)
    (d : ∀ v T, flightRequests v T id new + self.reached T ≤ self1.reached T)
    (e : ∀ v T c, c ≠ id → flightRequests v T c new = 0)
    (e1 : ∀ T, flightRequests id T id new = 0)
    (f : self1.state = NodeState.leader → 2 * self1.votesReceived > net.nodes.length) :
    ElectionInv net1 := by
  have hsid : self.id = id := getNode_id h
  have hself : self ∈ net.nodes := List.mem_of_find?_eq_some h
  have hmem : ∀ x ∈ net1.nodes, x = self1 ∨ (x ∈ net.nodes ∧ x.id ≠ id) := by
    intro x hx
    rw [hnodes] at hx
    rw [← hG]
    exact mem_updNodes id G self net.nodes inv.nodup hself hsid x hx
  have hids : net1.nodes.map (fun n => n.id) = net.nodes.map (fun n => n.id) := by
    rw [hnodes]
    unfold updNodes
    rw [List.map_map]
    apply List.map_congr_left
    intro n hn
    simp only [Function.comp]
    by_cases hh : n.id = id
    · rw [if_pos hh]
      have : n = self := by
        have h1 := find?_of_mem_nodup net.nodes inv.nodup n hn
        have h2 := find?_of_mem_nodup net.nodes inv.nodup self hself
        rw [hh, ← hsid] at h1
        rw [h1] at h2
        exact Option.some.inj h2
      rw [this, hG, hid, hsid]
    · rw [if_neg hh]
  have hget1 : net1.getNode id = some self1 := by
    unfold RaftNetwork.getNode
    have : self1 ∈ net1.nodes := by
      rw [hnodes]
      unfold updNodes
      exact List.mem_map.mpr ⟨self, hself, by rw [if_pos hsid, hG]⟩
    have := find?_of_mem_nodup net1.nodes (by rw [hids]; exact inv.nodup) self1 this
    rw [hid] at this
    exact this
  have hgetne : ∀ j, j ≠ id → net1.getNode j = net.getNode j := by
    intro j hj
    cases hg : net.getNode j with
    | none =>
      cases hg1 : net1.getNode j with
      | none => rfl
      | some x =>
        have hx : x ∈ net1.nodes := List.mem_of_find?_eq_some hg1
        have hxid := getNode_id hg1
        rcases hmem x hx with hh | ⟨hh, _⟩
        · rw [hh, hid] at hxid; exact absurd hxid.symm hj
        · have := getNode_of_mem inv.nodup hh
          rw [hxid, hg] at this
          cases this
    | some y =>
      have hy : y ∈ net.nodes := List.mem_of_find?_eq_some hg
      have hyid := getNode_id hg
      have : y ∈ net1.nodes := by
        rw [hnodes]
        unfold updNodes
        exact List.mem_map.mpr ⟨y, hy, by rw [if_neg (by rw [hyid]; exact hj)]⟩
      have := find?_of_mem_nodup net1.nodes (by rw [hids]; exact inv.nodup) y this
      rw [hyid] at this
      exact this
  have hreach_ne : ∀ j T, j ≠ id → net1.reach j T = net.reach j T := by
    intro j T hj
    unfold RaftNetwork.reach
    rw [hgetne j hj]
  have hlen : net1.nodes.length = net.nodes.length := by
    have := congrArg List.length hids
    simpa using this
  refine ⟨by rw [hids]; exact inv.nodup, ?_, ?_, ?_, ?_, ?_⟩
  · intro x hx
    rcases hmem x hx with hh | ⟨hh, _⟩
    · rw [hh]; exact halive
    · exact inv.alive x hh
  · intro T
    have s1 := sum_updNodes id G (fun n => n.voteWeight T + n.inboxGrants T) self hsid
      net.nodes inv.nodup hself
    have s2 := sum_updNodes id G (fun n => n.usedVote T) self hsid net.nodes inv.nodup hself
    have := inv.tally T
    have := a T
    rw [hnodes, hm, flightGrants_append]
    rw [hG] at s1 s2
    simp only [] at s1 s2
    omega
  · intro v hv cc hc T
    rw [hm, flightRequests_append]
    rcases hmem v hv with hh | ⟨hh, hne⟩
    · subst hh
      rw [hid] at hc ⊢
      have i1 := inv.request self hself cc (by rw [hsid]; exact hc) T
      rw [hsid] at i1
      rw [e id T cc hc, hreach_ne cc T hc]
      have := c T cc hc
      omega
    · have i1 := inv.request v hh cc hc T
      by_cases hcc : cc = id
      · subst hcc
        rw [reach_of_getNode hget1, reach_of_getNode h] at *
        have := d v.id T
        omega
      · rw [e v.id T cc hcc, hreach_ne cc T hcc]
        omega
  · intro v hv T
    rw [hm, flightRequests_append]
    rcases hmem v hv with hh | ⟨hh, hne⟩
    · subst hh
      rw [hid]
      have i1 := inv.own self hself T
      rw [hsid] at i1
      have := c1 T
      have := e1 T
      omega
    · have i1 := inv.own v hh T
      have := e v.id T v.id hne
      omega
  · intro x hx hl
    rw [hlen]
    rcases hmem x hx with hh | ⟨hh, _⟩
    · subst hh; exact f hl
    · exact inv.leader x hh hl


theorem afterTerm_cases (now : ℚ) (q : RaftNode) (tm : Nat) :
    (tm > q.currentTerm ∧ (q.afterTerm now tm).currentTerm = tm ∧
      (q.afterTerm now tm).state = NodeState.follower ∧
      (q.afterTerm now tm).votedFor = none ∧
      (q.afterTerm now tm).votesReceived = q.votesReceived ∧
      (q.afterTerm now tm).messageQueue = q.messageQueue) ∨
    (tm ≤ q.currentTerm ∧ q.afterTerm now tm = q) := by
  by_cases h : tm > q.currentTerm
  · obtain ⟨a, b, c⟩ := afterTerm_gt_state now q tm h
    exact Or.inl ⟨h, c, a, b, afterTerm_votesReceived now q tm, afterTerm_messageQueue now q tm⟩
  · exact Or.inr ⟨Nat.le_of_not_gt h, afterTerm_of_le now q tm (Nat.le_of_not_gt h)⟩

theorem afterTerm_voteWeight_le (now : ℚ) (q : RaftNode) (tm T : Nat) :
    (q.afterTerm now tm).voteWeight T ≤ q.voteWeight T := by
  rcases afterTerm_cases now q tm with ⟨_, _, hs, _⟩ | ⟨_, e⟩
  · unfold RaftNode.voteWeight
    rw [hs]
    simp
  · rw [e]

theorem afterTerm_usedVote_ge (now : ℚ) (q : RaftNode) (tm T : Nat) :
    q.usedVote T ≤ (q.afterTerm now tm).usedVote T := by
  rcases afterTerm_cases now q tm with ⟨hgt, ht, _, hv, _⟩ | ⟨_, e⟩
  · unfold RaftNode.usedVote
    rw [ht, hv]
    split
    · rename_i h
      rw [if_pos (Or.inl (by omega))]
    · exact Nat.zero_le _
  · rw [e]

theorem afterTerm_votedAt_le (now : ℚ) (q : RaftNode) (tm T c : Nat) :
    (q.afterTerm now tm).votedAt T c ≤ q.votedAt T c := by
  rcases afterTerm_cases now q tm with ⟨_, _, _, hv, _⟩ | ⟨_, e⟩
  · unfold RaftNode.votedAt
    rw [hv]
    simp
  · rw [e]

theorem afterAppendEntries_state (now : ℚ) (q : RaftNode) (tm : Nat) (es : List EntryData) :
    (q.afterAppendEntries now tm es).state
      = if tm ≥ q.currentTerm then NodeState.follower else q.state := by
  by_cases h : tm ≥ q.currentTerm
  · rw [afterAppendEntries_of_ge now q tm es h, if_pos h]
    exact stepDown_state _ _
  · rw [afterAppendEntries_of_lt now q tm es (Nat.lt_of_not_ge h), if_neg h]

/-- The granted votes of term `T` among the calls of `sendMessage` made while a
message is handled. -/
theorem replies_grants (net : RaftNetwork) (id : Nat) (s0 : RaftNode) (m : Content) (T : Nat) :
    (RaftNode.replies net id s0 m).countP (fun t => t.2.2.isGrant T)
      = match m with
        | .requestVote tm c li lt =>
          if s0.grants tm c li lt = true ∧ s0.currentTerm = T then 1 else 0
        | _ => 0 := by
  cases m with
  | requestVote tm c li lt =>
    simp only [RaftNode.replies, List.countP_cons, List.countP_nil, Content.isGrant]
    by_cases h : s0.grants tm c li lt = true ∧ s0.currentTerm = T
    · rw [if_pos h]; simp [h.1, h.2]
    · rw [if_neg h]
      simp only [Nat.zero_add, ite_eq_right_iff, Nat.add_one_ne_zero]
      intro hh
      apply h
      simpa using hh
  | requestVoteResponse tm g =>
    simp only [RaftNode.replies]
    split
    · unfold heartbeatCalls
      rw [List.countP_eq_zero]
      intro t ht
      obtain ⟨j, _, e⟩ := List.mem_map.mp ht
      rw [← e]
      simp [RaftNode.heartbeat, Content.isGrant]
    · rfl
  | appendEntries tm l pi pt es lc =>
    simp [RaftNode.replies, Content.isGrant]
  | appendEntriesResponse tm s =>
    simp [RaftNode.replies]

theorem replies_requests (net : RaftNetwork) (id : Nat) (s0 : RaftNode) (m : Content)
    (v T c : Nat) :
    (RaftNode.replies net id s0 m).countP (fun t => (t.2.1 == v) && t.2.2.isRequest T c) = 0 := by
  rw [List.countP_eq_zero]
  intro t ht
  cases m with
  | requestVote tm c li lt =>
    simp only [RaftNode.replies, List.mem_singleton] at ht
    rw [ht]; simp [Content.isRequest]
  | requestVoteResponse tm g =>
    simp only [RaftNode.replies] at ht
    split at ht
    · unfold heartbeatCalls at ht
      obtain ⟨j, _, e⟩ := List.mem_map.mp ht
      rw [← e]
      simp [RaftNode.heartbeat, Content.isRequest]
    · cases ht
  | appendEntries tm l pi pt es lc =>
    simp only [RaftNode.replies, List.mem_singleton] at ht
    rw [ht]; simp [Content.isRequest]
  | appendEntriesResponse tm s =>
    simp [RaftNode.replies] at ht

/-- The tally condition for the handling of one message: `q` is the node with
the message taken off its inbox. -/
theorem afterMessage_tally (now : ℚ) (alive : List Nat) (net : RaftNetwork) (id : Nat)
    (q : RaftNode) (m : Content)
    (hpre : ∀ tm c li lt, m = Content.requestVote tm c li lt →
      ¬ (q.currentTerm = tm ∧ q.votedFor = some c)) (T : Nat) :
    (q.afterMessage now alive m).voteWeight T
      + (RaftNode.replies net id (q.afterTerm now m.term) m).countP (fun t => t.2.2.isGrant T)
      + q.usedVote T
      ≤ q.voteWeight T + (if m.isGrant T = true then 1 else 0)
        + (q.afterMessage now alive m).usedVote T := by
  rw [replies_grants]
  have w0 := afterTerm_voteWeight_le now q m.term T
  have u0 := afterTerm_usedVote_ge now q m.term T
  cases m with
  | requestVote tm c li lt =>
    simp only [RaftNode.afterMessage, Content.term, Content.isGrant] at *
    have hw : ((q.afterTerm now tm).afterRequestVote now tm c li lt).voteWeight T
        = (q.afterTerm now tm).voteWeight T := by
      unfold RaftNode.voteWeight
      rw [afterRequestVote_currentTerm, afterRequestVote_state, afterRequestVote_votesReceived]
    rw [hw]
    have hu : (q.afterTerm now tm).usedVote T
        + (if (q.afterTerm now tm).grants tm c li lt = true ∧
            (q.afterTerm now tm).currentTerm = T then 1 else 0)
        ≤ ((q.afterTerm now tm).afterRequestVote now tm c li lt).usedVote T := by
      unfold RaftNode.usedVote
      rw [afterRequestVote_currentTerm, afterRequestVote_votedFor]
      by_cases hg : (q.afterTerm now tm).grants tm c li lt = true
      · simp only [hg, true_and, if_true]
        by_cases hT : (q.afterTerm now tm).currentTerm = T
        · have hvf : (q.afterTerm now tm).votedFor = none := by
            rcases afterTerm_cases now q tm with ⟨_, _, _, hv, _⟩ | ⟨hle, e⟩
            · exact hv
            · rw [e] at hg hT ⊢
              unfold RaftNode.grants at hg
              simp only [decide_eq_true_eq] at hg
              have htm : q.currentTerm = tm := by omega
              rcases hg.2.1 with hv | hv
              · exact hv
              · exact absurd ⟨htm, hv⟩ (hpre tm c li lt rfl)
          simp [hT, hvf]
        · simp [hT]
      · simp [hg]
    simp only [Bool.false_eq_true, if_false]
    omega
  | requestVoteResponse tm g =>
    simp only [RaftNode.afterMessage, Content.term, Content.isGrant] at *
    have hu : ((q.afterTerm now tm).afterVoteResponse now alive tm g).usedVote T
        = (q.afterTerm now tm).usedVote T := by
      unfold RaftNode.usedVote
      rw [afterVoteResponse_currentTerm, afterVoteResponse_votedFor]
    rw [hu]
    rcases afterTerm_cases now q tm with ⟨hgt, ht, hs, hv, _⟩ | ⟨hle, e⟩
    · have : (q.afterTerm now tm).afterVoteResponse now alive tm g = q.afterTerm now tm :=
        afterVoteResponse_of_not now alive _ tm g (Or.inl (by rw [hs]; decide))
      rw [this]
      omega
    · rw [e] at u0 w0 ⊢
      unfold RaftNode.voteWeight
      rw [afterVoteResponse_currentTerm, afterVoteResponse_state,
        afterVoteResponse_votesReceived]
      by_cases hc : q.state = NodeState.candidate ∧ tm = q.currentTerm ∧ g = true
      · obtain ⟨h1, h2, h3⟩ := hc
        subst h3
        have hst : (if q.wins alive tm true then NodeState.leader else q.state)
            = NodeState.candidate ∨
            (if q.wins alive tm true then NodeState.leader else q.state)
              = NodeState.leader := by
          split
          · exact Or.inr rfl
          · exact Or.inl h1
        by_cases hT : q.currentTerm = T
        · have hg : (true && tm == T) = true := by simp [h2, hT]
          rw [if_pos ⟨hT, hst⟩, if_pos ⟨h1, h2, rfl⟩, if_pos ⟨hT, Or.inl h1⟩, if_pos hg]
        · rw [if_neg (fun hh => hT hh.1), if_neg (fun hh => hT hh.1)]
          omega
      · have hw : ¬ q.wins alive tm g := by
          intro hh
          exact hc ⟨hh.1, hh.2.1, hh.2.2.1⟩
        simp only [hw, if_false, hc]
        omega
  | appendEntries tm l pi pt es lc =>
    simp only [RaftNode.afterMessage, Content.term, Content.isGrant] at *
    have hu : ((q.afterTerm now tm).afterAppendEntries now tm es).usedVote T
        = (q.afterTerm now tm).usedVote T := by
      unfold RaftNode.usedVote
      rw [afterAppendEntries_currentTerm, afterAppendEntries_votedFor]
    have hw : ((q.afterTerm now tm).afterAppendEntries now tm es).voteWeight T
        ≤ (q.afterTerm now tm).voteWeight T := by
      unfold RaftNode.voteWeight
      rw [afterAppendEntries_currentTerm, afterAppendEntries_state,
        afterAppendEntries_votesReceived]
      by_cases hge : tm ≥ (q.afterTerm now tm).currentTerm
      · simp [hge]
      · simp [hge]
    rw [hu]
    simp only [Bool.false_eq_true, if_false]
    omega
  | appendEntriesResponse tm s =>
    simp only [RaftNode.afterMessage, Content.term, Content.isGrant] at *
    omega


theorem afterMessage_votedAt (now : ℚ) (alive : List Nat) (q : RaftNode) (m : Content)
    (T c : Nat) :
    (q.afterMessage now alive m).votedAt T c
      ≤ (if m.isRequest T c = true then 1 else 0) + q.votedAt T c := by
  have v0 := afterTerm_votedAt_le now q m.term T c
  cases m with
  | requestVote tm c0 li lt =>
    simp only [RaftNode.afterMessage, Content.term, Content.isRequest] at *
    unfold RaftNode.votedAt at v0 ⊢
    rw [afterRequestVote_currentTerm, afterRequestVote_votedFor]
    by_cases hg : (q.afterTerm now tm).grants tm c0 li lt = true
    · rw [if_pos hg]
      by_cases hh : (q.afterTerm now tm).currentTerm = T ∧ some c0 = some c
      · have ht : (q.afterTerm now tm).currentTerm = tm := by
          unfold RaftNode.grants at hg
          simp only [decide_eq_true_eq] at hg
          have := afterTerm_term_le now q tm
          omega
        have : ((tm == T) && (c0 == c)) = true := by
          obtain ⟨h1, h2⟩ := hh
          have h3 : c0 = c := Option.some.inj h2
          simp [← h1, ht, h3]
        rw [if_pos hh, if_pos this]
        omega
      · rw [if_neg hh]
        omega
    · rw [if_neg hg]
      omega
  | requestVoteResponse tm g =>
    simp only [RaftNode.afterMessage, Content.term, Content.isRequest] at *
    unfold RaftNode.votedAt at v0 ⊢
    rw [afterVoteResponse_currentTerm, afterVoteResponse_votedFor]
    omega
  | appendEntries tm l pi pt es lc =>
    simp only [RaftNode.afterMessage, Content.term, Content.isRequest] at *
    unfold RaftNode.votedAt at v0 ⊢
    rw [afterAppendEntries_currentTerm, afterAppendEntries_votedFor]
    omega
  | appendEntriesResponse tm s =>
    simp only [RaftNode.afterMessage, Content.term, Content.isRequest] at *
    omega

theorem afterMessage_leader (now : ℚ) (alive : List Nat) (q : RaftNode) (m : Content)
    (N : Nat) (hN : alive.length = N)
    (hq : q.state = NodeState.leader → 2 * q.votesReceived > N)
    (hl : (q.afterMessage now alive m).state = NodeState.leader) :
    2 * (q.afterMessage now alive m).votesReceived > N := by
  have key : (q.afterTerm now m.term).state = NodeState.leader →
      2 * (q.afterTerm now m.term).votesReceived > N := by
    intro h
    rcases afterTerm_cases now q m.term with ⟨_, _, hs, _⟩ | ⟨_, e⟩
    · rw [hs] at h; cases h
    · rw [e] at h ⊢; exact hq h
  cases m with
  | requestVote tm c0 li lt =>
    simp only [RaftNode.afterMessage, Content.term] at *
    rw [afterRequestVote_state] at hl
    rw [afterRequestVote_votesReceived]
    exact key hl
  | requestVoteResponse tm g =>
    simp only [RaftNode.afterMessage, Content.term] at *
    rw [afterVoteResponse_state] at hl
    rw [afterVoteResponse_votesReceived]
    by_cases hw : (q.afterTerm now tm).wins alive tm g
    · obtain ⟨h1, h2, h3, h4⟩ := hw
      rw [if_pos ⟨h1, h2, h3⟩]
      have := (majority_iff ((q.afterTerm now tm).votesReceived + 1) alive.length).mp h4
      omega
    · rw [if_neg hw] at hl
      have hc : ¬ ((q.afterTerm now tm).state = NodeState.candidate ∧
          tm = (q.afterTerm now tm).currentTerm ∧ g = true) := by
        intro hh
        rw [hl] at hh
        cases hh.1
      rw [if_neg hc]
      exact key hl
  | appendEntries tm l pi pt es lc =>
    simp only [RaftNode.afterMessage, Content.term] at *
    rw [afterAppendEntries_state] at hl
    rw [afterAppendEntries_votesReceived]
    split at hl
    · cases hl
    · exact key hl
  | appendEntriesResponse tm s =>
    simp only [RaftNode.afterMessage, Content.term] at *
    exact key hl

theorem reached_le_one (T : Nat) (n : RaftNode) : n.reached T ≤ 1 := by
  unfold RaftNode.reached; split <;> omega

theorem reach_le_one (net : RaftNetwork) (c T : Nat) : net.reach c T ≤ 1 := by
  unfold RaftNetwork.reach
  split
  · exact reached_le_one _ _
  · omega

theorem reached_mono (T : Nat) (a b : RaftNode) (h : a.currentTerm ≤ b.currentTerm) :
    a.reached T ≤ b.reached T := by
  unfold RaftNode.reached
  split
  · rw [if_pos (by omega)]
  · exact Nat.zero_le _

theorem aliveIds_length_of_all_alive (net : RaftNetwork)
    (h : ∀ n ∈ net.nodes, n.isAlive = true) : net.aliveIds.length = net.nodes.length := by
  unfold RaftNetwork.aliveIds RaftNetwork.getAliveNodes
  rw [List.length_map, List.filter_eq_self.mpr h]

theorem flightGrants_le_of_sublist (T : Nat) (ms : List Message)
    (cs : List (Nat × Nat × Content))
    (h : (ms.map (fun m => (m.senderId, m.receiverId, m.content))).Sublist cs) :
    flightGrants T ms ≤ cs.countP (fun t => t.2.2.isGrant T) := by
  have := h.countP_le (fun t => t.2.2.isGrant T)
  rw [List.countP_map] at this
  exact this

theorem flightRequests_le_of_sublist (v T c : Nat) (ms : List Message)
    (cs : List (Nat × Nat × Content))
    (h : (ms.map (fun m => (m.senderId, m.receiverId, m.content))).Sublist cs) :
    flightRequests v T c ms ≤ cs.countP (fun t => (t.2.1 == v) && t.2.2.isRequest T c) := by
  have := h.countP_le (fun t => (t.2.1 == v) && t.2.2.isRequest T c)
  rw [List.countP_map] at this
  exact this

/-- One iteration of the loop of `processMessages` keeps the invariant. -/
theorem inv_handle (E : Env) {net : RaftNetwork} {id : Nat} {self : RaftNode}
    {m : Content} {rest : List Content}
    (inv : ElectionInv net) (h : net.getNode id = some self)
    (hq : self.messageQueue = m :: rest) :
    ElectionInv ((RaftNode.handleMessage E
        (net.modifyNode id (fun n => { n with messageQueue := rest })) id m).modifyNode id
      (fun n => { n with messagesReceived := n.messagesReceived + 1 })) := by
  have hsid : self.id = id := getNode_id h
  have hself : self ∈ net.nodes := List.mem_of_find?_eq_some h
  have t1 : Touches net (net.modifyNode id (fun n => { n with messageQueue := rest })) id self
      { self with messageQueue := rest } :=
    Touches.modifyNode net id _ self (by intro n; rfl) (by intro n; rfl)
  have h1 := t1.getNode_self h
  obtain ⟨k, t2, hc⟩ := handleMessage_effect E _ id _ m h1
  have t3 := Touches.modifyNode (RaftNode.handleMessage E
      (net.modifyNode id (fun n => { n with messageQueue := rest })) id m) id
    (fun n => { n with messagesReceived := n.messagesReceived + 1 })
    ((({ self with messageQueue := rest } : RaftNode).afterMessage E.now
      (net.modifyNode id (fun n => { n with messageQueue := rest })).aliveIds m).addSent k)
    (by intro n; rfl) (by intro n; rfl)
  have t := (t1.trans t2).trans t3
  obtain ⟨_, _, _, _, ms, cs, am, ac, _, _, _, asub, _⟩ := handleMessage_appends E
    (net.modifyNode id (fun n => { n with messageQueue := rest })) id m
  have hcs : cs = RaftNode.replies (net.modifyNode id (fun n => { n with messageQueue := rest }))
      id (({ self with messageQueue := rest } : RaftNode).afterTerm E.now m.term) m := by
    rw [ac] at hc
    exact List.append_cancel_left hc
  rw [hcs] at asub
  rw [t1.aliveIds] at t
  obtain ⟨G, hGid, hGal, hnodes, hG⟩ := t
  have hmq : (({ self with messageQueue := rest } : RaftNode).afterMessage E.now
      net.aliveIds m).messageQueue = rest := afterMessage_messageQueue _ _ _ _
  have hmem : m ∈ self.messageQueue := by rw [hq]; exact List.mem_cons_self _ _
  have hpre : ∀ tm c li lt, m = Content.requestVote tm c li lt →
      ¬ (({ self with messageQueue := rest } : RaftNode).currentTerm = tm ∧
        ({ self with messageQueue := rest } : RaftNode).votedFor = some c) := by
    intro tm c li lt hm
    have hcnt : 1 ≤ self.inboxRequests tm c := by
      unfold RaftNode.inboxRequests
      rw [hq, hm]
      simp [Content.isRequest]
    have hne : c ≠ self.id := by
      intro hh
      have := inv.own self hself tm
      rw [← hh] at this
      omega
    have hr := inv.request self hself c hne tm
    have := reach_le_one net c tm
    intro hv
    have : self.votedAt tm c = 1 := by
      unfold RaftNode.votedAt
      rw [if_pos hv]
    omega
  have hfr : ∀ v T c, flightRequests v T c ms = 0 := by
    intro v T c
    have := flightRequests_le_of_sublist v T c ms _ asub
    rw [replies_requests] at this
    omega
  have hfinal : G self = { ((({ self with messageQueue := rest } : RaftNode).afterMessage E.now
      net.aliveIds m).addSent k) with
      messagesReceived := ((({ self with messageQueue := rest } : RaftNode).afterMessage E.now
        net.aliveIds m).addSent k).messagesReceived + 1 } := hG
  have hterm : self.currentTerm ≤ (G self).currentTerm := by
    rw [hfinal]
    show self.currentTerm ≤ (({ self with messageQueue := rest } : RaftNode).afterMessage E.now
      net.aliveIds m).currentTerm
    rw [afterMessage_currentTerm]
    exact Nat.le_max_left _ _
  have hqueue : (G self).messageQueue = rest := by rw [hfinal]; exact hmq
  refine @inv_step net _ id self (G self) G ms inv h hnodes rfl
    ((hGid self).trans hsid) ((hGal self).trans (inv.alive self hself)) ?_ ?_ ?_ ?_ ?_ ?_ ?_ ?_
  · rw [modifyNode_messages, am, modifyNode_messages]
  · intro T
    have ht := afterMessage_tally E.now net.aliveIds
      (net.modifyNode id (fun n => { n with messageQueue := rest })) id
      ({ self with messageQueue := rest } : RaftNode) m hpre T
    have hg := flightGrants_le_of_sublist T ms _ asub
    have e1 : (G self).voteWeight T = (({ self with messageQueue := rest } : RaftNode).afterMessage
        E.now net.aliveIds m).voteWeight T := by rw [hfinal]; rfl
    have e2 : (G self).usedVote T = (({ self with messageQueue := rest } : RaftNode).afterMessage
        E.now net.aliveIds m).usedVote T := by rw [hfinal]; rfl
    have e3 : (G self).inboxGrants T = rest.countP (Content.isGrant T) := by
      unfold RaftNode.inboxGrants; rw [hqueue]
    have e4 : self.inboxGrants T
        = rest.countP (Content.isGrant T) + (if m.isGrant T = true then 1 else 0) := by
      unfold RaftNode.inboxGrants; rw [hq, List.countP_cons]
    have e5 : ({ self with messageQueue := rest } : RaftNode).voteWeight T = self.voteWeight T :=
      rfl
    have e6 : ({ self with messageQueue := rest } : RaftNode).usedVote T = self.usedVote T := rfl
    rw [e1, e2, e3, e4]
    rw [e5, e6] at ht
    omega
  · intro T c _
    have hv := afterMessage_votedAt E.now net.aliveIds
      ({ self with messageQueue := rest } : RaftNode) m T c
    have e1 : (G self).votedAt T c = (({ self with messageQueue := rest } : RaftNode).afterMessage
        E.now net.aliveIds m).votedAt T c := by rw [hfinal]; rfl
    have e3 : (G self).inboxRequests T c = rest.countP (Content.isRequest T c) := by
      unfold RaftNode.inboxRequests; rw [hqueue]
    have e4 : self.inboxRequests T c
        = rest.countP (Content.isRequest T c) + (if m.isRequest T c = true then 1 else 0) := by
      unfold RaftNode.inboxRequests; rw [hq, List.countP_cons]
    have e5 : ({ self with messageQueue := rest } : RaftNode).votedAt T c = self.votedAt T c :=
      rfl
    rw [e1, e3, e4]
    rw [e5] at hv
    omega
  · intro T
    unfold RaftNode.inboxRequests
    rw [hqueue, hq, List.countP_cons]
    omega
  · intro v T
    rw [hfr]
    have := reached_mono T self (G self) hterm
    omega
  · intro v T c _
    exact hfr v T c
  · intro T
    exact hfr id T id
  · intro hl
    rw [hfinal] at hl ⊢
    exact afterMessage_leader E.now net.aliveIds ({ self with messageQueue := rest } : RaftNode) m
      net.nodes.length (aliveIds_length_of_all_alive net inv.alive)
      (fun hh => inv.leader self hself hh) hl


theorem sameCore_weights {a b : RaftNode} (h : a.sameCore b) :
    (∀ T, a.voteWeight T = b.voteWeight T) ∧ (∀ T, a.usedVote T = b.usedVote T) ∧
    (∀ T, a.inboxGrants T = b.inboxGrants T) ∧
    (∀ T c, a.inboxRequests T c = b.inboxRequests T c) ∧
    (∀ T c, a.votedAt T c = b.votedAt T c) ∧ (∀ T, a.reached T = b.reached T) := by
  obtain ⟨_, h2, h3, h4, h5, h6, _⟩ := h
  unfold RaftNode.voteWeight RaftNode.usedVote RaftNode.inboxGrants RaftNode.inboxRequests
    RaftNode.votedAt RaftNode.reached
  rw [h2, h3, h4, h5, h6]
  exact ⟨fun _ => rfl, fun _ => rfl, fun _ => rfl, fun _ _ => rfl, fun _ _ => rfl, fun _ => rfl⟩

/-- The invariant reads only the core fields of the nodes and the messages. -/
theorem inv_map {net net1 : RaftNetwork} (g : RaftNode → RaftNode)
    (hg : ∀ n, (g n).sameCore n) (hnodes : net1.nodes = net.nodes.map g)
    (hm : net1.messages = net.messages) (inv : ElectionInv net) : ElectionInv net1 := by
  have hids : net1.nodes.map (fun n => n.id) = net.nodes.map (fun n => n.id) := by
    rw [hnodes, List.map_map]
    apply List.map_congr_left
    intro n _
    exact (hg n).1
  have hget : ∀ j, net1.getNode j = (net.getNode j).map g := by
    intro j
    unfold RaftNetwork.getNode
    rw [hnodes]
    exact find?_map_of_id g (fun n => (hg n).1) _ _
  have hreach : ∀ c T, net1.reach c T = net.reach c T := by
    intro c T
    unfold RaftNetwork.reach
    rw [hget]
    cases net.getNode c with
    | none => rfl
    | some n => exact (sameCore_weights (hg n)).2.2.2.2.2 T
  have hsum : ∀ f : RaftNode → Nat, (∀ n, f (g n) = f n) →
      (net1.nodes.map f).sum = (net.nodes.map f).sum := by
    intro f hf
    rw [hnodes, List.map_map]
    congr 1
    apply List.map_congr_left
    intro n _
    exact hf n
  refine ⟨by rw [hids]; exact inv.nodup, ?_, ?_, ?_, ?_, ?_⟩
  · intro x hx
    rw [hnodes] at hx
    obtain ⟨n, hn, e⟩ := List.mem_map.mp hx
    rw [← e, (hg n).2.2.2.2.2.2]
    exact inv.alive n hn
  · intro T
    rw [hm, hsum (fun n => n.voteWeight T + n.inboxGrants T) (fun n => by
      show (g n).voteWeight T + (g n).inboxGrants T = n.voteWeight T + n.inboxGrants T
      rw [(sameCore_weights (hg n)).1, (sameCore_weights (hg n)).2.2.1]),
      hsum (fun n => n.usedVote T) (fun n => (sameCore_weights (hg n)).2.1 T)]
    exact inv.tally T
  · intro x hx c hc T
    rw [hnodes] at hx
    obtain ⟨n, hn, e⟩ := List.mem_map.mp hx
    rw [← e] at hc ⊢
    rw [hm, hreach, (hg n).1, (sameCore_weights (hg n)).2.2.2.1,
      (sameCore_weights (hg n)).2.2.2.2.1]
    rw [(hg n).1] at hc
    exact inv.request n hn c hc T
  · intro x hx T
    rw [hnodes] at hx
    obtain ⟨n, hn, e⟩ := List.mem_map.mp hx
    rw [← e, hm, (hg n).1, (sameCore_weights (hg n)).2.2.2.1]
    exact inv.own n hn T
  · intro x hx hl
    rw [hnodes] at hx
    obtain ⟨n, hn, e⟩ := List.mem_map.mp hx
    rw [← e] at hl ⊢
    rw [hnodes, List.length_map, (hg n).2.2.2.2.1]
    rw [(hg n).2.2.1] at hl
    exact inv.leader n hn hl

theorem inv_modifyNode {net : RaftNetwork} (id : Nat) (f : RaftNode → RaftNode)
    (hf : ∀ n, (f n).sameCore n) (inv : ElectionInv net) : ElectionInv (net.modifyNode id f) := by
  refine inv_map (fun n => if n.id = id then f n else n) ?_ rfl rfl inv
  intro n
  show (if n.id = id then f n else n).sameCore n
  by_cases hh : n.id = id
  · rw [if_pos hh]; exact hf n
  · rw [if_neg hh]; exact ⟨rfl, rfl, rfl, rfl, rfl, rfl, rfl⟩

theorem inv_of_eq {net net1 : RaftNetwork} (hn : net1.nodes = net.nodes)
    (hm : net1.messages = net.messages) (inv : ElectionInv net) : ElectionInv net1 :=
  inv_map (fun n => n) (fun _ => ⟨rfl, rfl, rfl, rfl, rfl, rfl, rfl⟩)
    (by rw [hn, List.map_id']) hm inv

theorem inv_processLoop (E : Env) (id : Nat) :
    ∀ (fuel : Nat) (net : RaftNetwork), ElectionInv net →
      ElectionInv (RaftNode.processLoop E id fuel net) := by
  intro fuel
  induction fuel with
  | zero => intro net inv; exact inv
  | succ fuel ih =>
    intro net inv
    unfold RaftNode.processLoop
    cases h : net.getNode id with
    | none => exact inv
    | some self =>
      simp only []
      cases hq : self.messageQueue with
      | nil => exact inv
      | cons m rest =>
        simp only []
        split
        · exact ih _ (inv_handle E inv h hq)
        · exact inv

theorem inv_processMessages (E : Env) (id : Nat) {net : RaftNetwork}
    (inv : ElectionInv net) : ElectionInv (RaftNode.processMessages E net id) := by
  unfold RaftNode.processMessages
  cases net.getNode id with
  | none => exact inv
  | some self => exact inv_processLoop E id _ net inv

theorem heartbeatCalls_quiet (net : RaftNetwork) (self : RaftNode) :
    (∀ T, (heartbeatCalls net self).countP (fun t => t.2.2.isGrant T) = 0) ∧
    (∀ v T c, (heartbeatCalls net self).countP
      (fun t => (t.2.1 == v) && t.2.2.isRequest T c) = 0) := by
  constructor
  · intro T
    rw [List.countP_eq_zero]
    intro t ht
    unfold heartbeatCalls at ht
    obtain ⟨j, _, e⟩ := List.mem_map.mp ht
    rw [← e]
    simp [RaftNode.heartbeat, Content.isGrant]
  · intro v T c
    rw [List.countP_eq_zero]
    intro t ht
    unfold heartbeatCalls at ht
    obtain ⟨j, _, e⟩ := List.mem_map.mp ht
    rw [← e]
    simp [RaftNode.heartbeat, Content.isRequest]

/-- A step that leaves the core of the node as it was and sends neither a grant
nor a request keeps the invariant. -/
theorem inv_quiet {net net1 : RaftNetwork} {id : Nat} {self : RaftNode}
    {G : RaftNode → RaftNode} {new : List Message}
    (inv : ElectionInv net) (h : net.getNode id = some self)
    (hnodes : net1.nodes = updNodes id G net.nodes) (hG : (G self).sameCore self)
    (hm : net1.messages = net.messages ++ new)
    (hg : ∀ T, flightGrants T new = 0) (hr : ∀ v T c, flightRequests v T c new = 0) :
    ElectionInv net1 := by
  have hsid : self.id = id := getNode_id h
  have hself : self ∈ net.nodes := List.mem_of_find?_eq_some h
  obtain ⟨w1, w2, w3, w4, w5, w6⟩ := sameCore_weights hG
  refine @inv_step net net1 id self (G self) G new inv h hnodes rfl
    (hG.1.trans hsid) (hG.2.2.2.2.2.2.trans (inv.alive self hself)) hm ?_ ?_ ?_ ?_ ?_ ?_ ?_
  · intro T; rw [w1, w2, w3, hg]; omega
  · intro T c _; rw [w4, w5]
  · intro T; rw [w4]
  · intro v T; rw [hr, w6]; omega
  · intro v T c _; exact hr v T c
  · intro T; exact hr id T id
  · intro hl
    rw [hG.2.2.1] at hl
    rw [hG.2.2.2.2.1]
    exact inv.leader self hself hl

theorem inv_sendHeartbeats (E : Env) (id : Nat) {net : RaftNetwork}
    (inv : ElectionInv net) : ElectionInv (RaftNode.sendHeartbeats E net id) := by
  cases h : net.getNode id with
  | none =>
    have : RaftNode.sendHeartbeats E net id = net := by
      unfold RaftNode.sendHeartbeats; rw [h]
    rw [this]; exact inv
  | some self =>
    obtain ⟨k, t, hc⟩ := sendHeartbeats_effect E net id self h
    obtain ⟨_, _, _, _, ms, cs, am, ac, _, _, _, asub, _⟩ := sendHeartbeats_appends E net id
    have hcs : cs = (if self.isAlive = true ∧ self.state = NodeState.leader then
        heartbeatCalls net self else []) := by
      rw [ac] at hc
      exact List.append_cancel_left hc
    rw [hcs] at asub
    obtain ⟨G, _, _, hnodes, hG⟩ := t
    have hq := heartbeatCalls_quiet net self
    refine inv_quiet inv h hnodes (by rw [hG]; exact ⟨rfl, rfl, rfl, rfl, rfl, rfl, rfl⟩) am ?_ ?_
    · intro T
      have := flightGrants_le_of_sublist T ms _ asub
      split at this
      · rw [hq.1] at this; omega
      · simpa using this
    · intro v T c
      have := flightRequests_le_of_sublist v T c ms _ asub
      split at this
      · rw [hq.2] at this; omega
      · simpa using this


theorem electionCalls_grants (net : RaftNetwork) (self : RaftNode) (T : Nat) :
    (electionCalls net self).countP (fun t => t.2.2.isGrant T) = 0 := by
  rw [List.countP_eq_zero]
  intro t ht
  unfold electionCalls at ht
  obtain ⟨j, _, e⟩ := List.mem_map.mp ht
  rw [← e]
  simp [RaftNode.voteRequest, Content.isGrant]

theorem electionCalls_requests (net : RaftNetwork) (self : RaftNode)
    (hn : (net.nodes.map (fun n => n.id)).Nodup) (v T c : Nat) :
    (electionCalls net self).countP (fun t => (t.2.1 == v) && t.2.2.isRequest T c)
      ≤ if T = self.currentTerm + 1 ∧ c = self.id ∧ v ≠ self.id then 1 else 0 := by
  unfold electionCalls
  rw [List.countP_map]
  by_cases hc : T = self.currentTerm + 1 ∧ c = self.id ∧ v ≠ self.id
  · rw [if_pos hc]
    have hnd : (broadcastTargets net self.id (net.nodes.map (fun n => n.id))).Nodup := by
      unfold broadcastTargets
      exact hn.filter _
    have h1 : List.countP ((fun t : Nat × Nat × Content =>
          (t.2.1 == v) && t.2.2.isRequest T c) ∘ fun j => (self.id, j, self.voteRequest))
        (broadcastTargets net self.id (net.nodes.map (fun n => n.id)))
        ≤ List.count v (broadcastTargets net self.id (net.nodes.map (fun n => n.id))) := by
      unfold List.count
      apply List.countP_mono_left
      intro j _ hj
      simp only [Function.comp, Bool.and_eq_true, beq_iff_eq] at hj
      simp [hj.1]
    exact Nat.le_trans h1 (List.nodup_iff_count_le_one.mp hnd v)
  · rw [if_neg hc, Nat.le_zero, List.countP_eq_zero]
    intro j hj
    simp only [Function.comp, RaftNode.voteRequest, Content.isRequest, Bool.and_eq_true,
      beq_iff_eq, not_and]
    intro hv hT hcc
    apply hc
    refine ⟨hT.symm, hcc.symm, ?_⟩
    unfold broadcastTargets at hj
    have := (List.mem_filter.mp hj).2
    simp only [Bool.and_eq_true, decide_eq_true_eq] at this
    rw [← hv]
    exact this.1

theorem inv_startElection (E : Env) (id : Nat) {net : RaftNetwork}
    (inv : ElectionInv net) : ElectionInv (RaftNode.startElection E net id) := by
  cases h : net.getNode id with
  | none =>
    have : RaftNode.startElection E net id = net := by
      unfold RaftNode.startElection; rw [h]
    rw [this]; exact inv
  | some self =>
    have hsid : self.id = id := getNode_id h
    have hself : self ∈ net.nodes := List.mem_of_find?_eq_some h
    obtain ⟨k, t, hc⟩ := startElection_effect E net id self h
    obtain ⟨_, _, _, _, ms, cs, am, ac, _, _, _, asub, _⟩ := startElection_appends E net id
    have hcs : cs = (if self.isAlive = true ∧ self.isPartitioned = false then
        electionCalls net self else []) := by
      rw [ac] at hc
      exact List.append_cancel_left hc
    rw [hcs] at asub
    obtain ⟨G, hGid, hGal, hnodes, hG⟩ := t
    by_cases hgd : self.isAlive = true ∧ self.isPartitioned = false
    · rw [if_pos hgd] at hG asub
      have hg0 : ∀ T, flightGrants T ms = 0 := by
        intro T
        have := flightGrants_le_of_sublist T ms _ asub
        rw [electionCalls_grants] at this
        omega
      have hr0 : ∀ v T c, flightRequests v T c ms
          ≤ if T = self.currentTerm + 1 ∧ c = self.id ∧ v ≠ self.id then 1 else 0 :=
        fun v T c => Nat.le_trans (flightRequests_le_of_sublist v T c ms _ asub)
          (electionCalls_requests net self inv.nodup v T c)
      have e1 : ∀ T, (G self).voteWeight T = if self.currentTerm + 1 = T then 1 else 0 := by
        intro T; rw [hG]
        simp [RaftNode.voteWeight, RaftNode.addSent, RaftNode.afterElection]
      have e2 : ∀ T, (G self).usedVote T = if T ≤ self.currentTerm + 1 then 1 else 0 := by
        intro T; rw [hG]
        simp only [RaftNode.usedVote, RaftNode.addSent, RaftNode.afterElection]
        by_cases hT : T ≤ self.currentTerm + 1
        · rw [if_pos hT, if_pos]
          by_cases hh : self.currentTerm + 1 = T
          · exact Or.inr ⟨hh, by simp⟩
          · exact Or.inl (by omega)
        · rw [if_neg hT, if_neg]
          rintro (hh | ⟨hh, _⟩) <;> omega
      have e3 : ∀ T, (G self).inboxGrants T = self.inboxGrants T := by
        intro T; rw [hG]; rfl
      have e4 : ∀ T c, (G self).inboxRequests T c = self.inboxRequests T c := by
        intro T c; rw [hG]; rfl
      have e5 : ∀ T c, c ≠ id → (G self).votedAt T c = 0 := by
        intro T c hne; rw [hG]
        simp only [RaftNode.votedAt, RaftNode.addSent, RaftNode.afterElection]
        rw [if_neg]
        rintro ⟨_, hh⟩
        exact hne ((Option.some.inj hh).symm.trans hsid)
      have e6 : ∀ T, (G self).reached T = if T ≤ self.currentTerm + 1 then 1 else 0 := by
        intro T; rw [hG]; rfl
      refine @inv_step net _ id self (G self) G ms inv h hnodes rfl
        ((hGid self).trans hsid) ((hGal self).trans (inv.alive self hself)) am
        ?_ ?_ ?_ ?_ ?_ ?_ ?_
      · intro T
        rw [e1, e2, e3, hg0]
        have hu : self.usedVote T ≤ if T ≤ self.currentTerm then 1 else 0 := by
          unfold RaftNode.usedVote
          split
          · rename_i hh
            rw [if_pos (by rcases hh with hh | hh <;> omega)]
          · exact Nat.zero_le _
        by_cases h1 : self.currentTerm + 1 = T
        · rw [if_pos h1, if_pos (by omega)]
          rw [if_neg (by omega)] at hu
          omega
        · rw [if_neg h1]
          by_cases h2 : T ≤ self.currentTerm
          · rw [if_pos (by omega)]
            rw [if_pos h2] at hu
            omega
          · rw [if_neg h2] at hu
            omega
      · intro T c hne
        rw [e4, e5 T c hne]
        omega
      · intro T
        rw [e4]
      · intro v T
        rw [e6]
        have := hr0 v T id
        unfold RaftNode.reached
        by_cases h1 : T = self.currentTerm + 1
        · rw [if_neg (by omega), if_pos (by omega)]
          split at this <;> omega
        · rw [if_neg (fun hh => h1 hh.1)] at this
          by_cases h2 : T ≤ self.currentTerm
          · rw [if_pos h2, if_pos (by omega)]; omega
          · rw [if_neg h2]; omega
      · intro v T c hne
        have := hr0 v T c
        rw [if_neg (fun hh => hne (hh.2.1.trans hsid))] at this
        omega
      · intro T
        have := hr0 id T id
        rw [if_neg (fun hh => hh.2.2 hsid.symm)] at this
        omega
      · intro hl
        rw [hG] at hl
        simp [RaftNode.addSent, RaftNode.afterElection] at hl
    · rw [if_neg hgd] at hG asub
      have hms : ms = [] := by
        have := asub.length_le
        simp only [List.length_map, List.length_nil, Nat.le_zero] at this
        exact List.length_eq_zero.mp this
      refine inv_quiet inv h hnodes (by rw [hG]; exact ⟨rfl, rfl, rfl, rfl, rfl, rfl, rfl⟩) am ?_ ?_
      · intro T; rw [hms]; rfl
      · intro v T c; rw [hms]; rfl

theorem inv_updateNode (E : Env) (id : Nat) {net : RaftNetwork}
    (inv : ElectionInv net) : ElectionInv (RaftNode.update E net id) := by
  unfold RaftNode.update
  cases net.getNode id with
  | none => exact inv
  | some self =>
    simp only []
    split
    · exact inv
    · apply inv_processMessages
      have i1 : ElectionInv
          (if self.state = NodeState.follower ∨ self.state = NodeState.candidate then
            if E.now - self.lastHeartbeat > self.electionTimeout then
              RaftNode.startElection E net id
            else net
          else net) := by
        split
        · split
          · exact inv_startElection E id inv
          · exact inv
        · exact inv
      revert i1
      generalize (if self.state = NodeState.follower ∨ self.state = NodeState.candidate then
            if E.now - self.lastHeartbeat > self.electionTimeout then
              RaftNode.startElection E net id
            else net
          else net) = net1
      intro i1
      cases net1.getNode id with
      | none => exact i1
      | some self1 =>
        simp only []
        split
        · split
          · exact inv_modifyNode id _ (fun n => ⟨rfl, rfl, rfl, rfl, rfl, rfl, rfl⟩)
              (inv_sendHeartbeats E id i1)
          · exact i1
        · exact i1

theorem inv_updateNodes (E : Env) :
    ∀ (ids : List Nat) (net : RaftNetwork), ElectionInv net →
      ElectionInv (RaftNetwork.updateNodes E ids net) := by
  intro ids
  induction ids with
  | nil => intro net inv; exact inv
  | cons a rest ih =>
    intro net inv
    unfold RaftNetwork.updateNodes
    exact ih _ (inv_updateNode E a inv)


theorem aged_fields (E : Env) (net : RaftNetwork) (m : Message) :
    (net.aged E m).receiverId = m.receiverId ∧ (net.aged E m).content = m.content := by
  obtain ⟨_, _, _, h1, h2, _⟩ := Message.update_cases E m net.speedMultiplier net.latency
  exact ⟨h1, h2⟩

theorem countP_split (p : Message → Bool) :
    ∀ A : List Message,
      (A.filter (fun m => !m.delivered && !m.dropped)).countP p
        + A.countP (fun m => m.delivered && p m) ≤ A.countP p := by
  intro A
  induction A with
  | nil => simp
  | cons m rest ih =>
    simp only [List.filter_cons, List.countP_cons]
    cases hd : m.delivered <;> cases hp : m.dropped <;> cases hq : p m <;>
      simp [List.countP_cons, hq] <;> omega

theorem sum_countP_le (p : Message → Bool) (ns : List RaftNode)
    (hn : (ns.map (fun n => n.id)).Nodup) :
    ∀ L : List Message,
      (ns.map (fun n => L.countP (fun m => p m && (m.receiverId == n.id)))).sum
        ≤ L.countP p := by
  intro L
  induction L with
  | nil => simp
  | cons m rest ih =>
    simp only [List.countP_cons]
    rw [List.sum_map_add]
    have h1 : (ns.map (fun n => if (p m && (m.receiverId == n.id)) = true then 1 else 0)).sum
        ≤ if p m = true then 1 else 0 := by
      cases hp : p m
      · simp
      · simp only [Bool.true_and, beq_iff_eq, if_true]
        have : (ns.map (fun n => if m.receiverId = n.id then 1 else 0)).sum
            = List.count m.receiverId (ns.map (fun n => n.id)) := by
          clear hn ih
          induction ns with
          | nil => rfl
          | cons a r ih2 =>
            simp only [List.map_cons, List.sum_cons, List.count_cons, ih2]
            by_cases hh : m.receiverId = a.id
            · simp [hh]; omega
            · have : ¬ a.id = m.receiverId := fun x => hh x.symm
              simp [hh, this]
        rw [this]
        exact List.nodup_iff_count_le_one.mp hn _
    omega

theorem arrivals_countP (E : Env) (net : RaftNetwork) (id : Nat) (messages : List Message)
    (P : Content → Bool) :
    (net.arrivals E id messages).countP P
      = (messages.map (net.aged E)).countP
          (fun m => (m.delivered && P m.content) && (m.receiverId == id)) := by
  unfold RaftNetwork.arrivals
  rw [List.countP_map, List.countP_filter]
  congr 1
  funext m
  simp only [Function.comp]
  cases m.delivered <;> cases (m.receiverId == id) <;> cases P m.content <;> rfl

theorem countP_aged (E : Env) (net : RaftNetwork) (messages : List Message)
    (P : Nat → Content → Bool) :
    (messages.map (net.aged E)).countP (fun m => P m.receiverId m.content)
      = messages.countP (fun m => P m.receiverId m.content) := by
  rw [List.countP_map]
  congr 1
  funext m
  simp only [Function.comp, (aged_fields E net m).1, (aged_fields E net m).2]

theorem afterDelivery_core (E : Env) (net : RaftNetwork) (messages : List Message)
    (n : RaftNode) :
    (net.afterDelivery E messages n).id = n.id ∧
    (net.afterDelivery E messages n).currentTerm = n.currentTerm ∧
    (net.afterDelivery E messages n).state = n.state ∧
    (net.afterDelivery E messages n).votedFor = n.votedFor ∧
    (net.afterDelivery E messages n).votesReceived = n.votesReceived ∧
    (net.afterDelivery E messages n).isAlive = n.isAlive := by
  unfold RaftNetwork.afterDelivery
  split <;> exact ⟨rfl, rfl, rfl, rfl, rfl, rfl⟩

theorem afterDelivery_queue (E : Env) (net : RaftNetwork) (messages : List Message)
    (n : RaftNode) (h : n.isAlive = true) :
    (net.afterDelivery E messages n).messageQueue
      = n.messageQueue ++ net.arrivals E n.id messages := by
  unfold RaftNetwork.afterDelivery
  rw [if_pos h]

/-- The delivery phase of `network.update` keeps the invariant. -/
theorem inv_delivered (E : Env) {net : RaftNetwork} (inv : ElectionInv net) :
    ElectionInv (net.delivered E) := by
  have hnodes := delivered_nodes E net inv.nodup
  have hmsgs := (delivered_fields E net).1
  have hmsgs1 : (net.delivered E).messages
      = (net.messages.map (net.aged E)).filter (fun m => !m.delivered && !m.dropped) := hmsgs
  have hw : ∀ n T, (net.afterDelivery E net.messages n).voteWeight T = n.voteWeight T := by
    intro n T
    obtain ⟨_, h2, h3, _, h5, _⟩ := afterDelivery_core E net net.messages n
    unfold RaftNode.voteWeight
    rw [h2, h3, h5]
  have hu : ∀ n T, (net.afterDelivery E net.messages n).usedVote T = n.usedVote T := by
    intro n T
    obtain ⟨_, h2, _, h4, _, _⟩ := afterDelivery_core E net net.messages n
    unfold RaftNode.usedVote
    rw [h2, h4]
  have hva : ∀ n T c, (net.afterDelivery E net.messages n).votedAt T c = n.votedAt T c := by
    intro n T c
    obtain ⟨_, h2, _, h4, _, _⟩ := afterDelivery_core E net net.messages n
    unfold RaftNode.votedAt
    rw [h2, h4]
  have hre : ∀ c T, (net.delivered E).reach c T = net.reach c T := by
    intro c T
    unfold RaftNetwork.reach
    rw [delivered_getNode E net inv.nodup]
    cases net.getNode c with
    | none => rfl
    | some n =>
      simp only [Option.map_some']
      unfold RaftNode.reached
      rw [(afterDelivery_core E net net.messages n).2.1]
  have hreq : ∀ n ∈ net.nodes, ∀ T c,
      flightRequests n.id T c (net.delivered E).messages
        + (net.afterDelivery E net.messages n).inboxRequests T c
      ≤ flightRequests n.id T c net.messages + n.inboxRequests T c := by
    intro n hn T c
    unfold RaftNode.inboxRequests flightRequests
    rw [afterDelivery_queue E net net.messages n (inv.alive n hn), List.countP_append,
      arrivals_countP, hmsgs1]
    have h1 := countP_split (fun m => (m.receiverId == n.id) && m.content.isRequest T c)
      (net.messages.map (net.aged E))
    have h2 := countP_aged E net net.messages (fun r ct => (r == n.id) && ct.isRequest T c)
    have h3 : (fun m : Message => (m.delivered && m.content.isRequest T c)
          && (m.receiverId == n.id))
        = (fun m : Message => m.delivered
          && ((m.receiverId == n.id) && m.content.isRequest T c)) := by
      funext m
      cases m.delivered <;> cases (m.receiverId == n.id) <;>
        cases m.content.isRequest T c <;> rfl
    rw [h3]
    rw [h2] at h1
    omega
  refine ⟨by rw [delivered_ids E net inv.nodup]; exact inv.nodup, ?_, ?_, ?_, ?_, ?_⟩
  · intro x hx
    rw [hnodes] at hx
    obtain ⟨n, hn, e⟩ := List.mem_map.mp hx
    rw [← e, (afterDelivery_core E net net.messages n).2.2.2.2.2]
    exact inv.alive n hn
  · intro T
    rw [hnodes, List.map_map, List.map_map]
    have e1 : (net.nodes.map ((fun n : RaftNode => n.voteWeight T + n.inboxGrants T)
          ∘ net.afterDelivery E net.messages)).sum
        = (net.nodes.map (fun n => n.voteWeight T + n.inboxGrants T)).sum
          + (net.nodes.map (fun n => (net.messages.map (net.aged E)).countP
              (fun m => (m.delivered && m.content.isGrant T) && (m.receiverId == n.id)))).sum := by
      rw [← List.sum_map_add]
      congr 1
      apply List.map_congr_left
      intro n hn
      simp only [Function.comp]
      rw [hw]
      unfold RaftNode.inboxGrants
      rw [afterDelivery_queue E net net.messages n (inv.alive n hn), List.countP_append,
        arrivals_countP]
      omega
    have e2 : (net.nodes.map ((fun n : RaftNode => n.usedVote T)
          ∘ net.afterDelivery E net.messages)).sum
        = (net.nodes.map (fun n => n.usedVote T)).sum := by
      congr 1
      apply List.map_congr_left
      intro n _
      exact hu n T
    rw [e1, e2]
    have h1 := sum_countP_le (fun m => m.delivered && m.content.isGrant T) net.nodes inv.nodup
      (net.messages.map (net.aged E))
    have h2 := countP_split (fun m => m.content.isGrant T) (net.messages.map (net.aged E))
    have h3 := countP_aged E net net.messages (fun _ ct => ct.isGrant T)
    have h4 := inv.tally T
    unfold flightGrants at h4 ⊢
    rw [hmsgs1]
    rw [h3] at h2
    omega
  · intro x hx c hc T
    rw [hnodes] at hx
    obtain ⟨n, hn, e⟩ := List.mem_map.mp hx
    rw [← e] at hc ⊢
    rw [(afterDelivery_core E net net.messages n).1] at hc ⊢
    rw [hva, hre]
    have := hreq n hn T c
    have := inv.request n hn c hc T
    omega
  · intro x hx T
    rw [hnodes] at hx
    obtain ⟨n, hn, e⟩ := List.mem_map.mp hx
    rw [← e, (afterDelivery_core E net net.messages n).1]
    have := hreq n hn T n.id
    have := inv.own n hn T
    omega
  · intro x hx hl
    rw [hnodes] at hx
    obtain ⟨n, hn, e⟩ := List.mem_map.mp hx
    rw [← e] at hl ⊢
    obtain ⟨_, _, h3, _, h5, _⟩ := afterDelivery_core E net net.messages n
    rw [h3] at hl
    rw [h5, hnodes, List.length_map]
    exact inv.leader n hn hl

theorem inv_update (E : Env) {net : RaftNetwork} (inv : ElectionInv net) :
    ElectionInv (net.update E) := by
  rw [update_eq]
  exact inv_updateNodes E _ _ (inv_delivered E inv)


theorem inv_revive (E : Env) (id : Nat) {net : RaftNetwork}
    (inv : ElectionInv net) : ElectionInv (RaftNode.revive E net id) := by
  unfold RaftNode.revive
  cases h : net.getNode id with
  | none => exact inv
  | some self =>
    simp only []
    have hsid : self.id = id := getNode_id h
    have hself : self ∈ net.nodes := List.mem_of_find?_eq_some h
    refine @inv_step net _ id self _ (fun n =>
        { n with isAlive := true, state := NodeState.follower, stateChangeTime := E.now,
                 lastHeartbeat := E.now,
                 electionTimeout := (RaftNode.randomElectionTimeout E net).1 }) [] inv h
      rfl rfl hsid rfl (by simp [RaftNetwork.modifyNode, RaftNode.randomElectionTimeout,
        RaftNetwork.random]) ?_ ?_ ?_ ?_ ?_ ?_ ?_
    · intro T
      simp only [RaftNode.voteWeight, RaftNode.inboxGrants, RaftNode.usedVote, flightGrants,
        List.countP_nil]
      rw [if_neg (by simp)]
      omega
    · intro T c _; exact Nat.le_refl _
    · intro T; exact Nat.le_refl _
    · intro v T
      simp only [flightRequests, List.countP_nil, RaftNode.reached]
      omega
    · intro v T c _; rfl
    · intro T; rfl
    · intro hl; cases hl

theorem inv_partitionInner (id1 : Nat) :
    ∀ (ids : List Nat) (net : RaftNetwork), ElectionInv net →
      ElectionInv (RaftNetwork.partitionInner id1 ids net) := by
  intro ids
  induction ids with
  | nil => intro net inv; exact inv
  | cons b rest ih =>
    intro net inv
    unfold RaftNetwork.partitionInner
    simp only []
    apply ih
    have i0 : ElectionInv { net with
        partitions := setAdd (setAdd net.partitions (pairKey id1 b)) (pairKey b id1) } :=
      @inv_of_eq net _ rfl rfl inv
    have i1 := inv_modifyNode id1 (fun n => { n with isPartitioned := true })
      (fun n => ⟨rfl, rfl, rfl, rfl, rfl, rfl, rfl⟩) i0
    exact inv_modifyNode b (fun n => { n with isPartitioned := true })
      (fun n => ⟨rfl, rfl, rfl, rfl, rfl, rfl, rfl⟩) i1

theorem inv_partition (nodeIds1 nodeIds2 : List Nat) {net : RaftNetwork}
    (inv : ElectionInv net) : ElectionInv (net.partition nodeIds1 nodeIds2) := by
  unfold RaftNetwork.partition
  revert net
  induction nodeIds1 with
  | nil => intro net inv; exact inv
  | cons a rest ih =>
    intro net inv
    unfold RaftNetwork.partitionOuter
    exact ih (inv_partitionInner a nodeIds2 net inv)

theorem inv_healPartition {net : RaftNetwork} (inv : ElectionInv net) :
    ElectionInv net.healPartition :=
  inv_map (fun n => { n with isPartitioned := false })
    (fun _ => ⟨rfl, rfl, rfl, rfl, rfl, rfl, rfl⟩) rfl rfl inv

theorem inv_addClientRequest (E : Env) (command : String) {net : RaftNetwork}
    (inv : ElectionInv net) : ElectionInv (net.addClientRequest E command).2 := by
  unfold RaftNetwork.addClientRequest
  cases net.getLeader with
  | none => exact inv
  | some leader =>
    simp only []
    unfold RaftNode.addLogEntry
    cases net.getNode leader.id with
    | none => exact inv
    | some self =>
      simp only []
      split
      · exact inv_modifyNode _ _ (fun n => ⟨rfl, rfl, rfl, rfl, rfl, rfl, rfl⟩) inv
      · exact inv

theorem fresh_inv {net : RaftNetwork} (h : net.Fresh) : ElectionInv net := by
  obtain ⟨hn, hm, hf⟩ := h
  have hz : ∀ T, (net.nodes.map (fun n => n.voteWeight T + n.inboxGrants T)).sum = 0 := by
    intro T
    apply List.sum_eq_zero
    intro x hx
    obtain ⟨n, hmem, e⟩ := List.mem_map.mp hx
    obtain ⟨_, h2, _, _, h5⟩ := hf n hmem
    rw [← e]
    simp [RaftNode.voteWeight, RaftNode.inboxGrants, h2, h5]
  refine ⟨hn, fun n hmem => (hf n hmem).1, ?_, ?_, ?_, ?_⟩
  · intro T
    rw [hz, hm]
    simp [flightGrants]
  · intro v hv c _ T
    obtain ⟨_, _, _, h4, h5⟩ := hf v hv
    rw [hm]
    simp [flightRequests, RaftNode.inboxRequests, RaftNode.votedAt, h4, h5]
  · intro v hv T
    obtain ⟨_, _, _, _, h5⟩ := hf v hv
    rw [hm]
    simp [flightRequests, RaftNode.inboxRequests, h5]
  · intro n hmem hl
    rw [(hf n hmem).2.1] at hl
    cases hl

theorem setNode_ids (node : RaftNode) :
    ∀ nodes : List RaftNode, (nodes.map (fun n => n.id)).Nodup →
      ((setNode nodes node).map (fun n => n.id)).Nodup ∧
      ∀ x ∈ setNode nodes node, x = node ∨ x ∈ nodes := by
  intro nodes
  induction nodes with
  | nil =>
    intro _
    simp [setNode]
  | cons a rest ih =>
    intro hn
    simp only [List.map_cons, List.nodup_cons] at hn
    unfold setNode
    by_cases h : a.id = node.id
    · rw [if_pos h]
      constructor
      · simp only [List.map_cons, List.nodup_cons]
        rw [← h]
        exact hn
      · intro x hx
        rcases List.mem_cons.mp hx with hh | hh
        · exact Or.inl hh
        · exact Or.inr (List.mem_cons_of_mem _ hh)
    · rw [if_neg h]
      obtain ⟨i1, i2⟩ := ih hn.2
      constructor
      · simp only [List.map_cons, List.nodup_cons]
        refine ⟨?_, i1⟩
        intro hmem
        obtain ⟨x, hx, e⟩ := List.mem_map.mp hmem
        rcases i2 x hx with hh | hh
        · rw [hh] at e; exact h e.symm
        · exact hn.1 (List.mem_map.mpr ⟨x, hh, e⟩)
      · intro x hx
        rcases List.mem_cons.mp hx with hh | hh
        · exact Or.inr (hh ▸ List.mem_cons_self _ _)
        · rcases i2 x hh with h1 | h1
          · exact Or.inl h1
          · exact Or.inr (List.mem_cons_of_mem _ h1)

theorem createLoop_fresh (E : Env) :
    ∀ (ids : List Nat) (net : RaftNetwork), net.Fresh → (createLoop E ids net).Fresh := by
  intro ids
  induction ids with
  | nil => intro net h; exact h
  | cons i rest ih =>
    intro net h
    unfold createLoop
    simp only []
    apply ih
    obtain ⟨hn, hm, hf⟩ := h
    obtain ⟨s1, s2⟩ := setNode_ids (RaftNode.new E.now (RaftNode.randomElectionTimeout E net).1 i)
      net.nodes hn
    refine ⟨s1, hm, ?_⟩
    intro n hmem
    rcases s2 n hmem with hh | hh
    · rw [hh]
      exact ⟨rfl, rfl, rfl, rfl, rfl⟩
    · exact hf n hh

theorem createInitialCluster_fresh (E : Env) : (createInitialCluster E).Fresh := by
  unfold createInitialCluster
  apply createLoop_fresh
  refine ⟨by simp [RaftNetwork.new], rfl, ?_⟩
  intro n hn
  simp [RaftNetwork.new] at hn

theorem reachable_inv {net : RaftNetwork} (h : Reachable false net) :
    ElectionInv net := by
  induction h with
  | init h => exact fresh_inv h
  | update E _ ih => exact inv_update E ih
  | revive E id _ ih => exact inv_revive E id ih
  | partition a b _ ih => exact inv_partition a b ih
  | healPartition _ ih => exact inv_healPartition ih
  | addClientRequest E c _ ih => exact inv_addClientRequest E c ih
  | kill E id hk _ _ => cases hk

theorem two_le_sum (f : RaftNode → Nat) :
    ∀ (l : List RaftNode) (a b : RaftNode), a ∈ l → b ∈ l → a ≠ b →
      f a + f b ≤ (l.map f).sum := by
  intro l
  induction l with
  | nil => intro a b ha; cases ha
  | cons x rest ih =>
    intro a b ha hb hab
    simp only [List.map_cons, List.sum_cons]
    have one : ∀ y, y ∈ rest → f y ≤ (rest.map f).sum := by
      intro y hy
      exact List.single_le_sum (fun _ _ => Nat.zero_le _) _ (List.mem_map.mpr ⟨y, hy, rfl⟩)
    rcases List.mem_cons.mp ha with h1 | h1 <;> rcases List.mem_cons.mp hb with h2 | h2
    · exact absurd (h1.trans h2.symm) hab
    · rw [h1]; have := one b h2; omega
    · rw [h2]; have := one a h1; omega
    · have := ih a b h1 h2 hab; omega

theorem sum_le_length (f : RaftNode → Nat) (hf : ∀ n, f n ≤ 1) :
    ∀ l : List RaftNode, (l.map f).sum ≤ l.length := by
  intro l
  induction l with
  | nil => simp
  | cons x rest ih =>
    simp only [List.map_cons, List.sum_cons, List.length_cons]
    have := hf x
    omega

theorem inv_one_leader {net : RaftNetwork} (inv : ElectionInv net)
    (a b : RaftNode) (ha : a ∈ net.nodes) (hb : b ∈ net.nodes) (hab : a.id ≠ b.id)
    (hla : a.state = NodeState.leader) (hlb : b.state = NodeState.leader) :
    a.currentTerm ≠ b.currentTerm := by
  intro hT
  have h1 := inv.leader a ha hla
  have h2 := inv.leader b hb hlb
  have h3 := inv.tally a.currentTerm
  have h4 := two_le_sum (fun n => n.voteWeight a.currentTerm + n.inboxGrants a.currentTerm)
    net.nodes a b ha hb (fun hh => hab (by rw [hh]))
  have hu : ∀ n : RaftNode, n.usedVote a.currentTerm ≤ 1 := by
    intro n
    unfold RaftNode.usedVote
    split <;> omega
  have h5 := sum_le_length (fun n => n.usedVote a.currentTerm) hu net.nodes
  have wa : a.voteWeight a.currentTerm = a.votesReceived := by
    unfold RaftNode.voteWeight
    rw [if_pos ⟨rfl, Or.inr hla⟩]
  have wb : b.voteWeight a.currentTerm = b.votesReceived := by
    unfold RaftNode.voteWeight
    rw [if_pos ⟨hT.symm, Or.inr hlb⟩]
  simp only [] at h4
  omega


theorem reachable_runUpdates {kills : Bool} (frames : List Env) :
    ∀ net : RaftNetwork, Reachable kills net → Reachable kills (net.runUpdates frames) := by
  induction frames with
  | nil => intro net h; exact h
  | cons E rest ih =>
    intro net h
    exact ih _ (Reachable.update E h)

theorem splitVote5_reachable : Reachable true splitVote5 := by
  have h1 : Reachable true splitVote1 :=
    Reachable.kill clusterEnv 3 rfl
      (Reachable.kill clusterEnv 4 rfl (Reachable.init (createInitialCluster_fresh clusterEnv)))
  have h2 : Reachable true splitVote2 :=
    Reachable.revive (frameEnv 3100) 3
      (Reachable.kill (frameEnv 3100) 2 rfl (Reachable.update (frameEnv 3100) h1))
  have h3 : Reachable true splitVote3 :=
    Reachable.revive (frameEnv 3400) 2 (Reachable.update (frameEnv 3400) h2)
  have h4 : Reachable true splitVote4 :=
    Reachable.kill (frameEnv 5400) 2 rfl (reachable_runUpdates (frames 3400 125) _ h3)
  exact reachable_runUpdates (frames 5400 125) _ h4

set_option maxRecDepth 1000000 in
set_option maxHeartbeats 4000000 in
theorem splitVote5_roles :
    splitVote5.roles
      = [(0, true, NodeState.leader, 1), (1, true, NodeState.leader, 1),
         (2, false, NodeState.dead, 1), (3, true, NodeState.follower, 1),
         (4, false, NodeState.dead, 0)] := by
  with_unfolding_all decide

theorem electedCluster_reachable : Reachable false electedCluster :=
  reachable_runUpdates (frames 3100 250) _
    (Reachable.update (frameEnv 3100) (Reachable.init (createInitialCluster_fresh clusterEnv)))

set_option maxRecDepth 1000000 in
set_option maxHeartbeats 4000000 in
theorem electedCluster_roles :
    electedCluster.roles
      = [(0, true, NodeState.leader, 1), (1, true, NodeState.candidate, 1),
         (2, true, NodeState.follower, 1), (3, true, NodeState.follower, 1),
         (4, true, NodeState.follower, 1)] := by
  with_unfolding_all decide

/-- C1, counterexample: the cluster of five nodes, with kills and revivals timed
so that nodes 2 and 3 each see one request only and with two nodes dead when
the answers arrive, has nodes 0 and 1 both alive and Leader at term 1. -/
theorem two_leaders_after_kills :
    Reachable true splitVote5 ∧
    ∃ a ∈ splitVote5.nodes, ∃ b ∈ splitVote5.nodes, a.id ≠ b.id ∧
      a.isAlive = true ∧ b.isAlive = true ∧
      a.state = NodeState.leader ∧ b.state = NodeState.leader ∧
      a.currentTerm = b.currentTerm := by
  refine ⟨splitVote5_reachable, ?_⟩
  have h := splitVote5_roles
  unfold RaftNetwork.roles at h
  rcases hl : splitVote5.nodes with _ | ⟨a, _ | ⟨b, rest⟩⟩
  · rw [hl] at h; simp at h
  · rw [hl] at h; simp at h
  · rw [hl] at h
    simp only [List.map_cons, List.cons.injEq, Prod.mk.injEq] at h
    obtain ⟨⟨a1, a2, a3, a4⟩, ⟨b1, b2, b3, b4⟩, _⟩ := h
    refine ⟨a, List.mem_cons_self _ _, b, List.mem_cons_of_mem _ (List.mem_cons_self _ _), ?_,
      a2, b2, a3, b3, by rw [a4, b4]⟩
    rw [a1, b1]
    decide

/-- C1, without kills: in every state reachable from a freshly built cluster of
any size by `network.update`, `revive`, `partition`, `healPartition` and client
requests, every node is alive and no two nodes are Leader with the same
`currentTerm`. -/
theorem election_safety_without_kill (net : RaftNetwork) (h : Reachable false net) :
    (∀ n ∈ net.nodes, n.isAlive = true) ∧
    ∀ a ∈ net.nodes, ∀ b ∈ net.nodes, a.id ≠ b.id →
      a.state = NodeState.leader → b.state = NodeState.leader →
      a.currentTerm ≠ b.currentTerm :=
  ⟨(reachable_inv h).alive,
    fun a ha b hb hab hla hlb => inv_one_leader (reachable_inv h) a b ha hb hab hla hlb⟩

theorem election_safety_without_kill_witness :
    (Reachable false electedCluster ∧
      electedCluster.roles
        = [(0, true, NodeState.leader, 1), (1, true, NodeState.candidate, 1),
           (2, true, NodeState.follower, 1), (3, true, NodeState.follower, 1),
           (4, true, NodeState.follower, 1)]) ∧
    ((∀ n ∈ electedCluster.nodes, n.isAlive = true) ∧
    ∀ a ∈ electedCluster.nodes, ∀ b ∈ electedCluster.nodes, a.id ≠ b.id →
      a.state = NodeState.leader → b.state = NodeState.leader →
      a.currentTerm ≠ b.currentTerm) :=
  ⟨⟨electedCluster_reachable, electedCluster_roles⟩,
    election_safety_without_kill electedCluster electedCluster_reachable⟩

/-! ## Heartbeats -/

theorem afterTimeout_state_ne_leader (now t : ℚ) (n : RaftNode)
    (h : n.state ≠ NodeState.leader) : (n.afterTimeout now t).state ≠ NodeState.leader := by
  unfold RaftNode.afterTimeout
  split
  · simp [RaftNode.afterElection]
  · exact h

theorem broadcastMessage_sent (E : Env) (net : RaftNetwork) (a : Nat) (c : Content)
    (hn : (net.nodes.map (fun n => n.id)).Nodup) :
    (net.broadcastMessage E a c).2.sendCalls
      = net.sendCalls
        ++ (net.nodes.filter (fun p => decide (p.id ≠ a) && p.isAlive)).map
            (fun p => (a, p.id, c)) ∧
    ∃ ms, (net.broadcastMessage E a c).2.messages = net.messages ++ ms ∧
      ∀ m ∈ ms, m.senderId = a ∧ m.content = c ∧ m.receiverId ≠ a ∧
        ∃ p ∈ net.nodes, p.id = m.receiverId ∧ p.isAlive = true := by
  obtain ⟨k, _, f2⟩ := broadcastMessage_frame E net a c
  rw [broadcastTargets_eq_filter net hn a, List.map_map] at f2
  obtain ⟨_, _, _, _, ms, cs, hm, hcs, _, hf, _, hsub, _⟩ := broadcastMessage_appends E net a c
  have hcs2 : cs = (net.nodes.filter (fun p => decide (p.id ≠ a) && p.isAlive)).map
      (fun p => (a, p.id, c)) := by
    rw [hcs] at f2
    exact List.append_cancel_left f2
  refine ⟨f2, ms, hm, ?_⟩
  intro m hm1
  have hmem : (m.senderId, m.receiverId, m.content) ∈ cs :=
    hsub.subset (List.mem_map_of_mem (fun m => (m.senderId, m.receiverId, m.content)) hm1)
  rw [hcs2] at hmem
  obtain ⟨p, hp, hpe⟩ := List.mem_map.mp hmem
  have hp2 := List.mem_filter.mp hp
  simp only [Prod.mk.injEq] at hpe
  simp only [Bool.and_eq_true, decide_eq_true_eq] at hp2
  refine ⟨(hf m hm1).1, hpe.2.2.symm, ?_, p, hp2.1, hpe.2.1, hp2.2.2⟩
  rw [← hpe.2.1]; exact hp2.2.1

/-- C31: `sendHeartbeats` returns the network unchanged when the node is dead
or not Leader; for an alive Leader it calls `sendMessage` once for every other
alive node, in map order, with an `AppendEntries` of its term, its own id, no
entries and its `commitIndex`, and every message it creates is one of these.
In `update` an alive Leader sends heartbeats exactly when more than
`heartbeatInterval` has passed since `lastHeartbeat`, which is then set to the
current time before the inbox is processed; an alive node that is not Leader
sends none. A newly constructed node has `heartbeatInterval = 1000`. -/
theorem sendHeartbeats_contract (E : Env) (net : RaftNetwork) (id : Nat) (self : RaftNode)
    (h : net.getNode id = some self) (hn : (net.nodes.map (fun n => n.id)).Nodup) :
    ((self.isAlive = false ∨ self.state ≠ NodeState.leader) →
      RaftNode.sendHeartbeats E net id = net) ∧
    (self.isAlive = true → self.state = NodeState.leader →
      (RaftNode.sendHeartbeats E net id).sendCalls
        = net.sendCalls
          ++ (net.nodes.filter (fun p => decide (p.id ≠ id) && p.isAlive)).map
              (fun p => (id, p.id,
                Content.appendEntries self.currentTerm id (-1) (-1) [] self.commitIndex)) ∧
      ∃ ms, (RaftNode.sendHeartbeats E net id).messages = net.messages ++ ms ∧
        ∀ m ∈ ms, m.senderId = id ∧
          m.content = Content.appendEntries self.currentTerm id (-1) (-1) [] self.commitIndex ∧
          m.receiverId ≠ id ∧ ∃ p ∈ net.nodes, p.id = m.receiverId ∧ p.isAlive = true) ∧
    (self.isAlive = true → self.state = NodeState.leader →
      RaftNode.update E net id
        = RaftNode.processMessages E
            (if E.now - self.lastHeartbeat > self.heartbeatInterval then
              (RaftNode.sendHeartbeats E net id).modifyNode id
                (fun n => { n with lastHeartbeat := E.now })
             else net) id ∧
      ∃ k, ((RaftNode.sendHeartbeats E net id).modifyNode id
          (fun n => { n with lastHeartbeat := E.now })).getNode id
        = some { self.addSent k with lastHeartbeat := E.now }) ∧
    (self.isAlive = true → self.state ≠ NodeState.leader →
      RaftNode.update E net id
        = RaftNode.processMessages E
            (if self.state = NodeState.follower ∨ self.state = NodeState.candidate then
              if E.now - self.lastHeartbeat > self.electionTimeout then
                RaftNode.startElection E net id
              else net
             else net) id) ∧
    (∀ now t i, (RaftNode.new now t i).heartbeatInterval = 1000) := by
  have hid := getNode_id h
  refine ⟨?_, ?_, ?_, ?_, fun _ _ _ => rfl⟩
  · intro hc
    unfold RaftNode.sendHeartbeats
    rw [h]
    simp only []
    rw [if_pos]
    rcases hc with hc | hc
    · simp [hc]
    · simp [hc]
  · intro ha hl
    have e : RaftNode.sendHeartbeats E net id
        = (net.broadcastMessage E id
            (Content.appendEntries self.currentTerm id (-1) (-1) [] self.commitIndex)).2 := by
      unfold RaftNode.sendHeartbeats
      rw [h]
      simp only []
      rw [if_neg (by simp [ha, hl]), hid]
    rw [e]
    exact broadcastMessage_sent E net id
      (Content.appendEntries self.currentTerm id (-1) (-1) [] self.commitIndex) hn
  · intro ha hl
    constructor
    · unfold RaftNode.update
      rw [h]
      simp only []
      rw [if_neg (by simp [ha]), if_neg (by rw [hl]; decide)]
      rw [h]
      simp only []
      rw [if_pos hl]
    · obtain ⟨k, t, _⟩ := sendHeartbeats_effect E net id self h
      have g := t.getNode_self h
      refine ⟨k, ?_⟩
      rw [getNode_modifyNode_self _ id _ (by intro n; rfl), g]
      rfl
  · intro ha hl
    unfold RaftNode.update
    rw [h]
    simp only []
    rw [if_neg (by simp [ha])]
    obtain ⟨k, t⟩ := timeoutStep_effect E net id self h
    have g := t.getNode_self h
    rw [g]
    simp only []
    rw [if_neg]
    rw [addSent_state]
    exact afterTimeout_state_ne_leader _ _ self hl

theorem sendHeartbeats_contract_witness :
    (demoLeaderNet.getNode 0 = some demoLeader ∧
      (demoLeaderNet.nodes.map (fun n => n.id)).Nodup) ∧
    (((demoLeader.isAlive = false ∨ demoLeader.state ≠ NodeState.leader) →
      RaftNode.sendHeartbeats lateEnv demoLeaderNet 0 = demoLeaderNet) ∧
    (demoLeader.isAlive = true → demoLeader.state = NodeState.leader →
      (RaftNode.sendHeartbeats lateEnv demoLeaderNet 0).sendCalls
        = demoLeaderNet.sendCalls
          ++ (demoLeaderNet.nodes.filter (fun p => decide (p.id ≠ 0) && p.isAlive)).map
              (fun p => (0, p.id,
                Content.appendEntries demoLeader.currentTerm 0 (-1) (-1) []
                  demoLeader.commitIndex)) ∧
      ∃ ms, (RaftNode.sendHeartbeats lateEnv demoLeaderNet 0).messages
          = demoLeaderNet.messages ++ ms ∧
        ∀ m ∈ ms, m.senderId = 0 ∧
          m.content = Content.appendEntries demoLeader.currentTerm 0 (-1) (-1) []
            demoLeader.commitIndex ∧
          m.receiverId ≠ 0 ∧ ∃ p ∈ demoLeaderNet.nodes, p.id = m.receiverId ∧ p.isAlive = true) ∧
    (demoLeader.isAlive = true → demoLeader.state = NodeState.leader →
      RaftNode.update lateEnv demoLeaderNet 0
        = RaftNode.processMessages lateEnv
            (if lateEnv.now - demoLeader.lastHeartbeat > demoLeader.heartbeatInterval then
              (RaftNode.sendHeartbeats lateEnv demoLeaderNet 0).modifyNode 0
                (fun n => { n with lastHeartbeat := lateEnv.now })
             else demoLeaderNet) 0 ∧
      ∃ k, ((RaftNode.sendHeartbeats lateEnv demoLeaderNet 0).modifyNode 0
          (fun n => { n with lastHeartbeat := lateEnv.now })).getNode 0
        = some { demoLeader.addSent k with lastHeartbeat := lateEnv.now }) ∧
    (demoLeader.isAlive = true → demoLeader.state ≠ NodeState.leader →
      RaftNode.update lateEnv demoLeaderNet 0
        = RaftNode.processMessages lateEnv
            (if demoLeader.state = NodeState.follower ∨
                demoLeader.state = NodeState.candidate then
              if lateEnv.now - demoLeader.lastHeartbeat > demoLeader.electionTimeout then
                RaftNode.startElection lateEnv demoLeaderNet 0
              else demoLeaderNet
             else demoLeaderNet) 0) ∧
    (∀ now t i, (RaftNode.new now t i).heartbeatInterval = 1000)) :=
  ⟨⟨rfl, by decide⟩, sendHeartbeats_contract lateEnv demoLeaderNet 0 demoLeader rfl (by decide)⟩


/-! ## Node invariants of the reachable states -/

theorem sound_congr {a b : RaftNode} (h1 : b.log = a.log) (h2 : a.currentTerm ≤ b.currentTerm)
    (h3 : b.isAlive = a.isAlive) (h4 : b.state = a.state) (h5 : b.votedFor = a.votedFor)
    (h6 : b.id = a.id) (ha : a.sound) : b.sound := by
  obtain ⟨l, d, v⟩ := ha
  refine ⟨?_, ?_, ?_⟩
  · intro i e he
    rw [h1] at he
    obtain ⟨x, y⟩ := l i e he
    exact ⟨x, Nat.le_trans y h2⟩
  · rw [h3, h4]; exact d
  · rw [h4, h5, h6]; exact v

theorem afterMessage_id (now : ℚ) (alive : List Nat) (n : RaftNode) (m : Content) :
    (n.afterMessage now alive m).id = n.id := by
  cases m with
  | requestVote tm c li lt =>
    simp only [RaftNode.afterMessage]
    have := congrArg RaftNode.id (afterRequestVote_frame now (n.afterTerm now tm) tm c li lt)
    simp only [] at this
    rw [this, afterTerm_id]
  | requestVoteResponse tm g =>
    simp only [RaftNode.afterMessage]
    have := congrArg RaftNode.id (afterVoteResponse_frame now alive (n.afterTerm now tm) tm g)
    simp only [] at this
    rw [this, afterTerm_id]
  | appendEntries tm l pi pt es lc =>
    simp only [RaftNode.afterMessage]
    have := congrArg RaftNode.id (afterAppendEntries_frame now (n.afterTerm now tm) tm es)
    simp only [] at this
    rw [this, afterTerm_id]
  | appendEntriesResponse tm s =>
    simp only [RaftNode.afterMessage, afterTerm_id]

theorem afterMessage_log (now : ℚ) (alive : List Nat) (n : RaftNode) (m : Content)
    (hm : m.plain) : (n.afterMessage now alive m).log = n.log := by
  cases m with
  | requestVote tm c li lt =>
    simp only [RaftNode.afterMessage, afterRequestVote_log, afterTerm_log]
  | requestVoteResponse tm g =>
    simp only [RaftNode.afterMessage, afterVoteResponse_log, afterTerm_log]
  | appendEntries tm l pi pt es lc =>
    have he : es = [] := hm
    subst he
    simp only [RaftNode.afterMessage]
    by_cases hge : tm ≥ (n.afterTerm now tm).currentTerm
    · rw [afterAppendEntries_of_ge _ _ _ _ hge]
      simp only [List.map_nil, List.append_nil, afterTerm_log]
    · rw [afterAppendEntries_of_lt _ _ _ _ (Nat.lt_of_not_ge hge), afterTerm_log]
  | appendEntriesResponse tm s =>
    simp only [RaftNode.afterMessage, afterTerm_log]

theorem afterTerm_state_cases (now : ℚ) (n : RaftNode) (tm : Nat) :
    (n.afterTerm now tm).state = NodeState.follower ∨ (n.afterTerm now tm) = n := by
  rcases afterTerm_cases now n tm with ⟨_, _, hs, _⟩ | ⟨_, e⟩
  · exact Or.inl hs
  · exact Or.inr e

/-- The state and the vote after a message: either the node is a Follower, or
its state and vote are as before, or it has just won as a Candidate. -/
theorem afterMessage_role (now : ℚ) (alive : List Nat) (n : RaftNode) (m : Content)
    (hv : n.state = NodeState.candidate ∨ n.state = NodeState.leader →
      n.votedFor = some n.id) :
    (n.afterMessage now alive m).state = NodeState.follower ∨
    ((n.afterMessage now alive m).state = n.state ∨
        (n.state = NodeState.candidate ∧
          (n.afterMessage now alive m).state = NodeState.leader)) ∧
      ((n.state = NodeState.candidate ∨ n.state = NodeState.leader) →
        (n.afterMessage now alive m).votedFor = some n.id) := by
  cases m with
  | requestVote tm c li lt =>
    simp only [RaftNode.afterMessage]
    rw [afterRequestVote_state, afterRequestVote_votedFor]
    rcases afterTerm_state_cases now n tm with h | h
    · exact Or.inl h
    · rw [h]
      refine Or.inr ⟨Or.inl rfl, ?_⟩
      intro hs
      have hvf := hv hs
      split
      · rename_i hg
        unfold RaftNode.grants at hg
        simp only [decide_eq_true_eq] at hg
        rcases hg.2.1 with h1 | h1
        · rw [hvf] at h1; cases h1
        · rw [hvf] at h1; exact h1.symm
      · exact hvf
  | requestVoteResponse tm g =>
    simp only [RaftNode.afterMessage]
    rw [afterVoteResponse_state, afterVoteResponse_votedFor]
    rcases afterTerm_state_cases now n tm with h | h
    · left
      rw [if_neg, h]
      intro hw
      rw [hw.1] at h
      cases h
    · rw [h]
      right
      constructor
      · split
        · rename_i hw
          exact Or.inr ⟨hw.1, rfl⟩
        · exact Or.inl rfl
      · exact hv
  | appendEntries tm l pi pt es lc =>
    simp only [RaftNode.afterMessage]
    rw [afterAppendEntries_state, afterAppendEntries_votedFor]
    rcases afterTerm_state_cases now n tm with h | h
    · left
      split
      · rfl
      · exact h
    · rw [h]
      split
      · exact Or.inl rfl
      · exact Or.inr ⟨Or.inl rfl, hv⟩
  | appendEntriesResponse tm s =>
    simp only [RaftNode.afterMessage]
    rcases afterTerm_state_cases now n tm with h | h
    · exact Or.inl h
    · rw [h]
      exact Or.inr ⟨Or.inl rfl, hv⟩

theorem sound_afterMessage (now : ℚ) (alive : List Nat) (n : RaftNode) (m : Content)
    (hs : n.sound) (ha : n.isAlive = true) (hm : m.plain) :
    (n.afterMessage now alive m).sound := by
  obtain ⟨l, d, v⟩ := hs
  have hnd : n.state ≠ NodeState.dead := by
    intro hh
    have := d.mpr hh
    rw [ha] at this
    cases this
  have hrole := afterMessage_role now alive n m v
  refine ⟨?_, ?_, ?_⟩
  · intro i e he
    rw [afterMessage_log now alive n m hm] at he
    obtain ⟨x, y⟩ := l i e he
    rw [afterMessage_currentTerm]
    exact ⟨x, Nat.le_trans y (Nat.le_max_left _ _)⟩
  · rw [afterMessage_isAlive, ha]
    constructor
    · intro hh; cases hh
    · intro hh
      exfalso
      rcases hrole with h | ⟨h | h, _⟩
      · rw [h] at hh; cases hh
      · rw [h] at hh; exact hnd hh
      · rw [h.2] at hh; cases hh
  · intro hc
    rw [afterMessage_id]
    rcases hrole with h | ⟨h | h, hvv⟩
    · rw [h] at hc
      rcases hc with hc | hc <;> cases hc
    · rw [h] at hc
      exact hvv hc
    · exact hvv (Or.inl h.1)

theorem sound_new (now t : ℚ) (i : Nat) : (RaftNode.new now t i).sound := by
  refine ⟨?_, ?_, ?_⟩
  · intro j e he
    simp [RaftNode.new] at he
  · simp [RaftNode.new]
  · intro hc
    simp [RaftNode.new] at hc

theorem sound_afterElection (now t : ℚ) (n : RaftNode) (hs : n.sound)
    (ha : n.isAlive = true) : (n.afterElection now t).sound := by
  obtain ⟨l, _, _⟩ := hs
  refine ⟨?_, ?_, ?_⟩
  · intro i e he
    obtain ⟨x, y⟩ := l i e he
    exact ⟨x, Nat.le_succ_of_le y⟩
  · show n.isAlive = false ↔ NodeState.candidate = NodeState.dead
    rw [ha]
    constructor <;> intro hh <;> cases hh
  · intro _
    rfl

theorem sound_kill (now : ℚ) (n : RaftNode) (hs : n.sound) :
    ({ n with isAlive := false, state := NodeState.dead, stateChangeTime := now } :
      RaftNode).sound := by
  obtain ⟨l, _, _⟩ := hs
  refine ⟨l, ?_, ?_⟩
  · exact ⟨fun _ => rfl, fun _ => rfl⟩
  · intro hc
    rcases hc with hc | hc <;> cases hc

theorem sound_revive (now t : ℚ) (n : RaftNode) (hs : n.sound) :
    ({ n with isAlive := true, state := NodeState.follower, stateChangeTime := now,
              lastHeartbeat := now, electionTimeout := t } : RaftNode).sound := by
  obtain ⟨l, _, _⟩ := hs
  refine ⟨l, ?_, ?_⟩
  · constructor <;> intro hh <;> cases hh
  · intro hc
    rcases hc with hc | hc <;> cases hc

theorem sound_reset (now t : ℚ) (n : RaftNode) : (RaftNode.resetFields now t n).sound := by
  refine ⟨?_, ?_, ?_⟩
  · intro i e he
    simp [RaftNode.resetFields] at he
  · show true = false ↔ NodeState.follower = NodeState.dead
    constructor <;> intro hh <;> cases hh
  · intro hc
    rcases hc with hc | hc <;> cases hc

theorem sound_addLogEntry (now : ℚ) (command : String) (n : RaftNode) (hs : n.sound) :
    ({ n with log := n.log ++ [LogEntry.new now n.currentTerm n.log.length command] } :
      RaftNode).sound := by
  obtain ⟨l, d, v⟩ := hs
  refine ⟨?_, d, v⟩
  intro i e he
  simp only [] at he
  by_cases hi : i < n.log.length
  · rw [List.getElem?_append_left hi] at he
    exact l i e he
  · rw [List.getElem?_append_right (Nat.le_of_not_lt hi)] at he
    have hi0 : i - n.log.length = 0 := by
      by_contra hne
      rw [List.getElem?_eq_none (by simp; omega)] at he
      cases he
    rw [hi0] at he
    simp only [List.getElem?_cons_zero, Option.some.injEq] at he
    rw [← he]
    exact ⟨by simp only [LogEntry.new]; omega, Nat.le_refl _⟩


theorem updNodes_ids_of_self (id : Nat) (G : RaftNode → RaftNode) (self : RaftNode)
    (nodes : List RaftNode) (hn : (nodes.map (fun n => n.id)).Nodup) (hself : self ∈ nodes)
    (hsid : self.id = id) (hid : (G self).id = id) :
    (updNodes id G nodes).map (fun n => n.id) = nodes.map (fun n => n.id) := by
  unfold updNodes
  rw [List.map_map]
  apply List.map_congr_left
  intro n hmem
  simp only [Function.comp]
  by_cases hh : n.id = id
  · rw [if_pos hh]
    have : n = self := by
      have h1 := find?_of_mem_nodup nodes hn n hmem
      have h2 := find?_of_mem_nodup nodes hn self hself
      rw [hh, ← hsid] at h1
      rw [h1] at h2
      exact Option.some.inj h2
    rw [this, hid, hsid]
  · rw [if_neg hh]

/-- The node invariants are kept by a step that writes one node and appends
messages, when the node after the step is sound and every new content and every
content of its inbox carries no entries. -/
theorem snet_step {net net1 : RaftNetwork} {id : Nat} {self self1 : RaftNode}
    {G : RaftNode → RaftNode} {new : List Message}
    (inv : SoundNet net) (h : net.getNode id = some self)
    (hnodes : net1.nodes = updNodes id G net.nodes) (hG : G self = self1)
    (hid : self1.id = id) (hs : self1.sound) (hq : ∀ c ∈ self1.messageQueue, c.plain)
    (hm : net1.messages = net.messages ++ new) (hnew : ∀ m ∈ new, m.content.plain) :
    SoundNet net1 := by
  have hsid : self.id = id := getNode_id h
  have hself : self ∈ net.nodes := List.mem_of_find?_eq_some h
  refine ⟨?_, ?_, ?_⟩
  · rw [hnodes, updNodes_ids_of_self id G self net.nodes inv.nodup hself hsid (by rw [hG, hid])]
    exact inv.nodup
  · intro x hx
    rw [hnodes] at hx
    rcases mem_updNodes id G self net.nodes inv.nodup hself hsid x hx with hh | ⟨hh, _⟩
    · rw [hh, hG]; exact ⟨hs, hq⟩
    · exact inv.node x hh
  · intro m hmem
    rw [hm] at hmem
    rcases List.mem_append.mp hmem with hh | hh
    · exact inv.flight m hh
    · exact hnew m hh

/-- The node invariants are kept when every node is rewritten by a function
that keeps ids, soundness and the emptiness of carried entries. -/
theorem snet_map {net net1 : RaftNetwork} (g : RaftNode → RaftNode)
    (hid : ∀ n, (g n).id = n.id) (hs : ∀ n, n.sound → (g n).sound)
    (hq : ∀ n, (g n).messageQueue = n.messageQueue)
    (hnodes : net1.nodes = net.nodes.map g)
    (hm : ∀ m ∈ net1.messages, m ∈ net.messages) (inv : SoundNet net) : SoundNet net1 := by
  refine ⟨?_, ?_, fun m hmem => inv.flight m (hm m hmem)⟩
  · rw [hnodes, List.map_map]
    have : ((fun n : RaftNode => n.id) ∘ g) = fun n : RaftNode => n.id := by
      funext n; exact hid n
    rw [this]
    exact inv.nodup
  · intro x hx
    rw [hnodes] at hx
    obtain ⟨n, hn, e⟩ := List.mem_map.mp hx
    rw [← e, hq]
    exact ⟨hs n (inv.node n hn).1, (inv.node n hn).2⟩

theorem snet_modifyNode {net : RaftNetwork} (id : Nat) (f : RaftNode → RaftNode)
    (hid : ∀ n, (f n).id = n.id) (hs : ∀ n, n.sound → (f n).sound)
    (hq : ∀ n, (f n).messageQueue = n.messageQueue) (inv : SoundNet net) :
    SoundNet (net.modifyNode id f) := by
  refine snet_map (fun n => if n.id = id then f n else n) ?_ ?_ ?_ rfl (fun m hm => hm) inv
  · intro n
    show (if n.id = id then f n else n).id = n.id
    split
    · exact hid n
    · rfl
  · intro n hn
    show (if n.id = id then f n else n).sound
    split
    · exact hs n hn
    · exact hn
  · intro n
    show (if n.id = id then f n else n).messageQueue = n.messageQueue
    split
    · exact hq n
    · rfl

theorem snet_of_eq {net net1 : RaftNetwork} (hn : net1.nodes = net.nodes)
    (hm : net1.messages = net.messages) (inv : SoundNet net) : SoundNet net1 :=
  snet_map (fun n => n) (fun _ => rfl) (fun _ h => h) (fun _ => rfl)
    (by rw [hn, List.map_id']) (fun m h => by rw [hm] at h; exact h) inv

theorem replies_plain (net : RaftNetwork) (id : Nat) (s0 : RaftNode) (m : Content) :
    ∀ t ∈ RaftNode.replies net id s0 m, t.2.2.plain := by
  intro t ht
  cases m with
  | requestVote tm c li lt =>
    simp only [RaftNode.replies, List.mem_singleton] at ht
    rw [ht]; trivial
  | requestVoteResponse tm g =>
    simp only [RaftNode.replies] at ht
    split at ht
    · unfold heartbeatCalls at ht
      obtain ⟨j, _, e⟩ := List.mem_map.mp ht
      rw [← e]
      rfl
    · cases ht
  | appendEntries tm l pi pt es lc =>
    simp only [RaftNode.replies, List.mem_singleton] at ht
    rw [ht]; trivial
  | appendEntriesResponse tm s =>
    simp [RaftNode.replies] at ht

theorem plain_of_sublist (ms : List Message) (cs : List (Nat × Nat × Content))
    (h : (ms.map (fun m => (m.senderId, m.receiverId, m.content))).Sublist cs)
    (hc : ∀ t ∈ cs, t.2.2.plain) : ∀ m ∈ ms, m.content.plain := by
  intro m hm
  exact hc _ (h.subset (List.mem_map.mpr ⟨m, hm, rfl⟩))

/-- One iteration of the loop of `processMessages` on an alive node keeps the
node invariants. -/
theorem snet_handle (E : Env) {net : RaftNetwork} {id : Nat} {self : RaftNode}
    {m : Content} {rest : List Content}
    (inv : SoundNet net) (h : net.getNode id = some self)
    (hq : self.messageQueue = m :: rest) (ha : self.isAlive = true) :
    SoundNet ((RaftNode.handleMessage E
        (net.modifyNode id (fun n => { n with messageQueue := rest })) id m).modifyNode id
      (fun n => { n with messagesReceived := n.messagesReceived + 1 })) := by
  have hsid : self.id = id := getNode_id h
  have hself : self ∈ net.nodes := List.mem_of_find?_eq_some h
  obtain ⟨hsound, hplain⟩ := inv.node self hself
  have t1 : Touches net (net.modifyNode id (fun n => { n with messageQueue := rest })) id self
      { self with messageQueue := rest } :=
    Touches.modifyNode net id _ self (by intro n; rfl) (by intro n; rfl)
  have h1 := t1.getNode_self h
  obtain ⟨k, t2, hc⟩ := handleMessage_effect E _ id _ m h1
  have t3 := Touches.modifyNode (RaftNode.handleMessage E
      (net.modifyNode id (fun n => { n with messageQueue := rest })) id m) id
    (fun n => { n with messagesReceived := n.messagesReceived + 1 })
    ((({ self with messageQueue := rest } : RaftNode).afterMessage E.now
      (net.modifyNode id (fun n => { n with messageQueue := rest })).aliveIds m).addSent k)
    (by intro n; rfl) (by intro n; rfl)
  have t := (t1.trans t2).trans t3
  obtain ⟨_, _, _, _, ms, cs, am, ac, _, _, _, asub, _⟩ := handleMessage_appends E
    (net.modifyNode id (fun n => { n with messageQueue := rest })) id m
  have hcs : cs = RaftNode.replies (net.modifyNode id (fun n => { n with messageQueue := rest }))
      id (({ self with messageQueue := rest } : RaftNode).afterTerm E.now m.term) m := by
    rw [ac] at hc
    exact List.append_cancel_left hc
  rw [hcs] at asub
  obtain ⟨G, hGid, _, hnodes, hG⟩ := t
  have hmp : m.plain := hplain m (by rw [hq]; exact List.mem_cons_self _ _)
  have hcore : (({ self with messageQueue := rest } : RaftNode).afterMessage E.now
      (net.modifyNode id (fun n => { n with messageQueue := rest })).aliveIds m).sound :=
    sound_afterMessage _ _ _ m
      (sound_congr rfl (Nat.le_refl _) rfl rfl rfl rfl hsound) ha hmp
  refine @snet_step net _ id self (G self) G ms inv h hnodes rfl ((hGid self).trans hsid)
    ?_ ?_ ?_ (plain_of_sublist ms _ asub (replies_plain _ _ _ _))
  · rw [hG]
    exact sound_congr rfl (Nat.le_refl _) rfl rfl rfl rfl hcore
  · rw [hG]
    intro c hcmem
    have e : (({ self with messageQueue := rest } : RaftNode).afterMessage E.now
        (net.modifyNode id (fun n => { n with messageQueue := rest })).aliveIds m).messageQueue
        = rest := afterMessage_messageQueue _ _ _ _
    have hc2 : c ∈ rest := by
      rw [← e]; exact hcmem
    exact hplain c (by rw [hq]; exact List.mem_cons_of_mem _ hc2)
  · rw [modifyNode_messages, am, modifyNode_messages]

theorem snet_processLoop (E : Env) (id : Nat) :
    ∀ (fuel : Nat) (net : RaftNetwork), SoundNet net →
      SoundNet (RaftNode.processLoop E id fuel net) := by
  intro fuel
  induction fuel with
  | zero => intro net inv; exact inv
  | succ fuel ih =>
    intro net inv
    unfold RaftNode.processLoop
    cases h : net.getNode id with
    | none => exact inv
    | some self =>
      simp only []
      cases hq : self.messageQueue with
      | nil => exact inv
      | cons m rest =>
        simp only []
        by_cases ha : self.isAlive = true
        · rw [if_pos ha]
          exact ih _ (snet_handle E inv h hq ha)
        · rw [if_neg ha]
          exact inv

theorem snet_processMessages (E : Env) (id : Nat) {net : RaftNetwork}
    (inv : SoundNet net) : SoundNet (RaftNode.processMessages E net id) := by
  unfold RaftNode.processMessages
  cases net.getNode id with
  | none => exact inv
  | some self => exact snet_processLoop E id _ net inv

theorem snet_sendHeartbeats (E : Env) (id : Nat) {net : RaftNetwork}
    (inv : SoundNet net) : SoundNet (RaftNode.sendHeartbeats E net id) := by
  cases h : net.getNode id with
  | none =>
    have : RaftNode.sendHeartbeats E net id = net := by
      unfold RaftNode.sendHeartbeats; rw [h]
    rw [this]; exact inv
  | some self =>
    have hself : self ∈ net.nodes := List.mem_of_find?_eq_some h
    obtain ⟨k, t, hc⟩ := sendHeartbeats_effect E net id self h
    obtain ⟨_, _, _, _, ms, cs, am, ac, _, _, _, asub, _⟩ := sendHeartbeats_appends E net id
    have hcs : cs = (if self.isAlive = true ∧ self.state = NodeState.leader then
        heartbeatCalls net self else []) := by
      rw [ac] at hc
      exact List.append_cancel_left hc
    rw [hcs] at asub
    obtain ⟨G, hGid, _, hnodes, hG⟩ := t
    refine @snet_step net _ id self (G self) G ms inv h hnodes rfl
      ((hGid self).trans (getNode_id h)) ?_ ?_ am ?_
    · rw [hG]
      exact sound_congr rfl (Nat.le_refl _) rfl rfl rfl rfl (inv.node self hself).1
    · rw [hG]
      exact (inv.node self hself).2
    · apply plain_of_sublist ms _ asub
      intro t ht
      split at ht
      · unfold heartbeatCalls at ht
        obtain ⟨j, _, e⟩ := List.mem_map.mp ht
        rw [← e]
        rfl
      · cases ht

theorem snet_startElection (E : Env) (id : Nat) {net : RaftNetwork}
    (inv : SoundNet net) : SoundNet (RaftNode.startElection E net id) := by
  cases h : net.getNode id with
  | none =>
    have : RaftNode.startElection E net id = net := by
      unfold RaftNode.startElection; rw [h]
    rw [this]; exact inv
  | some self =>
    have hself : self ∈ net.nodes := List.mem_of_find?_eq_some h
    obtain ⟨k, t, hc⟩ := startElection_effect E net id self h
    obtain ⟨_, _, _, _, ms, cs, am, ac, _, _, _, asub, _⟩ := startElection_appends E net id
    have hcs : cs = (if self.isAlive = true ∧ self.isPartitioned = false then
        electionCalls net self else []) := by
      rw [ac] at hc
      exact List.append_cancel_left hc
    rw [hcs] at asub
    obtain ⟨G, hGid, _, hnodes, hG⟩ := t
    refine @snet_step net _ id self (G self) G ms inv h hnodes rfl
      ((hGid self).trans (getNode_id h)) ?_ ?_ am ?_
    · rw [hG]
      by_cases hgd : self.isAlive = true ∧ self.isPartitioned = false
      · rw [if_pos hgd]
        exact sound_congr rfl (Nat.le_refl _) rfl rfl rfl rfl
          (sound_afterElection E.now (3000 + E.rand net.draws * (6000 - 3000)) self
            (inv.node self hself).1 hgd.1)
      · rw [if_neg hgd]
        exact sound_congr rfl (Nat.le_refl _) rfl rfl rfl rfl (inv.node self hself).1
    · rw [hG]
      by_cases hgd : self.isAlive = true ∧ self.isPartitioned = false
      · rw [if_pos hgd]
        exact (inv.node self hself).2
      · rw [if_neg hgd]
        exact (inv.node self hself).2
    · apply plain_of_sublist ms _ asub
      intro t ht
      split at ht
      · unfold electionCalls at ht
        obtain ⟨j, _, e⟩ := List.mem_map.mp ht
        rw [← e]
        trivial
      · cases ht

theorem snet_updateNode (E : Env) (id : Nat) {net : RaftNetwork}
    (inv : SoundNet net) : SoundNet (RaftNode.update E net id) := by
  unfold RaftNode.update
  cases net.getNode id with
  | none => exact inv
  | some self =>
    simp only []
    split
    · exact inv
    · apply snet_processMessages
      have i1 : SoundNet
          (if self.state = NodeState.follower ∨ self.state = NodeState.candidate then
            if E.now - self.lastHeartbeat > self.electionTimeout then
              RaftNode.startElection E net id
            else net
          else net) := by
        split
        · split
          · exact snet_startElection E id inv
          · exact inv
        · exact inv
      revert i1
      generalize (if self.state = NodeState.follower ∨ self.state = NodeState.candidate then
            if E.now - self.lastHeartbeat > self.electionTimeout then
              RaftNode.startElection E net id
            else net
          else net) = net1
      intro i1
      cases net1.getNode id with
      | none => exact i1
      | some self1 =>
        simp only []
        split
        · split
          · exact snet_modifyNode id _ (fun _ => rfl)
              (fun n hn => sound_congr rfl (Nat.le_refl _) rfl rfl rfl rfl hn) (fun _ => rfl)
              (snet_sendHeartbeats E id i1)
          · exact i1
        · exact i1

theorem snet_updateNodes (E : Env) :
    ∀ (ids : List Nat) (net : RaftNetwork), SoundNet net →
      SoundNet (RaftNetwork.updateNodes E ids net) := by
  intro ids
  induction ids with
  | nil => intro net inv; exact inv
  | cons a rest ih =>
    intro net inv
    unfold RaftNetwork.updateNodes
    exact ih _ (snet_updateNode E a inv)


theorem snet_delivered (E : Env) {net : RaftNetwork} (inv : SoundNet net) :
    SoundNet (net.delivered E) := by
  have hnodes := delivered_nodes E net inv.nodup
  have hmsgs := (delivered_fields E net).1
  have haged : ∀ m ∈ net.messages.map (net.aged E), m.content.plain := by
    intro m hm
    obtain ⟨m0, hm0, e⟩ := List.mem_map.mp hm
    rw [← e, (aged_fields E net m0).2]
    exact inv.flight m0 hm0
  refine ⟨by rw [delivered_ids E net inv.nodup]; exact inv.nodup, ?_, ?_⟩
  · intro x hx
    rw [hnodes] at hx
    obtain ⟨n, hn, e⟩ := List.mem_map.mp hx
    obtain ⟨hs, hq⟩ := inv.node n hn
    rw [← e]
    unfold RaftNetwork.afterDelivery
    split
    · refine ⟨sound_congr rfl (Nat.le_refl _) rfl rfl rfl rfl hs, ?_⟩
      intro c hc
      rcases List.mem_append.mp hc with hh | hh
      · exact hq c hh
      · unfold RaftNetwork.arrivals at hh
        obtain ⟨m, hm, e2⟩ := List.mem_map.mp hh
        rw [← e2]
        exact haged m (List.mem_filter.mp hm).1
    · exact ⟨hs, hq⟩
  · intro m hm
    have hm2 : m ∈ (net.messages.map (net.aged E)).filter
        (fun m => !m.delivered && !m.dropped) := by
      rw [← hmsgs]; exact hm
    exact haged m (List.mem_filter.mp hm2).1

theorem snet_update (E : Env) {net : RaftNetwork} (inv : SoundNet net) :
    SoundNet (net.update E) := by
  rw [update_eq]
  exact snet_updateNodes E _ _ (snet_delivered E inv)

theorem snet_kill (E : Env) (id : Nat) {net : RaftNetwork} (inv : SoundNet net) :
    SoundNet (RaftNode.kill E net id) := by
  unfold RaftNode.kill
  exact snet_modifyNode id _ (fun _ => rfl) (fun n hn => sound_kill E.now n hn)
    (fun _ => rfl) inv

theorem snet_revive (E : Env) (id : Nat) {net : RaftNetwork} (inv : SoundNet net) :
    SoundNet (RaftNode.revive E net id) := by
  unfold RaftNode.revive
  cases net.getNode id with
  | none => exact inv
  | some self =>
    simp only []
    have i0 : SoundNet (RaftNode.randomElectionTimeout E net).2 :=
      @snet_of_eq net _ rfl rfl inv
    exact snet_modifyNode id _ (fun _ => rfl)
      (fun n hn => sound_revive E.now (RaftNode.randomElectionTimeout E net).1 n hn)
      (fun _ => rfl) i0

theorem snet_killRandomNode (E : Env) {net : RaftNetwork} (inv : SoundNet net) :
    SoundNet (net.killRandomNode E).2 := by
  unfold RaftNetwork.killRandomNode
  simp only []
  split
  · have i0 : SoundNet (net.random E).2 := @snet_of_eq net _ rfl rfl inv
    cases randomElement (net.random E).1 net.getAliveNodes with
    | none => exact i0
    | some r => exact snet_kill E r.id i0
  · exact inv

theorem snet_reviveLoop (E : Env) :
    ∀ (ids : List Nat) (net : RaftNetwork), SoundNet net →
      SoundNet (RaftNetwork.reviveLoop E ids net) := by
  intro ids
  induction ids with
  | nil => intro net inv; exact inv
  | cons a rest ih =>
    intro net inv
    unfold RaftNetwork.reviveLoop
    cases net.getNode a with
    | none => exact ih net inv
    | some node =>
      simp only []
      split
      · exact ih _ (snet_revive E a inv)
      · exact ih net inv

theorem snet_partitionInner (id1 : Nat) :
    ∀ (ids : List Nat) (net : RaftNetwork), SoundNet net →
      SoundNet (RaftNetwork.partitionInner id1 ids net) := by
  intro ids
  induction ids with
  | nil => intro net inv; exact inv
  | cons b rest ih =>
    intro net inv
    unfold RaftNetwork.partitionInner
    simp only []
    apply ih
    have i0 : SoundNet { net with
        partitions := setAdd (setAdd net.partitions (pairKey id1 b)) (pairKey b id1) } :=
      @snet_of_eq net _ rfl rfl inv
    have i1 := snet_modifyNode id1 (fun n => { n with isPartitioned := true })
      (fun _ => rfl) (fun n hn => sound_congr rfl (Nat.le_refl _) rfl rfl rfl rfl hn)
      (fun _ => rfl) i0
    exact snet_modifyNode b (fun n => { n with isPartitioned := true })
      (fun _ => rfl) (fun n hn => sound_congr rfl (Nat.le_refl _) rfl rfl rfl rfl hn)
      (fun _ => rfl) i1

theorem snet_partition (nodeIds1 nodeIds2 : List Nat) {net : RaftNetwork}
    (inv : SoundNet net) : SoundNet (net.partition nodeIds1 nodeIds2) := by
  unfold RaftNetwork.partition
  revert net
  induction nodeIds1 with
  | nil => intro net inv; exact inv
  | cons a rest ih =>
    intro net inv
    unfold RaftNetwork.partitionOuter
    exact ih (snet_partitionInner a nodeIds2 net inv)

theorem snet_healPartition {net : RaftNetwork} (inv : SoundNet net) :
    SoundNet net.healPartition :=
  snet_map (fun n => { n with isPartitioned := false }) (fun _ => rfl)
    (fun _ hn => sound_congr rfl (Nat.le_refl _) rfl rfl rfl rfl hn) (fun _ => rfl) rfl
    (fun _ hm => hm) inv

theorem resetLoop_members (E : Env) :
    ∀ (nodes : List RaftNode) (draws : Nat),
      (RaftNetwork.resetLoop E nodes draws).1.map (fun n => n.id) = nodes.map (fun n => n.id) ∧
      ∀ x ∈ (RaftNetwork.resetLoop E nodes draws).1,
        ∃ n ∈ nodes, ∃ t, x = RaftNode.resetFields E.now t n := by
  intro nodes
  induction nodes with
  | nil =>
    intro draws
    simp [RaftNetwork.resetLoop]
  | cons a rest ih =>
    intro draws
    obtain ⟨i1, i2⟩ := ih (draws + 1)
    simp only [RaftNetwork.resetLoop, List.map_cons]
    refine ⟨by rw [i1]; rfl, ?_⟩
    intro x hx
    rcases List.mem_cons.mp hx with hh | hh
    · exact ⟨a, List.mem_cons_self _ _, _, hh⟩
    · obtain ⟨n, hn, t, e⟩ := i2 x hh
      exact ⟨n, List.mem_cons_of_mem _ hn, t, e⟩

theorem snet_reset (E : Env) {net : RaftNetwork} (inv : SoundNet net) :
    SoundNet (net.reset E) := by
  obtain ⟨r1, r2⟩ := resetLoop_members E net.nodes net.draws
  refine ⟨?_, ?_, ?_⟩
  · show ((RaftNetwork.resetLoop E net.nodes net.draws).1.map (fun n => n.id)).Nodup
    rw [r1]
    exact inv.nodup
  · intro x hx
    obtain ⟨n, hn, t, e⟩ := r2 x hx
    rw [e]
    exact ⟨sound_reset E.now t n, (inv.node n hn).2⟩
  · intro m hm
    cases hm

theorem snet_addClientRequest (E : Env) (command : String) {net : RaftNetwork}
    (inv : SoundNet net) : SoundNet (net.addClientRequest E command).2 := by
  unfold RaftNetwork.addClientRequest
  cases net.getLeader with
  | none => exact inv
  | some leader =>
    simp only []
    unfold RaftNode.addLogEntry
    cases h : net.getNode leader.id with
    | none => exact inv
    | some self =>
      simp only []
      split
      · have hself : self ∈ net.nodes := List.mem_of_find?_eq_some h
        refine @snet_step net _ leader.id self
          { self with log := self.log
              ++ [LogEntry.new E.now self.currentTerm self.log.length command] }
          (fun n => { n with log := n.log
            ++ [LogEntry.new E.now self.currentTerm self.log.length command] }) [] inv h
          rfl rfl (show self.id = leader.id from getNode_id h) (sound_addLogEntry E.now command self (inv.node self hself).1)
          (inv.node self hself).2 (by simp [RaftNetwork.modifyNode]) ?_
        intro m hm
        cases hm
      · exact inv

theorem createLoop_sound (E : Env) :
    ∀ (ids : List Nat) (net : RaftNetwork), SoundNet net → SoundNet (createLoop E ids net) := by
  intro ids
  induction ids with
  | nil => intro net h; exact h
  | cons i rest ih =>
    intro net inv
    unfold createLoop
    simp only []
    apply ih
    obtain ⟨s1, s2⟩ := setNode_ids (RaftNode.new E.now (RaftNode.randomElectionTimeout E net).1 i)
      net.nodes inv.nodup
    refine ⟨s1, ?_, inv.flight⟩
    intro n hmem
    rcases s2 n hmem with hh | hh
    · rw [hh]
      refine ⟨sound_new _ _ _, ?_⟩
      intro c hc
      cases hc
    · exact inv.node n hh

theorem operated_sound {net : RaftNetwork} (h : Operated net) : SoundNet net := by
  induction h with
  | init E =>
    unfold createInitialCluster
    apply createLoop_sound
    refine ⟨by simp [RaftNetwork.new], ?_, ?_⟩
    · intro n hn
      simp [RaftNetwork.new] at hn
    · intro m hm
      simp [RaftNetwork.new] at hm
  | update E _ ih => exact snet_update E ih
  | addClientRequest E c _ ih => exact snet_addClientRequest E c ih
  | kill E id _ ih => exact snet_kill E id ih
  | revive E id _ ih => exact snet_revive E id ih
  | killRandomNode E _ ih => exact snet_killRandomNode E ih
  | reviveAllNodes E _ ih => exact snet_reviveLoop E _ _ ih
  | partition a b _ ih => exact snet_partition a b ih
  | healPartition _ ih => exact snet_healPartition ih
  | reset E _ ih => exact snet_reset E ih

theorem afterMessage_higher (now : ℚ) (alive : List Nat) (n : RaftNode) (m : Content)
    (h : m.term > n.currentTerm) : (n.afterMessage now alive m).state = NodeState.follower := by
  have hs := (afterTerm_gt_state now n m.term h).1
  cases m with
  | requestVote tm c li lt =>
    simp only [RaftNode.afterMessage, Content.term] at *
    rw [afterRequestVote_state]; exact hs
  | requestVoteResponse tm g =>
    simp only [RaftNode.afterMessage, Content.term] at *
    rw [afterVoteResponse_of_not now alive _ tm g (Or.inl (by rw [hs]; decide))]
    exact hs
  | appendEntries tm l pi pt es lc =>
    simp only [RaftNode.afterMessage, Content.term] at *
    rw [afterAppendEntries_state]
    split
    · rfl
    · exact hs
  | appendEntriesResponse tm s =>
    simp only [RaftNode.afterMessage, Content.term] at *
    exact hs

theorem operated_runUpdates (frames : List Env) :
    ∀ net : RaftNetwork, Operated net → Operated (net.runUpdates frames) := by
  induction frames with
  | nil => intro net h; exact h
  | cons E rest ih =>
    intro net h
    exact ih _ (Operated.update E h)

theorem loggedCluster_operated : Operated loggedCluster :=
  Operated.addClientRequest (frameEnv 7200) "set x"
    (operated_runUpdates (frames 3100 250) _
      (Operated.update (frameEnv 3100) (Operated.init clusterEnv)))

set_option maxRecDepth 1000000 in
set_option maxHeartbeats 4000000 in
/-- In `loggedCluster` the Leader, node 0, holds one log entry, with index 0 and
term 1, and its four heartbeats are in flight. -/
theorem loggedCluster_summary :
    loggedCluster.logs = [(0, [(0, 1)]), (1, []), (2, []), (3, []), (4, [])] ∧
    loggedCluster.flight
      = [(0, 1, Content.requestVoteResponse 1 false),
         (2, 1, Content.requestVoteResponse 1 false),
         (3, 1, Content.requestVoteResponse 1 false),
         (4, 1, Content.requestVoteResponse 1 false),
         (0, 1, Content.appendEntries 1 0 (-1) (-1) [] 0),
         (0, 2, Content.appendEntries 1 0 (-1) (-1) [] 0),
         (0, 3, Content.appendEntries 1 0 (-1) (-1) [] 0),
         (0, 4, Content.appendEntries 1 0 (-1) (-1) [] 0)] := by
  with_unfolding_all decide

/-- C32: in every state reached from a freshly built cluster through the
operations of the network, the entry at position `i` of every log has index
`i` and a term that is at most the term of the node, and every `AppendEntries`
in flight or in an inbox has an empty `entries` list. -/
theorem log_well_formed (net : RaftNetwork) (h : Operated net) :
    (∀ n ∈ net.nodes, ∀ (i : Nat) (e : LogEntry), n.log[i]? = some e →
      e.index = i ∧ e.term ≤ n.currentTerm) ∧
    (∀ m ∈ net.messages, ∀ tm l pi pt es lc,
      m.content = Content.appendEntries tm l pi pt es lc → es = []) ∧
    (∀ n ∈ net.nodes, ∀ c ∈ n.messageQueue, ∀ tm l pi pt es lc,
      c = Content.appendEntries tm l pi pt es lc → es = []) := by
  have inv := operated_sound h
  refine ⟨fun n hn => (inv.node n hn).1.1, ?_, ?_⟩
  · intro m hm tm l pi pt es lc e
    have := inv.flight m hm
    rw [e] at this
    exact this
  · intro n hn c hc tm l pi pt es lc e
    have := (inv.node n hn).2 c hc
    rw [e] at this
    exact this

theorem log_well_formed_witness :
    (Operated loggedCluster ∧
      loggedCluster.logs = [(0, [(0, 1)]), (1, []), (2, []), (3, []), (4, [])] ∧
      loggedCluster.flight
        = [(0, 1, Content.requestVoteResponse 1 false),
           (2, 1, Content.requestVoteResponse 1 false),
           (3, 1, Content.requestVoteResponse 1 false),
           (4, 1, Content.requestVoteResponse 1 false),
           (0, 1, Content.appendEntries 1 0 (-1) (-1) [] 0),
           (0, 2, Content.appendEntries 1 0 (-1) (-1) [] 0),
           (0, 3, Content.appendEntries 1 0 (-1) (-1) [] 0),
           (0, 4, Content.appendEntries 1 0 (-1) (-1) [] 0)]) ∧
    ((∀ n ∈ loggedCluster.nodes,
      ∀ (i : Nat) (e : LogEntry), n.log[i]? = some e → e.index = i ∧ e.term ≤ n.currentTerm) ∧
    (∀ m ∈ loggedCluster.messages,
      ∀ tm l pi pt es lc, m.content = Content.appendEntries tm l pi pt es lc → es = []) ∧
    (∀ n ∈ loggedCluster.nodes,
      ∀ c ∈ n.messageQueue, ∀ tm l pi pt es lc,
        c = Content.appendEntries tm l pi pt es lc → es = [])) :=
  ⟨⟨loggedCluster_operated, loggedCluster_summary⟩,
    log_well_formed loggedCluster loggedCluster_operated⟩

/-- C33: in every state reached from a freshly built cluster through the
operations of the network, `isAlive` is false exactly for the nodes in state
Dead; `processMessages` and `update` on a dead node change nothing, so no
message is handled by a dead node. -/
theorem dead_iff_not_alive (net : RaftNetwork) (h : Operated net) :
    (∀ n ∈ net.nodes, n.isAlive = false ↔ n.state = NodeState.dead) ∧
    (∀ E id self, net.getNode id = some self → self.isAlive = false →
      RaftNode.processMessages E net id = net ∧ RaftNode.update E net id = net) := by
  have inv := operated_sound h
  refine ⟨fun n hn => (inv.node n hn).1.2.1, ?_⟩
  intro E id self hg ha
  refine ⟨processMessages_dead E net id self hg ha, ?_⟩
  exact update_not_alive E net id (by intro s hs; rw [hg] at hs; cases hs; exact ha)

theorem dead_iff_not_alive_witness :
    Operated (RaftNode.kill lateEnv (createInitialCluster demoEnv) 1) ∧
    ((∀ n ∈ (RaftNode.kill lateEnv (createInitialCluster demoEnv) 1).nodes,
      n.isAlive = false ↔ n.state = NodeState.dead) ∧
    (∀ E id self, (RaftNode.kill lateEnv (createInitialCluster demoEnv) 1).getNode id
        = some self → self.isAlive = false →
      RaftNode.processMessages E (RaftNode.kill lateEnv (createInitialCluster demoEnv) 1) id
        = RaftNode.kill lateEnv (createInitialCluster demoEnv) 1 ∧
      RaftNode.update E (RaftNode.kill lateEnv (createInitialCluster demoEnv) 1) id
        = RaftNode.kill lateEnv (createInitialCluster demoEnv) 1)) :=
  ⟨Operated.kill lateEnv 1 (Operated.init demoEnv),
    dead_iff_not_alive _ (Operated.kill lateEnv 1 (Operated.init demoEnv))⟩

/-- C34: in every state reached from a freshly built cluster through the
operations of the network, a node in state Candidate or Leader has `votedFor`
equal to its own id; and a node that handles a message of a higher term is a
Follower afterwards. -/
theorem candidate_voted_for_itself (net : RaftNetwork) (h : Operated net) :
    (∀ n ∈ net.nodes, n.state = NodeState.candidate ∨ n.state = NodeState.leader →
      n.votedFor = some n.id) ∧
    (∀ E id self m, net.getNode id = some self → m.term > self.currentTerm →
      ∃ n1, (RaftNode.handleMessage E net id m).getNode id = some n1 ∧
        n1.state = NodeState.follower ∧ n1.currentTerm = m.term) := by
  have inv := operated_sound h
  refine ⟨fun n hn => (inv.node n hn).1.2.2, ?_⟩
  intro E id self m hg hgt
  obtain ⟨k, t, _⟩ := handleMessage_effect E net id self m hg
  refine ⟨_, t.getNode_self hg, ?_, ?_⟩
  · rw [addSent_state]
    exact afterMessage_higher _ _ self m hgt
  · rw [addSent_currentTerm, afterMessage_currentTerm]
    exact Nat.max_eq_right (Nat.le_of_lt hgt)

theorem candidate_voted_for_itself_witness :
    Operated ((createInitialCluster demoEnv).update lateEnv) ∧
    ((∀ n ∈ ((createInitialCluster demoEnv).update lateEnv).nodes,
      n.state = NodeState.candidate ∨ n.state = NodeState.leader → n.votedFor = some n.id) ∧
    (∀ E id self m, ((createInitialCluster demoEnv).update lateEnv).getNode id = some self →
      m.term > self.currentTerm →
      ∃ n1, (RaftNode.handleMessage E ((createInitialCluster demoEnv).update lateEnv) id
          m).getNode id = some n1 ∧
        n1.state = NodeState.follower ∧ n1.currentTerm = m.term)) :=
  ⟨Operated.update lateEnv (Operated.init demoEnv),
    candidate_voted_for_itself _ (Operated.update lateEnv (Operated.init demoEnv))⟩


/-! ## A single alive node -/

theorem lone_targets (net : RaftNetwork) (a : Nat) (h : net.Lone a) (b : Nat) :
    broadcastTargets net b (net.nodes.map (fun n => n.id)) = [] ∨ b ≠ a := by
  by_cases hb : b = a
  · left
    unfold broadcastTargets
    rw [List.filter_eq_nil_iff]
    intro j _
    cases hg : net.getNode j with
    | none => simp
    | some n =>
      simp only [Bool.and_eq_true, decide_eq_true_eq, not_and]
      intro hj ha
      have := (h.2.2 n (List.mem_of_find?_eq_some hg) ha).1
      rw [getNode_id hg] at this
      exact hj (this.trans hb.symm)
  · exact Or.inr hb

theorem lone_startElection (E : Env) (net : RaftNetwork) (a : Nat) (h : net.Lone a)
    (self : RaftNode) (hg : net.getNode a = some self) :
    (RaftNode.startElection E net a).Lone a ∧
    ∃ k, (RaftNode.startElection E net a).getNode a
      = some ((if self.isAlive = true ∧ self.isPartitioned = false then
          self.afterElection E.now (3000 + E.rand net.draws * (6000 - 3000))
        else self).addSent k) := by
  have hself : self ∈ net.nodes := List.mem_of_find?_eq_some hg
  have hsid := getNode_id hg
  obtain ⟨k, t, hc⟩ := startElection_effect E net a self hg
  obtain ⟨_, _, _, _, ms, cs, am, ac, _, _, _, asub, _⟩ := startElection_appends E net a
  have hcs : cs = (if self.isAlive = true ∧ self.isPartitioned = false then
      electionCalls net self else []) := by
    rw [ac] at hc
    exact List.append_cancel_left hc
  have hnil : cs = [] := by
    rw [hcs]
    split
    · unfold electionCalls
      rcases lone_targets net a h self.id with e | e
      · rw [e]; rfl
      · exact absurd hsid e
    · rfl
  rw [hnil] at asub
  have hms : ms = [] := by
    have := asub.length_le
    simp only [List.length_map, List.length_nil, Nat.le_zero] at this
    exact List.length_eq_zero.mp this
  refine ⟨?_, k, t.getNode_self hg⟩
  obtain ⟨G, hGid, hGal, hnodes, hG⟩ := t
  refine ⟨by rw [hnodes, updNodes_map_id a G hGid]; exact h.1, by rw [am, hms, h.2.1]; rfl, ?_⟩
  intro x hx hxa
  rw [hnodes] at hx
  rcases mem_updNodes a G self net.nodes h.1 hself hsid x hx with hh | ⟨hh, _⟩
  · have hsa : self.isAlive = true := by
      rw [hh, hGal] at hxa; exact hxa
    obtain ⟨_, s2, s3⟩ := h.2.2 self hself hsa
    rw [hh, hG]
    by_cases hgd : self.isAlive = true ∧ self.isPartitioned = false
    · rw [if_pos hgd]
      exact ⟨hsid, by simp [RaftNode.addSent, RaftNode.afterElection], s3⟩
    · rw [if_neg hgd]
      exact ⟨hsid, s2, s3⟩
  · exact h.2.2 x hh hxa

theorem lone_updateNode (E : Env) (net : RaftNetwork) (a : Nat) (h : net.Lone a) (j : Nat) :
    (RaftNode.update E net j).Lone a := by
  by_cases hd : ∀ s, net.getNode j = some s → s.isAlive = false
  · rw [update_not_alive E net j hd]
    exact h
  · have hal : ∃ s, net.getNode j = some s ∧ s.isAlive = true := by
      by_contra hc
      apply hd
      intro s hs
      cases hh : s.isAlive
      · rfl
      · exact absurd ⟨s, hs, hh⟩ hc
    obtain ⟨self, hg, ha⟩ := hal
    have hself : self ∈ net.nodes := List.mem_of_find?_eq_some hg
    obtain ⟨s1, s2, s3⟩ := h.2.2 self hself ha
    have hja : j = a := (getNode_id hg).symm.trans s1
    subst hja
    obtain ⟨l1, k, l2⟩ := lone_startElection E net j h self hg
    have key : RaftNode.update E net j
        = (if self.state = NodeState.follower ∨ self.state = NodeState.candidate then
            if E.now - self.lastHeartbeat > self.electionTimeout then
              RaftNode.startElection E net j
            else net
           else net) := by
      unfold RaftNode.update
      rw [hg]
      simp only []
      rw [if_neg (by simp [ha])]
      by_cases c1 : self.state = NodeState.follower ∨ self.state = NodeState.candidate
      · by_cases c2 : E.now - self.lastHeartbeat > self.electionTimeout
        · rw [if_pos c1, if_pos c2, l2]
          simp only []
          have hst : ((if self.isAlive = true ∧ self.isPartitioned = false then
              self.afterElection E.now (3000 + E.rand net.draws * (6000 - 3000))
              else self).addSent k).state ≠ NodeState.leader := by
            split
            · simp [RaftNode.addSent, RaftNode.afterElection]
            · exact s2
          rw [if_neg hst]
          unfold RaftNode.processMessages
          rw [l2]
          simp only []
          have hq : ((if self.isAlive = true ∧ self.isPartitioned = false then
              self.afterElection E.now (3000 + E.rand net.draws * (6000 - 3000))
              else self).addSent k).messageQueue = [] := by
            split
            · exact s3
            · exact s3
          rw [hq]
          rfl
        · rw [if_pos c1, if_neg c2, hg]
          simp only []
          rw [if_neg s2]
          unfold RaftNode.processMessages
          rw [hg]
          simp only []
          rw [s3]
          rfl
      · rw [if_neg c1, hg]
        simp only []
        rw [if_neg s2]
        unfold RaftNode.processMessages
        rw [hg]
        simp only []
        rw [s3]
        rfl
    rw [key]
    split
    · split
      · exact l1
      · exact h
    · exact h

theorem lone_updateNodes (E : Env) (a : Nat) :
    ∀ (ids : List Nat) (net : RaftNetwork), net.Lone a →
      (RaftNetwork.updateNodes E ids net).Lone a := by
  intro ids
  induction ids with
  | nil => intro net h; exact h
  | cons j rest ih =>
    intro net h
    unfold RaftNetwork.updateNodes
    exact ih _ (lone_updateNode E net a h j)

theorem delivered_of_no_messages (E : Env) (net : RaftNetwork) (hm : net.messages = []) :
    net.delivered E = net := by
  unfold RaftNetwork.delivered
  rw [hm]
  simp only [RaftNetwork.deliverLoop]
  cases net
  simp only [] at hm
  rw [hm]

theorem lone_update (E : Env) (net : RaftNetwork) (a : Nat) (h : net.Lone a) :
    (net.update E).Lone a := by
  rw [update_eq, delivered_of_no_messages E net h.2.1]
  exact lone_updateNodes E a _ net h

theorem lone_runUpdates (a : Nat) (frames : List Env) :
    ∀ net : RaftNetwork, net.Lone a → (net.runUpdates frames).Lone a := by
  induction frames with
  | nil => intro net h; exact h
  | cons E rest ih =>
    intro net h
    exact ih _ (lone_update E net a h)

theorem update_keeps_aliveIds (E : Env) (net : RaftNetwork)
    (hn : (net.nodes.map (fun n => n.id)).Nodup) :
    (net.update E).aliveIds = net.aliveIds ∧
    ((net.update E).nodes.map (fun n => n.id)).Nodup := by
  have hn1 : ((net.delivered E).nodes.map (fun n => n.id)).Nodup := by
    rw [delivered_ids E net hn]; exact hn
  obtain ⟨e1, e2, _⟩ := updateNodes_effect E _ (net.delivered E) hn1
  rw [← update_eq] at e1 e2
  exact ⟨e1.trans (delivered_aliveIds E net hn), by rw [e2]; exact hn1⟩

theorem runUpdates_keeps_aliveIds (frames : List Env) :
    ∀ net : RaftNetwork, (net.nodes.map (fun n => n.id)).Nodup →
      (net.runUpdates frames).aliveIds = net.aliveIds := by
  induction frames with
  | nil => intro net _; rfl
  | cons E rest ih =>
    intro net hn
    obtain ⟨e1, e2⟩ := update_keeps_aliveIds E net hn
    exact (ih (net.update E) e2).trans e1

theorem lone_of_single (net : RaftNetwork) (x : RaftNode)
    (hn : (net.nodes.map (fun n => n.id)).Nodup) (hone : net.getAliveNodes = [x])
    (hx : x.state ≠ NodeState.leader) (hq : x.messageQueue = []) (hm : net.messages = []) :
    net.Lone x.id := by
  refine ⟨hn, hm, ?_⟩
  intro n hmem ha
  have : n ∈ net.getAliveNodes := by
    unfold RaftNetwork.getAliveNodes
    exact List.mem_filter.mpr ⟨hmem, ha⟩
  rw [hone, List.mem_singleton] at this
  rw [this]
  exact ⟨rfl, hx, hq⟩

theorem single_of_aliveIds (net : RaftNetwork) (a : Nat) (h : net.aliveIds = [a]) :
    ∃ x, net.getAliveNodes = [x] ∧ x.id = a := by
  unfold RaftNetwork.aliveIds at h
  cases hl : net.getAliveNodes with
  | nil => rw [hl] at h; cases h
  | cons x rest =>
    rw [hl] at h
    simp only [List.map_cons, List.cons.injEq, List.map_eq_nil_iff] at h
    rw [h.2]
    exact ⟨x, rfl, h.1⟩

/-- C35: in a network with exactly one alive node, not Leader, with an empty
inbox and nothing in flight, after any run of `network.update` calls that node
is still the only alive node, it is not Leader, its inbox is empty and nothing
is in flight. When its election timeout has expired, one `update` makes it a
Candidate with `votesReceived = 1`, which exceeds half of the alive count, and
it is not made Leader: `startElection` does not run the majority test. -/
theorem lone_node_never_leads (frames : List Env) (net : RaftNetwork) (x : RaftNode)
    (hn : (net.nodes.map (fun n => n.id)).Nodup) (hone : net.getAliveNodes = [x])
    (hx : x.state ≠ NodeState.leader) (hq : x.messageQueue = []) (hm : net.messages = []) :
    (∃ x1, (net.runUpdates frames).getAliveNodes = [x1] ∧ x1.id = x.id ∧
      x1.state ≠ NodeState.leader ∧ x1.messageQueue = []) ∧
    (net.runUpdates frames).messages = [] ∧
    (∀ E, x.isPartitioned = false →
      (x.state = NodeState.follower ∨ x.state = NodeState.candidate) →
      E.now - x.lastHeartbeat > x.electionTimeout →
      ∃ x1, (net.update E).getAliveNodes = [x1] ∧ x1.id = x.id ∧
        x1.state = NodeState.candidate ∧ x1.currentTerm = x.currentTerm + 1 ∧
        x1.votesReceived = 1 ∧
        ((x1.votesReceived : ℚ) > ((net.update E).getAliveNodes.length : ℚ) / 2)) := by
  have hl := lone_of_single net x hn hone hx hq hm
  have hids : net.aliveIds = [x.id] := by
    unfold RaftNetwork.aliveIds; rw [hone]; rfl
  have hxmem : x ∈ net.nodes := by
    have : x ∈ net.getAliveNodes := by rw [hone]; exact List.mem_singleton_self x
    exact (List.mem_filter.mp this).1
  have hxa : x.isAlive = true := by
    have : x ∈ net.getAliveNodes := by rw [hone]; exact List.mem_singleton_self x
    exact (List.mem_filter.mp this).2
  refine ⟨?_, (lone_runUpdates x.id frames net hl).2.1, ?_⟩
  · obtain ⟨x1, e1, e2⟩ := single_of_aliveIds (net.runUpdates frames) x.id
      ((runUpdates_keeps_aliveIds frames net hn).trans hids)
    have hmem : x1 ∈ (net.runUpdates frames).getAliveNodes := by
      rw [e1]; exact List.mem_singleton_self x1
    obtain ⟨m1, m2⟩ := List.mem_filter.mp hmem
    obtain ⟨_, s2, s3⟩ := (lone_runUpdates x.id frames net hl).2.2 x1 m1 m2
    exact ⟨x1, e1, e2, s2, s3⟩
  · intro E hp hs ht
    obtain ⟨a1, a2⟩ := update_keeps_aliveIds E net hn
    obtain ⟨x1, e1, e2⟩ := single_of_aliveIds (net.update E) x.id (a1.trans hids)
    have hmem : x1 ∈ (net.update E).getAliveNodes := by
      rw [e1]; exact List.mem_singleton_self x1
    obtain ⟨m1, _⟩ := List.mem_filter.mp hmem
    have g1 : (net.update E).getNode x.id = some x1 := by
      have := getNode_of_mem a2 m1
      rw [e2] at this
      exact this
    have hd : (net.delivered E).getNode x.id = some x := by
      rw [delivered_of_no_messages E net hm]
      exact getNode_of_mem hn hxmem
    obtain ⟨k, i, e⟩ := update_getNode E net hn x.id x hd
    rw [g1] at e
    have ex := Option.some.inj e
    have eu : x.afterUpdate E.now (3000 + E.rand i * (6000 - 3000)) net.aliveIds
        = x.afterElection E.now (3000 + E.rand i * (6000 - 3000)) := by
      unfold RaftNode.afterUpdate RaftNode.afterTimeout
      rw [if_pos hxa, if_pos ⟨hs, ht, hxa, hp⟩, hq]
      unfold RaftNode.afterHeartbeat
      rw [if_neg (by simp [RaftNode.afterElection])]
      rfl
    rw [eu] at ex
    refine ⟨x1, e1, e2, by rw [ex]; rfl, by rw [ex]; rfl, by rw [ex]; rfl, ?_⟩
    rw [e1, ex]
    show (((1 : Nat) : ℚ) > (((1 : Nat) : ℚ)) / 2)
    norm_num

theorem lone_node_never_leads_witness :
    ((demoLoneNet.nodes.map (fun n => n.id)).Nodup ∧
      demoLoneNet.getAliveNodes = [demoNode 0] ∧
      (demoNode 0).state ≠ NodeState.leader ∧ (demoNode 0).messageQueue = [] ∧
      demoLoneNet.messages = []) ∧
    ((∃ x1, (demoLoneNet.runUpdates [lateEnv, lateEnv]).getAliveNodes = [x1] ∧
      x1.id = (demoNode 0).id ∧
      x1.state ≠ NodeState.leader ∧ x1.messageQueue = []) ∧
    (demoLoneNet.runUpdates [lateEnv, lateEnv]).messages = [] ∧
    (∀ E, (demoNode 0).isPartitioned = false →
      ((demoNode 0).state = NodeState.follower ∨ (demoNode 0).state = NodeState.candidate) →
      E.now - (demoNode 0).lastHeartbeat > (demoNode 0).electionTimeout →
      ∃ x1, (demoLoneNet.update E).getAliveNodes = [x1] ∧ x1.id = (demoNode 0).id ∧
        x1.state = NodeState.candidate ∧ x1.currentTerm = (demoNode 0).currentTerm + 1 ∧
        x1.votesReceived = 1 ∧
        ((x1.votesReceived : ℚ) > ((demoLoneNet.update E).getAliveNodes.length : ℚ) / 2))) :=
  ⟨⟨by decide, rfl, by decide, rfl, rfl⟩,
    lone_node_never_leads [lateEnv, lateEnv] demoLoneNet (demoNode 0) (by decide) rfl
      (by decide) rfl rfl⟩

end Raft
